import Mathlib

/-!
# EMMIHub page animations: a verification development

Shallow embedding of the canvas animation modules under `src/js/animations`.

JavaScript numbers are embedded as elements of a linearly ordered field `K`
(the theorems instantiate `K` with the real numbers); `Math.sqrt` is passed to
the numeric functions as the parameter `sqrt` and instantiated with
`Real.sqrt` in the theorems.  Values drawn from `Math.random()` and read from
`performance.now()` are explicit arguments.  Object references are embedded
as indices or handles.  The life-cycle models, which only compare and subtract
times and lengths, use rational numbers.

The motion update of the two particle systems (`updateParticles` of
`ParticleSystem`, `updateParticle` of `CommunityTiersAnimation`), whose speed
limit and boundary checks depend on rounding and on `NaN`, computes on
`Float64.Number`: `NaN`, the infinities and the finite binary64 values, with
every operation rounded as IEEE 754 prescribes.

The pattern generators receive the members of `Math` they call as a record
`JsMath`.  Where a computation can yield `NaN` or read a property that is
`undefined`, the value is an `Option` with `none` for `NaN` or `undefined`;
plain objects are lists of key and value.  A method that can throw returns
an `Except`, and a string that is inspected character by character is a list
of characters.
-/

/-! ## neural-network.js : `NeuralOrganicNetwork.findConnections` -/

namespace NeuralNetwork

/-- One entry of `node.connections`: the connected node (its index in
`state.nodes` stands for the object reference), the distance and the
strength. -/
structure Connection (K : Type) where
  node : Nat
  distance : K
  strength : K
deriving DecidableEq, Repr

/-- The fields of a node object that `findConnections` reads or writes. -/
structure Node (K : Type) where
  x : K
  y : K
  connections : List (Connection K)
deriving DecidableEq, Repr

variable {K : Type} [LinearOrderedField K]

/-- The statement `nodes[i].connections.push(c)`. -/
def pushConnection (nodes : List (Node K)) (i : Nat) (c : Connection K) : List (Node K) :=
  nodes.modify (fun n => { n with connections := n.connections ++ [c] }) i

/-- The value `Math.sqrt(dx * dx + dy * dy)` with `dx = b.x - a.x`, `dy = b.y - a.y`. -/
def nodeDistance (sqrt : K → K) (a b : Node K) : K :=
  sqrt ((b.x - a.x) * (b.x - a.x) + (b.y - a.y) * (b.y - a.y))

/-- Body of the inner loop of `findConnections` for the pair `(i, j)`. -/
def connectPair (sqrt : K → K) (connectionDistance : K) (i j : Nat)
    (nodes : List (Node K)) : List (Node K) :=
  match nodes[i]?, nodes[j]? with
  | some nodeA, some nodeB =>
    let distance := nodeDistance sqrt nodeA nodeB
    if distance < connectionDistance then
      pushConnection
        (pushConnection nodes i
          { node := j, distance := distance, strength := 1 - distance / connectionDistance })
        j { node := i, distance := distance, strength := 1 - distance / connectionDistance }
    else nodes
  | _, _ => nodes

/-- The inner loop `for (let j = i + 1; j < nodes.length; j++)`. -/
def innerLoop (sqrt : K → K) (connectionDistance : K) (n i : Nat)
    (nodes : List (Node K)) : List (Node K) :=
  (List.range' (i + 1) (n - (i + 1))).foldl
    (fun st j => connectPair sqrt connectionDistance i j st) nodes

/-- The method `findConnections`: clear every node's connections, then scan
all pairs `i < j`. -/
def findConnections (sqrt : K → K) (nodes : List (Node K)) (connectionDistance : K) :
    List (Node K) :=
  (List.range nodes.length).foldl
    (fun st i => innerLoop sqrt connectionDistance nodes.length i st)
    (nodes.map (fun n => { n with connections := [] }))

/-- The connections list of node `i` (empty when there is no node `i`). -/
def connectionsOf (nodes : List (Node K)) (i : Nat) : List (Connection K) :=
  match nodes[i]? with
  | some n => n.connections
  | none => []

/-- The distance `d(i,j)` between nodes `i` and `j` of a node list. -/
def dist (sqrt : K → K) (nodes : List (Node K)) (i j : Nat) : K :=
  match nodes[i]?, nodes[j]? with
  | some a, some b => nodeDistance sqrt a b
  | _, _ => 0

/-- How often node `j` occurs in the connections list of node `i`. -/
def occurrences (nodes : List (Node K)) (i j : Nat) : Nat :=
  (connectionsOf nodes i).countP (fun c => c.node = j)

/-- The positions of the nodes, which `findConnections` leaves untouched. -/
def positions (nodes : List (Node K)) : List (K × K) :=
  nodes.map (fun n => (n.x, n.y))

/-- The pair scan of `findConnections` over an explicit list of index pairs. -/
def scanPairs (sqrt : K → K) (cd : K) (L : List (Nat × Nat)) (st : List (Node K)) :
    List (Node K) :=
  L.foldl (fun st p => connectPair sqrt cd p.1 p.2 st) st

/-- All index pairs `(i, j)` with `i < j < n`, in the order the loops of
`findConnections` visit them. -/
def allPairs (n : Nat) : List (Nat × Nat) :=
  (List.range n).flatMap (fun i => (List.range' (i + 1) (n - (i + 1))).map (fun j => (i, j)))

/-- The scenario of the specification: ten nodes, two of them at (0,0) and
(30,0), the other eight far from these and from each other. -/
def scenarioNodes : List (Node ℝ) :=
  [⟨0, 0, []⟩, ⟨30, 0, []⟩, ⟨2000, 0, []⟩, ⟨4000, 0, []⟩, ⟨6000, 0, []⟩, ⟨8000, 0, []⟩,
   ⟨10000, 0, []⟩, ⟨12000, 0, []⟩, ⟨14000, 0, []⟩, ⟨16000, 0, []⟩]

end NeuralNetwork

/-! ## JavaScript numbers as IEEE 754 binary64 values

The functions of this section compute on the numbers the animation code
computes on: `NaN`, the two infinities and the finite binary64 values, every
operation rounded to the nearest value with ties to the even significand.  The
two zeros are one value, `fin 0`; a quotient by zero takes the divisor as
`+0`, which is what `Math.sqrt` of a sum of squares yields, the only divisor
of the code embedded below that can be zero. -/

namespace Float64

/-- A JavaScript number: `NaN`, `Infinity` (`inf false`), `-Infinity`
(`inf true`), or a finite value, held as the rational it denotes.  The
operations below return binary64 values and accept every rational as a finite
argument. -/
inductive Number where
  | nan
  | inf (negative : Bool)
  | fin (q : ℚ)
deriving DecidableEq, Repr

/-- The exponent of the unit in the last place at `q`: 52 below the binary
exponent of `q`, and -1074 throughout the subnormal range. -/
def quantum (q : ℚ) : ℤ := max (Int.log 2 |q| - 52) (-1074)

/-- The integer nearest to `m`, the even one of the two at a tie. -/
def nearestEven (m : ℚ) : ℤ :=
  if m - ⌊m⌋ < 1 / 2 then ⌊m⌋
  else if 1 / 2 < m - ⌊m⌋ then ⌊m⌋ + 1
  else if ⌊m⌋ % 2 = 0 then ⌊m⌋
  else ⌊m⌋ + 1

/-- The multiple of the unit in the last place nearest to `q`. -/
def roundTo (q : ℚ) : ℚ := nearestEven (q / 2 ^ quantum q) * 2 ^ quantum q

/-- The number a real result `q` is rounded to: the nearest binary64 value,
an infinity once the rounded magnitude reaches `2 ^ 1024`. -/
def ofRat (q : ℚ) : Number :=
  if 2 ^ 1024 ≤ |roundTo q| then Number.inf (decide (q < 0)) else Number.fin (roundTo q)

/-- The negation of a number. -/
def neg : Number → Number
  | Number.nan => Number.nan
  | Number.inf negative => Number.inf (!negative)
  | Number.fin q => Number.fin (-q)

/-- The operator `+`. -/
def add : Number → Number → Number
  | Number.nan, _ => Number.nan
  | _, Number.nan => Number.nan
  | Number.inf a, Number.inf b => if a = b then Number.inf a else Number.nan
  | Number.inf a, Number.fin _ => Number.inf a
  | Number.fin _, Number.inf b => Number.inf b
  | Number.fin x, Number.fin y => ofRat (x + y)

/-- The operator `-`. -/
def sub (a b : Number) : Number := add a (neg b)

/-- The operator `*`. -/
def mul : Number → Number → Number
  | Number.nan, _ => Number.nan
  | _, Number.nan => Number.nan
  | Number.inf a, Number.inf b => Number.inf (a != b)
  | Number.inf a, Number.fin y => if y = 0 then Number.nan else Number.inf (a != decide (y < 0))
  | Number.fin x, Number.inf b => if x = 0 then Number.nan else Number.inf (decide (x < 0) != b)
  | Number.fin x, Number.fin y => ofRat (x * y)

/-- The operator `/`. -/
def div : Number → Number → Number
  | Number.nan, _ => Number.nan
  | _, Number.nan => Number.nan
  | Number.inf _, Number.inf _ => Number.nan
  | Number.inf a, Number.fin y => Number.inf (a != decide (y < 0))
  | Number.fin _, Number.inf _ => Number.fin 0
  | Number.fin x, Number.fin y =>
    if y = 0 then (if x = 0 then Number.nan else Number.inf (decide (x < 0)))
    else ofRat (x / y)

/-- A rational that rounds to the same binary64 value as the square root of
`q`, for `q > 0`: the integer square root of `q` scaled by a power of 4 to at
least 112 bits, moved half a unit up when the root is not exact, scaled
back. -/
def sqrtApprox (q : ℚ) : ℚ :=
  let k : ℤ := 56 - Int.log 2 q / 2
  let scaled : ℚ := q * 4 ^ k
  let n : ℕ := Nat.sqrt ⌊scaled⌋₊
  if (n : ℚ) * n = scaled then n / 2 ^ k else (n + 1 / 2) / 2 ^ k

/-- The function `Math.sqrt`. -/
def sqrt : Number → Number
  | Number.nan => Number.nan
  | Number.inf negative => if negative then Number.nan else Number.inf false
  | Number.fin q => if q < 0 then Number.nan else if q = 0 then Number.fin 0 else ofRat (sqrtApprox q)

/-- The operator `<`; a comparison with `NaN` is false. -/
def lt : Number → Number → Bool
  | Number.fin x, Number.fin y => decide (x < y)
  | Number.fin _, Number.inf b => !b
  | Number.inf a, Number.fin _ => a
  | Number.inf a, Number.inf b => a && !b
  | _, _ => false

/-- The operator `<=`; a comparison with `NaN` is false. -/
def le : Number → Number → Bool
  | Number.fin x, Number.fin y => decide (x ≤ y)
  | Number.fin _, Number.inf b => !b
  | Number.inf a, Number.fin _ => a
  | Number.inf a, Number.inf b => a || !b
  | _, _ => false

/-- Whether a number is truthy: every number but 0 and `NaN`. -/
def truthy : Number → Bool
  | Number.nan => false
  | Number.inf _ => true
  | Number.fin q => decide (q ≠ 0)

instance : Neg Number := ⟨neg⟩
instance : Add Number := ⟨add⟩
instance : Sub Number := ⟨sub⟩
instance : Mul Number := ⟨mul⟩
instance : Div Number := ⟨div⟩
instance : LT Number := ⟨fun a b => lt a b = true⟩
instance (a b : Number) : Decidable (a < b) := inferInstanceAs (Decidable (lt a b = true))
instance (n : Nat) : OfNat Number n := ⟨ofRat n⟩
instance : OfScientific Number := ⟨fun m s e => ofRat (OfScientific.ofScientific m s e)⟩

end Float64

/-! ## particles.js : `ParticleSystem.updateParticles` -/

namespace Particles

/-- The keys of `this.patterns`. -/
inductive PatternKey where
  | flowerOfLife
  | metatronCube
  | fibonacciSpiral
  | platonicSolid
  | vesicaPiscis
deriving DecidableEq, Repr

/-- The fields of a particle object that `updateParticles` reads or writes. -/
structure Particle (K : Type) where
  x : K
  y : K
  speedX : K
  speedY : K
  targetX : K
  targetY : K
  inPattern : Bool
deriving DecidableEq, Repr

/-- What `updateParticles` reads of `this.options` and `this.state`;
`mouseX`, `mouseY` are the two fields of `state.mousePosition`, `none` for
`null`. -/
structure Motion (K : Type) where
  maxSpeed : K
  attractionStrength : K
  friction : K
  patternActive : Bool
  currentPattern : Option PatternKey
  mouseX : Option K
  mouseY : Option K
  width : K
  height : K

/-- The values `Math.random()` returns for one particle during
`updateParticles`: the draw compared with 0.05 and the two draws of the
perturbation. -/
structure Draws (K : Type) where
  gate : K
  jx : K
  jy : K

open Float64 (Number)

/-- The pattern branch of `updateParticles`: the velocity of a particle that
is flagged `inPattern` while a pattern is active. -/
def patternVelocity (m : Motion Number) (p : Particle Number) : Particle Number :=
  let dx := p.targetX - p.x
  let dy := p.targetY - p.y
  let distance := Float64.sqrt (dx * dx + dy * dy)
  let speedFactor : Number := if m.currentPattern = some PatternKey.platonicSolid then 0.5 else 0.4
  if distance > 0.1 then
    { p with speedX := dx * speedFactor, speedY := dy * speedFactor }
  else
    { p with speedX := p.speedX * 0.4, speedY := p.speedY * 0.4 }

/-- The pointer attraction of the free-motion branch. -/
def mouseAttraction (m : Motion Number) (p : Particle Number) : Particle Number :=
  match m.mouseX, m.mouseY with
  | some mx, some my =>
    let dx := mx - p.x
    let dy := my - p.y
    let distance := Float64.sqrt (dx * dx + dy * dy)
    if distance < 150 then
      let force := (150 - distance) / 150 * m.attractionStrength
      { p with speedX := p.speedX + dx * force * 0.01, speedY := p.speedY + dy * force * 0.01 }
    else p
  | _, _ => p

/-- The force contributions of the free-motion branch: pointer attraction,
random perturbation, friction. -/
def freeForces (m : Motion Number) (r : Draws Number) (p : Particle Number) : Particle Number :=
  let p1 := mouseAttraction m p
  let p2 :=
    if r.gate < 0.05 then
      { p1 with speedX := p1.speedX + (r.jx - 0.5) * 0.2, speedY := p1.speedY + (r.jy - 0.5) * 0.2 }
    else p1
  { p2 with speedX := p2.speedX * m.friction, speedY := p2.speedY * m.friction }

/-- The speed limit that ends the free-motion branch. -/
def clampSpeed (maxSpeed : Number) (p : Particle Number) : Particle Number :=
  let speed := Float64.sqrt (p.speedX * p.speedX + p.speedY * p.speedY)
  if speed > maxSpeed then
    let ratio := maxSpeed / speed
    { p with speedX := p.speedX * ratio, speedY := p.speedY * ratio }
  else p

/-- The end of the loop body: move the particle and wrap it at the edges. -/
def moveAndWrap (m : Motion Number) (p : Particle Number) : Particle Number :=
  let x1 := p.x + p.speedX
  let y1 := p.y + p.speedY
  let x2 := if x1 < 0 then m.width else x1
  let x3 := if x2 > m.width then 0 else x2
  let y2 := if y1 < 0 then m.height else y1
  let y3 := if y2 > m.height then 0 else y2
  { p with x := x3, y := y3 }

/-- The body of the `forEach` of `updateParticles` for one particle. -/
def updateParticle (m : Motion Number) (r : Draws Number) (p : Particle Number) :
    Particle Number :=
  moveAndWrap m
    (if m.patternActive && p.inPattern then patternVelocity m p
     else clampSpeed m.maxSpeed (freeForces m r p))

/-- The method `updateParticles`; `draws i` are the random values used for
particle `i`. -/
def updateParticles (m : Motion Number) (draws : Nat → Draws Number)
    (particles : List (Particle Number)) : List (Particle Number) :=
  particles.mapIdx (fun i p => updateParticle m (draws i) p)

/-- The value the code computes as
`Math.sqrt(speedX * speedX + speedY * speedY)` for a particle. -/
def speed (p : Particle Number) : Number :=
  Float64.sqrt (p.speedX * p.speedX + p.speedY * p.speedY)

end Particles

/-! ## community-tiers.js : `CommunityTiersAnimation` -/

namespace CommunityTiers

open Float64 (Number)

/-- The fields of a particle object of `CommunityTiersAnimation`; `color` is
`none` when the colour table had no entry for the hovered tier. -/
structure Particle (K : Type) where
  x : K
  y : K
  size : K
  speedX : K
  speedY : K
  color : Option String
  alpha : K
deriving DecidableEq, Repr

/-- The instance fields the event handlers and `updateParticle` use; `width`
and `height` are those of `container.getBoundingClientRect()`. -/
structure Tiers (K : Type) where
  particles : List (Particle K)
  mouseX : K
  mouseY : K
  hoveredTier : Option String
  hoverFlowSpeed : K
  mouseForce : K
  mouseRadius : K
  width : K
  height : K

/-- The entry `this.colors.default`. -/
def defaultColor : String := "rgba(26, 46, 59, 0.8)"

/-- The lookup `this.colors[tier]`. -/
def colors (tier : String) : Option String :=
  if tier = "default" then some defaultColor
  else if tier = "explorer" then some "rgba(16, 185, 129, 0.9)"
  else if tier = "scholar" then some "rgba(114, 9, 183, 0.9)"
  else if tier = "visionary" then some "rgba(255, 215, 0, 0.9)"
  else if tier = "innovator" then some "rgba(0, 240, 255, 0.9)"
  else none

variable {K : Type} [LinearOrderedField K]

/-- The method `updateParticleColors`; `rnd i` is the value of `Math.random()`
used for particle `i`.  An empty tier name is falsy in the two tests of
`this.hoveredTier`. -/
def updateParticleColors (sqrt : K → K) (rnd : Nat → K) (t : Tiers K) : Tiers K :=
  let hovered : Option String :=
    match t.hoveredTier with
    | some name => if name = "" then none else some name
    | none => none
  let targetColor : Option String :=
    match hovered with
    | some name => colors name
    | none => some defaultColor
  { t with particles := t.particles.mapIdx (fun i particle =>
      let reset : Particle K :=
        if particle.color ≠ some defaultColor then
          { particle with color := some defaultColor, alpha := rnd i * 0.3 + 0.7 }
        else particle
      match hovered with
      | some _ =>
        let dx := particle.x - t.mouseX
        let dy := particle.y - t.mouseY
        let distance := sqrt (dx * dx + dy * dy)
        if distance < 500 then
          let intensity := 1 - distance / 500
          { particle with color := targetColor, alpha := 0.7 + intensity * 0.3 }
        else reset
      | none => reset) }

/-- The `mouseleave` listener registered by `bindEvents`. -/
def onMouseLeave (sqrt : K → K) (rnd : Nat → K) (t : Tiers K) : Tiers K :=
  updateParticleColors sqrt rnd { t with hoveredTier := none }

/-- The pointer term of `updateParticle`: the first `if` of the method.  A
number is truthy when it is not zero.  The quotients are those of the field;
for a `distance` of 0, where the source does not yield finite numbers, see
`pointerSpeeds`. -/
def pointerTerm (sqrt : K → K) (t : Tiers K) (particle : Particle K) : Particle K :=
  if t.mouseX ≠ 0 ∧ t.mouseY ≠ 0 then
    let dx := particle.x - t.mouseX
    let dy := particle.y - t.mouseY
    let distance := sqrt (dx * dx + dy * dy)
    if distance < t.mouseRadius then
      let force := (1 - distance / t.mouseRadius) * t.mouseForce
      { particle with
        speedX := particle.speedX + (dx / distance) * force * 0.01,
        speedY := particle.speedY + (dy / distance) * force * 0.01 }
    else particle
  else particle

/-- The pointer term of `updateParticle` on binary64 numbers: the statements
of `pointerTerm`, every operation rounded.  A number is truthy when it is
neither 0 nor `NaN`. -/
def pointerForce (t : Tiers Number) (particle : Particle Number) : Particle Number :=
  if Float64.truthy t.mouseX && Float64.truthy t.mouseY then
    let dx := particle.x - t.mouseX
    let dy := particle.y - t.mouseY
    let distance := Float64.sqrt (dx * dx + dy * dy)
    if distance < t.mouseRadius then
      let force := (1 - distance / t.mouseRadius) * t.mouseForce
      { particle with
        speedX := particle.speedX + (dx / distance) * force * 0.01,
        speedY := particle.speedY + (dy / distance) * force * 0.01 }
    else particle
  else particle

/-- The speed limit of `updateParticle`. -/
def limitSpeed (hoverFlowSpeed : Number) (particle : Particle Number) : Particle Number :=
  let speed := Float64.sqrt (particle.speedX * particle.speedX + particle.speedY * particle.speedY)
  if speed > hoverFlowSpeed then
    let scale := hoverFlowSpeed / speed
    { particle with speedX := particle.speedX * scale, speedY := particle.speedY * scale }
  else particle

/-- The position update and boundary check of `updateParticle`. -/
def moveAndWrap (t : Tiers Number) (particle : Particle Number) : Particle Number :=
  let x1 := particle.x + particle.speedX
  let y1 := particle.y + particle.speedY
  let x2 := if x1 < 0 then t.width else x1
  let x3 := if x2 > t.width then 0 else x2
  let y2 := if y1 < 0 then t.height else y1
  let y3 := if y2 > t.height then 0 else y2
  { particle with x := x3, y := y3 }

/-- The method `updateParticle`. -/
def updateParticle (t : Tiers Number) (particle : Particle Number) : Particle Number :=
  moveAndWrap t (limitSpeed t.hoverFlowSpeed (pointerForce t particle))

/-- The value the code computes as
`Math.sqrt(speedX * speedX + speedY * speedY)` for a particle. -/
def speed (particle : Particle Number) : Number :=
  Float64.sqrt (particle.speedX * particle.speedX + particle.speedY * particle.speedY)

end CommunityTiers
namespace Particles

open Float64 (Number)

/-- The default options while a pattern is active, no pointer. -/
def patternMotion : Motion Number :=
  { maxSpeed := 2, attractionStrength := 0.5, friction := 0.95, patternActive := true,
    currentPattern := some PatternKey.flowerOfLife, mouseX := none, mouseY := none,
    width := 800, height := 600 }

/-- A particle flagged `inPattern` whose target is 1000 pixels away. -/
def farParticle : Particle Number :=
  { x := 0, y := 0, speedX := 0, speedY := 0, targetX := 1000, targetY := 0, inPattern := true }

/-- The default options of the constructor, no pattern active, no pointer. -/
def defaultMotion : Motion Number :=
  { maxSpeed := 2, attractionStrength := 0.5, friction := 0.95, patternActive := false,
    currentPattern := none, mouseX := none, mouseY := none, width := 800, height := 600 }

/-- Random draws that skip the perturbation: the first draw is not below 0.05. -/
def noJitter : Draws Number := { gate := 0.5, jx := 0, jy := 0 }

/-- A freely moving particle with velocity (3, 4). -/
def freeParticle : Particle Number :=
  { x := 10, y := 10, speedX := 3, speedY := 4, targetX := 0, targetY := 0, inPattern := false }

/-- A freely moving particle with velocity (3, 28). -/
def steepParticle : Particle Number :=
  { x := 10, y := 10, speedX := 3, speedY := 28, targetX := 0, targetY := 0,
    inPattern := false }

/-- A configuration with the negative `maxSpeed` -1, no pointer, friction 1. -/
def negativeLimit : Motion Number :=
  { maxSpeed := -1, attractionStrength := 0.5, friction := 1, patternActive := false,
    currentPattern := none, mouseX := none, mouseY := none, width := 800, height := 600 }

/-- A configuration with the `maxSpeed` `2 ^ -600`, no pointer, friction 1. -/
def tinyLimit : Motion Number :=
  { maxSpeed := Number.fin (1 / 2 ^ 600), attractionStrength := 0.5, friction := 1,
    patternActive := false, currentPattern := none, mouseX := none, mouseY := none,
    width := 800, height := 600 }

/-- A freely moving particle with velocity (`2 ^ -550`, 0). -/
def slowParticle : Particle Number :=
  { x := 10, y := 10, speedX := Number.fin (1 / 2 ^ 550), speedY := 0, targetX := 0,
    targetY := 0, inPattern := false }

/-- A freely moving particle with velocity (`2 ^ 600`, 0). -/
def hugeParticle : Particle Number :=
  { x := 10, y := 10, speedX := Number.fin (2 ^ 600), speedY := 0, targetX := 0,
    targetY := 0, inPattern := false }

/-- A freely moving particle whose `speedX` is `NaN`. -/
def lostParticle : Particle Number :=
  { x := 10, y := 10, speedX := Number.nan, speedY := 0, targetX := 0, targetY := 0,
    inPattern := false }

/-- A particle flagged `inPattern` on its way to (100, 50) whose position the
morph callback has set to `NaN`. -/
def strayParticle : Particle Number :=
  { x := Number.nan, y := Number.nan, speedX := 0, speedY := 0, targetX := 100,
    targetY := 50, inPattern := true }

end Particles

namespace CommunityTiers

open Float64 (Number)

/-- The pointer was last recorded at (50, 50) over the tier `explorer`; one
particle sits 10 pixels to the right of it, at rest. -/
def hoveredTiers : Tiers ℝ :=
  { particles := [{ x := 60, y := 50, size := 2, speedX := 0, speedY := 0,
                    color := some defaultColor, alpha := 1 }],
    mouseX := 50, mouseY := 50, hoveredTier := some "explorer",
    hoverFlowSpeed := 1.2, mouseForce := 60, mouseRadius := 100, width := 800, height := 600 }

/-- The particle of `hoveredTiers`. -/
def restingParticle : Particle ℝ :=
  { x := 60, y := 50, size := 2, speedX := 0, speedY := 0, color := some defaultColor,
    alpha := 1 }

/-- A particle with velocity (1, 5). -/
def fastParticle : Particle Number :=
  { x := 300, y := 300, size := 2, speedX := 1, speedY := 5, color := some defaultColor,
    alpha := 1 }

/-- The state right after construction: no pointer recorded yet. -/
def idleTiers : Tiers Number :=
  { particles := [fastParticle], mouseX := 0, mouseY := 0, hoveredTier := none,
    hoverFlowSpeed := 1.2, mouseForce := 60, mouseRadius := 100, width := 800, height := 600 }

end CommunityTiers

/-! ## particles.js : life cycle of a `ParticleSystem`

The instance together with the part of the browser it talks to: the pending
`requestAnimationFrame` callbacks, the pending `setTimeout` callbacks and the
registered event listeners.  Times and lengths are rational numbers.  The
particle array and the drawing calls are left out: no decision of the code
embedded here reads them. -/

namespace Particles

/-- The functions the instance passes to `requestAnimationFrame`: the arrow
function `() => this.animate()` and the closure `animate` of
`assignParticlesToPositions`, which captures `startTime`. -/
inductive FrameCallback where
  | animate
  | morph (startTime : ℚ)
deriving DecidableEq, Repr

/-- The functions the instance passes to `setTimeout`: the arrow function of
`init` that calls `startPatternCycle`, the arrow function of
`setNextPatternTimeout`, and the arrow function of `handleResize`. -/
inductive TimerCallback where
  | startCycle
  | nextPattern
  | resized
deriving DecidableEq, Repr

/-- Event targets. -/
inductive Target where
  | container
  | window
deriving DecidableEq, Repr

/-- Event types. -/
inductive EventType where
  | mousemove
  | mouseleave
  | resize
deriving DecidableEq, Repr

/-- Function objects that occur as listener arguments: the three arrow
functions created in `setupEventListeners`, and the method
`this.handleResize`, which is what `destroy` passes to `removeEventListener`. -/
inductive Handler where
  | mouseMoveArrow
  | mouseLeaveArrow
  | resizeArrow
  | handleResizeMethod
deriving DecidableEq, Repr

/-- One registered listener. -/
structure Registration where
  target : Target
  type : EventType
  handler : Handler
deriving DecidableEq, Repr

/-- The option `patternDuration`: a number, or a two-element array as in the
defaults of the constructor. -/
inductive Duration where
  | number (ms : ℚ)
  | range (lo hi : ℚ)
deriving DecidableEq, Repr

/-- The options the life cycle reads. -/
structure Options where
  sacredGeometry : Bool
  responsive : Bool
  patternSequence : Option (List PatternKey)
  patternDuration : Duration
deriving DecidableEq, Repr

/-- The instance and its browser environment.  After the options and
`this.patternSequence` come the fields of `this.state` and of the instance
that the life cycle uses; `canvasInContainer` says that the canvas is a child
of the container.  `frames` and `timers` are the pending callbacks with
their handles, `nextFrame` and `nextTimer` the handles the browser hands out
next, `listeners` the registered listeners.  `formed` records the keys
`formPattern` has been called with, oldest first. -/
structure System where
  options : Options
  patternSequence : List PatternKey
  isRunning : Bool
  mouseX : Option ℚ
  mouseY : Option ℚ
  width : ℚ
  height : ℚ
  animationFrame : Option Nat
  patternActive : Bool
  currentPattern : Option PatternKey
  currentPatternIndex : Nat
  patternInterval : Option Nat
  patternTimeout : Option Nat
  patternAnimationFrame : Option Nat
  resizeTimeout : Option Nat
  canvasInContainer : Bool
  frames : List (Nat × FrameCallback)
  nextFrame : Nat
  timers : List (Nat × TimerCallback)
  nextTimer : Nat
  listeners : List Registration
  formed : List PatternKey
deriving DecidableEq, Repr

/-- Truthiness of a handle field: `null` and `undefined` are falsy, and so is
the number 0. -/
def truthy (h : Option Nat) : Bool :=
  match h with
  | some n => n != 0
  | none => false

/-- The call `requestAnimationFrame(cb)`: the handle returned is `s.nextFrame`. -/
def requestAnimationFrame (cb : FrameCallback) (s : System) : System :=
  { s with frames := s.frames ++ [(s.nextFrame, cb)], nextFrame := s.nextFrame + 1 }

/-- The call `cancelAnimationFrame(id)`. -/
def cancelAnimationFrame (id : Nat) (s : System) : System :=
  { s with frames := s.frames.filter (fun f => f.1 != id) }

/-- The call `setTimeout(cb, delay)`: the handle returned is `s.nextTimer`. -/
def setTimeout (cb : TimerCallback) (s : System) : System :=
  { s with timers := s.timers ++ [(s.nextTimer, cb)], nextTimer := s.nextTimer + 1 }

/-- The calls `clearTimeout(id)` and `clearInterval(id)`. -/
def clearTimeout (id : Nat) (s : System) : System :=
  { s with timers := s.timers.filter (fun t => t.1 != id) }

/-- The default value of `patternSequence` in the constructor's fallback. -/
def fallbackSequence : List PatternKey :=
  [PatternKey.flowerOfLife, PatternKey.metatronCube, PatternKey.fibonacciSpiral,
   PatternKey.platonicSolid]

/-- The method `animate`. -/
def animate (s : System) : System :=
  if s.isRunning then
    { requestAnimationFrame FrameCallback.animate s with animationFrame := some s.nextFrame }
  else s

/-- The method `start`. -/
def start (s : System) : System :=
  if s.isRunning then s else animate { s with isRunning := true }

/-- The method `stop`. -/
def stop (s : System) : System :=
  let s1 := { s with isRunning := false }
  match s1.animationFrame with
  | some id =>
    if truthy (some id) then { cancelAnimationFrame id s1 with animationFrame := none } else s1
  | none => s1

/-- The method `setupEventListeners`. -/
def setupEventListeners (s : System) : System :=
  let s1 := { s with listeners := s.listeners ++
    [Registration.mk Target.container EventType.mousemove Handler.mouseMoveArrow,
     Registration.mk Target.container EventType.mouseleave Handler.mouseLeaveArrow] }
  if s1.options.responsive then
    { s1 with listeners := s1.listeners ++
        [Registration.mk Target.window EventType.resize Handler.resizeArrow] }
  else s1

/-- The instance when the constructor has set its fields and `createCanvas`
has run, for a container of the given size. -/
def created (options : Options) (offsetWidth offsetHeight : ℚ) : System :=
  { options := options
    patternSequence :=
      match options.patternSequence with
      | some seq => seq
      | none => fallbackSequence
    isRunning := false
    mouseX := none
    mouseY := none
    width := offsetWidth
    height := offsetHeight
    animationFrame := none
    patternActive := false
    currentPattern := none
    currentPatternIndex := 0
    patternInterval := none
    patternTimeout := none
    patternAnimationFrame := none
    resizeTimeout := none
    canvasInContainer := true
    frames := []
    nextFrame := 1
    timers := []
    nextTimer := 1
    listeners := []
    formed := [] }

/-- The constructor followed by `init`: after `createCanvas` come
`setupEventListeners`, `start` and, with `sacredGeometry`, the timer that
calls `startPatternCycle`. -/
def construct (options : Options) (offsetWidth offsetHeight : ℚ) : System :=
  let s := start (setupEventListeners (created options offsetWidth offsetHeight))
  if s.options.sacredGeometry then setTimeout TimerCallback.startCycle s else s

/-- The closure `animate` of `assignParticlesToPositions`, called with
`currentTime`.  When `patternDuration` is an array, `elapsed / transitionDuration`
is `NaN` and the test `progress < 1` fails. -/
def morphFrame (startTime currentTime : ℚ) (s : System) : System :=
  let elapsed := currentTime - startTime
  let again : Bool :=
    match s.options.patternDuration with
    | Duration.number ms =>
      let transitionDuration := if ms = 0 then 2000 else ms
      decide (min (elapsed / transitionDuration) 1 < 1)
    | Duration.range _ _ => false
  if again then
    { requestAnimationFrame (FrameCallback.morph startTime) s with
      patternAnimationFrame := some s.nextFrame }
  else s

/-- The method `assignParticlesToPositions`, with `now` the value of
`performance.now()`. -/
def assignParticlesToPositions (now : ℚ) (s : System) : System :=
  { requestAnimationFrame (FrameCallback.morph now) s with
    patternAnimationFrame := some s.nextFrame }

/-- The method `formPattern`.  The argument is `none` when the caller read
past the end of `patternSequence`; the call `this.patterns[patternKey]()` then
throws, which the second component reports as `false`. -/
def formPattern (patternKey : Option PatternKey) (now : ℚ) (s : System) : System × Bool :=
  let s1 :=
    match s.patternAnimationFrame with
    | some id =>
      if truthy (some id) then { cancelAnimationFrame id s with patternAnimationFrame := none }
      else s
    | none => s
  let s2 := { s1 with currentPattern := patternKey }
  match patternKey with
  | some key => (assignParticlesToPositions now { s2 with formed := s2.formed ++ [key] }, true)
  | none => (s2, false)

/-- The closure `setNextPatternTimeout` of `startPatternCycle`. -/
def setNextPatternTimeout (s : System) : System :=
  { setTimeout TimerCallback.nextPattern s with patternTimeout := some s.nextTimer }

/-- The method `startPatternCycle`. -/
def startPatternCycle (now : ℚ) (s : System) : System :=
  let s1 := { s with patternActive := true }
  match formPattern s1.patternSequence[s1.currentPatternIndex]? now s1 with
  | (s2, false) => s2
  | (s2, true) =>
    let s3 := { s2 with
      currentPatternIndex := (s2.currentPatternIndex + 1) % s2.patternSequence.length }
    let s4 :=
      match s3.patternInterval with
      | some id => if truthy (some id) then clearTimeout id s3 else s3
      | none => s3
    setNextPatternTimeout s4

/-- The timer callback created by `setNextPatternTimeout`. -/
def nextPatternTimer (now : ℚ) (s : System) : System :=
  match formPattern s.patternSequence[s.currentPatternIndex]? now s with
  | (s1, false) => s1
  | (s1, true) =>
    setNextPatternTimeout { s1 with
      currentPatternIndex := (s1.currentPatternIndex + 1) % s1.patternSequence.length }

/-- The method `handleResize`. -/
def handleResize (s : System) : System :=
  let s1 :=
    match s.resizeTimeout with
    | some id => if truthy (some id) then clearTimeout id s else s
    | none => s
  { setTimeout TimerCallback.resized s1 with resizeTimeout := some s1.nextTimer }

/-- The timer callback created by `handleResize`. -/
def resizedTimer (offsetWidth offsetHeight : ℚ) (s : System) : System :=
  { s with width := offsetWidth, height := offsetHeight, resizeTimeout := none }

/-- The call `target.removeEventListener(type, handler)`. -/
def removeEventListener (r : Registration) (s : System) : System :=
  { s with listeners := s.listeners.erase r }

/-- The method `destroy`. -/
def destroy (s : System) : System :=
  let s1 := stop s
  let s2 := if s1.canvasInContainer then { s1 with canvasInContainer := false } else s1
  let s3 :=
    match s2.patternInterval with
    | some id => if truthy (some id) then clearTimeout id s2 else s2
    | none => s2
  let s4 :=
    match s3.patternTimeout with
    | some id => if truthy (some id) then clearTimeout id s3 else s3
    | none => s3
  let s5 :=
    match s4.patternAnimationFrame with
    | some id => if truthy (some id) then cancelAnimationFrame id s4 else s4
    | none => s4
  let s6 :=
    match s5.resizeTimeout with
    | some id => if truthy (some id) then clearTimeout id s5 else s5
    | none => s5
  removeEventListener ⟨Target.window, EventType.resize, Handler.handleResizeMethod⟩ s6

/-- What the environment supplies to a callback: the clock, the position of
the pointer relative to the canvas, and the size of the container. -/
structure Env where
  now : ℚ
  pointerX : ℚ
  pointerY : ℚ
  offsetWidth : ℚ
  offsetHeight : ℚ
deriving DecidableEq, Repr

/-- Running one function object of the instance as a listener. -/
def runHandler (env : Env) (h : Handler) (s : System) : System :=
  match h with
  | Handler.mouseMoveArrow => { s with mouseX := some env.pointerX, mouseY := some env.pointerY }
  | Handler.mouseLeaveArrow => { s with mouseX := none, mouseY := none }
  | Handler.resizeArrow => handleResize s
  | Handler.handleResizeMethod => handleResize s

/-- The browser dispatches an event: every listener registered for the
target and type runs, in registration order. -/
def dispatch (env : Env) (target : Target) (type : EventType) (s : System) : System :=
  (s.listeners.filter (fun r => r.target = target ∧ r.type = type)).foldl
    (fun st r => runHandler env r.handler st) s

/-- The browser runs the pending frame callback with the given handle. -/
def runFrame (env : Env) (id : Nat) (s : System) : System :=
  match s.frames.find? (fun f => f.1 == id) with
  | some (_, cb) =>
    let s1 := { s with frames := s.frames.filter (fun f => f.1 != id) }
    match cb with
    | FrameCallback.animate => animate s1
    | FrameCallback.morph startTime => morphFrame startTime env.now s1
  | none => s

/-- The browser fires the pending timer with the given handle. -/
def fireTimer (env : Env) (id : Nat) (s : System) : System :=
  match s.timers.find? (fun t => t.1 == id) with
  | some (_, cb) =>
    let s1 := { s with timers := s.timers.filter (fun t => t.1 != id) }
    match cb with
    | TimerCallback.startCycle => startPatternCycle env.now s1
    | TimerCallback.nextPattern => nextPatternTimer env.now s1
    | TimerCallback.resized => resizedTimer env.offsetWidth env.offsetHeight s1
  | none => s

/-- What can happen to an instance: a call of a public method by the page, or
the browser running a frame callback, firing a timer or dispatching an event. -/
inductive Event where
  | callStart
  | callStop
  | callDestroy
  | frame (id : Nat)
  | timer (id : Nat)
  | mousemove
  | mouseleave
  | resize
deriving DecidableEq, Repr

/-- One step of the instance. -/
def step (env : Env) (e : Event) (s : System) : System :=
  match e with
  | Event.callStart => start s
  | Event.callStop => stop s
  | Event.callDestroy => destroy s
  | Event.frame id => runFrame env id s
  | Event.timer id => fireTimer env id s
  | Event.mousemove => dispatch env Target.container EventType.mousemove s
  | Event.mouseleave => dispatch env Target.container EventType.mouseleave s
  | Event.resize => dispatch env Target.window EventType.resize s

/-- A run: the events in order, each with the environment it sees. -/
def run (s : System) (events : List (Env × Event)) : System :=
  events.foldl (fun st ee => step ee.1 ee.2 st) s

/-- The states an instance can reach after construction. -/
inductive Reachable : System → Prop where
  | construct (options : Options) (offsetWidth offsetHeight : ℚ) :
      Reachable (construct options offsetWidth offsetHeight)
  | step (env : Env) (e : Event) (s : System) : Reachable s → Reachable (step env e s)

/-- The pending callbacks of the main loop `animate`. -/
def animateFrames (s : System) : List (Nat × FrameCallback) :=
  s.frames.filter (fun f => f.2 = FrameCallback.animate)

/-- The options of the constructor's defaults that the life cycle reads. -/
def defaultOptions : Options :=
  { sacredGeometry := true, responsive := true,
    patternSequence := some [PatternKey.flowerOfLife, PatternKey.metatronCube,
      PatternKey.fibonacciSpiral, PatternKey.platonicSolid, PatternKey.vesicaPiscis],
    patternDuration := Duration.range 3000 4000 }

/-- An environment: the clock at 1000 ms, the pointer at (5, 5), a container of
640 by 480. -/
def sampleEnv : Env :=
  { now := 1000, pointerX := 5, pointerY := 5, offsetWidth := 640, offsetHeight := 480 }

/-- A freshly constructed instance with the default options in a container of
800 by 600. -/
def fresh : System := construct defaultOptions 800 600

/-- A history in which the timer of `init` and then six pattern timers fire. -/
def sevenTimers : List (Env × Event) :=
  [(sampleEnv, Event.timer 1), (sampleEnv, Event.timer 2), (sampleEnv, Event.timer 3),
   (sampleEnv, Event.timer 4), (sampleEnv, Event.timer 5), (sampleEnv, Event.timer 6),
   (sampleEnv, Event.timer 7)]

/-- Handle discipline of the frame callbacks: handles are fresh, the handle
stored in `patternAnimationFrame` never names a callback of the main loop, and
a main-loop callback shares its handle with no other pending callback. -/
def FrameBase (s : System) : Prop :=
  1 ≤ s.nextFrame ∧
  (∀ f ∈ s.frames, f.1 < s.nextFrame) ∧
  (∀ id, s.patternAnimationFrame = some id → id < s.nextFrame) ∧
  (∀ id, s.patternAnimationFrame = some id →
    ∀ f ∈ s.frames, f.2 = FrameCallback.animate → f.1 ≠ id) ∧
  (∀ f ∈ s.frames, ∀ g ∈ s.frames,
    f.2 = FrameCallback.animate → g.2 ≠ FrameCallback.animate → f.1 ≠ g.1)

/-- The invariant of the main loop: while running, exactly one `animate`
callback is pending and `animationFrame` holds its handle; while stopped, none
is pending; the handle stored is never 0. -/
def FrameInv (s : System) : Prop :=
  FrameBase s ∧
  (s.isRunning = true →
    ∃ id, s.animationFrame = some id ∧ id ≠ 0 ∧ animateFrames s = [(id, FrameCallback.animate)]) ∧
  (s.isRunning = false → animateFrames s = []) ∧
  (∀ id, s.animationFrame = some id → id ≠ 0)

/-- The invariant of the pattern cycle: timer handles are fresh and distinct;
the timer of `init` has handle 1 and, while it is pending, no pattern has been
formed and no pattern timer is pending; the patterns formed so far follow
`patternSequence` cyclically and `currentPatternIndex` points at the next one. -/
def CycleInv (s : System) : Prop :=
  (s.timers.map Prod.fst).Nodup ∧
  (∀ t ∈ s.timers, t.1 < s.nextTimer) ∧
  1 ≤ s.nextTimer ∧
  (∀ t ∈ s.timers, t.2 = TimerCallback.startCycle →
    t.1 = 1 ∧ s.formed = [] ∧ ∀ u ∈ s.timers, u.2 ≠ TimerCallback.nextPattern) ∧
  (∀ k, k < s.formed.length →
    s.formed[k]? = s.patternSequence[k % s.patternSequence.length]?) ∧
  s.currentPatternIndex = s.formed.length % s.patternSequence.length

end Particles

/-! ## neural-organic-network.js : the static registry `NeuralOrganicNetwork.instances`

Instance objects are identified by the order of their construction: the
`i`-th object constructed since the module was loaded is object `i` of the
heap.  Event listeners and the intersection observer of `init` are left out;
they do not touch the registry. -/

namespace OrganicNetwork

/-- The fields of an instance that `animate`, `destroy` and the static
methods read or write.  `canvas` says that `this.canvas` and `this.ctx` are
set, `canvasInParent` that `this.canvas.parentElement` is not null. -/
structure Instance where
  animationFrame : Option Nat
  canvas : Bool
  canvasInParent : Bool
  isActive : Bool
deriving DecidableEq, Repr

/-- The module state: all instance objects, the static array `instances` (of
object references), and the pending frame callbacks `(time) => this.animate(time)`
with the instance each belongs to. -/
structure World where
  heap : List Instance
  instances : List Nat
  frames : List (Nat × Nat)
  nextFrame : Nat
deriving DecidableEq, Repr

/-- The state when the module has been loaded: `static instances = []`. -/
def World.initial : World :=
  { heap := [], instances := [], frames := [], nextFrame := 1 }

/-- Truthiness of a handle field. -/
def truthy (h : Option Nat) : Bool :=
  match h with
  | some n => n != 0
  | none => false

/-- The constructor: the new object is appended to the heap and
`NeuralOrganicNetwork.instances.push(this)` runs. -/
def construct (w : World) : World :=
  { w with
    heap := w.heap ++
      [{ animationFrame := none, canvas := false, canvasInParent := false, isActive := true }],
    instances := w.instances ++ [w.heap.length] }

/-- An assignment to fields of object `i`. -/
def update (i : Nat) (f : Instance → Instance) (w : World) : World :=
  { w with heap := w.heap.modify f i }

/-- The method `animate` of object `i`. -/
def animate (i : Nat) (w : World) : World :=
  match w.heap[i]? with
  | some inst =>
    if !inst.canvas || !inst.isActive then w
    else
      update i (fun o => { o with animationFrame := some w.nextFrame })
        { w with frames := w.frames ++ [(w.nextFrame, i)], nextFrame := w.nextFrame + 1 }
  | none => w

/-- The method `init` of object `i`. -/
def init (i : Nat) (w : World) : World :=
  animate i (update i (fun o => { o with canvas := true, canvasInParent := true }) w)

/-- The call `cancelAnimationFrame(id)`. -/
def cancelAnimationFrame (id : Nat) (w : World) : World :=
  { w with frames := w.frames.filter (fun f => f.1 != id) }

/-- The first `if` of `destroy`, which is also the first `if` of the loop
body of `stopAllAnimations`. -/
def cancelOwnFrame (i : Nat) (w : World) : World :=
  match w.heap[i]? with
  | some inst =>
    match inst.animationFrame with
    | some id =>
      if truthy (some id) then
        update i (fun o => { o with animationFrame := none }) (cancelAnimationFrame id w)
      else w
    | none => w
  | none => w

/-- The method `destroy` of object `i`: `indexOf` returns the position of the
first occurrence, or the length of the list in place of -1. -/
def destroy (i : Nat) (w : World) : World :=
  let w1 := cancelOwnFrame i w
  let w2 :=
    match w1.heap[i]? with
    | some inst =>
      if inst.canvas && inst.canvasInParent then
        update i (fun o => { o with canvasInParent := false }) w1
      else w1
    | none => w1
  let index := w2.instances.indexOf i
  if index < w2.instances.length then
    { w2 with instances := w2.instances.eraseIdx index }
  else w2

/-- The static method `stopAllAnimations`. -/
def stopAllAnimations (w : World) : World :=
  w.instances.foldl
    (fun st i => update i (fun o => { o with isActive := false }) (cancelOwnFrame i st)) w

/-- The static method `startAllAnimations`. -/
def startAllAnimations (w : World) : World :=
  w.instances.foldl
    (fun st i =>
      let st1 := update i (fun o => { o with isActive := true }) st
      match st1.heap[i]? with
      | some inst => if truthy inst.animationFrame then st1 else animate i st1
      | none => st1) w

/-- The browser runs the pending frame callback with the given handle. -/
def runFrame (id : Nat) (w : World) : World :=
  match w.frames.find? (fun f => f.1 == id) with
  | some (_, i) => animate i { w with frames := w.frames.filter (fun f => f.1 != id) }
  | none => w

/-- What can happen to the module. -/
inductive Event where
  | construct
  | init (i : Nat)
  | destroy (i : Nat)
  | stopAll
  | startAll
  | frame (id : Nat)
deriving DecidableEq, Repr

/-- One step of the module. -/
def step (w : World) (e : Event) : World :=
  match e with
  | Event.construct => construct w
  | Event.init i => init i w
  | Event.destroy i => destroy i w
  | Event.stopAll => stopAllAnimations w
  | Event.startAll => startAllAnimations w
  | Event.frame id => runFrame id w

/-- The state after a history of events, from the loaded module. -/
def run (events : List Event) : World :=
  events.foldl step World.initial

/-- The number of objects constructed in a history. -/
def constructed (events : List Event) : Nat :=
  events.countP (fun e => e = Event.construct)

/-- The registry as the specification describes it: the instances
constructed and not yet destroyed, in construction order.  A construction
appends the new object, the destruction of an object takes it out. -/
def alive (events : List Event) : List Nat :=
  (events.foldl
    (fun (acc : Nat × List Nat) e =>
      match e with
      | Event.construct => (acc.1 + 1, acc.2 ++ [acc.1])
      | Event.destroy i => (acc.1, acc.2.filter (fun j => j != i))
      | _ => acc)
    (0, [])).2

/-- The part of the module state the registry claims are about. -/
def Same (w v : World) : Prop :=
  v.heap.length = w.heap.length ∧ v.instances = w.instances

/-- Object `i` has nothing left for `destroy` to undo. -/
def Settled (i : Nat) (w : World) : Prop :=
  (∀ inst, w.heap[i]? = some inst →
    truthy inst.animationFrame = false ∧ (inst.canvas && inst.canvasInParent) = false) ∧
  i ∉ w.instances

end OrganicNetwork

/-! ## particles.js : the easing of the pattern morph; math-utils.js : `easing` -/

namespace Particles

variable {K : Type} [LinearOrderedField K]

/-- The value `easeProgress` that the morph callback of
`assignParticlesToPositions` computes from `progress`. -/
def easeProgress (progress : K) : K :=
  if progress < 0.5 then 4 * progress * progress * progress
  else 1 - (-2 * progress + 2) ^ 3 / 2

end Particles

namespace MathUtils

variable {K : Type} [LinearOrderedField K]

/-- The function `easing.easeInOutCubic` of math-utils.js. -/
def easeInOutCubic (t : K) : K :=
  if t < 0.5 then 4 * t * t * t else (t - 1) * (2 * t - 2) * (2 * t - 2) + 1

end MathUtils

/-! ## split-screen-neural.js : `SplitScreenNeural.handleResize`, `redistributeNodes` -/

namespace SplitScreen

/-- The position of a node; `redistributeNodes` touches no other field. -/
structure Node (K : Type) where
  x : K
  y : K
deriving DecidableEq, Repr

/-- The fields of the instance that the resize code reads or writes. -/
structure Split (K : Type) where
  humanNodes : List (Node K)
  aiNodes : List (Node K)
  humanWidth : K
  humanHeight : K
  aiWidth : K
  aiHeight : K
  connectionWidth : K
  connectionHeight : K
  resizeTimeout : Option Nat
deriving DecidableEq, Repr

/-- The sizes the DOM reports when the callback runs: `offsetWidth` and
`offsetHeight` of `humanSide`, `aiSide` and `connectionZone`. -/
structure Sizes (K : Type) where
  humanWidth : K
  humanHeight : K
  aiWidth : K
  aiHeight : K
  connectionWidth : K
  connectionHeight : K
deriving DecidableEq, Repr

variable {K : Type} [LinearOrderedField K]

/-- The method `redistributeNodes`. -/
def redistributeNodes (dom : Sizes K) (s : Split K) : Split K :=
  { s with
    humanNodes := s.humanNodes.map (fun node =>
      { x := (node.x / s.humanWidth) * dom.humanWidth,
        y := (node.y / s.humanHeight) * dom.humanHeight }),
    aiNodes := s.aiNodes.map (fun node =>
      { x := (node.x / s.aiWidth) * dom.aiWidth,
        y := (node.y / s.aiHeight) * dom.aiHeight }),
    humanWidth := dom.humanWidth,
    humanHeight := dom.humanHeight,
    aiWidth := dom.aiWidth,
    aiHeight := dom.aiHeight,
    connectionWidth := dom.connectionWidth,
    connectionHeight := dom.connectionHeight }

/-- The callback that `handleResize` passes to `setTimeout`: it stores the new
sizes in `this.state`, then calls `redistributeNodes`, then clears
`resizeTimeout`. -/
def resizeCallback (dom : Sizes K) (s : Split K) : Split K :=
  let s1 := { s with
    humanWidth := dom.humanWidth,
    humanHeight := dom.humanHeight,
    aiWidth := dom.aiWidth,
    aiHeight := dom.aiHeight,
    connectionWidth := dom.connectionWidth,
    connectionHeight := dom.connectionHeight }
  { redistributeNodes dom s1 with resizeTimeout := none }

/-- An instance whose two sides measure 800 by 600, with one node in the
middle of each side, and a resize timer pending. -/
def beforeResize : Split ℚ :=
  { humanNodes := [{ x := 400, y := 300 }], aiNodes := [{ x := 400, y := 300 }],
    humanWidth := 800, humanHeight := 600, aiWidth := 800, aiHeight := 600,
    connectionWidth := 200, connectionHeight := 600, resizeTimeout := some 1 }

/-- The sides have shrunk to 400 by 300. -/
def halved : Sizes ℚ :=
  { humanWidth := 400, humanHeight := 300, aiWidth := 400, aiHeight := 300,
    connectionWidth := 100, connectionHeight := 300 }

end SplitScreen

/-! ## canvas-utils.js : `createParticleSystem` -/

namespace CanvasUtils

/-- A particle object as `addParticle` creates it. -/
structure Particle (K : Type) where
  x : K
  y : K
  size : K
  speedX : K
  speedY : K
  color : String
  opacity : K
  lifetime : K
  created : K
  turbulence : K
  friction : K
  gravity : K
  wind : K
  glow : Bool
deriving DecidableEq, Repr

variable {K : Type} [LinearOrderedField K]

/-- The part of the loop body of `update` that follows the expiry test, for a
particle that is kept; `rnd` is the value of `Math.random()`.  The drawing
calls change no particle. -/
def updateOne (now rnd : K) (particle : Particle K) : Particle K :=
  let age := now - particle.created
  let p1 := { particle with
    x := particle.x + (particle.speedX + particle.wind),
    y := particle.y + (particle.speedY + particle.gravity) }
  let p2 := { p1 with
    speedX := p1.speedX * p1.friction,
    speedY := p1.speedY * p1.friction }
  let p3 :=
    if p2.turbulence ≠ 0 then
      let turbulence := p2.turbulence * (rnd - 0.5)
      { p2 with speedX := p2.speedX + turbulence, speedY := p2.speedY + turbulence }
    else p2
  let lifePercent := age / p3.lifetime
  { p3 with opacity := p3.opacity * (1 - lifePercent) }

/-- One iteration of the loop of `update`, at index `i`: an expired particle
is spliced out of the array, any other is updated in place.  `rnd i` is the
value of `Math.random()` in this iteration. -/
def updateAt (now : K) (rnd : Nat → K) (particles : List (Particle K)) (i : Nat) :
    List (Particle K) :=
  match particles[i]? with
  | some particle =>
    if now - particle.created ≥ particle.lifetime then particles.eraseIdx i
    else particles.set i (updateOne now (rnd i) particle)
  | none => particles

/-- The method `update`, with `now` the value of `Date.now()`: the loop
`for (let i = particles.length - 1; i >= 0; i--)`. -/
def update (now : K) (rnd : Nat → K) (particles : List (Particle K)) : List (Particle K) :=
  (List.range particles.length).reverse.foldl (updateAt now rnd) particles

/-- What the claim expects of `update`: the particles with
`now - created < lifetime`, in their original order, each updated once. -/
def survivors (now : K) (rnd : Nat → K) (particles : List (Particle K)) :
    List (Particle K) :=
  (particles.enum.filter (fun ip => now - ip.2.created < ip.2.lifetime)).map
    (fun ip => updateOne now (rnd ip.1) ip.2)

/-- A particle created at time `created` with a lifetime of 2000 ms. -/
def sample (created : ℚ) : Particle ℚ :=
  { x := 0, y := 0, size := 2, speedX := 1, speedY := 1, color := "#ffffff", opacity := 1,
    lifetime := 2000, created := created, turbulence := 0, friction := 1, gravity := 0,
    wind := 0, glow := true }

end CanvasUtils

/-! ## particles.js : `ParticleSystem.formPattern`, the fit of the anchors to the canvas -/

namespace Particles

/-- An anchor position `{ x, y }`. -/
structure Point (K : Type) where
  x : K
  y : K
deriving DecidableEq, Repr

variable {K : Type} [LinearOrderedField K]

/-- The least of a list of numbers: `Math.min` folded over the list.  The
source starts the fold at `Infinity`, which the first element replaces; for
the empty list, where the source is left with `Infinity`, the value is not
used (there is no anchor to transform). -/
def least (values : List K) : K :=
  match values with
  | [] => 0
  | v :: vs => vs.foldl min v

/-- The greatest of a list of numbers: `Math.max` folded over the list, from
`-Infinity` in the source. -/
def greatest (values : List K) : K :=
  match values with
  | [] => 0
  | v :: vs => vs.foldl max v

/-- The scale factor that `formPattern` computes from the pattern bounds. -/
def fitScale (width height : K) (positions : List (Point K)) : K :=
  let minX := least (positions.map (fun pos => pos.x))
  let maxX := greatest (positions.map (fun pos => pos.x))
  let minY := least (positions.map (fun pos => pos.y))
  let maxY := greatest (positions.map (fun pos => pos.y))
  let patternWidth := maxX - minX
  let patternHeight := maxY - minY
  min ((width * 0.8) / patternWidth) ((height * 0.8) / patternHeight)

/-- The list `scaledPositions` of `formPattern`: the anchors scaled and centred
on a canvas of the given width and height. -/
def scaledPositions (width height : K) (positions : List (Point K)) : List (Point K) :=
  let minX := least (positions.map (fun pos => pos.x))
  let maxX := greatest (positions.map (fun pos => pos.x))
  let minY := least (positions.map (fun pos => pos.y))
  let maxY := greatest (positions.map (fun pos => pos.y))
  let patternWidth := maxX - minX
  let patternHeight := maxY - minY
  let scale := min ((width * 0.8) / patternWidth) ((height * 0.8) / patternHeight)
  let centerX := width / 2
  let centerY := height / 2
  let patternCenterX := minX + patternWidth / 2
  let patternCenterY := minY + patternHeight / 2
  positions.map (fun pos =>
    { x := centerX + (pos.x - patternCenterX) * scale,
      y := centerY + (pos.y - patternCenterY) * scale })

/-- Two anchors spanning a box of 10 by 5. -/
def twoAnchors : List (Point ℚ) := [{ x := 0, y := 0 }, { x := 10, y := 5 }]

end Particles

/-! ## particles.js : `ParticleSystem.assignParticlesToPositions` and its morph callback -/

namespace Particles

/-- The fields of a particle that `assignParticlesToPositions` and its morph
callback read or write; `transitionStart` is `none` while it is undefined. -/
structure MorphParticle (K : Type) where
  x : K
  y : K
  size : K
  startX : K
  startY : K
  targetX : K
  targetY : K
  color : String
  inPattern : Bool
  transitionStart : Option K
deriving DecidableEq, Repr

/-- The options `primaryColor` and `secondaryColor`. -/
structure Palette where
  primaryColor : String
  secondaryColor : String
deriving DecidableEq, Repr

/-- The values of `Math.random()` that `assignParticlesToPositions` uses for
one particle: `anchor` picks the anchor of a particle beyond the structure
points of `platonic-solid`, `jx` and `jy` give the jitter, `tint` the colour
of such a particle. -/
structure AssignDraws (K : Type) where
  anchor : K
  jx : K
  jy : K
  tint : K

variable {K : Type} [LinearOrderedField K]

/-- The variable `jitterAmount` of the branch for the patterns other than
`platonic-solid`. -/
def jitterAmount (currentPattern : Option PatternKey) : K :=
  if currentPattern = some PatternKey.flowerOfLife ∨
      currentPattern = some PatternKey.metatronCube then 3
  else if currentPattern = some PatternKey.fibonacciSpiral then 2
  else 5

/-- The constant `structurePoints` of the branch for `platonic-solid`. -/
def structurePoints [FloorRing K] (anchors particles : Nat) : Nat :=
  min anchors ⌊(particles : K) * 0.8⌋₊

/-- The assignment of targets in `assignParticlesToPositions`, with
`startTime` the value of `performance.now()` and `draws i` the random values
used for particle `i`.  The two loops of the `platonic-solid` branch are the
two cases of `i < structurePoints`.  A failed lookup of an anchor, where the
source would throw, leaves the particle as it is; it only occurs for an empty
list of anchors. -/
def assignTargets [FloorRing K] (palette : Palette) (currentPattern : Option PatternKey)
    (startTime : K) (draws : Nat → AssignDraws K) (positions : List (Point K))
    (particles : List (MorphParticle K)) : List (MorphParticle K) :=
  let started := particles.map (fun particle =>
    { particle with startX := particle.x, startY := particle.y })
  if currentPattern = some PatternKey.platonicSolid then
    started.mapIdx (fun i particle =>
      if i < structurePoints (K := K) positions.length particles.length then
        match positions[i % positions.length]? with
        | some basePos =>
          let jitterAmount : K := 2
          let offsetX := ((draws i).jx - 0.5) * jitterAmount
          let offsetY := ((draws i).jy - 0.5) * jitterAmount
          { particle with
            targetX := basePos.x + offsetX,
            targetY := basePos.y + offsetY,
            inPattern := true,
            transitionStart := some startTime,
            color :=
              if i % 5 = 0 ∨ i % 7 = 0 then palette.secondaryColor else palette.primaryColor,
            size := if i % 5 = 0 ∨ i % 7 = 0 then particle.size * 1.2 else particle.size }
        | none => particle
      else
        match positions[⌊(draws i).anchor * (positions.length : K)⌋₊]? with
        | some basePos =>
          let jitterAmount : K := 10
          let offsetX := ((draws i).jx - 0.5) * jitterAmount
          let offsetY := ((draws i).jy - 0.5) * jitterAmount
          { particle with
            targetX := basePos.x + offsetX,
            targetY := basePos.y + offsetY,
            inPattern := true,
            transitionStart := some startTime,
            color :=
              if (draws i).tint > 0.8 then palette.secondaryColor else palette.primaryColor }
        | none => particle)
  else
    started.mapIdx (fun index particle =>
      if positions.length > 0 then
        match positions[index % positions.length]? with
        | some basePos =>
          let offsetX := ((draws index).jx - 0.5) * jitterAmount currentPattern
          let offsetY := ((draws index).jy - 0.5) * jitterAmount currentPattern
          { particle with
            targetX := basePos.x + offsetX,
            targetY := basePos.y + offsetY,
            inPattern := true,
            transitionStart := some startTime,
            color := if index % 5 = 0 then palette.secondaryColor else palette.primaryColor }
        | none => particle
      else { particle with inPattern := false })

/-- The value `progress` of the morph callback, `none` for `NaN`.  The
duration is `this.options.patternDuration || 2000`; when the option is an
array, `elapsed / transitionDuration` is `NaN` and so is `Math.min(NaN, 1)`. -/
def progressOf (patternDuration : Duration) (elapsed : ℚ) : Option ℚ :=
  match patternDuration with
  | Duration.number ms =>
    let transitionDuration := if ms = 0 then 2000 else ms
    some (min (elapsed / transitionDuration) 1)
  | Duration.range _ _ => none

/-- The positions `(x, y)` of the particles when the morph callback has run
at `currentTime`, `none` for `NaN`: a particle flagged `inPattern` is put at
`start + (target - start) * easeProgress`, the others stay.  On `NaN` the test
`progress < 0.5` fails and the second branch of the easing yields `NaN`. -/
def morphPositions (patternDuration : Duration) (startTime currentTime : ℚ)
    (particles : List (MorphParticle ℚ)) : List (Option ℚ × Option ℚ) :=
  let progress := progressOf patternDuration (currentTime - startTime)
  let ease := progress.map easeProgress
  particles.map (fun particle =>
    if particle.inPattern then
      (ease.map (fun e => particle.startX + (particle.targetX - particle.startX) * e),
       ease.map (fun e => particle.startY + (particle.targetY - particle.startY) * e))
    else (some particle.x, some particle.y))

/-- The test `progress < 1` that decides whether the morph callback requests
another frame; it fails on `NaN`. -/
def morphContinues (patternDuration : Duration) (startTime currentTime : ℚ) : Bool :=
  match progressOf patternDuration (currentTime - startTime) with
  | some progress => decide (progress < 1)
  | none => false

/-- The colours of the defaults of the constructor. -/
def defaultPalette : Palette := { primaryColor := "#48cae4", secondaryColor := "#7209b7" }

/-- Two anchors 100 pixels apart. -/
def farAnchors : List (Point ℚ) := [{ x := 0, y := 0 }, { x := 100, y := 0 }]

/-- A particle at rest at the origin, not in a pattern. -/
def idleParticle : MorphParticle ℚ :=
  { x := 0, y := 0, size := 2, startX := 0, startY := 0, targetX := 0, targetY := 0,
    color := "#48cae4", inPattern := false, transitionStart := none }

/-- Random draws in the middle of the range: anchor 0 of the list, no jitter. -/
def centredDraws : AssignDraws ℚ := { anchor := 0, jx := 0.5, jy := 0.5, tint := 0.5 }

/-- Two anchors over the reals. -/
def spiralAnchors : List (Point ℝ) := [{ x := 0, y := 0 }, { x := 100, y := 0 }]

/-- A particle over the reals, at rest at (20, 30). -/
def restingParticle : MorphParticle ℝ :=
  { x := 20, y := 30, size := 2, startX := 0, startY := 0, targetX := 0, targetY := 0,
    color := "#48cae4", inPattern := false, transitionStart := none }

/-- Random draws over the reals: anchor draw 0, jitter draws 0.25 and 0.75. -/
def unevenDraws : AssignDraws ℝ := { anchor := 0, jx := 0.25, jy := 0.75, tint := 0.5 }

/-- A particle that `assignParticlesToPositions` has sent from (0, 0) towards
(100, 50) at time 1000. -/
def travelling : MorphParticle ℚ :=
  { x := 0, y := 0, size := 2, startX := 0, startY := 0, targetX := 100, targetY := 50,
    color := "#48cae4", inPattern := true, transitionStart := some 1000 }

end Particles

/-! ## particles.js : the five pattern generators -/

namespace Particles

/-- The members of `Math` the generators use. -/
structure JsMath (K : Type) where
  PI : K
  cos : K → K
  sin : K → K
  sqrt : K → K
  pow : K → K → K

/-- What the generators can read of an instance: `this.state.width`,
`this.state.height`, and the numeric options `particleCount`, `maxSpeed`,
`connectionDistance`. -/
structure PatternInstance (K : Type) where
  width : K
  height : K
  particleCount : K
  maxSpeed : K
  connectionDistance : K

variable {K : Type} [LinearOrderedField K]

/-- The values of `r` in a loop `for (let r = r0; r <= limit; r += step)`,
cut off after `fuel` iterations. -/
def stepsFrom (fuel : Nat) (r limit step : K) : List K :=
  match fuel with
  | 0 => []
  | n + 1 => if r ≤ limit then r :: stepsFrom n (r + step) limit step else []

/-- The method `createFlowerOfLifePattern`. -/
def createFlowerOfLifePattern (M : JsMath K) (s : PatternInstance K) : List (Point K) :=
  let centerX := s.width / 2
  let centerY := s.height / 2
  let radius := min s.width s.height * 0.25
  [{ x := centerX, y := centerY }]
  ++ (List.range 6).map (fun (i : Nat) =>
      let angle := (M.PI / 3) * (i : K)
      { x := centerX + radius * M.cos angle, y := centerY + radius * M.sin angle })
  ++ (List.range 6).flatMap (fun (i : Nat) =>
      let baseAngle := (M.PI / 3) * (i : K)
      (List.range 6).map (fun (j : Nat) =>
        let angle := baseAngle + (M.PI / 3) * (j : K)
        { x := centerX + radius * M.cos baseAngle + radius * M.cos angle,
          y := centerY + radius * M.sin baseAngle + radius * M.sin angle }))
  ++ (List.range 12).flatMap (fun (i : Nat) =>
      let angle := (M.PI / 6) * (i : K)
      [{ x := centerX + (radius * 0.5) * M.cos angle,
         y := centerY + (radius * 0.5) * M.sin angle },
       { x := centerX + (radius * 1.5) * M.cos angle,
         y := centerY + (radius * 1.5) * M.sin angle }])
  ++ (List.range 6).flatMap (fun (i : Nat) =>
      let angle := (M.PI / 3) * (i : K)
      [{ x := centerX + (radius * 0.33) * M.cos angle,
         y := centerY + (radius * 0.33) * M.sin angle },
       { x := centerX + (radius * 0.66) * M.cos angle,
         y := centerY + (radius * 0.66) * M.sin angle }])
  ++ (List.range 12).map (fun (i : Nat) =>
      let angle := (M.PI / 6) * (i : K)
      { x := centerX + (radius * 0.866) * M.cos angle,
        y := centerY + (radius * 0.866) * M.sin angle })

/-- The method `createMetatronCubePattern`. -/
def createMetatronCubePattern (M : JsMath K) (s : PatternInstance K) : List (Point K) :=
  let centerX := s.width / 2
  let centerY := s.height / 2
  let scale := min s.width s.height * 0.3
  [{ x := centerX, y := centerY }]
  ++ (List.range 6).map (fun (i : Nat) =>
      let angle := (M.PI / 3) * (i : K)
      { x := centerX + scale * M.cos angle, y := centerY + scale * M.sin angle })
  ++ (List.range 6).map (fun (i : Nat) =>
      let angle := (M.PI / 3) * (i : K) + (M.PI / 6)
      { x := centerX + scale * 1.5 * M.cos angle, y := centerY + scale * 1.5 * M.sin angle })
  ++ (List.range 12).map (fun (i : Nat) =>
      let angle := (M.PI / 6) * (i : K)
      { x := centerX + scale * 0.5 * M.cos angle, y := centerY + scale * 0.5 * M.sin angle })

/-- The indices `i` of the loop `for (let i = 1; i < numPoints; i++)` of
`createFibonacciSpiralPattern`.  As `numPoints` is at most 120, the loop
never goes beyond 119. -/
def spiralIndices (numPoints : K) : List Nat :=
  (List.range' 1 119).takeWhile (fun (i : Nat) => decide ((i : K) < numPoints))

/-- The method `createFibonacciSpiralPattern`. -/
def createFibonacciSpiralPattern (M : JsMath K) (s : PatternInstance K) : List (Point K) :=
  let centerX := s.width / 2
  let centerY := s.height / 2
  let scale := min s.width s.height * 0.35
  let phi := (1 + M.sqrt 5) / 2
  let numPoints := min (s.particleCount * 0.4) 120
  let numCircles : Nat := 5
  [{ x := centerX, y := centerY }]
  ++ ((spiralIndices numPoints).filter (fun (i : Nat) => i % 3 = 0)).map (fun (i : Nat) =>
      let angle := (i : K) * (2 * M.PI / phi)
      let distanceRatio := M.pow ((i : K) / numPoints) 0.8
      let distance := scale * distanceRatio
      { x := centerX + distance * M.cos angle, y := centerY + distance * M.sin angle })
  ++ (List.range' 1 numCircles).flatMap (fun (i : Nat) =>
      let radius := scale * ((i : K) / (numCircles : K))
      let numPointsInCircle : Nat := 8 + i * 4
      (List.range numPointsInCircle).map (fun (j : Nat) =>
        let angle := (2 * M.PI * (j : K)) / (numPointsInCircle : K)
        { x := centerX + radius * M.cos angle, y := centerY + radius * M.sin angle }))
  ++ (List.range 8).flatMap (fun (i : Nat) =>
      let angle := ((i : K) * M.PI) / 4
      (stepsFrom 8 (0.2 : K) 1.0 0.2).map (fun r =>
        let distance := scale * r
        { x := centerX + distance * M.cos angle, y := centerY + distance * M.sin angle }))
  ++ [1 / phi, 1 / phi / phi, 1 / phi / phi / phi].flatMap (fun ratio =>
      let size := scale * ratio
      [((-1 : K), (-1 : K)), (-1, 1), (1, -1), (1, 1)].map (fun xy =>
        { x := centerX + size * xy.1, y := centerY + size * xy.2 }))

/-- The method `createGeometricPlatonic`. -/
def createGeometricPlatonic (M : JsMath K) (centerX centerY scale : K) : List (Point K) :=
  let layers : Nat := 3
  let layerSpacing := scale * 0.25
  let tetraRadius := scale * 0.6
  let tetraPoints : Nat := 4
  let tetraPhaseOffset := M.PI / 6
  let innerStarPoints : Nat := 5
  let innerRadius := scale * 0.3
  let outerRadius := scale * 0.45
  let connectorCount : Nat := 6
  [{ x := centerX, y := centerY }]
  ++ (List.range layers).flatMap (fun (layer : Nat) =>
      let layerRadius := scale * (0.4 + (layer : K) * 0.2)
      let points : Nat := 8 + layer * 4
      (List.range points).map (fun (i : Nat) =>
        let angle := (M.PI * 2 / (points : K)) * (i : K)
        { x := centerX + layerRadius * M.cos angle, y := centerY + layerRadius * M.sin angle })
      ++ (if layer < layers - 1 then
            (List.range points).map (fun (i : Nat) =>
              let angle := (M.PI * 2 / (points : K)) * ((i : K) + 0.5)
              { x := centerX + (layerRadius + layerSpacing / 2) * M.cos angle,
                y := centerY + (layerRadius + layerSpacing / 2) * M.sin angle })
          else []))
  ++ [((0 : K), (-0.8 : K)), (0, 0.8), (-0.8, 0), (0.8, 0), (0, 0)].map (fun point =>
      { x := centerX + scale * point.1, y := centerY + scale * point.2 })
  ++ [((-0.4 : K), (-0.4 : K)), (0.4, -0.4), (-0.4, 0.4), (0.4, 0.4)].map (fun point =>
      { x := centerX + scale * point.1, y := centerY + scale * point.2 })
  ++ (List.range tetraPoints).flatMap (fun (i : Nat) =>
      let angle := tetraPhaseOffset + (M.PI * 2 / (tetraPoints : K)) * (i : K)
      let nextAngle :=
        tetraPhaseOffset + (M.PI * 2 / (tetraPoints : K)) * (((i + 1) % tetraPoints : Nat) : K)
      let midAngle := (angle + nextAngle) / 2
      [{ x := centerX + tetraRadius * M.cos angle, y := centerY + tetraRadius * M.sin angle },
       { x := centerX + tetraRadius * 0.8 * M.cos midAngle,
         y := centerY + tetraRadius * 0.8 * M.sin midAngle }])
  ++ (List.range (innerStarPoints * 2)).map (fun (i : Nat) =>
      let angle := (M.PI / (innerStarPoints : K)) * (i : K)
      let radius := if i % 2 = 0 then outerRadius else innerRadius
      { x := centerX + radius * M.cos angle, y := centerY + radius * M.sin angle })
  ++ (List.range connectorCount).flatMap (fun (i : Nat) =>
      let angle := (M.PI * 2 / (connectorCount : K)) * (i : K)
      (stepsFrom 8 (0.2 : K) 0.8 0.2).map (fun r =>
        { x := centerX + scale * r * M.cos angle, y := centerY + scale * r * M.sin angle }))

/-- The method `createPlatonicSolidPattern`. -/
def createPlatonicSolidPattern (M : JsMath K) (s : PatternInstance K) : List (Point K) :=
  let centerX := s.width / 2
  let centerY := s.height / 2
  let scale := min s.width s.height * 0.25
  createGeometricPlatonic M centerX centerY scale

/-- The method `createVesicaPiscisPattern`. -/
def createVesicaPiscisPattern (M : JsMath K) (s : PatternInstance K) : List (Point K) :=
  let centerX := s.width / 2
  let centerY := s.height / 2
  let radius := min s.width s.height * 0.25
  let leftCenterX := centerX - radius / 2
  let leftCenterY := centerY
  let rightCenterX := centerX + radius / 2
  let rightCenterY := centerY
  let intersectionHeight := M.sqrt 3 * radius / 2
  let vesicaPoints : Nat := 36
  let phi := (1 + M.sqrt 5) / 2
  let goldenRadius := radius / phi
  (List.range 48).map (fun (i : Nat) =>
      let angle := (M.PI * 2 / 48) * (i : K)
      { x := leftCenterX + radius * M.cos angle, y := leftCenterY + radius * M.sin angle })
  ++ (List.range 48).map (fun (i : Nat) =>
      let angle := (M.PI * 2 / 48) * (i : K)
      { x := rightCenterX + radius * M.cos angle, y := rightCenterY + radius * M.sin angle })
  ++ (List.range 30).map (fun (i : Nat) =>
      let y := centerY - intersectionHeight + (2 * intersectionHeight * (i : K) / 29)
      { x := centerX, y := y })
  ++ [{ x := leftCenterX, y := leftCenterY }, { x := rightCenterX, y := rightCenterY },
      { x := centerX, y := centerY }]
  ++ (List.range vesicaPoints).flatMap (fun (i : Nat) =>
      let t := (i : K) / ((vesicaPoints : K) - 1)
      let angle := M.PI / 3 + (4 * M.PI / 3) * t
      let angle2 := -M.PI / 3 - (4 * M.PI / 3) * t
      [{ x := leftCenterX + radius * M.cos angle, y := leftCenterY + radius * M.sin angle },
       { x := rightCenterX + radius * M.cos angle2,
         y := rightCenterY + radius * M.sin angle2 }])
  ++ (stepsFrom 8 (0.3 : K) 0.8 0.25).flatMap (fun r =>
      (List.range 16).map (fun (i : Nat) =>
        let angle := (M.PI * 2 / 16) * (i : K)
        let layerRadius := radius * r
        { x := centerX + layerRadius * M.cos angle, y := centerY + layerRadius * M.sin angle }))
  ++ (List.range 12).map (fun (i : Nat) =>
      let angle := (M.PI * 2 / 12) * (i : K)
      { x := centerX + goldenRadius * M.cos angle, y := centerY + goldenRadius * M.sin angle })

/-- An instance of 800 by 600 with ten particles. -/
def tenParticles : PatternInstance ℝ :=
  { width := 800, height := 600, particleCount := 10, maxSpeed := 2, connectionDistance := 100 }

/-- An instance of 800 by 600 with five particles and other options changed. -/
def fiveParticles : PatternInstance ℝ :=
  { width := 800, height := 600, particleCount := 5, maxSpeed := 3, connectionDistance := 50 }

/-- An instance of 800 by 600 with ten particles and other options changed. -/
def tenFaster : PatternInstance ℝ :=
  { width := 800, height := 600, particleCount := 10, maxSpeed := 3, connectionDistance := 50 }

end Particles

/-! ## neural-network.js : the options of `initNeuralNetworks`, `drawConnections` -/

namespace NeuralNetwork

/-- The JavaScript values that occur in the options: `nan` is `NaN`,
`element` a DOM element, `array` an array of numbers. -/
inductive Value where
  | undefined
  | null
  | bool (b : Bool)
  | number (n : ℚ)
  | nan
  | string (s : String)
  | array (xs : List ℚ)
  | element
deriving DecidableEq, Repr

/-- A plain object: its own properties in insertion order. -/
abbrev Object := List (String × Value)

/-- The property read `o[key]`, `undefined` when the object has no such key. -/
def get (o : Object) (key : String) : Value :=
  match o.find? (fun kv => kv.1 = key) with
  | some kv => kv.2
  | none => Value.undefined

/-- The property write `o[key] = v`. -/
def set (o : Object) (key : String) (v : Value) : Object :=
  if o.any (fun kv => kv.1 = key) then o.map (fun kv => if kv.1 = key then (key, v) else kv)
  else o ++ [(key, v)]

/-- The object literal `{ ...a, ...b }`: every own property of `b`, also one
whose value is `undefined`, is written over the copy of `a`. -/
def spread (a b : Object) : Object :=
  b.foldl (fun acc kv => set acc kv.1 kv.2) a

/-- The conversion of a value to a boolean. -/
def truthy : Value → Bool
  | Value.undefined => false
  | Value.null => false
  | Value.bool b => b
  | Value.number n => decide (n ≠ 0)
  | Value.nan => false
  | Value.string s => decide (s ≠ "")
  | Value.array _ => true
  | Value.element => true

/-- The conversion of a value to a number, `none` for `NaN`; `numberOf` is the
conversion of a string. -/
def toNumber (numberOf : String → Option ℚ) : Value → Option ℚ
  | Value.undefined => none
  | Value.null => some 0
  | Value.bool b => some (if b then 1 else 0)
  | Value.number n => some n
  | Value.nan => none
  | Value.string s => numberOf s
  | Value.array [] => some 0
  | Value.array [x] => some x
  | Value.array _ => none
  | Value.element => none

/-- The data attributes of a container that `initNeuralNetworks` reads,
`none` for an attribute that is absent. -/
structure Dataset where
  nodeCount : Option String
  nodeColor : Option String
  lineColor : Option String
deriving DecidableEq, Repr

/-- The property read `container.dataset[name]`. -/
def dataValue : Option String → Value
  | some s => Value.string s
  | none => Value.undefined

/-- The object `this.defaults` of the constructor. -/
def defaults : Object :=
  [("container", Value.null),
   ("nodeCount", Value.number 100),
   ("connectionDistance", Value.number 150),
   ("nodeSize", Value.array [2, 5]),
   ("lineWidth", Value.number 0.5),
   ("nodeColor", Value.string "#f9c74f"),
   ("lineColor", Value.string "rgba(249, 199, 79, 0.3)"),
   ("transformSpeed", Value.number 0.0001),
   ("responsive", Value.bool true)]

/-- The object `containerOptions` of `initNeuralNetworks`, with `parseInt` the
function `s => parseInt(s, 10)`. -/
def containerOptions (parseInt : String → Value) (dataset : Dataset) (options : Object) :
    Object :=
  [("container", Value.element),
   ("nodeCount",
      if truthy (dataValue dataset.nodeCount) then
        match dataset.nodeCount with
        | some s => parseInt s
        | none => Value.undefined
      else get options "nodeCount"),
   ("nodeColor",
      if truthy (dataValue dataset.nodeColor) then dataValue dataset.nodeColor
      else get options "nodeColor"),
   ("lineColor",
      if truthy (dataValue dataset.lineColor) then dataValue dataset.lineColor
      else get options "lineColor")]

/-- The statement `this.options = { ...this.defaults, ...options }` of the
constructor. -/
def constructorOptions (options : Object) : Object :=
  spread defaults options

/-- The options of the instance that `initNeuralNetworks(options)` creates for
one container: the constructor is called with
`{ ...options, ...containerOptions }`. -/
def initNeuralNetworks (parseInt : String → Value) (dataset : Dataset) (options : Object) :
    Object :=
  constructorOptions (spread options (containerOptions parseInt dataset options))

/-- The number of nodes `createNodes` pushes: how often the body of
`for (let i = 0; i < nodeCount; i++)` runs.  The test fails at once when
`nodeCount` converts to `NaN`. -/
def createNodes (numberOf : String → Option ℚ) (options : Object) : Nat :=
  match toNumber numberOf (get options "nodeCount") with
  | some n => ⌈n⌉₊
  | none => 0

/-- A container without the data attributes. -/
def plainContainer : Dataset := { nodeCount := none, nodeColor := none, lineColor := none }

variable {K : Type} [LinearOrderedField K]

/-- The property `index` of the node object `state.nodes[i]`, `none` for
`undefined`: the object literal of `createNodes` has no such key and no other
statement of the module writes it. -/
def index (_i : Nat) : Option Nat := none

/-- The comparison `a < b` of two property values, `none` for `undefined`;
`undefined` converts to `NaN` and every comparison with `NaN` is false. -/
def lessThan (a b : Option Nat) : Bool :=
  match a, b with
  | some m, some n => decide (m < n)
  | _, _ => false

/-- The arguments of one call of `drawGlowingLine`. -/
structure GlowingLine (K : Type) where
  x1 : K
  y1 : K
  x2 : K
  y2 : K
  lineWidth : K
  glow : K
deriving DecidableEq, Repr

/-- The calls of `drawGlowingLine` that `drawConnections` issues, in order;
`indexOf i` is the value of the property `index` of `state.nodes[i]`. -/
def drawConnections (indexOf : Nat → Option Nat) (lineWidth : K) (nodes : List (Node K)) :
    List (GlowingLine K) :=
  nodes.enum.flatMap (fun entry =>
    entry.2.connections.filterMap (fun connection =>
      match nodes[connection.node]? with
      | some other =>
        if lessThan (indexOf entry.1) (indexOf connection.node) then
          some { x1 := entry.2.x, y1 := entry.2.y, x2 := other.x, y2 := other.y,
                 lineWidth := lineWidth * connection.strength,
                 glow := 5 * connection.strength }
        else none
      | none => none))

/-- The drawing calls of one frame. -/
inductive DrawCall (K : Type) where
  | connection (line : GlowingLine K)
  | node (i : Nat)
deriving DecidableEq, Repr

/-- The drawing calls of `animate` after `findConnections`, impulses left
out: first `drawConnections`, then `drawNodes`. -/
def frameCalls (sqrt : K → K) (connectionDistance lineWidth : K) (nodes : List (Node K)) :
    List (DrawCall K) :=
  let found := findConnections sqrt nodes connectionDistance
  (drawConnections index lineWidth found).map DrawCall.connection
  ++ (List.range found.length).map DrawCall.node

/-- Two nodes 30 apart. -/
def closePair : List (Node ℝ) := [⟨0, 0, []⟩, ⟨30, 0, []⟩]

end NeuralNetwork

/-! ## promptsageAnimation.js : the collision of two tags -/

namespace PromptSage

/-- The fields of a tag object that `animate` reads or writes. -/
structure Tag (K : Type) where
  x : K
  y : K
  vx : K
  vy : K
  width : K
  height : K
  isPaused : Bool
deriving DecidableEq, Repr

variable {K : Type} [LinearOrderedField K]

/-- The value `distance` of the collision test. -/
def distance (sqrt : K → K) (tag other : Tag K) : K :=
  sqrt ((other.x - tag.x) * (other.x - tag.x) + (other.y - tag.y) * (other.y - tag.y))

/-- The value `minDist` of the collision test. -/
def minDist (tag other : Tag K) : K :=
  (tag.width + other.width + tag.height + other.height) / 4

/-- The body of the inner `tagElements.forEach(other => ...)` of `animate` for
two different tag objects: the pair `(tag, other)` after the body. -/
def collide (sqrt : K → K) (tag other : Tag K) : Tag K × Tag K :=
  if other.isPaused then (tag, other)
  else
    let dx := other.x - tag.x
    let dy := other.y - tag.y
    let distance := sqrt (dx * dx + dy * dy)
    let minDist := (tag.width + other.width + tag.height + other.height) / 4
    if distance < minDist ∧ distance > 0 then
      let nx := dx / distance
      let ny := dy / distance
      let u1 := tag.vx * nx + tag.vy * ny
      let u2 := other.vx * nx + other.vy * ny
      let tag_vx_new := tag.vx - u1 * nx + u2 * nx
      let tag_vy_new := tag.vy - u1 * ny + u2 * ny
      let other_vx_new := other.vx - u2 * nx + u1 * nx
      let other_vy_new := other.vy - u2 * ny + u1 * ny
      let overlap := minDist - distance
      if overlap > 0 then
        let separationX := (overlap * nx) / 2
        let separationY := (overlap * ny) / 2
        ({ tag with vx := tag_vx_new, vy := tag_vy_new,
                    x := tag.x - separationX, y := tag.y - separationY },
         { other with vx := other_vx_new, vy := other_vy_new,
                      x := other.x + separationX, y := other.y + separationY })
      else
        ({ tag with vx := tag_vx_new, vy := tag_vy_new },
         { other with vx := other_vx_new, vy := other_vy_new })
    else (tag, other)

/-- A tag of 40 by 20 at the origin moving right with speed 2. -/
def leftTag : Tag ℝ :=
  { x := 0, y := 0, vx := 2, vy := 0, width := 40, height := 20, isPaused := false }

/-- A tag of 40 by 20 at (3, 4) moving left with speed 1. -/
def rightTag : Tag ℝ :=
  { x := 3, y := 4, vx := -1, vy := 0, width := 40, height := 20, isPaused := false }

end PromptSage

/-! ## community-tiers.js : the divisor of the pointer term -/

namespace CommunityTiers

variable {K : Type} [LinearOrderedField K]

/-- The divisor `distance` of the pointer term of `updateParticle` when the
term is applied, `none` when one of the two guards skips it. -/
def pointerDivisor (sqrt : K → K) (t : Tiers K) (particle : Particle K) : Option K :=
  if t.mouseX ≠ 0 ∧ t.mouseY ≠ 0 then
    let dx := particle.x - t.mouseX
    let dy := particle.y - t.mouseY
    let distance := sqrt (dx * dx + dy * dy)
    if distance < t.mouseRadius then some distance else none
  else none

/-- The quotient `a / b` of two numbers, `none` when it is not a finite
number: for `b = 0` the source yields `NaN` or an infinity. -/
def quotient (a b : K) : Option K :=
  if b = 0 then none else some (a / b)

/-- The velocity `(speedX, speedY)` after the pointer term of `updateParticle`,
`none` when it is not a pair of finite numbers. -/
def pointerSpeeds (sqrt : K → K) (t : Tiers K) (particle : Particle K) : Option (K × K) :=
  if t.mouseX ≠ 0 ∧ t.mouseY ≠ 0 then
    let dx := particle.x - t.mouseX
    let dy := particle.y - t.mouseY
    let distance := sqrt (dx * dx + dy * dy)
    if distance < t.mouseRadius then
      let force := (1 - distance / t.mouseRadius) * t.mouseForce
      match quotient dx distance, quotient dy distance with
      | some qx, some qy =>
        some (particle.speedX + qx * force * 0.01, particle.speedY + qy * force * 0.01)
      | _, _ => none
    else some (particle.speedX, particle.speedY)
  else some (particle.speedX, particle.speedY)

/-- A particle at rest exactly at the pointer position of `hoveredTiers`. -/
def atPointer : Particle ℝ :=
  { x := 50, y := 50, size := 2, speedX := 0, speedY := 0, color := some defaultColor,
    alpha := 1 }

end CommunityTiers

/-! ## particles.js : `ParticleSystem.updateColors` -/

namespace Particles

/-- A particle object as `createParticles` builds it. -/
structure ParticleObject (K : Type) where
  x : K
  y : K
  size : K
  speedX : K
  speedY : K
  color : String
  originalX : K
  originalY : K
  targetX : K
  targetY : K
  inPattern : Bool
deriving DecidableEq, Repr

/-- An instance with its particles: `system` holds `isRunning`, the frame
handles and the state of the pattern cycle, `palette` the two colour options. -/
structure Painted (K : Type) where
  system : System
  palette : Palette
  secondaryRatio : K
  particles : List (ParticleObject K)

variable {K : Type} [LinearOrderedField K]

/-- The method `updateColors`; `rnd i` is the value of `Math.random()` drawn
for particle `i`. -/
def updateColors (rnd : Nat → K) (primaryColor secondaryColor : String) (inst : Painted K) :
    Painted K :=
  let palette : Palette := { primaryColor := primaryColor, secondaryColor := secondaryColor }
  { inst with
    palette := palette,
    particles := inst.particles.mapIdx (fun i particle =>
      { particle with
        color := if rnd i > 1 - inst.secondaryRatio then palette.secondaryColor
                 else palette.primaryColor }) }

end Particles

/-! ## color-utils.js : `hexToRgb`, `rgbToHex` -/

namespace ColorUtils

/-- The character class `[a-f\d]` under the flag `i`. -/
def isHexDigit (c : Char) : Bool :=
  decide (('0' ≤ c ∧ c ≤ '9') ∨ ('a' ≤ c ∧ c ≤ 'f') ∨ ('A' ≤ c ∧ c ≤ 'F'))

/-- The value `parseInt(c, 16)` of one hexadecimal digit. -/
def hexValue (c : Char) : Nat :=
  if '0' ≤ c ∧ c ≤ '9' then c.toNat - 48
  else if 'a' ≤ c ∧ c ≤ 'f' then c.toNat - 87
  else c.toNat - 55

/-- The value `parseInt(digits, 16)` of a string of hexadecimal digits. -/
def parseHex (digits : List Char) : Nat :=
  digits.foldl (fun acc c => acc * 16 + hexValue c) 0

/-- The object `{ r, g, b }`. -/
structure Rgb where
  r : Nat
  g : Nat
  b : Nat
deriving DecidableEq, Repr

/-- What is left of a string after the optional leading `#` of `^#?`. -/
def dropHash : List Char → List Char
  | '#' :: rest => rest
  | s => s

/-- The statement `hex = hex.replace(shorthandRegex, ...)`: a string that
matches `^#?([a-f\d])([a-f\d])([a-f\d])$` is replaced by its three digits
doubled, any other string is kept. -/
def expandShorthand (hex : List Char) : List Char :=
  match dropHash hex with
  | [r, g, b] =>
    if isHexDigit r && isHexDigit g && isHexDigit b then [r, r, g, g, b, b] else hex
  | _ => hex

/-- The function `hexToRgb`, on a string given as its list of characters;
`none` is `null`.  A character outside the Basic Multilingual Plane, two code
units in the source, is no hexadecimal digit there or here. -/
def hexToRgb (hex : List Char) : Option Rgb :=
  match dropHash (expandShorthand hex) with
  | [r1, r2, g1, g2, b1, b2] =>
    if isHexDigit r1 && isHexDigit r2 && isHexDigit g1 && isHexDigit g2 && isHexDigit b1 &&
        isHexDigit b2 then
      some { r := parseHex [r1, r2], g := parseHex [g1, g2], b := parseHex [b1, b2] }
    else none
  | _ => none

/-- The callback of `rgbToHex`: `x.toString(16)`, with a `0` in front when it
is a single digit. -/
def component (x : Nat) : List Char :=
  let hex := Nat.toDigits 16 x
  if hex.length = 1 then '0' :: hex else hex

/-- The function `rgbToHex` on three natural numbers. -/
def rgbToHex (r g b : Nat) : List Char :=
  '#' :: ([r, g, b].map component).flatten

/-- A lowercase hexadecimal digit. -/
def isLowerHex (c : Char) : Bool :=
  decide (('0' ≤ c ∧ c ≤ '9') ∨ ('a' ≤ c ∧ c ≤ 'f'))

/-- From the claim: a string is a 3- or 6-digit hex colour with an optional
leading `#`. -/
def isHexColour (s : List Char) : Bool :=
  ((dropHash s).length = 3 || (dropHash s).length = 6) && (dropHash s).all isHexDigit

end ColorUtils

/-! ## error-logging.js : `ErrorLogger.logError`, `ErrorLogger.error` -/

namespace ErrorLogging

/-- The JavaScript values an argument of `error` can be; `object` is a plain
object without methods of its own. -/
inductive Value where
  | undefined
  | null
  | bool (b : Bool)
  | number (n : ℚ)
  | string (s : String)
  | object
deriving DecidableEq, Repr

/-- The conversion of a value to a boolean. -/
def truthy : Value → Bool
  | Value.undefined => false
  | Value.null => false
  | Value.bool b => b
  | Value.number n => decide (n ≠ 0)
  | Value.string s => decide (s ≠ "")
  | Value.object => true

/-- The argument `errorData` of `logError`: for each key the value, or `none`
when the object has no such key. -/
structure ErrorData where
  type : Option Value
  message : Option Value
  severity : Option Value
  stack : Option Value
  context : Option Value
deriving DecidableEq, Repr

/-- The error object built by `logError`; `id` and `timestamp` come from the
clock and `Math.random()`.  The keys `url` and `userContext` are left out. -/
structure ErrorObject where
  id : String
  timestamp : String
  type : Value
  message : Value
  severity : Value
  applicationVersion : String
  stack : Value
  context : Value
deriving DecidableEq, Repr

/-- The options of the logger. -/
structure Options where
  consoleOutput : Bool
  localStorage : Bool
  maxStoredErrors : Int
  applicationVersion : String
deriving DecidableEq, Repr

/-- The logger: its options, the in-memory list `errors`, and the list kept
under the key `emmihub_errors` of `localStorage`. -/
structure Logger where
  options : Options
  errors : List ErrorObject
  stored : List ErrorObject
deriving DecidableEq, Repr

/-- The call `xs.slice(start)` for an integer `start`: a negative `start`
counts from the end, and `-0` is `0`. -/
def slice {α : Type} (start : Int) (xs : List α) : List α :=
  if start < 0 then xs.drop (Int.toNat ((xs.length : Int) + start))
  else xs.drop (Int.toNat start)

/-- The property read `errorData[key]`. -/
def lookup : Option Value → Value
  | some v => v
  | none => Value.undefined

/-- One entry of the object literal of `logError` that has a fallback: first
`key: errorData.key || fallback`, then the spread `...errorData`, which
writes the caller's value over it whenever `errorData` has the key. -/
def withFallback (key : Option Value) (fallback : Value) : Value :=
  let first := if truthy (lookup key) then lookup key else fallback
  match key with
  | some v => v
  | none => first

/-- The call `error.severity.toUpperCase()` of `consoleOutput`: only a string
has the method, otherwise a `TypeError` is thrown. -/
def toUpperCase : Value → Except String String
  | Value.string s => Except.ok s.toUpper
  | Value.undefined => Except.error "TypeError: Cannot read properties of undefined"
  | Value.null => Except.error "TypeError: Cannot read properties of null"
  | _ => Except.error "TypeError: error.severity.toUpperCase is not a function"

/-- The method `consoleOutput`: what it prints is left out, an exception it
throws is kept. -/
def consoleOutput (error : ErrorObject) : Except String Unit :=
  match toUpperCase error.severity with
  | Except.ok _ => Except.ok ()
  | Except.error e => Except.error e

/-- The method `storeError`; `storageFails` says that an access to
`localStorage` throws, which the method catches. -/
def storeError (storageFails : Bool) (error : ErrorObject) (logger : Logger) : Logger :=
  if storageFails then logger
  else
    { logger with stored := slice (-logger.options.maxStoredErrors) (logger.stored ++ [error]) }

/-- The object literal `error` of `logError`. -/
def errorObject (id timestamp applicationVersion : String) (errorData : ErrorData) :
    ErrorObject :=
  { id := id,
    timestamp := timestamp,
    type := withFallback errorData.type (Value.string "unknown"),
    message := withFallback errorData.message (Value.string "Unknown error"),
    severity := withFallback errorData.severity (Value.string "medium"),
    applicationVersion := applicationVersion,
    stack := lookup errorData.stack,
    context := lookup errorData.context }

/-- The statements of `logError` on the in-memory list: `this.errors.push(error)`
and the trimming. -/
def pushAndTrim (error : ErrorObject) (logger : Logger) : Logger :=
  let pushed := logger.errors ++ [error]
  if (pushed.length : Int) > logger.options.maxStoredErrors then
    { logger with errors := slice (-logger.options.maxStoredErrors) pushed }
  else { logger with errors := pushed }

/-- The method `logError`: the logger afterwards, and the returned error
object or the exception thrown. -/
def logError (id timestamp : String) (storageFails : Bool) (errorData : ErrorData)
    (logger : Logger) : Logger × Except String ErrorObject :=
  let error := errorObject id timestamp logger.options.applicationVersion errorData
  let l1 := pushAndTrim error logger
  let l2 := if l1.options.localStorage then storeError storageFails error l1 else l1
  if l2.options.consoleOutput then
    match consoleOutput error with
    | Except.ok _ => (l2, Except.ok error)
    | Except.error e => (l2, Except.error e)
  else (l2, Except.ok error)

/-- A parameter with a default value: the default applies when the argument
is `undefined`, and only then. -/
def orDefault (argument fallback : Value) : Value :=
  if argument = Value.undefined then fallback else argument

/-- The method `error(message, type = 'manual', severity = 'medium',
context = {})`. -/
def error (id timestamp : String) (storageFails : Bool)
    (message type severity context : Value) (logger : Logger) :
    Logger × Except String ErrorObject :=
  logError id timestamp storageFails
    { type := some (orDefault type (Value.string "manual")),
      message := some message,
      severity := some (orDefault severity (Value.string "medium")),
      stack := none,
      context := some (orDefault context Value.object) }
    logger

/-- The options of `new ErrorLogger()`. -/
def defaultOptions : Options :=
  { consoleOutput := true, localStorage := true, maxStoredErrors := 50,
    applicationVersion := "1.0" }

/-- A logger with the default options and no errors yet. -/
def emptyLogger : Logger := { options := defaultOptions, errors := [], stored := [] }

/-- A logger with `maxStoredErrors` 0, console and storage switched off. -/
def keepNone : Logger :=
  { options := { consoleOutput := false, localStorage := false, maxStoredErrors := 0,
                 applicationVersion := "1.0" },
    errors := [], stored := [] }

/-- A logger with `maxStoredErrors` 2 that holds two errors. -/
def keepTwo : Logger :=
  { options := { consoleOutput := false, localStorage := false, maxStoredErrors := 2,
                 applicationVersion := "1.0" },
    errors := [⟨"err_1", "t1", Value.string "a", Value.string "first", Value.string "low", "1.0",
                Value.undefined, Value.undefined⟩,
               ⟨"err_2", "t2", Value.string "a", Value.string "second", Value.string "low", "1.0",
                Value.undefined, Value.undefined⟩],
    stored := [] }

/-- An `errorData` with the keys `type`, `message` and `severity`. -/
def plainData : ErrorData :=
  { type := some (Value.string "a"), message := some (Value.string "third"),
    severity := some (Value.string "low"), stack := none, context := none }

end ErrorLogging

/-! ## sacred-geometry.js : `SacredGeometryBackdrop` -/

namespace SacredGeometry

/-- An entry of `state.patterns` without its `draw` closure; `rotation` is
`none` when it is `NaN`. -/
structure Pattern where
  type : String
  rotation : Option ℚ
  rotationSpeed : ℚ
deriving DecidableEq, Repr

/-- The options and the state of a backdrop that the animation reads or
writes: `pattern` is `none` for `undefined`, `lastTimestamp` is `none` for
`undefined`, `frames` are the handles of the pending animation frames. -/
structure Backdrop where
  pattern : Option String
  rotationSpeed : ℚ
  patternSequence : List String
  isRunning : Bool
  animationFrame : Option Nat
  lastTimestamp : Option ℚ
  patterns : List Pattern
  currentPatternIndex : Nat
  frames : List Nat
  nextFrame : Nat
deriving DecidableEq, Repr

/-- One of the five `if` statements of `createPatterns`: the pattern is
pushed when `options.pattern` is `'all'` or its name. -/
def patternFor (b : Backdrop) (name : String) (factor : ℚ) : List Pattern :=
  if b.pattern = some "all" ∨ b.pattern = some name then
    [{ type := name, rotation := some 0, rotationSpeed := b.rotationSpeed * factor }]
  else []

/-- The method `createPatterns`; `isSafari` is the result of `this.isSafari()`
and `rnd` the value of `Math.random()` used on the Safari path. -/
def createPatterns (isSafari : Bool) (rnd : ℚ) (b : Backdrop) : Backdrop :=
  let patterns :=
    patternFor b "platonic" 0.7 ++ patternFor b "flower-of-life" 0.5 ++
    patternFor b "metatron" 0.8 ++ patternFor b "fibonacci" 0.3 ++
    patternFor b "vesica-piscis" 0.4
  if isSafari then
    let kept := if patterns.length > 2 then patterns.take 2 else patterns
    { b with patterns := kept, currentPatternIndex := ⌊rnd * (kept.length : ℚ)⌋₊ }
  else { b with patterns := patterns }

/-- The method `cyclePattern`.  The sequence is taken to be non-empty, as the
default one is. -/
def cyclePattern (isSafari : Bool) (rnd : ℚ) (b : Backdrop) : Backdrop :=
  let index := (b.currentPatternIndex + 1) % b.patternSequence.length
  let nextPattern := b.patternSequence[index]?
  createPatterns isSafari rnd { b with currentPatternIndex := index, pattern := nextPattern }

/-- The call `requestAnimationFrame(this.animate.bind(this))` with the
assignment of its handle to `state.animationFrame`. -/
def requestFrame (b : Backdrop) : Backdrop :=
  { b with animationFrame := some b.nextFrame, frames := b.frames ++ [b.nextFrame],
           nextFrame := b.nextFrame + 1 }

/-- The value `deltaTime` of `animate`, `none` for `NaN`: the argument
`timestamp` is `none` when `animate` is called without one, and
`lastTimestamp || timestamp` falls back to `timestamp` when `lastTimestamp` is
`undefined` or 0. -/
def deltaTime (timestamp lastTimestamp : Option ℚ) : Option ℚ :=
  match timestamp with
  | none => none
  | some t =>
    match lastTimestamp with
    | some l => if l ≠ 0 then some (t - l) else some (t - t)
    | none => some (t - t)

/-- The statement `pattern.rotation += pattern.rotationSpeed * deltaTime`. -/
def rotate (delta : Option ℚ) (pattern : Pattern) : Pattern :=
  { pattern with
    rotation :=
      match pattern.rotation, delta with
      | some r, some d => some (r + pattern.rotationSpeed * d)
      | _, _ => none }

/-- The remainder `a % b` of two numbers, which has the sign of `a`. -/
def remainder (a b : ℚ) : ℚ :=
  a - b * (if 0 ≤ a / b then (⌊a / b⌋ : ℚ) else (⌈a / b⌉ : ℚ))

/-- The comparison `a < b` with `b` possibly `NaN`. -/
def lessThan (a : ℚ) (b : Option ℚ) : Bool :=
  match b with
  | some d => decide (a < d)
  | none => false

/-- The method `animate`, called with `timestamp` (`none` when the argument is
omitted). -/
def animate (isSafari : Bool) (rnd : ℚ) (timestamp : Option ℚ) (b : Backdrop) : Backdrop :=
  if !b.isRunning then b
  else
    let delta := deltaTime timestamp b.lastTimestamp
    let b1 := { b with lastTimestamp := timestamp }
    let slow : Bool :=
      match delta with
      | some d => decide (d < 32)
      | none => false
    if isSafari && slow then requestFrame b1
    else
      let b2 :=
        if isSafari then
          if b1.patterns.length > 0 then
            { b1 with patterns :=
                b1.patterns.modify (rotate delta) (b1.currentPatternIndex % b1.patterns.length) }
          else b1
        else { b1 with patterns := b1.patterns.map (rotate delta) }
      let cycle : Bool :=
        match timestamp with
        | some t => lessThan (remainder t 10000) delta
        | none => false
      let b3 := if cycle then cyclePattern isSafari rnd b2 else b2
      requestFrame b3

/-- The method `start`, with `now` the value of `performance.now()`. -/
def start (isSafari : Bool) (rnd : ℚ) (now : ℚ) (b : Backdrop) : Backdrop :=
  if b.isRunning then b
  else animate isSafari rnd none { b with isRunning := true, lastTimestamp := some now }

/-- The options and state set by the constructor before `init`, for the
default options. -/
def created : Backdrop :=
  { pattern := some "all",
    rotationSpeed := 0.0005,
    patternSequence :=
      ["flower-of-life", "metatron-cube", "fibonacci-spiral", "platonic-solid", "vesica-piscis"],
    isRunning := false,
    animationFrame := none,
    lastTimestamp := some 0,
    patterns := [],
    currentPatternIndex := 0,
    frames := [],
    nextFrame := 1 }

/-- The constructor with the default options on the path that is not Safari:
`init` calls `createPatterns` and `start`. -/
def construct (now : ℚ) : Backdrop :=
  start false 0 now (createPatterns false 0 created)

end SacredGeometry

/-! ## typewriter.js : `TypewriterEffect` -/

namespace Typewriter

/-- The option `charDelay`: an array `[consonant, vowel]` or a number. -/
inductive CharDelay where
  | pair (consonant vowel : ℚ)
  | number (delay : ℚ)
deriving DecidableEq, Repr

/-- The callbacks the instance passes to `setTimeout`. -/
inductive Callback where
  | start
  | typeNextChar
deriving DecidableEq, Repr

/-- A pending timer: its handle, its callback and its delay. -/
structure Timer where
  id : Nat
  callback : Callback
  delay : ℚ
deriving DecidableEq, Repr

/-- A `TypewriterEffect`: `text`, the options, the state, the content of the
text container, the pending timers, and a record of the calls made to the
callbacks of the options (`charCalls`: the arguments of `onChar`, oldest
first) and of the delays `typeNextChar` has passed to `setTimeout`.  The
callbacks are taken not to call back into the instance. -/
structure Effect where
  text : List Char
  charDelay : CharDelay
  startDelay : ℚ
  hasOnStart : Bool
  hasOnChar : Bool
  hasOnComplete : Bool
  textContent : List Char
  isTyping : Bool
  isPaused : Bool
  charIndex : Nat
  timers : List Timer
  nextTimer : Nat
  started : Nat
  charCalls : List (Char × Nat)
  completed : Nat
  delays : List ℚ
deriving DecidableEq, Repr

/-- The call `setTimeout(callback, delay)`. -/
def setTimeout (callback : Callback) (delay : ℚ) (e : Effect) : Effect :=
  { e with timers := e.timers ++ [{ id := e.nextTimer, callback := callback, delay := delay }],
           nextTimer := e.nextTimer + 1 }

/-- The test `'aeiouAEIOU'.includes(char)`. -/
def isVowel (char : Char) : Bool :=
  "aeiouAEIOU".toList.contains char

/-- The variable `delay` of `typeNextChar`. -/
def delayFor (charDelay : CharDelay) (char : Char) : ℚ :=
  match charDelay with
  | CharDelay.pair consonant vowel => if isVowel char then vowel else consonant
  | CharDelay.number delay => delay

/-- The method `typeNextChar`; the lookup `text[charIndex]` succeeds exactly
when `charIndex < text.length`. -/
def typeNextChar (e : Effect) : Effect :=
  if !e.isTyping || e.isPaused then e
  else
    match e.text[e.charIndex]? with
    | some char =>
      let e1 := { e with textContent := e.textContent ++ [char], charIndex := e.charIndex + 1 }
      let e2 :=
        if e1.hasOnChar then { e1 with charCalls := e1.charCalls ++ [(char, e1.charIndex)] }
        else e1
      let delay := delayFor e2.charDelay char
      setTimeout Callback.typeNextChar delay { e2 with delays := e2.delays ++ [delay] }
    | none =>
      let e1 := { e with isTyping := false }
      if e1.hasOnComplete then { e1 with completed := e1.completed + 1 } else e1

/-- The method `start`. -/
def start (e : Effect) : Effect :=
  if e.isTyping then e
  else
    let e1 := { e with isTyping := true, isPaused := false }
    let e2 := if e1.hasOnStart then { e1 with started := e1.started + 1 } else e1
    typeNextChar e2

/-- The method `pause`. -/
def pause (e : Effect) : Effect :=
  { e with isPaused := true }

/-- The method `resume`. -/
def resume (e : Effect) : Effect :=
  if !e.isPaused then e
  else typeNextChar { e with isPaused := false }

/-- The method `stop(complete)`. -/
def stop (complete : Bool) (e : Effect) : Effect :=
  let e1 := { e with isTyping := false, isPaused := false }
  if complete then
    let e2 := { e1 with textContent := e1.text }
    if e2.hasOnComplete then { e2 with completed := e2.completed + 1 } else e2
  else e1

/-- The method `reset(newText)`, `none` for an omitted argument. -/
def reset (newText : Option (List Char)) (e : Effect) : Effect :=
  let e1 := stop false e
  let e2 :=
    match newText with
    | some t => { e1 with text := t }
    | none => e1
  { e2 with charIndex := 0, textContent := [] }

/-- The method `type(text)`. -/
def type (text : List Char) (e : Effect) : Effect :=
  start (reset (some text) e)

/-- The firing of a pending timer: it leaves the pending timers and its
callback runs. -/
def fire (t : Timer) (e : Effect) : Effect :=
  if t ∈ e.timers then
    let e1 := { e with timers := e.timers.filter (fun u => u.id ≠ t.id) }
    match t.callback with
    | Callback.start => start e1
    | Callback.typeNextChar => typeNextChar e1
  else e

/-- The constructor and `init` for an element that is found: the text
container is empty and the timer that will call `start` is pending. -/
def construct (text : List Char) (charDelay : CharDelay) (startDelay : ℚ)
    (hasOnStart hasOnChar hasOnComplete : Bool) : Effect :=
  setTimeout Callback.start startDelay
    { text := text, charDelay := charDelay, startDelay := startDelay,
      hasOnStart := hasOnStart, hasOnChar := hasOnChar, hasOnComplete := hasOnComplete,
      textContent := [], isTyping := false, isPaused := false, charIndex := 0,
      timers := [], nextTimer := 1, started := 0, charCalls := [], completed := 0,
      delays := [] }

/-- The pending timers whose callback is `typeNextChar`. -/
def typingTimers (e : Effect) : List Timer :=
  e.timers.filter (fun t => t.callback = Callback.typeNextChar)

/-- The firing, oldest first, of the pending `typeNextChar` timers until none
is left, at most `fuel` of them. -/
def typeOut : Nat → Effect → Effect
  | 0, e => e
  | fuel + 1, e =>
    match typingTimers e with
    | t :: _ => typeOut fuel (fire t e)
    | [] => e

/-- An instance on which nothing has been typed yet: as the constructor
leaves it, whether or not the timer of `init` is still pending. -/
def Fresh (e : Effect) : Prop :=
  e.isTyping = false ∧ e.isPaused = false ∧ e.charIndex = 0 ∧ e.textContent = [] ∧
  typingTimers e = [] ∧ e.charCalls = [] ∧ e.completed = 0 ∧ e.delays = []

/-- The arguments of the calls of `onChar` for a whole text: each character
with its position counted from 1. -/
def positioned (text : List Char) : List (Char × Nat) :=
  text.enum.map (fun entry => (entry.2, entry.1 + 1))

/-- The instance for the text `Hi!` with the default options and the three
callbacks. -/
def greeting : Effect :=
  construct ['H', 'i', '!'] (CharDelay.pair 30 70) 0 true true true

end Typewriter

/-! # Theorems -/

/-! ## Theorems : rounding to binary64 -/

namespace Float64

theorem nearestEven_cases (m : ℚ) : nearestEven m = ⌊m⌋ ∧ m - ⌊m⌋ ≤ 1 / 2 ∨
    nearestEven m = ⌊m⌋ + 1 ∧ 1 / 2 ≤ m - ⌊m⌋ := by
  unfold nearestEven
  split_ifs with h1 h2 h3
  · exact Or.inl ⟨rfl, h1.le⟩
  · exact Or.inr ⟨rfl, h2.le⟩
  · exact Or.inl ⟨rfl, not_lt.mp h2⟩
  · exact Or.inr ⟨rfl, not_lt.mp h1⟩

theorem nearestEven_err (m : ℚ) : |(nearestEven m : ℚ) - m| ≤ 1 / 2 := by
  have h1 := Int.floor_le m
  have h2 := Int.lt_floor_add_one m
  rcases nearestEven_cases m with ⟨h, hle⟩ | ⟨h, hle⟩
  · rw [h, abs_le]; constructor <;> linarith
  · rw [h, abs_le]; push_cast; constructor <;> linarith

theorem nearestEven_eq_of_close (m : ℚ) (n : ℤ) (h : |m - n| < 1 / 2) : nearestEven m = n := by
  rw [abs_lt] at h
  have h1 := Int.floor_le m
  have h2 := Int.lt_floor_add_one m
  rcases nearestEven_cases m with ⟨he, hle⟩ | ⟨he, hle⟩
  · rw [he]
    have : ⌊m⌋ = n := by
      rw [Int.floor_eq_iff]
      constructor
      · by_contra hc
        push_neg at hc
        have h3 : (⌊m⌋ : ℚ) < n := lt_of_le_of_lt h1 hc
        have h4 : ⌊m⌋ + 1 ≤ n := by exact_mod_cast Int.add_one_le_iff.mpr (by exact_mod_cast h3)
        have h5 : ((⌊m⌋ : ℚ)) + 1 ≤ n := by exact_mod_cast h4
        linarith [h.1]
      · linarith [h.2]
    exact this
  · rw [he]
    have h3 : (n : ℚ) < ⌊m⌋ + 1 + 1 := by linarith [h.1]
    have h4 : ((⌊m⌋ : ℚ)) < n + 1 := by linarith [h.2]
    have h5 : n < ⌊m⌋ + 1 + 1 := by exact_mod_cast h3
    have h6 : ⌊m⌋ < n + 1 := by exact_mod_cast h4
    by_contra hne
    have h7 : n = ⌊m⌋ := by omega
    rw [h7] at h
    linarith [h.1]

theorem nearestEven_intCast (n : ℤ) : nearestEven (n : ℚ) = n :=
  nearestEven_eq_of_close _ n (by simp)

theorem nearestEven_le (m : ℚ) (k : ℤ) (h : m ≤ k) : nearestEven m ≤ k := by
  rcases nearestEven_cases m with ⟨he, _⟩ | ⟨he, hle⟩
  · rw [he]
    have h1 : (⌊m⌋ : ℚ) ≤ k := le_trans (Int.floor_le m) h
    exact_mod_cast h1
  · rw [he]
    have h1 : (⌊m⌋ : ℚ) < k := by linarith [Int.floor_le m]
    have h2 : ⌊m⌋ < k := by exact_mod_cast h1
    omega

theorem nearestEven_ge (m : ℚ) (k : ℤ) (h : (k : ℚ) ≤ m) : k ≤ nearestEven m := by
  have hk : k ≤ ⌊m⌋ := Int.le_floor.mpr h
  rcases nearestEven_cases m with ⟨he, _⟩ | ⟨he, _⟩ <;> rw [he] <;> omega

theorem two_zpow_pos (p : ℤ) : (0 : ℚ) < 2 ^ p := zpow_pos (by norm_num) p

theorem quantum_ge (q : ℚ) : -1074 ≤ quantum q := le_max_right _ _

theorem two_zpow_quantum_le (q : ℚ) (hq : q ≠ 0) :
    (2 : ℚ) ^ quantum q ≤ |q| / 2 ^ 52 + 1 / 2 ^ 1074 := by
  have habs : 0 < |q| := abs_pos.mpr hq
  have hlog : ((2 : ℕ) : ℚ) ^ Int.log 2 |q| ≤ |q| := Int.zpow_log_le_self (by norm_num) habs
  have hlog2 : (2 : ℚ) ^ Int.log 2 |q| ≤ |q| := by exact_mod_cast hlog
  unfold quantum
  rcases le_total (Int.log 2 |q| - 52) (-1074) with h | h
  · rw [max_eq_right h]
    have : (2 : ℚ) ^ (-1074 : ℤ) = 1 / 2 ^ 1074 := by
      rw [zpow_neg, one_div]; norm_cast
    rw [this]
    have : 0 ≤ |q| / 2 ^ 52 := by positivity
    linarith
  · rw [max_eq_left h, zpow_sub₀ (by norm_num : (2 : ℚ) ≠ 0)]
    have h52 : (2 : ℚ) ^ (52 : ℤ) = 2 ^ 52 := by norm_cast
    rw [h52]
    have : (2 : ℚ) ^ Int.log 2 |q| / 2 ^ 52 ≤ |q| / 2 ^ 52 :=
      div_le_div_of_nonneg_right hlog2 (by positivity)
    have : (0 : ℚ) ≤ 1 / 2 ^ 1074 := by positivity
    linarith

theorem roundTo_zero : roundTo 0 = 0 := by
  unfold roundTo
  rw [zero_div]
  have : nearestEven 0 = 0 := by simpa using nearestEven_intCast 0
  rw [this]; simp

theorem roundTo_sub (q : ℚ) :
    roundTo q - q = ((nearestEven (q / 2 ^ quantum q) : ℚ) - q / 2 ^ quantum q) * 2 ^ quantum q := by
  have hP := two_zpow_pos (quantum q)
  unfold roundTo
  field_simp

theorem roundTo_err_quantum (q : ℚ) : |roundTo q - q| ≤ 2 ^ quantum q / 2 := by
  have hP := two_zpow_pos (quantum q)
  rw [roundTo_sub, abs_mul, abs_of_pos hP]
  have := nearestEven_err (q / 2 ^ quantum q)
  calc |(nearestEven (q / 2 ^ quantum q) : ℚ) - q / 2 ^ quantum q| * 2 ^ quantum q
      ≤ 1 / 2 * 2 ^ quantum q := mul_le_mul_of_nonneg_right this hP.le
    _ = 2 ^ quantum q / 2 := by ring

/-- The error of one rounding: relative `2 ^ -53`, absolute `2 ^ -1075`. -/
theorem roundTo_err (q : ℚ) : |roundTo q - q| ≤ |q| / 2 ^ 53 + 1 / 2 ^ 1075 := by
  by_cases hq : q = 0
  · subst hq; rw [roundTo_zero]; simp
  · have h1 := roundTo_err_quantum q
    have h2 := two_zpow_quantum_le q hq
    have e1 : |q| / 2 ^ 53 = |q| / 2 ^ 52 / 2 := by ring
    have e2 : (1 : ℚ) / 2 ^ 1075 = 1 / 2 ^ 1074 / 2 := by norm_num
    rw [e1, e2]
    linarith

theorem roundTo_nonneg (q : ℚ) (hq : 0 ≤ q) : 0 ≤ roundTo q := by
  have hP := two_zpow_pos (quantum q)
  unfold roundTo
  apply mul_nonneg _ hP.le
  have : (0 : ℤ) ≤ nearestEven (q / 2 ^ quantum q) :=
    nearestEven_ge _ 0 (by simpa using div_nonneg hq hP.le)
  exact_mod_cast this

theorem roundTo_nonpos (q : ℚ) (hq : q ≤ 0) : roundTo q ≤ 0 := by
  have hP := two_zpow_pos (quantum q)
  unfold roundTo
  apply mul_nonpos_of_nonpos_of_nonneg _ hP.le
  have : nearestEven (q / 2 ^ quantum q) ≤ (0 : ℤ) :=
    nearestEven_le _ 0 (by simpa using div_nonpos_of_nonpos_of_nonneg hq hP.le)
  exact_mod_cast this

theorem abs_roundTo_le (q : ℚ) : |roundTo q| ≤ |q| + (|q| / 2 ^ 53 + 1 / 2 ^ 1075) := by
  have h := roundTo_err q
  have : |roundTo q| ≤ |roundTo q - q| + |q| := by
    have := abs_add (roundTo q - q) q
    simpa using this
  linarith

theorem ofRat_of_lt (q : ℚ) (h : |roundTo q| < 2 ^ 1024) : ofRat q = Number.fin (roundTo q) := by
  unfold ofRat
  rw [if_neg (not_le.mpr h)]

theorem ofRat_fin (q : ℚ) (h : |q| ≤ 2 ^ 1023) : ofRat q = Number.fin (roundTo q) := by
  apply ofRat_of_lt
  have h1 := abs_roundTo_le q
  have h2 : |q| / 2 ^ 53 ≤ 2 ^ 1023 / 2 ^ 53 := div_le_div_of_nonneg_right h (by positivity)
  have h3 : (2 : ℚ) ^ 1023 + (2 ^ 1023 / 2 ^ 53 + 1 / 2 ^ 1075) < 2 ^ 1024 := by norm_num
  linarith

theorem ofRat_zero : ofRat 0 = Number.fin 0 := by
  rw [ofRat_fin 0 (by norm_num), roundTo_zero]

theorem ofRat_cases (q : ℚ) :
    ofRat q = Number.fin (roundTo q) ∧ |roundTo q| < 2 ^ 1024 ∨
    ofRat q = Number.inf (decide (q < 0)) ∧ 2 ^ 1024 ≤ |roundTo q| := by
  unfold ofRat
  split_ifs with h
  · exact Or.inr ⟨rfl, h⟩
  · exact Or.inl ⟨rfl, not_le.mp h⟩

theorem sqrtApprox_scaled (q : ℚ) (hq : 0 < q) :
    (2 : ℚ) ^ 112 ≤ q * 4 ^ (56 - Int.log 2 q / 2) := by
  have hlog : ((2 : ℕ) : ℚ) ^ Int.log 2 q ≤ q := Int.zpow_log_le_self (by norm_num) hq
  have hlog2 : (2 : ℚ) ^ Int.log 2 q ≤ q := by exact_mod_cast hlog
  have h4 : (4 : ℚ) ^ (56 - Int.log 2 q / 2) = 2 ^ (2 * (56 - Int.log 2 q / 2)) := by
    rw [zpow_mul]; norm_num
  rw [h4]
  have hpos : (0 : ℚ) < 2 ^ (2 * (56 - Int.log 2 q / 2)) := two_zpow_pos _
  calc (2 : ℚ) ^ 112 = 2 ^ (112 : ℤ) := by norm_cast
    _ ≤ 2 ^ (Int.log 2 q + 2 * (56 - Int.log 2 q / 2)) := by
        apply zpow_le_zpow_right₀ (by norm_num)
        have := Int.ediv_mul_le (Int.log 2 q) (by norm_num : (2 : ℤ) ≠ 0)
        omega
    _ = 2 ^ Int.log 2 q * 2 ^ (2 * (56 - Int.log 2 q / 2)) := by
        rw [zpow_add₀ (by norm_num)]
    _ ≤ q * 2 ^ (2 * (56 - Int.log 2 q / 2)) := mul_le_mul_of_nonneg_right hlog2 hpos.le

/-- The rational `sqrtApprox q` is within relative `2 ^ -56` of the square
root of `q`. -/
theorem sqrtApprox_bounds (q : ℚ) (hq : 0 < q) :
    0 < sqrtApprox q ∧
    (sqrtApprox q * (1 - 1 / 2 ^ 56)) ^ 2 ≤ q ∧ q ≤ (sqrtApprox q * (1 + 1 / 2 ^ 56)) ^ 2 := by
  have hS := sqrtApprox_scaled q hq
  set k : ℤ := 56 - Int.log 2 q / 2 with hk
  set S : ℚ := q * 4 ^ k with hSdef
  set n : ℕ := Nat.sqrt ⌊S⌋₊ with hn
  have hD : (0 : ℚ) < 2 ^ k := two_zpow_pos k
  have h4 : (4 : ℚ) ^ k = 2 ^ k * 2 ^ k := by
    rw [← mul_zpow]; norm_num
  have hS0 : 0 ≤ S := by positivity
  have hfl1 : ((⌊S⌋₊ : ℕ) : ℚ) ≤ S := Nat.floor_le hS0
  have hfl2 : S < ⌊S⌋₊ + 1 := Nat.lt_floor_add_one S
  have hn1 : n * n ≤ ⌊S⌋₊ := Nat.sqrt_le _
  have hn2 : ⌊S⌋₊ < (n + 1) * (n + 1) := Nat.lt_succ_sqrt _
  have hn1q : (n : ℚ) * n ≤ S := by
    have : ((n * n : ℕ) : ℚ) ≤ ⌊S⌋₊ := by exact_mod_cast hn1
    push_cast at this
    linarith
  have hn2q : S < ((n : ℚ) + 1) * (n + 1) := by
    have : ((⌊S⌋₊ + 1 : ℕ) : ℚ) ≤ ((n + 1) * (n + 1) : ℕ) := by exact_mod_cast hn2
    push_cast at this
    linarith
  have hn56 : (2 : ℚ) ^ 56 ≤ n := by
    have h1 : 2 ^ 112 ≤ ⌊S⌋₊ := by
      apply Nat.le_floor
      exact_mod_cast hS
    have h2 : 2 ^ 56 ≤ n := by
      rw [hn, Nat.le_sqrt]
      calc 2 ^ 56 * 2 ^ 56 = 2 ^ 112 := by norm_num
        _ ≤ ⌊S⌋₊ := h1
    exact_mod_cast h2
  have hy : sqrtApprox q = (n : ℚ) / 2 ^ k ∧ (n : ℚ) * n = S ∨
      sqrtApprox q = ((n : ℚ) + 1 / 2) / 2 ^ k := by
    unfold sqrtApprox
    simp only []
    split_ifs with h
    · exact Or.inl ⟨rfl, h⟩
    · exact Or.inr rfl
  have hqS : q = S / (2 ^ k * 2 ^ k) := by
    rw [hSdef, h4]; field_simp
  have hn0 : (0 : ℚ) < n := lt_of_lt_of_le (by positivity) hn56
  -- in units of `2 ^ -k`
  have key : ∀ z : ℚ, (n : ℚ) ≤ z → z ≤ n + 1 / 2 →
      0 < z / 2 ^ k ∧ (z / 2 ^ k * (1 - 1 / 2 ^ 56)) ^ 2 ≤ q ∧
        q ≤ (z / 2 ^ k * (1 + 1 / 2 ^ 56)) ^ 2 := by
    intro z hz1 hz2
    have hz0 : 0 < z := lt_of_lt_of_le hn0 hz1
    refine ⟨div_pos hz0 hD, ?_, ?_⟩
    · rw [hqS, div_mul_eq_mul_div, div_pow, div_le_div_iff₀ (by positivity) (by positivity)]
      have e : ((2 : ℚ) ^ k) ^ 2 = 2 ^ k * 2 ^ k := by ring
      rw [e]
      apply mul_le_mul_of_nonneg_right _ (by positivity)
      have h1 : z * (1 - 1 / 2 ^ 56) ≤ n := by
        have : z / 2 ^ 56 ≥ 1 := by
          rw [ge_iff_le, le_div_iff₀ (by positivity)]
          linarith
        have : z * (1 - 1 / 2 ^ 56) = z - z / 2 ^ 56 := by ring
        linarith
      have h0 : 0 ≤ z * (1 - 1 / 2 ^ 56) := by
        apply mul_nonneg hz0.le; norm_num
      calc (z * (1 - 1 / 2 ^ 56)) ^ 2 ≤ ((n : ℚ)) ^ 2 := pow_le_pow_left₀ h0 h1 2
        _ = (n : ℚ) * (n : ℚ) := by ring
        _ ≤ S := hn1q
    · rw [hqS, div_mul_eq_mul_div, div_pow, div_le_div_iff₀ (by positivity) (by positivity)]
      have e : ((2 : ℚ) ^ k) ^ 2 = 2 ^ k * 2 ^ k := by ring
      rw [e]
      apply mul_le_mul_of_nonneg_right _ (by positivity)
      have h1 : (n : ℚ) + 1 ≤ z * (1 + 1 / 2 ^ 56) := by
        have : z / 2 ^ 56 ≥ 1 := by
          rw [ge_iff_le, le_div_iff₀ (by positivity)]
          linarith
        have : z * (1 + 1 / 2 ^ 56) = z + z / 2 ^ 56 := by ring
        linarith
      calc S ≤ ((n : ℚ) + 1) * (n + 1) := hn2q.le
        _ = ((n : ℚ) + 1) ^ 2 := by ring
        _ ≤ (z * (1 + 1 / 2 ^ 56)) ^ 2 := pow_le_pow_left₀ (by positivity) h1 2
  rcases hy with ⟨hy, -⟩ | hy
  · rw [hy]; exact key n le_rfl (by linarith)
  · rw [hy]; exact key _ (by linarith) le_rfl

theorem fin_mul_fin (x y : ℚ) : Number.fin x * Number.fin y = ofRat (x * y) := rfl

theorem fin_add_fin (x y : ℚ) : Number.fin x + Number.fin y = ofRat (x + y) := rfl

theorem fin_div_fin (x y : ℚ) (hy : y ≠ 0) : Number.fin x / Number.fin y = ofRat (x / y) := by
  show div _ _ = _
  simp [div, hy]

theorem fin_div_inf (x : ℚ) (b : Bool) : Number.fin x / Number.inf b = Number.fin 0 := rfl

theorem fin_lt_fin (x y : ℚ) : Number.fin x < Number.fin y ↔ x < y := by
  show lt _ _ = true ↔ _
  simp [lt]

theorem fin_lt_inf (x : ℚ) : Number.fin x < Number.inf false := by
  show lt _ _ = true
  rfl

theorem not_nan_lt (a : Number) : ¬ Number.nan < a := by
  show ¬ lt _ _ = true
  cases a <;> simp [lt]

theorem not_lt_nan (a : Number) : ¬ a < Number.nan := by
  show ¬ lt _ _ = true
  cases a <;> simp [lt]

theorem ofNat_eq (n : Nat) : (OfNat.ofNat n : Number) = ofRat n := rfl

/-- A result that is not negative is rounded to a finite value that is not
negative, or to `Infinity`. -/
theorem ofRat_nonneg_cases (q : ℚ) (hq : 0 ≤ q) :
    ofRat q = Number.fin (roundTo q) ∧ 0 ≤ roundTo q ∧ roundTo q < 2 ^ 1024 ∨
    ofRat q = Number.inf false := by
  rcases ofRat_cases q with ⟨h, hlt⟩ | ⟨h, -⟩
  · exact Or.inl ⟨h, roundTo_nonneg q hq, lt_of_le_of_lt (le_abs_self _) hlt⟩
  · right
    rw [h]
    simp [not_lt.mpr hq]

theorem roundTo_le (q : ℚ) (hq : 0 ≤ q) : roundTo q ≤ q * (1 + 1 / 2 ^ 53) + 1 / 2 ^ 1075 := by
  have h := roundTo_err q
  rw [abs_of_nonneg hq] at h
  have := (abs_le.mp h).2
  linarith

theorem roundTo_ge (q : ℚ) (hq : 0 ≤ q) : q * (1 - 1 / 2 ^ 53) - 1 / 2 ^ 1075 ≤ roundTo q := by
  have h := roundTo_err q
  rw [abs_of_nonneg hq] at h
  have := (abs_le.mp h).1
  linarith

/-- The sum of two rounded squares, rounded, against the exact sum. -/
theorem sum_sq_bounds (η A B α β τ : ℚ) (hη : 0 ≤ η)
    (hα1 : A * (1 - 1 / 2 ^ 53) - η ≤ α) (hα2 : α ≤ A * (1 + 1 / 2 ^ 53) + η)
    (hβ1 : B * (1 - 1 / 2 ^ 53) - η ≤ β) (hβ2 : β ≤ B * (1 + 1 / 2 ^ 53) + η)
    (hτ1 : (α + β) * (1 - 1 / 2 ^ 53) - η ≤ τ) (hτ2 : τ ≤ (α + β) * (1 + 1 / 2 ^ 53) + η) :
    (A + B) * (1 - 1 / 2 ^ 53) ^ 2 ≤ τ + 3 * η ∧
    τ ≤ (A + B) * (1 + 1 / 2 ^ 53) ^ 2 + 4 * η := by
  constructor
  · have h1 : ((A + B) * (1 - 1 / 2 ^ 53) - 2 * η) * (1 - 1 / 2 ^ 53) ≤
        (α + β) * (1 - 1 / 2 ^ 53) :=
      mul_le_mul_of_nonneg_right (by linarith) (by norm_num)
    have h2 : η * (1 - 1 / 2 ^ 53) ≤ η := by
      have : η * (1 - 1 / 2 ^ 53) = η - η / 2 ^ 53 := by ring
      have : 0 ≤ η / 2 ^ 53 := by positivity
      linarith
    nlinarith
  · have h1 : (α + β) * (1 + 1 / 2 ^ 53) ≤
        ((A + B) * (1 + 1 / 2 ^ 53) + 2 * η) * (1 + 1 / 2 ^ 53) :=
      mul_le_mul_of_nonneg_right (by linarith) (by norm_num)
    have h2 : η * (1 + 1 / 2 ^ 53) ≤ η * (3 / 2) :=
      mul_le_mul_of_nonneg_left (by norm_num) hη
    nlinarith

theorem sqrt_fin_pos (τ : ℚ) (hτ : 0 < τ) : sqrt (Number.fin τ) = ofRat (sqrtApprox τ) := by
  show (if τ < 0 then Number.nan else if τ = 0 then Number.fin 0 else ofRat (sqrtApprox τ)) = _
  rw [if_neg (not_lt.mpr hτ.le), if_neg hτ.ne']

theorem sqrt_fin_zero : sqrt (Number.fin 0) = Number.fin 0 := by
  show (if (0 : ℚ) < 0 then Number.nan else if (0 : ℚ) = 0 then Number.fin 0
    else ofRat (sqrtApprox 0)) = _
  simp

theorem sqrt_inf : sqrt (Number.inf false) = Number.inf false := rfl

theorem inf_add_fin (x : ℚ) : Number.inf false + Number.fin x = Number.inf false := rfl

theorem fin_add_inf (x : ℚ) : Number.fin x + Number.inf false = Number.inf false := rfl

theorem inf_add_inf : Number.inf false + Number.inf false = Number.inf false := rfl

/-- The square root of a finite positive value: finite, positive or zero,
within two roundings of the exact root. -/
theorem sqrt_fin_bounds (τ : ℚ) (hτ : 0 < τ) (hlt : τ < 2 ^ 1024) :
    ∃ σ y : ℚ, sqrt (Number.fin τ) = Number.fin σ ∧ 0 ≤ σ ∧ 0 < y ∧ y ≤ 2 ^ 513 ∧
      (y * (1 - 1 / 2 ^ 56)) ^ 2 ≤ τ ∧ τ ≤ (y * (1 + 1 / 2 ^ 56)) ^ 2 ∧
      y * (1 - 1 / 2 ^ 53) - 1 / 2 ^ 1075 ≤ σ ∧ σ ≤ y * (1 + 1 / 2 ^ 53) + 1 / 2 ^ 1075 := by
  obtain ⟨hy0, hy1, hy2⟩ := sqrtApprox_bounds τ hτ
  set y := sqrtApprox τ with hy
  have hy513 : y ≤ 2 ^ 513 := by
    have h1 : (y * (1 - 1 / 2 ^ 56)) ^ 2 < (2 ^ 512) ^ 2 := by
      calc (y * (1 - 1 / 2 ^ 56)) ^ 2 ≤ τ := hy1
        _ < 2 ^ 1024 := hlt
        _ = (2 ^ 512) ^ 2 := by norm_num
    have h2 := abs_lt_of_sq_lt_sq h1 (by positivity)
    have h3 : y * (1 - 1 / 2 ^ 56) < 2 ^ 512 := lt_of_le_of_lt (le_abs_self _) h2
    have h4 : y * (1 / 2) ≤ y * (1 - 1 / 2 ^ 56) :=
      mul_le_mul_of_nonneg_left (by norm_num) hy0.le
    have h5 : (2 : ℚ) ^ 513 = 2 * 2 ^ 512 := by norm_num
    linarith
  refine ⟨roundTo y, y, ?_, roundTo_nonneg y hy0.le, hy0, hy513, hy1, hy2,
    roundTo_ge y hy0.le, roundTo_le y hy0.le⟩
  rw [sqrt_fin_pos τ hτ]
  apply ofRat_fin
  rw [abs_of_pos hy0]
  exact le_trans hy513 (by norm_num)

theorem hypot_algebra (η N τ y σ : ℚ) (hη : 0 ≤ η)
    (h1 : N * (1 - 1 / 2 ^ 53) ^ 2 ≤ τ + 3 * η) (h2 : τ ≤ N * (1 + 1 / 2 ^ 53) ^ 2 + 4 * η)
    (hy : 0 ≤ y) (hy1 : (y * (1 - 1 / 2 ^ 56)) ^ 2 ≤ τ) (hy2 : τ ≤ (y * (1 + 1 / 2 ^ 56)) ^ 2)
    (hσ1 : y * (1 - 1 / 2 ^ 53) - η ≤ σ) (hσ2 : σ ≤ y * (1 + 1 / 2 ^ 53) + η) :
    N * (1 - 1 / 2 ^ 53) ^ 4 ≤ ((σ + η) * (1 + 1 / 2 ^ 56)) ^ 2 + 3 * η ∧
    (η ≤ σ → ((σ - η) * (1 - 1 / 2 ^ 56)) ^ 2 ≤
      (1 + 1 / 2 ^ 53) ^ 2 * (N * (1 + 1 / 2 ^ 53) ^ 2 + 4 * η)) := by
  constructor
  · have e1 : N * (1 - 1 / 2 ^ 53) ^ 4 = N * (1 - 1 / 2 ^ 53) ^ 2 * (1 - 1 / 2 ^ 53) ^ 2 := by
      ring
    have s1 : N * (1 - 1 / 2 ^ 53) ^ 2 * (1 - 1 / 2 ^ 53) ^ 2 ≤
        (τ + 3 * η) * (1 - 1 / 2 ^ 53) ^ 2 :=
      mul_le_mul_of_nonneg_right h1 (by positivity)
    have s2 : τ * (1 - 1 / 2 ^ 53) ^ 2 ≤ (y * (1 + 1 / 2 ^ 56)) ^ 2 * (1 - 1 / 2 ^ 53) ^ 2 :=
      mul_le_mul_of_nonneg_right hy2 (by positivity)
    have s3 : 3 * η * (1 - 1 / 2 ^ 53) ^ 2 ≤ 3 * η * 1 :=
      mul_le_mul_of_nonneg_left (by norm_num) (by positivity)
    have s4 : (y * (1 - 1 / 2 ^ 53) * (1 + 1 / 2 ^ 56)) ^ 2 ≤
        ((σ + η) * (1 + 1 / 2 ^ 56)) ^ 2 := by
      apply pow_le_pow_left₀
      · apply mul_nonneg (mul_nonneg hy (by norm_num)) (by norm_num)
      · exact mul_le_mul_of_nonneg_right (by linarith) (by norm_num)
    have e2 : (y * (1 + 1 / 2 ^ 56)) ^ 2 * (1 - 1 / 2 ^ 53) ^ 2 =
        (y * (1 - 1 / 2 ^ 53) * (1 + 1 / 2 ^ 56)) ^ 2 := by ring
    have e3 : (τ + 3 * η) * (1 - 1 / 2 ^ 53) ^ 2 =
        τ * (1 - 1 / 2 ^ 53) ^ 2 + 3 * η * (1 - 1 / 2 ^ 53) ^ 2 := by ring
    linarith
  · intro hle
    have s1 : ((σ - η) * (1 - 1 / 2 ^ 56)) ^ 2 ≤
        (y * (1 + 1 / 2 ^ 53) * (1 - 1 / 2 ^ 56)) ^ 2 := by
      apply pow_le_pow_left₀
      · exact mul_nonneg (by linarith) (by norm_num)
      · exact mul_le_mul_of_nonneg_right (by linarith) (by norm_num)
    have e1 : (y * (1 + 1 / 2 ^ 53) * (1 - 1 / 2 ^ 56)) ^ 2 =
        (1 + 1 / 2 ^ 53) ^ 2 * (y * (1 - 1 / 2 ^ 56)) ^ 2 := by ring
    have s2 : (1 + 1 / 2 ^ 53) ^ 2 * (y * (1 - 1 / 2 ^ 56)) ^ 2 ≤
        (1 + 1 / 2 ^ 53) ^ 2 * (N * (1 + 1 / 2 ^ 53) ^ 2 + 4 * η) :=
      mul_le_mul_of_nonneg_left (by linarith) (by positivity)
    linarith

/-- The value the code computes as `Math.sqrt(vx * vx + vy * vy)` for finite
`vx`, `vy`: `Infinity` when a square or the sum overflows, otherwise a finite
value that is not negative and lies within a few roundings of the exact
magnitude. -/
theorem hypot_cases (X Y : ℚ) :
    sqrt (Number.fin X * Number.fin X + Number.fin Y * Number.fin Y) = Number.inf false ∨
    ∃ σ : ℚ, sqrt (Number.fin X * Number.fin X + Number.fin Y * Number.fin Y) = Number.fin σ ∧
      0 ≤ σ ∧ σ ≤ 2 ^ 514 ∧ X ^ 2 ≤ 2 ^ 1025 ∧ Y ^ 2 ≤ 2 ^ 1025 ∧
      (X ^ 2 + Y ^ 2) * (1 - 1 / 2 ^ 53) ^ 4 ≤
        ((σ + 1 / 2 ^ 1075) * (1 + 1 / 2 ^ 56)) ^ 2 + 3 * (1 / 2 ^ 1075) ∧
      (1 / 2 ^ 1075 ≤ σ → ((σ - 1 / 2 ^ 1075) * (1 - 1 / 2 ^ 56)) ^ 2 ≤
        (1 + 1 / 2 ^ 53) ^ 2 * ((X ^ 2 + Y ^ 2) * (1 + 1 / 2 ^ 53) ^ 2 + 4 * (1 / 2 ^ 1075))) := by
  rw [fin_mul_fin, fin_mul_fin]
  have hX0 : 0 ≤ X * X := mul_self_nonneg X
  have hY0 : 0 ≤ Y * Y := mul_self_nonneg Y
  rcases ofRat_nonneg_cases (X * X) hX0 with ⟨ha, ha0, halt⟩ | ha
  swap
  · left
    rw [ha]
    rcases ofRat_nonneg_cases (Y * Y) hY0 with ⟨hb, -, -⟩ | hb
    · rw [hb, inf_add_fin, sqrt_inf]
    · rw [hb, inf_add_inf, sqrt_inf]
  rcases ofRat_nonneg_cases (Y * Y) hY0 with ⟨hb, hb0, hblt⟩ | hb
  swap
  · left
    rw [ha, hb, fin_add_inf, sqrt_inf]
  rw [ha, hb, fin_add_fin]
  have hab0 : 0 ≤ roundTo (X * X) + roundTo (Y * Y) := add_nonneg ha0 hb0
  rcases ofRat_nonneg_cases _ hab0 with ⟨ht, ht0, htlt⟩ | ht
  swap
  · left
    rw [ht, sqrt_inf]
  right
  rw [ht]
  have hα1 := roundTo_ge (X * X) hX0
  have hα2 := roundTo_le (X * X) hX0
  have hβ1 := roundTo_ge (Y * Y) hY0
  have hβ2 := roundTo_le (Y * Y) hY0
  have hτ1 := roundTo_ge _ hab0
  have hτ2 := roundTo_le _ hab0
  obtain ⟨hs1, hs2⟩ := sum_sq_bounds (1 / 2 ^ 1075) (X * X) (Y * Y) _ _ _ (by positivity)
    hα1 hα2 hβ1 hβ2 hτ1 hτ2
  have hXY : X ^ 2 + Y ^ 2 = X * X + Y * Y := by ring
  have hbig : ∀ Z : ℚ, 0 ≤ Z → Z * (1 - 1 / 2 ^ 53) - 1 / 2 ^ 1075 ≤ roundTo Z →
      roundTo Z < 2 ^ 1024 → Z ≤ 2 ^ 1025 := by
    intro Z hZ h1 h2
    have h3 : Z * (1 / 2) ≤ Z * (1 - 1 / 2 ^ 53) := mul_le_mul_of_nonneg_left (by norm_num) hZ
    have h4 : (2 : ℚ) ^ 1025 = 2 * 2 ^ 1024 := by norm_num
    have h5 : (1 : ℚ) / 2 ^ 1075 ≤ 1 := by norm_num
    have h6 : (1 : ℚ) ≤ 2 ^ 1024 := one_le_pow₀ (by norm_num)
    linarith
  have hX25 : X ^ 2 ≤ 2 ^ 1025 := by
    have := hbig (X * X) hX0 hα1 halt
    rw [pow_two]; exact this
  have hY25 : Y ^ 2 ≤ 2 ^ 1025 := by
    have := hbig (Y * Y) hY0 hβ1 hblt
    rw [pow_two]; exact this
  rcases ht0.lt_or_eq with hpos | hzero
  · obtain ⟨σ, y, hσ, hσ0, hy0, hy513, hy1, hy2, hσ1, hσ2⟩ := sqrt_fin_bounds _ hpos htlt
    refine ⟨σ, hσ, hσ0, ?_, hX25, hY25, ?_⟩
    · have h1 : y * (1 + 1 / 2 ^ 53) ≤ 2 ^ 513 * (1 + 1 / 2 ^ 53) :=
        mul_le_mul_of_nonneg_right hy513 (by norm_num)
      have h2 : (2 : ℚ) ^ 513 * (1 + 1 / 2 ^ 53) + 1 / 2 ^ 1075 ≤ 2 ^ 514 := by norm_num
      linarith
    · rw [hXY]
      exact hypot_algebra (1 / 2 ^ 1075) _ _ y σ (by positivity) hs1 hs2 hy0.le hy1 hy2 hσ1 hσ2
  · rw [← hzero, sqrt_fin_zero]
    refine ⟨0, rfl, le_rfl, by positivity, hX25, hY25, ?_, ?_⟩
    · rw [hXY]
      rw [← hzero] at hs1
      have e1 : (X * X + Y * Y) * (1 - 1 / 2 ^ 53) ^ 4 =
          (X * X + Y * Y) * (1 - 1 / 2 ^ 53) ^ 2 * (1 - 1 / 2 ^ 53) ^ 2 := by ring
      have s1 : (X * X + Y * Y) * (1 - 1 / 2 ^ 53) ^ 2 * (1 - 1 / 2 ^ 53) ^ 2 ≤
          (0 + 3 * (1 / 2 ^ 1075)) * (1 - 1 / 2 ^ 53) ^ 2 :=
        mul_le_mul_of_nonneg_right hs1 (by positivity)
      have s2 : (0 + 3 * (1 / 2 ^ 1075 : ℚ)) * (1 - 1 / 2 ^ 53) ^ 2 ≤ 3 * (1 / 2 ^ 1075) := by
        have h0 : (0 : ℚ) ≤ 3 * (1 / 2 ^ 1075) := by positivity
        have h1 : (1 - 1 / 2 ^ 53 : ℚ) ^ 2 ≤ 1 := by norm_num
        have := mul_le_mul_of_nonneg_left h1 h0
        linarith
      have s3 : (0 : ℚ) ≤ ((0 + 1 / 2 ^ 1075) * (1 + 1 / 2 ^ 56)) ^ 2 := sq_nonneg _
      linarith
    · intro h
      exfalso
      have : (0 : ℚ) < 1 / 2 ^ 1075 := by positivity
      linarith

/-- The rounded quotient `L / σ` of the speed limit against a larger
magnitude. -/
theorem ratio_bounds (η L σ ρ : ℚ) (hL : 0 < L) (hσ : L < σ)
    (hησ : η * σ ≤ L / 2 ^ 60)
    (hρ1 : L / σ * (1 - 1 / 2 ^ 53) - η ≤ ρ) (hρ2 : ρ ≤ L / σ * (1 + 1 / 2 ^ 53) + η) :
    0 < ρ ∧ ρ ≤ 2 ∧ ρ * σ ≤ L * (1 + 1 / 2 ^ 53 + 1 / 2 ^ 60) ∧
      L * (1 - 1 / 2 ^ 53 - 1 / 2 ^ 60) ≤ ρ * σ := by
  have hσ0 : 0 < σ := lt_trans hL hσ
  have hc : L / σ * σ = L := div_mul_cancel₀ L hσ0.ne'
  have h1 : ρ * σ ≤ (L / σ * (1 + 1 / 2 ^ 53) + η) * σ := mul_le_mul_of_nonneg_right hρ2 hσ0.le
  have h2 : (L / σ * (1 - 1 / 2 ^ 53) - η) * σ ≤ ρ * σ := mul_le_mul_of_nonneg_right hρ1 hσ0.le
  have e1 : (L / σ * (1 + 1 / 2 ^ 53) + η) * σ = L / σ * σ * (1 + 1 / 2 ^ 53) + η * σ := by ring
  have e2 : (L / σ * (1 - 1 / 2 ^ 53) - η) * σ = L / σ * σ * (1 - 1 / 2 ^ 53) - η * σ := by ring
  rw [e1, hc] at h1
  rw [e2, hc] at h2
  have hup : ρ * σ ≤ L * (1 + 1 / 2 ^ 53 + 1 / 2 ^ 60) := by linarith
  have hlo : L * (1 - 1 / 2 ^ 53 - 1 / 2 ^ 60) ≤ ρ * σ := by linarith
  have hpos : 0 < ρ * σ := lt_of_lt_of_le (mul_pos hL (by norm_num)) hlo
  have hρ0 : 0 < ρ := by
    by_contra hneg
    have : ρ * σ ≤ 0 := mul_nonpos_of_nonpos_of_nonneg (not_lt.mp hneg) hσ0.le
    linarith
  refine ⟨hρ0, ?_, hup, hlo⟩
  have h3 : L * (1 + 1 / 2 ^ 53 + 1 / 2 ^ 60) ≤ σ * (1 + 1 / 2 ^ 53 + 1 / 2 ^ 60) :=
    mul_le_mul_of_nonneg_right hσ.le (by norm_num)
  have h4 : σ * (1 + 1 / 2 ^ 53 + 1 / 2 ^ 60) ≤ σ * 2 :=
    mul_le_mul_of_nonneg_left (by norm_num) hσ0.le
  have h5 : ρ * σ ≤ 2 * σ := by linarith
  exact le_of_mul_le_mul_right h5 hσ0

/-- The exact squared magnitude of the velocity times the rounded ratio,
from above. -/
theorem scaled_sq_le (η L σ ρ N : ℚ) (hη : 0 ≤ η) (hσ0 : 0 ≤ σ)
    (hηL : η ≤ L / 2 ^ 100) (hηL2 : η ≤ L ^ 2 / 2 ^ 75)
    (hρ0 : 0 ≤ ρ) (hρ2 : ρ ≤ 2) (hρσ : ρ * σ ≤ L * (1 + 1 / 2 ^ 53 + 1 / 2 ^ 60))
    (hN : N * (1 - 1 / 2 ^ 53) ^ 4 ≤ ((σ + η) * (1 + 1 / 2 ^ 56)) ^ 2 + 3 * η) :
    ρ ^ 2 * N * (1 - 1 / 2 ^ 53) ^ 4 ≤
      L ^ 2 * (((1 + 1 / 2 ^ 53 + 1 / 2 ^ 60 + 2 / 2 ^ 100) * (1 + 1 / 2 ^ 56)) ^ 2 +
        12 / 2 ^ 75) := by
  have h1 : ρ ^ 2 * (N * (1 - 1 / 2 ^ 53) ^ 4) ≤
      ρ ^ 2 * (((σ + η) * (1 + 1 / 2 ^ 56)) ^ 2 + 3 * η) :=
    mul_le_mul_of_nonneg_left hN (sq_nonneg ρ)
  have h2 : ρ * (σ + η) ≤ L * (1 + 1 / 2 ^ 53 + 1 / 2 ^ 60 + 2 / 2 ^ 100) := by
    have : ρ * η ≤ 2 * η := mul_le_mul_of_nonneg_right hρ2 hη
    have e : ρ * (σ + η) = ρ * σ + ρ * η := by ring
    have e2 : L * (1 + 1 / 2 ^ 53 + 1 / 2 ^ 60 + 2 / 2 ^ 100) =
        L * (1 + 1 / 2 ^ 53 + 1 / 2 ^ 60) + 2 * (L / 2 ^ 100) := by ring
    linarith
  have h3 : (ρ * (σ + η) * (1 + 1 / 2 ^ 56)) ^ 2 ≤
      (L * (1 + 1 / 2 ^ 53 + 1 / 2 ^ 60 + 2 / 2 ^ 100) * (1 + 1 / 2 ^ 56)) ^ 2 := by
    apply pow_le_pow_left₀
    · exact mul_nonneg (mul_nonneg hρ0 (by linarith)) (by norm_num)
    · exact mul_le_mul_of_nonneg_right h2 (by norm_num)
  have h4 : ρ ^ 2 ≤ 4 := by
    have : ρ ^ 2 ≤ 2 ^ 2 := pow_le_pow_left₀ hρ0 hρ2 2
    linarith
  have h5 : ρ ^ 2 * (3 * η) ≤ 4 * (3 * η) := mul_le_mul_of_nonneg_right h4 (by linarith)
  have e1 : ρ ^ 2 * (((σ + η) * (1 + 1 / 2 ^ 56)) ^ 2 + 3 * η) =
      (ρ * (σ + η) * (1 + 1 / 2 ^ 56)) ^ 2 + ρ ^ 2 * (3 * η) := by ring
  have e2 : L ^ 2 * (((1 + 1 / 2 ^ 53 + 1 / 2 ^ 60 + 2 / 2 ^ 100) * (1 + 1 / 2 ^ 56)) ^ 2 +
        12 / 2 ^ 75) =
      (L * (1 + 1 / 2 ^ 53 + 1 / 2 ^ 60 + 2 / 2 ^ 100) * (1 + 1 / 2 ^ 56)) ^ 2 +
        12 * (L ^ 2 / 2 ^ 75) := by ring
  have e3 : ρ ^ 2 * N * (1 - 1 / 2 ^ 53) ^ 4 = ρ ^ 2 * (N * (1 - 1 / 2 ^ 53) ^ 4) := by ring
  rw [e3, e2]
  linarith

/-- The exact squared magnitude of the velocity times the rounded ratio,
from below. -/
theorem scaled_sq_ge (η L σ ρ N : ℚ) (hL : 0 < L) (hη : 0 ≤ η)
    (hηL : η ≤ L / 2 ^ 100) (hηL2 : η ≤ L ^ 2 / 2 ^ 75)
    (hρ0 : 0 ≤ ρ) (hρ2 : ρ ≤ 2) (hρσ : L * (1 - 1 / 2 ^ 53 - 1 / 2 ^ 60) ≤ ρ * σ)
    (hN : ((σ - η) * (1 - 1 / 2 ^ 56)) ^ 2 ≤
      (1 + 1 / 2 ^ 53) ^ 2 * (N * (1 + 1 / 2 ^ 53) ^ 2 + 4 * η)) :
    L ^ 2 * (((1 - 1 / 2 ^ 53 - 1 / 2 ^ 60 - 2 / 2 ^ 100) * (1 - 1 / 2 ^ 56)) ^ 2 -
        64 / 2 ^ 75) ≤ ρ ^ 2 * N * (1 + 1 / 2 ^ 53) ^ 4 := by
  have h1 : ρ ^ 2 * ((σ - η) * (1 - 1 / 2 ^ 56)) ^ 2 ≤
      ρ ^ 2 * ((1 + 1 / 2 ^ 53) ^ 2 * (N * (1 + 1 / 2 ^ 53) ^ 2 + 4 * η)) :=
    mul_le_mul_of_nonneg_left hN (sq_nonneg ρ)
  have h2 : L * (1 - 1 / 2 ^ 53 - 1 / 2 ^ 60 - 2 / 2 ^ 100) ≤ ρ * (σ - η) := by
    have : ρ * η ≤ 2 * η := mul_le_mul_of_nonneg_right hρ2 hη
    have e : ρ * (σ - η) = ρ * σ - ρ * η := by ring
    have e2 : L * (1 - 1 / 2 ^ 53 - 1 / 2 ^ 60 - 2 / 2 ^ 100) =
        L * (1 - 1 / 2 ^ 53 - 1 / 2 ^ 60) - 2 * (L / 2 ^ 100) := by ring
    linarith
  have h3 : (L * (1 - 1 / 2 ^ 53 - 1 / 2 ^ 60 - 2 / 2 ^ 100) * (1 - 1 / 2 ^ 56)) ^ 2 ≤
      (ρ * (σ - η) * (1 - 1 / 2 ^ 56)) ^ 2 := by
    apply pow_le_pow_left₀
    · exact mul_nonneg (mul_nonneg hL.le (by norm_num)) (by norm_num)
    · exact mul_le_mul_of_nonneg_right h2 (by norm_num)
  have h4 : ρ ^ 2 ≤ 4 := by
    have : ρ ^ 2 ≤ 2 ^ 2 := pow_le_pow_left₀ hρ0 hρ2 2
    linarith
  have h5 : ρ ^ 2 * ((1 + 1 / 2 ^ 53) ^ 2 * (4 * η)) ≤ 4 * (4 * (4 * η)) := by
    have h6 : (1 + 1 / 2 ^ 53 : ℚ) ^ 2 * (4 * η) ≤ 4 * (4 * η) :=
      mul_le_mul_of_nonneg_right (by norm_num) (by linarith)
    calc ρ ^ 2 * ((1 + 1 / 2 ^ 53) ^ 2 * (4 * η)) ≤ 4 * ((1 + 1 / 2 ^ 53) ^ 2 * (4 * η)) :=
          mul_le_mul_of_nonneg_right h4 (by positivity)
      _ ≤ 4 * (4 * (4 * η)) := by linarith
  have e1 : ρ ^ 2 * ((1 + 1 / 2 ^ 53) ^ 2 * (N * (1 + 1 / 2 ^ 53) ^ 2 + 4 * η)) =
      ρ ^ 2 * N * (1 + 1 / 2 ^ 53) ^ 4 + ρ ^ 2 * ((1 + 1 / 2 ^ 53) ^ 2 * (4 * η)) := by ring
  have e2 : ρ ^ 2 * ((σ - η) * (1 - 1 / 2 ^ 56)) ^ 2 =
      (ρ * (σ - η) * (1 - 1 / 2 ^ 56)) ^ 2 := by ring
  have e3 : L ^ 2 * (((1 - 1 / 2 ^ 53 - 1 / 2 ^ 60 - 2 / 2 ^ 100) * (1 - 1 / 2 ^ 56)) ^ 2 -
        64 / 2 ^ 75) =
      (L * (1 - 1 / 2 ^ 53 - 1 / 2 ^ 60 - 2 / 2 ^ 100) * (1 - 1 / 2 ^ 56)) ^ 2 -
        64 * (L ^ 2 / 2 ^ 75) := by ring
  rw [e3]
  linarith

theorem abs_round_le (η p ξ : ℚ) (h : |ξ - p| ≤ |p| / 2 ^ 53 + η) :
    |ξ| ≤ |p| * (1 + 1 / 2 ^ 53) + η ∧ |p| * (1 - 1 / 2 ^ 53) - η ≤ |ξ| := by
  constructor
  · have h1 : |ξ| ≤ |ξ - p| + |p| := by
      have := abs_add (ξ - p) p
      simpa using this
    have e : |p| * (1 + 1 / 2 ^ 53) = |p| + |p| / 2 ^ 53 := by ring
    linarith
  · have h1 : |p| ≤ |ξ - p| + |ξ| := by
      have := abs_add (p - ξ) ξ
      rw [abs_sub_comm] at this
      simpa using this
    have e : |p| * (1 - 1 / 2 ^ 53) = |p| - |p| / 2 ^ 53 := by ring
    linarith

/-- The square of one rounded product against the square of the exact
product `p`, for `|p| ≤ 2 * L`. -/
theorem round_sq_bounds (η L p ξ : ℚ) (hL : 0 < L) (hη : 0 ≤ η) (hηL : η ≤ L / 2 ^ 100)
    (hp : |p| ≤ 2 * L) (h : |ξ - p| ≤ |p| / 2 ^ 53 + η) :
    ξ ^ 2 ≤ (1 + 1 / 2 ^ 53) ^ 2 * p ^ 2 + L ^ 2 * (9 / 2 ^ 100) ∧
    (1 - 1 / 2 ^ 53) ^ 2 * p ^ 2 - L ^ 2 * (4 / 2 ^ 100) ≤ ξ ^ 2 := by
  obtain ⟨hup, hlo⟩ := abs_round_le η p ξ h
  have hp0 : 0 ≤ |p| := abs_nonneg p
  have hξ0 : 0 ≤ |ξ| := abs_nonneg ξ
  have hηp : η * |p| ≤ L / 2 ^ 100 * (2 * L) := mul_le_mul hηL hp hp0 (by positivity)
  have hηη : η * η ≤ L / 2 ^ 100 * (L / 2 ^ 100) := mul_le_mul hηL hηL hη (by positivity)
  have hL2 : 0 ≤ L ^ 2 := sq_nonneg L
  constructor
  · have h1 : |ξ| ^ 2 ≤ (|p| * (1 + 1 / 2 ^ 53) + η) ^ 2 := pow_le_pow_left₀ hξ0 hup 2
    rw [sq_abs] at h1
    have e1 : (|p| * (1 + 1 / 2 ^ 53) + η) ^ 2 =
        (1 + 1 / 2 ^ 53) ^ 2 * |p| ^ 2 + 2 * (1 + 1 / 2 ^ 53) * (η * |p|) + η * η := by ring
    rw [e1, sq_abs] at h1
    have h2 : 2 * (1 + 1 / 2 ^ 53 : ℚ) * (η * |p|) ≤ 4 * (η * |p|) :=
      mul_le_mul_of_nonneg_right (by norm_num) (mul_nonneg hη hp0)
    have e2 : L ^ 2 * (9 / 2 ^ 100) =
        4 * (L / 2 ^ 100 * (2 * L)) + L ^ 2 * (1 / 2 ^ 100) := by ring
    have h3 : L / 2 ^ 100 * (L / 2 ^ 100) ≤ L ^ 2 * (1 / 2 ^ 100) := by
      have e3 : L / 2 ^ 100 * (L / 2 ^ 100) = L ^ 2 * (1 / 2 ^ 100 * (1 / 2 ^ 100)) := by ring
      rw [e3]
      exact mul_le_mul_of_nonneg_left (by norm_num) hL2
    linarith
  · rcases le_total (|p| * (1 - 1 / 2 ^ 53)) η with hsmall | hbig
    · -- the exact product is below the rounding threshold
      have h1 : (1 - 1 / 2 ^ 53) ^ 2 * p ^ 2 ≤ η * η := by
        have : (|p| * (1 - 1 / 2 ^ 53)) ^ 2 ≤ η ^ 2 :=
          pow_le_pow_left₀ (mul_nonneg hp0 (by norm_num)) hsmall 2
        have e : (|p| * (1 - 1 / 2 ^ 53)) ^ 2 = (1 - 1 / 2 ^ 53) ^ 2 * |p| ^ 2 := by ring
        rw [e, sq_abs] at this
        linarith [sq_nonneg η, pow_two η]
      have h3 : L / 2 ^ 100 * (L / 2 ^ 100) ≤ L ^ 2 * (4 / 2 ^ 100) := by
        have e3 : L / 2 ^ 100 * (L / 2 ^ 100) = L ^ 2 * (1 / 2 ^ 100 * (1 / 2 ^ 100)) := by ring
        rw [e3]
        exact mul_le_mul_of_nonneg_left (by norm_num) hL2
      have : 0 ≤ ξ ^ 2 := sq_nonneg ξ
      linarith
    · have h1 : (|p| * (1 - 1 / 2 ^ 53) - η) ^ 2 ≤ |ξ| ^ 2 :=
        pow_le_pow_left₀ (by linarith) hlo 2
      rw [sq_abs] at h1
      have e1 : (|p| * (1 - 1 / 2 ^ 53) - η) ^ 2 =
          (1 - 1 / 2 ^ 53) ^ 2 * |p| ^ 2 - 2 * (1 - 1 / 2 ^ 53) * (η * |p|) + η * η := by ring
      rw [e1, sq_abs] at h1
      have h2 : 2 * (1 - 1 / 2 ^ 53 : ℚ) * (η * |p|) ≤ 2 * (η * |p|) :=
        mul_le_mul_of_nonneg_right (by norm_num) (mul_nonneg hη hp0)
      have e2 : L ^ 2 * (4 / 2 ^ 100) = 2 * (L / 2 ^ 100 * (2 * L)) := by ring
      have : 0 ≤ η * η := mul_nonneg hη hη
      linarith

/-- The speed limit where it scales: the exact magnitude of the two rounded
products lies within `2 ^ -50` of the limit, relatively. -/
theorem clamp_algebra (η L σ ρ X Y ξ ζ : ℚ) (hL : 0 < L) (hσ : L < σ) (hη : 0 ≤ η)
    (hηL : η ≤ L / 2 ^ 100) (hηL2 : η ≤ L ^ 2 / 2 ^ 75) (hησ : η * σ ≤ L / 2 ^ 60)
    (hNup : (X ^ 2 + Y ^ 2) * (1 - 1 / 2 ^ 53) ^ 4 ≤
      ((σ + η) * (1 + 1 / 2 ^ 56)) ^ 2 + 3 * η)
    (hNlo : ((σ - η) * (1 - 1 / 2 ^ 56)) ^ 2 ≤
      (1 + 1 / 2 ^ 53) ^ 2 * ((X ^ 2 + Y ^ 2) * (1 + 1 / 2 ^ 53) ^ 2 + 4 * η))
    (hρ1 : L / σ * (1 - 1 / 2 ^ 53) - η ≤ ρ) (hρ2 : ρ ≤ L / σ * (1 + 1 / 2 ^ 53) + η)
    (hξ : |ξ - X * ρ| ≤ |X * ρ| / 2 ^ 53 + η) (hζ : |ζ - Y * ρ| ≤ |Y * ρ| / 2 ^ 53 + η) :
    0 < ρ ∧ ρ ≤ 2 ∧ (L * (1 - 1 / 2 ^ 50)) ^ 2 ≤ ξ ^ 2 + ζ ^ 2 ∧
      ξ ^ 2 + ζ ^ 2 ≤ (L * (1 + 1 / 2 ^ 50)) ^ 2 := by
  obtain ⟨hρ0, hρ2', hρσup, hρσlo⟩ := ratio_bounds η L σ ρ hL hσ hησ hρ1 hρ2
  have hσ0 : 0 ≤ σ := (lt_trans hL hσ).le
  have hMup := scaled_sq_le η L σ ρ (X ^ 2 + Y ^ 2) hη hσ0 hηL hηL2 hρ0.le hρ2' hρσup hNup
  have hMlo := scaled_sq_ge η L σ ρ (X ^ 2 + Y ^ 2) hL hη hηL hηL2 hρ0.le hρ2' hρσlo hNlo
  have hL2 : 0 ≤ L ^ 2 := sq_nonneg L
  set M : ℚ := ρ ^ 2 * (X ^ 2 + Y ^ 2) with hM
  have hM0 : 0 ≤ M := mul_nonneg (sq_nonneg ρ) (add_nonneg (sq_nonneg X) (sq_nonneg Y))
  have hMe : M = (X * ρ) ^ 2 + (Y * ρ) ^ 2 := by rw [hM]; ring
  have hM4 : M ≤ 4 * L ^ 2 := by
    have h1 : M * (1 / 2) ≤ M * (1 - 1 / 2 ^ 53) ^ 4 :=
      mul_le_mul_of_nonneg_left (by norm_num) hM0
    have h2 : L ^ 2 * (((1 + 1 / 2 ^ 53 + 1 / 2 ^ 60 + 2 / 2 ^ 100) * (1 + 1 / 2 ^ 56)) ^ 2 +
        12 / 2 ^ 75) ≤ L ^ 2 * 2 :=
      mul_le_mul_of_nonneg_left (by norm_num) hL2
    linarith
  have hX : |X * ρ| ≤ 2 * L := by
    apply abs_le_of_sq_le_sq _ (by linarith)
    have : (2 * L) ^ 2 = 4 * L ^ 2 := by ring
    rw [this]
    linarith [sq_nonneg (Y * ρ)]
  have hY : |Y * ρ| ≤ 2 * L := by
    apply abs_le_of_sq_le_sq _ (by linarith)
    have : (2 * L) ^ 2 = 4 * L ^ 2 := by ring
    rw [this]
    linarith [sq_nonneg (X * ρ)]
  obtain ⟨hξu, hξl⟩ := round_sq_bounds η L (X * ρ) ξ hL hη hηL hX hξ
  obtain ⟨hζu, hζl⟩ := round_sq_bounds η L (Y * ρ) ζ hL hη hηL hY hζ
  refine ⟨hρ0, hρ2', ?_, ?_⟩
  · -- from below
    have h1 : (1 - 1 / 2 ^ 53) ^ 2 * M - L ^ 2 * (8 / 2 ^ 100) ≤ ξ ^ 2 + ζ ^ 2 := by
      rw [hMe]; linarith
    have hb : (0 : ℚ) < (1 + 1 / 2 ^ 53) ^ 4 := by positivity
    apply le_of_mul_le_mul_right _ hb
    have h2 : ((1 - 1 / 2 ^ 53) ^ 2 * M - L ^ 2 * (8 / 2 ^ 100)) * (1 + 1 / 2 ^ 53) ^ 4 ≤
        (ξ ^ 2 + ζ ^ 2) * (1 + 1 / 2 ^ 53) ^ 4 := mul_le_mul_of_nonneg_right h1 hb.le
    have h3 : (1 - 1 / 2 ^ 53) ^ 2 * (L ^ 2 *
        (((1 - 1 / 2 ^ 53 - 1 / 2 ^ 60 - 2 / 2 ^ 100) * (1 - 1 / 2 ^ 56)) ^ 2 - 64 / 2 ^ 75)) ≤
        (1 - 1 / 2 ^ 53) ^ 2 * (M * (1 + 1 / 2 ^ 53) ^ 4) :=
      mul_le_mul_of_nonneg_left hMlo (by positivity)
    have h4 : L ^ 2 * ((1 - 1 / 2 ^ 50) ^ 2 * (1 + 1 / 2 ^ 53) ^ 4) ≤
        L ^ 2 * ((1 - 1 / 2 ^ 53) ^ 2 *
          (((1 - 1 / 2 ^ 53 - 1 / 2 ^ 60 - 2 / 2 ^ 100) * (1 - 1 / 2 ^ 56)) ^ 2 - 64 / 2 ^ 75) -
          8 / 2 ^ 100 * (1 + 1 / 2 ^ 53) ^ 4) :=
      mul_le_mul_of_nonneg_left (by norm_num) hL2
    have e1 : (L * (1 - 1 / 2 ^ 50)) ^ 2 * (1 + 1 / 2 ^ 53) ^ 4 =
        L ^ 2 * ((1 - 1 / 2 ^ 50) ^ 2 * (1 + 1 / 2 ^ 53) ^ 4) := by ring
    have e2 : ((1 - 1 / 2 ^ 53) ^ 2 * M - L ^ 2 * (8 / 2 ^ 100)) * (1 + 1 / 2 ^ 53) ^ 4 =
        (1 - 1 / 2 ^ 53) ^ 2 * (M * (1 + 1 / 2 ^ 53) ^ 4) -
          L ^ 2 * (8 / 2 ^ 100 * (1 + 1 / 2 ^ 53) ^ 4) := by ring
    have e3 : L ^ 2 * ((1 - 1 / 2 ^ 53) ^ 2 *
          (((1 - 1 / 2 ^ 53 - 1 / 2 ^ 60 - 2 / 2 ^ 100) * (1 - 1 / 2 ^ 56)) ^ 2 - 64 / 2 ^ 75) -
          8 / 2 ^ 100 * (1 + 1 / 2 ^ 53) ^ 4) =
        (1 - 1 / 2 ^ 53) ^ 2 * (L ^ 2 *
          (((1 - 1 / 2 ^ 53 - 1 / 2 ^ 60 - 2 / 2 ^ 100) * (1 - 1 / 2 ^ 56)) ^ 2 - 64 / 2 ^ 75)) -
          L ^ 2 * (8 / 2 ^ 100 * (1 + 1 / 2 ^ 53) ^ 4) := by ring
    rw [e1]
    rw [e2] at h2
    rw [e3] at h4
    linarith
  · -- from above
    have h1 : ξ ^ 2 + ζ ^ 2 ≤ (1 + 1 / 2 ^ 53) ^ 2 * M + L ^ 2 * (18 / 2 ^ 100) := by
      rw [hMe]; linarith
    have ha : (0 : ℚ) < (1 - 1 / 2 ^ 53) ^ 4 := by norm_num
    apply le_of_mul_le_mul_right _ ha
    have h2 : (ξ ^ 2 + ζ ^ 2) * (1 - 1 / 2 ^ 53) ^ 4 ≤
        ((1 + 1 / 2 ^ 53) ^ 2 * M + L ^ 2 * (18 / 2 ^ 100)) * (1 - 1 / 2 ^ 53) ^ 4 :=
      mul_le_mul_of_nonneg_right h1 ha.le
    have h3 : (1 + 1 / 2 ^ 53) ^ 2 * (M * (1 - 1 / 2 ^ 53) ^ 4) ≤
        (1 + 1 / 2 ^ 53) ^ 2 * (L ^ 2 *
          (((1 + 1 / 2 ^ 53 + 1 / 2 ^ 60 + 2 / 2 ^ 100) * (1 + 1 / 2 ^ 56)) ^ 2 + 12 / 2 ^ 75)) :=
      mul_le_mul_of_nonneg_left hMup (by positivity)
    have h4 : L ^ 2 * ((1 + 1 / 2 ^ 53) ^ 2 *
          (((1 + 1 / 2 ^ 53 + 1 / 2 ^ 60 + 2 / 2 ^ 100) * (1 + 1 / 2 ^ 56)) ^ 2 + 12 / 2 ^ 75) +
          18 / 2 ^ 100 * (1 - 1 / 2 ^ 53) ^ 4) ≤
        L ^ 2 * ((1 + 1 / 2 ^ 50) ^ 2 * (1 - 1 / 2 ^ 53) ^ 4) :=
      mul_le_mul_of_nonneg_left (by norm_num) hL2
    have e1 : (L * (1 + 1 / 2 ^ 50)) ^ 2 * (1 - 1 / 2 ^ 53) ^ 4 =
        L ^ 2 * ((1 + 1 / 2 ^ 50) ^ 2 * (1 - 1 / 2 ^ 53) ^ 4) := by ring
    have e2 : ((1 + 1 / 2 ^ 53) ^ 2 * M + L ^ 2 * (18 / 2 ^ 100)) * (1 - 1 / 2 ^ 53) ^ 4 =
        (1 + 1 / 2 ^ 53) ^ 2 * (M * (1 - 1 / 2 ^ 53) ^ 4) +
          L ^ 2 * (18 / 2 ^ 100 * (1 - 1 / 2 ^ 53) ^ 4) := by ring
    have e3 : L ^ 2 * ((1 + 1 / 2 ^ 53) ^ 2 *
          (((1 + 1 / 2 ^ 53 + 1 / 2 ^ 60 + 2 / 2 ^ 100) * (1 + 1 / 2 ^ 56)) ^ 2 + 12 / 2 ^ 75) +
          18 / 2 ^ 100 * (1 - 1 / 2 ^ 53) ^ 4) =
        (1 + 1 / 2 ^ 53) ^ 2 * (L ^ 2 *
          (((1 + 1 / 2 ^ 53 + 1 / 2 ^ 60 + 2 / 2 ^ 100) * (1 + 1 / 2 ^ 56)) ^ 2 + 12 / 2 ^ 75)) +
          L ^ 2 * (18 / 2 ^ 100 * (1 - 1 / 2 ^ 53) ^ 4) := by ring
    rw [e1]
    rw [e2] at h2
    rw [e3] at h4
    linarith

/-- The speed limit where it does not scale: a computed magnitude of at most
`L` bounds the exact magnitude by `L` up to `2 ^ -50`, relatively. -/
theorem pass_algebra (η L σ N : ℚ) (hσ : σ ≤ L) (hσ0 : 0 ≤ σ) (hη : 0 ≤ η)
    (hηL : η ≤ L / 2 ^ 100) (hηL2 : η ≤ L ^ 2 / 2 ^ 75)
    (hNup : N * (1 - 1 / 2 ^ 53) ^ 4 ≤ ((σ + η) * (1 + 1 / 2 ^ 56)) ^ 2 + 3 * η) :
    N ≤ (L * (1 + 1 / 2 ^ 50)) ^ 2 := by
  have hL2 : 0 ≤ L ^ 2 := sq_nonneg L
  have h1 : ((σ + η) * (1 + 1 / 2 ^ 56)) ^ 2 ≤
      (L * (1 + 1 / 2 ^ 100) * (1 + 1 / 2 ^ 56)) ^ 2 := by
    apply pow_le_pow_left₀
    · exact mul_nonneg (by linarith) (by norm_num)
    · apply mul_le_mul_of_nonneg_right _ (by norm_num)
      have : L * (1 + 1 / 2 ^ 100) = L + L / 2 ^ 100 := by ring
      linarith
  have ha : (0 : ℚ) < (1 - 1 / 2 ^ 53) ^ 4 := by norm_num
  apply le_of_mul_le_mul_right _ ha
  have h4 : L ^ 2 * (((1 + 1 / 2 ^ 100) * (1 + 1 / 2 ^ 56)) ^ 2 + 3 / 2 ^ 75) ≤
      L ^ 2 * ((1 + 1 / 2 ^ 50) ^ 2 * (1 - 1 / 2 ^ 53) ^ 4) :=
    mul_le_mul_of_nonneg_left (by norm_num) hL2
  have e1 : (L * (1 + 1 / 2 ^ 50)) ^ 2 * (1 - 1 / 2 ^ 53) ^ 4 =
      L ^ 2 * ((1 + 1 / 2 ^ 50) ^ 2 * (1 - 1 / 2 ^ 53) ^ 4) := by ring
  have e2 : L ^ 2 * (((1 + 1 / 2 ^ 100) * (1 + 1 / 2 ^ 56)) ^ 2 + 3 / 2 ^ 75) =
      (L * (1 + 1 / 2 ^ 100) * (1 + 1 / 2 ^ 56)) ^ 2 + 3 * (L ^ 2 / 2 ^ 75) := by ring
  rw [e1]
  rw [e2] at h4
  linarith

theorem roundTo_le_one (t : ℚ) (ht0 : 0 < t) (ht : t ≤ 1) : roundTo t ≤ 1 := by
  have hlog : Int.log 2 |t| ≤ 0 := by
    rw [abs_of_pos ht0, Int.log_of_right_le_one 2 ht]
    exact neg_nonpos.mpr (Int.natCast_nonneg _)
  have hp : quantum t ≤ 0 := by
    unfold quantum
    exact max_le (by omega) (by norm_num)
  have hP := two_zpow_pos (quantum t)
  obtain ⟨n, hn⟩ : ∃ n : ℕ, quantum t = -(n : ℤ) := ⟨(-quantum t).toNat, by omega⟩
  have hinv : (1 : ℚ) / 2 ^ quantum t = ((2 ^ n : ℤ) : ℚ) := by
    rw [hn, zpow_neg, one_div, inv_inv, zpow_natCast]
    push_cast
    rfl
  have hm : t / 2 ^ quantum t ≤ ((2 ^ n : ℤ) : ℚ) := by
    rw [← hinv]
    exact div_le_div_of_nonneg_right ht hP.le
  have hne := nearestEven_le _ _ hm
  have hq : ((nearestEven (t / 2 ^ quantum t) : ℤ) : ℚ) ≤ ((2 ^ n : ℤ) : ℚ) := by exact_mod_cast hne
  unfold roundTo
  calc (nearestEven (t / 2 ^ quantum t) : ℚ) * 2 ^ quantum t
      ≤ ((2 ^ n : ℤ) : ℚ) * 2 ^ quantum t := mul_le_mul_of_nonneg_right hq hP.le
    _ = 1 := by rw [← hinv]; field_simp

theorem eta_facts (L σ : ℚ) (hL : 1 / 2 ^ 500 ≤ L) (hσ : σ ≤ 2 ^ 514) :
    (1 : ℚ) / 2 ^ 1075 ≤ L / 2 ^ 100 ∧ (1 : ℚ) / 2 ^ 1075 ≤ L ^ 2 / 2 ^ 75 ∧
      (1 : ℚ) / 2 ^ 1075 * σ ≤ L / 2 ^ 60 := by
  have hL0 : (0 : ℚ) < 1 / 2 ^ 500 := by positivity
  refine ⟨?_, ?_, ?_⟩
  · calc (1 : ℚ) / 2 ^ 1075 ≤ 1 / 2 ^ 500 / 2 ^ 100 := by norm_num
      _ ≤ L / 2 ^ 100 := div_le_div_of_nonneg_right hL (by positivity)
  · have : (1 / 2 ^ 500 : ℚ) ^ 2 ≤ L ^ 2 := pow_le_pow_left₀ hL0.le hL 2
    calc (1 : ℚ) / 2 ^ 1075 ≤ (1 / 2 ^ 500) ^ 2 / 2 ^ 75 := by norm_num
      _ ≤ L ^ 2 / 2 ^ 75 := div_le_div_of_nonneg_right this (by positivity)
  · calc (1 : ℚ) / 2 ^ 1075 * σ ≤ 1 / 2 ^ 1075 * 2 ^ 514 :=
          mul_le_mul_of_nonneg_left hσ (by positivity)
      _ ≤ 1 / 2 ^ 500 / 2 ^ 60 := by norm_num
      _ ≤ L / 2 ^ 60 := div_le_div_of_nonneg_right hL (by positivity)

theorem abs_le_of_sq_le_pow (X : ℚ) (h : X ^ 2 ≤ 2 ^ 1025) : |X| ≤ 2 ^ 513 := by
  apply abs_le_of_sq_le_sq _ (by positivity)
  calc X ^ 2 ≤ 2 ^ 1025 := h
    _ ≤ (2 ^ 513) ^ 2 := by norm_num

/-- The speed limit on finite components `X`, `Y` whose computed magnitude
`σ` is finite and exceeds the limit `L ≥ 2 ^ -500`: the quotient `L / σ` is a
finite factor `ρ` with `0 < ρ ≤ 1`, both products are finite, and their exact
magnitude is within `2 ^ -50` of `L`, relatively. -/
theorem clamp_scaled (L X Y σ : ℚ) (hL : 1 / 2 ^ 500 ≤ L)
    (hs : sqrt (Number.fin X * Number.fin X + Number.fin Y * Number.fin Y) = Number.fin σ)
    (hσ : L < σ) :
    ∃ ρ : ℚ, Number.fin L / Number.fin σ = Number.fin ρ ∧ 0 < ρ ∧ ρ ≤ 1 ∧
      Number.fin X * Number.fin ρ = Number.fin (roundTo (X * ρ)) ∧
      Number.fin Y * Number.fin ρ = Number.fin (roundTo (Y * ρ)) ∧
      (L * (1 - 1 / 2 ^ 50)) ^ 2 ≤ roundTo (X * ρ) ^ 2 + roundTo (Y * ρ) ^ 2 ∧
      roundTo (X * ρ) ^ 2 + roundTo (Y * ρ) ^ 2 ≤ (L * (1 + 1 / 2 ^ 50)) ^ 2 := by
  have hL0 : 0 < L := lt_of_lt_of_le (by positivity) hL
  have hσ0 : 0 < σ := lt_trans hL0 hσ
  rcases hypot_cases X Y with hinf | ⟨σ', hs', hσ'0, hσ'514, hX, hY, hNup, hNlo⟩
  · rw [hinf] at hs; exact absurd hs (by simp)
  have hσσ : σ' = σ := by
    rw [hs'] at hs
    exact Number.fin.inj hs
  subst hσσ
  obtain ⟨hη1, hη2, hη3⟩ := eta_facts L σ' hL hσ'514
  have ht0 : 0 < L / σ' := div_pos hL0 hσ0
  have ht1 : L / σ' ≤ 1 := (div_le_one hσ0).mpr hσ.le
  have hηpos : (0 : ℚ) ≤ 1 / 2 ^ 1075 := by positivity
  have hησ : (1 : ℚ) / 2 ^ 1075 ≤ σ' := by
    have : L / 2 ^ 100 ≤ L := div_le_self hL0.le (one_le_pow₀ (by norm_num))
    linarith
  have hρ1 := roundTo_ge (L / σ') ht0.le
  have hρ2 := roundTo_le (L / σ') ht0.le
  obtain ⟨hρ0, hρle2, hlo, hup⟩ := clamp_algebra (1 / 2 ^ 1075) L σ' (roundTo (L / σ')) X Y
    (roundTo (X * roundTo (L / σ'))) (roundTo (Y * roundTo (L / σ'))) hL0 hσ hηpos hη1 hη2 hη3
    hNup (hNlo hησ) hρ1 hρ2 (roundTo_err _) (roundTo_err _)
  have hprod : ∀ Z : ℚ, Z ^ 2 ≤ 2 ^ 1025 →
      Number.fin Z * Number.fin (roundTo (L / σ')) =
        Number.fin (roundTo (Z * roundTo (L / σ'))) := by
    intro Z hZ
    rw [fin_mul_fin]
    apply ofRat_fin
    rw [abs_mul, abs_of_pos hρ0]
    calc |Z| * roundTo (L / σ') ≤ 2 ^ 513 * 2 :=
          mul_le_mul (abs_le_of_sq_le_pow Z hZ) hρle2 hρ0.le (by positivity)
      _ ≤ 2 ^ 1023 := by norm_num
  refine ⟨roundTo (L / σ'), ?_, hρ0, roundTo_le_one _ ht0 ht1, hprod X hX, hprod Y hY, hlo, hup⟩
  rw [fin_div_fin L σ' hσ0.ne']
  apply ofRat_fin
  rw [abs_of_pos ht0]
  exact le_trans ht1 (one_le_pow₀ (by norm_num))

/-- The speed limit on finite components `X`, `Y` for a limit
`L ≥ 2 ^ -500`: where the computed magnitude exceeds `L` the two products are
finite, and in both cases the exact magnitude of the resulting components is
at most `L * (1 + 2 ^ -50)`. -/
theorem clamp_le (L X Y : ℚ) (hL : 1 / 2 ^ 500 ≤ L) :
    (Number.fin L < sqrt (Number.fin X * Number.fin X + Number.fin Y * Number.fin Y) →
      ∃ wx wy : ℚ,
        Number.fin X * (Number.fin L /
          sqrt (Number.fin X * Number.fin X + Number.fin Y * Number.fin Y)) = Number.fin wx ∧
        Number.fin Y * (Number.fin L /
          sqrt (Number.fin X * Number.fin X + Number.fin Y * Number.fin Y)) = Number.fin wy ∧
        wx ^ 2 + wy ^ 2 ≤ (L * (1 + 1 / 2 ^ 50)) ^ 2) ∧
    (¬ Number.fin L < sqrt (Number.fin X * Number.fin X + Number.fin Y * Number.fin Y) →
      X ^ 2 + Y ^ 2 ≤ (L * (1 + 1 / 2 ^ 50)) ^ 2) := by
  have hL0 : 0 < L := lt_of_lt_of_le (by positivity) hL
  rcases hypot_cases X Y with hinf | ⟨σ, hs, hσ0, hσ514, hX, hY, hNup, hNlo⟩
  · rw [hinf]
    constructor
    · intro _
      refine ⟨0, 0, ?_, ?_, ?_⟩
      · rw [fin_div_inf, fin_mul_fin, mul_zero, ofRat_zero]
      · rw [fin_div_inf, fin_mul_fin, mul_zero, ofRat_zero]
      · have : (0 : ℚ) ^ 2 + 0 ^ 2 = 0 := by norm_num
        rw [this]; exact sq_nonneg _
    · intro h
      exact absurd (fin_lt_inf L) h
  · constructor
    · intro hlt
      have hlt' : L < σ := by rw [hs] at hlt; exact (fin_lt_fin L σ).mp hlt
      obtain ⟨ρ, hρ, -, -, hx, hy, -, hup⟩ := clamp_scaled L X Y σ hL hs hlt'
      refine ⟨roundTo (X * ρ), roundTo (Y * ρ), ?_, ?_, hup⟩
      · rw [hs, hρ, hx]
      · rw [hs, hρ, hy]
    · intro hnlt
      have hle : σ ≤ L := by
        rw [hs] at hnlt
        exact not_lt.mp (fun h => hnlt ((fin_lt_fin L σ).mpr h))
      obtain ⟨hη1, hη2, -⟩ := eta_facts L σ hL hσ514
      exact pass_algebra (1 / 2 ^ 1075) L σ (X ^ 2 + Y ^ 2) hle hσ0 (by positivity) hη1 hη2 hNup

theorem log_eq (q : ℚ) (e : ℤ) (hq : 0 < q) (h1 : (2 : ℚ) ^ e ≤ q) (h2 : q < (2 : ℚ) ^ (e + 1)) :
    Int.log 2 q = e := by
  have a1 : e ≤ Int.log 2 q := by
    rw [← Int.zpow_le_iff_le_log (by norm_num) hq]
    exact_mod_cast h1
  have a2 : Int.log 2 q < e + 1 := by
    rw [← Int.lt_zpow_iff_log_lt (by norm_num) hq]
    exact_mod_cast h2
  omega

/-- How a rounding is checked: `v` is a multiple of the unit in the last
place of the binade of `q` and lies less than half a unit from `q`. -/
theorem roundTo_eq (q v : ℚ) (e n : ℤ) (he : -1022 ≤ e) (h1 : (2 : ℚ) ^ e ≤ |q|)
    (h2 : |q| < (2 : ℚ) ^ (e + 1)) (hv : v = n * (2 : ℚ) ^ (e - 52))
    (hclose : |q - v| < (2 : ℚ) ^ (e - 52) / 2) : roundTo q = v := by
  have hq : 0 < |q| := lt_of_lt_of_le (two_zpow_pos e) h1
  have hlog := log_eq |q| e hq h1 h2
  have hquant : quantum q = e - 52 := by
    unfold quantum
    rw [hlog]
    exact max_eq_left (by omega)
  have hP := two_zpow_pos (e - 52)
  unfold roundTo
  rw [hquant, hv]
  congr 1
  have : nearestEven (q / 2 ^ (e - 52)) = n := by
    apply nearestEven_eq_of_close
    have e1 : q / 2 ^ (e - 52) - n = (q - v) / 2 ^ (e - 52) := by
      rw [hv]; field_simp; ring
    rw [e1, abs_div, abs_of_pos hP, div_lt_iff₀ hP]
    linarith
  exact_mod_cast this

theorem ofRat_eq (q v : ℚ) (e n : ℤ) (he : -1022 ≤ e) (h1 : (2 : ℚ) ^ e ≤ |q|)
    (h2 : |q| < (2 : ℚ) ^ (e + 1)) (hv : v = n * (2 : ℚ) ^ (e - 52))
    (hclose : |q - v| < (2 : ℚ) ^ (e - 52) / 2) (hfin : |v| < 2 ^ 1024) :
    ofRat q = Number.fin v := by
  have h := roundTo_eq q v e n he h1 h2 hv hclose
  rw [ofRat_of_lt q (by rw [h]; exact hfin), h]

theorem sqrtApprox_eq (τ y : ℚ) (e k : ℤ) (n : ℕ) (hτ : 0 < τ) (h1 : (2 : ℚ) ^ e ≤ τ)
    (h2 : τ < (2 : ℚ) ^ (e + 1)) (hk : k = 56 - e / 2)
    (hn1 : (n : ℚ) * n ≤ τ * 4 ^ k) (hn2 : τ * 4 ^ k < ((n : ℚ) + 1) * (n + 1))
    (hy : y = if (n : ℚ) * n = τ * 4 ^ k then (n : ℚ) / 2 ^ k else ((n : ℚ) + 1 / 2) / 2 ^ k) :
    sqrtApprox τ = y := by
  have hlog := log_eq τ e hτ h1 h2
  have hS0 : 0 ≤ τ * 4 ^ k := by positivity
  have hsq : Nat.sqrt ⌊τ * 4 ^ k⌋₊ = n := by
    symm
    rw [Nat.eq_sqrt]
    constructor
    · apply Nat.le_floor
      push_cast
      exact hn1
    · rw [Nat.floor_lt hS0]
      push_cast
      exact hn2
  unfold sqrtApprox
  simp only []
  rw [hlog, ← hk, hsq, hy]

theorem nearestEven_tie (m : ℚ) (n : ℤ) (heven : n % 2 = 0) (h : |m - n| = 1 / 2) :
    nearestEven m = n := by
  rcases abs_eq (by norm_num : (0 : ℚ) ≤ 1 / 2) |>.mp h with hp | hn
  · have hm : m = n + 1 / 2 := by linarith
    have hfl : ⌊m⌋ = n := by
      rw [Int.floor_eq_iff, hm]
      constructor <;> linarith
    unfold nearestEven
    rw [hfl]
    have e : m - (n : ℚ) = 1 / 2 := hp
    rw [e]
    simp [heven]
  · have hm : m = n - 1 / 2 := by linarith
    have hfl : ⌊m⌋ = n - 1 := by
      rw [Int.floor_eq_iff, hm]
      push_cast
      constructor <;> linarith
    unfold nearestEven
    rw [hfl]
    have e : m - ((n - 1 : ℤ) : ℚ) = 1 / 2 := by rw [hm]; push_cast; ring
    rw [e]
    have hodd : (n - 1) % 2 ≠ 0 := by omega
    simp [hodd]

/-- How a rounding at a tie is checked: `q` lies exactly half a unit from
`v`, whose significand `n` is even. -/
theorem roundTo_eq_tie (q v : ℚ) (e n : ℤ) (he : -1022 ≤ e) (h1 : (2 : ℚ) ^ e ≤ |q|)
    (h2 : |q| < (2 : ℚ) ^ (e + 1)) (hv : v = n * (2 : ℚ) ^ (e - 52)) (heven : n % 2 = 0)
    (htie : |q - v| = (2 : ℚ) ^ (e - 52) / 2) : roundTo q = v := by
  have hq : 0 < |q| := lt_of_lt_of_le (two_zpow_pos e) h1
  have hlog := log_eq |q| e hq h1 h2
  have hquant : quantum q = e - 52 := by
    unfold quantum
    rw [hlog]
    exact max_eq_left (by omega)
  have hP := two_zpow_pos (e - 52)
  unfold roundTo
  rw [hquant, hv]
  congr 1
  have : nearestEven (q / 2 ^ (e - 52)) = n := by
    apply nearestEven_tie _ _ heven
    have e1 : q / 2 ^ (e - 52) - n = (q - v) / 2 ^ (e - 52) := by
      rw [hv]; field_simp; ring
    rw [e1, abs_div, abs_of_pos hP, htie]
    field_simp
    ring
  exact_mod_cast this

theorem ofRat_eq_tie (q v : ℚ) (e n : ℤ) (he : -1022 ≤ e) (h1 : (2 : ℚ) ^ e ≤ |q|)
    (h2 : |q| < (2 : ℚ) ^ (e + 1)) (hv : v = n * (2 : ℚ) ^ (e - 52)) (heven : n % 2 = 0)
    (htie : |q - v| = (2 : ℚ) ^ (e - 52) / 2) (hfin : |v| < 2 ^ 1024) :
    ofRat q = Number.fin v := by
  have h := roundTo_eq_tie q v e n he h1 h2 hv heven htie
  rw [ofRat_of_lt q (by rw [h]; exact hfin), h]

/-- A result of magnitude at least `2 ^ 1025` overflows. -/
theorem ofRat_overflow (q : ℚ) (hq : 2 ^ 1025 ≤ q) : ofRat q = Number.inf false := by
  have hq0 : 0 ≤ q := le_trans (by positivity) hq
  rcases ofRat_nonneg_cases q hq0 with ⟨-, -, hlt⟩ | h
  · exfalso
    have h1 := roundTo_ge q hq0
    have h3 : q * (1 / 2) ≤ q * (1 - 1 / 2 ^ 53) := mul_le_mul_of_nonneg_left (by norm_num) hq0
    have h4 : (2 : ℚ) ^ 1025 = 2 * 2 ^ 1024 := by norm_num
    have h5 : (1 : ℚ) / 2 ^ 1075 < 2 ^ 1024 * (1 / 2 ^ 53) := by norm_num
    have h6 : q * (1 - 1 / 2 ^ 53) = q - q * (1 / 2 ^ 53) := by ring
    have h7 : (2 : ℚ) ^ 1025 * (1 - 1 / 2 ^ 53) ≤ q * (1 - 1 / 2 ^ 53) :=
      mul_le_mul_of_nonneg_right hq (by norm_num)
    have h8 : (2 : ℚ) ^ 1025 * (1 - 1 / 2 ^ 53) = 2 ^ 1024 + 2 ^ 1024 * (1 - 2 / 2 ^ 53) := by
      norm_num
    have h9 : (1 : ℚ) / 2 ^ 1075 < 2 ^ 1024 * (1 - 2 / 2 ^ 53) := by norm_num
    linarith
  · exact h

/-- A result of magnitude below `2 ^ -1075` underflows to zero. -/
theorem ofRat_underflow (q : ℚ) (hq : |q| < 1 / 2 ^ 1075) : ofRat q = Number.fin 0 := by
  by_cases h0 : q = 0
  · rw [h0, ofRat_zero]
  have hpos : 0 < |q| := abs_pos.mpr h0
  have hlog : Int.log 2 |q| < -1075 := by
    rw [← Int.lt_zpow_iff_log_lt (by norm_num) hpos]
    have : ((2 : ℕ) : ℚ) ^ (-1075 : ℤ) = 1 / 2 ^ 1075 := by
      rw [zpow_neg, one_div]; norm_cast
    rw [this]
    exact hq
  have hquant : quantum q = -1074 := by
    unfold quantum
    exact max_eq_right (by omega)
  have hr : roundTo q = 0 := by
    unfold roundTo
    rw [hquant]
    have : nearestEven (q / 2 ^ (-1074 : ℤ)) = 0 := by
      apply nearestEven_eq_of_close
      have hP : (0 : ℚ) < 2 ^ (-1074 : ℤ) := two_zpow_pos _
      rw [Int.cast_zero, sub_zero, abs_div, abs_of_pos hP, div_lt_iff₀ hP]
      have h74 : (2 : ℚ) ^ (-1074 : ℤ) = 1 / 2 ^ 1074 := by
        rw [zpow_neg, one_div]; norm_cast
      have : (1 : ℚ) / 2 * 2 ^ (-1074 : ℤ) = 1 / 2 ^ 1075 := by
        rw [h74]; norm_num
      rw [this]
      exact hq
    rw [this]
    simp
  rw [ofRat_of_lt q (by rw [hr]; norm_num), hr]

/-- A natural number below `2 ^ 53` is a binary64 value. -/
theorem ofRat_natCast (n : ℕ) (h : n < 2 ^ 53) : ofRat (n : ℚ) = Number.fin (n : ℚ) := by
  rcases Nat.eq_zero_or_pos n with h0 | hpos
  · subst h0
    simpa using ofRat_zero
  have hn0 : n ≠ 0 := hpos.ne'
  have hlog : Nat.log 2 n < 53 := Nat.log_lt_of_lt_pow hn0 h
  have hq : (0 : ℚ) < n := by exact_mod_cast hpos
  have h1 : (2 : ℚ) ^ ((Nat.log 2 n : ℕ) : ℤ) ≤ |(n : ℚ)| := by
    rw [abs_of_pos hq, zpow_natCast]
    exact_mod_cast Nat.pow_log_le_self 2 hn0
  have h2 : |(n : ℚ)| < (2 : ℚ) ^ (((Nat.log 2 n : ℕ) : ℤ) + 1) := by
    rw [abs_of_pos hq]
    have : (((Nat.log 2 n : ℕ) : ℤ) + 1) = ((Nat.log 2 n + 1 : ℕ) : ℤ) := by push_cast; ring
    rw [this, zpow_natCast]
    exact_mod_cast Nat.lt_pow_succ_log_self (by norm_num) n
  obtain ⟨d, hd⟩ : ∃ d : ℕ, Nat.log 2 n + d = 52 := ⟨52 - Nat.log 2 n, by omega⟩
  have hv : (n : ℚ) = ((n * 2 ^ d : ℕ) : ℤ) * (2 : ℚ) ^ (((Nat.log 2 n : ℕ) : ℤ) - 52) := by
    have e : (((Nat.log 2 n : ℕ) : ℤ) - 52) = -((d : ℕ) : ℤ) := by omega
    rw [e, zpow_neg, zpow_natCast]
    push_cast
    field_simp
  have hfin : |(n : ℚ)| < 2 ^ 1024 := by
    rw [abs_of_pos hq]
    have : (n : ℚ) < 2 ^ 53 := by exact_mod_cast h
    exact lt_trans this (by norm_num)
  exact ofRat_eq _ _ _ _ (by omega) h1 h2 hv
    (by rw [sub_self, abs_zero]; exact div_pos (two_zpow_pos _) (by norm_num)) hfin

theorem ofNat_fin (n : ℕ) (h : n < 2 ^ 53) : (OfNat.ofNat n : Number) = Number.fin (n : ℚ) :=
  ofRat_natCast n h

theorem zero_eq : (0 : Number) = Number.fin 0 := by
  rw [ofNat_fin 0 (by norm_num)]; norm_num

theorem nan_add (a : Number) : Number.nan + a = Number.nan := by
  cases a <;> rfl

theorem add_nan (a : Number) : a + Number.nan = Number.nan := by
  cases a <;> rfl

theorem nan_mul (a : Number) : Number.nan * a = Number.nan := by
  cases a <;> rfl

theorem sqrt_nan : sqrt Number.nan = Number.nan := rfl

theorem le_nan (a : Number) : le a Number.nan = false := by
  cases a <;> rfl

theorem nan_le (a : Number) : le Number.nan a = false := by
  cases a <;> rfl

end Float64
/-! ## Theorems : `findConnections` -/

namespace NeuralNetwork
set_option linter.unusedSectionVars false
variable {K : Type} [LinearOrderedField K]

theorem length_pushConnection (nodes : List (Node K)) (i : Nat) (c : Connection K) :
    (pushConnection nodes i c).length = nodes.length := by
  simp [pushConnection]

theorem connectionsOf_pushConnection (nodes : List (Node K)) (i k : Nat) (c : Connection K) :
    connectionsOf (pushConnection nodes i c) k =
      if i = k ∧ k < nodes.length then connectionsOf nodes k ++ [c] else connectionsOf nodes k := by
  unfold connectionsOf pushConnection
  rw [List.getElem?_modify]
  by_cases hk : k < nodes.length
  · rw [List.getElem?_eq_getElem hk]
    by_cases hik : i = k <;> simp [hik, hk]
  · rw [List.getElem?_eq_none (by omega)]
    simp [hk]

theorem positions_pushConnection (nodes : List (Node K)) (i : Nat) (c : Connection K) :
    positions (pushConnection nodes i c) = positions nodes := by
  unfold positions pushConnection
  apply List.ext_getElem?
  intro m
  simp only [List.getElem?_map, List.getElem?_modify]
  cases h : nodes[m]? with
  | none => simp
  | some a => by_cases him : i = m <;> simp [him]

theorem dist_eq_of_positions (sqrt : K → K) {s t : List (Node K)}
    (h : positions s = positions t) (i j : Nat) : dist sqrt s i j = dist sqrt t i j := by
  have hg : ∀ m : Nat, (s[m]?).map (fun (n : Node K) => (n.x, n.y))
      = (t[m]?).map (fun (n : Node K) => (n.x, n.y)) := by
    intro m
    have := congrArg (fun (l : List (K × K)) => l[m]?) h
    simpa [positions, List.getElem?_map] using this
  have hi := hg i
  have hj := hg j
  unfold dist nodeDistance
  cases hsi : s[i]? <;> cases hti : t[i]? <;> cases hsj : s[j]? <;> cases htj : t[j]? <;>
    simp_all

theorem dist_symm (sqrt : K → K) (s : List (Node K)) (i j : Nat) :
    dist sqrt s i j = dist sqrt s j i := by
  unfold dist nodeDistance
  cases s[i]? <;> cases s[j]? <;> simp
  congr 1
  ring

theorem connectPair_eq (sqrt : K → K) (cd : K) (i j : Nat) (st : List (Node K))
    (hi : i < st.length) (hj : j < st.length) :
    connectPair sqrt cd i j st =
      if dist sqrt st i j < cd then
        pushConnection
          (pushConnection st i
            { node := j, distance := dist sqrt st i j, strength := 1 - dist sqrt st i j / cd })
          j { node := i, distance := dist sqrt st i j, strength := 1 - dist sqrt st i j / cd }
      else st := by
  unfold connectPair dist
  rw [List.getElem?_eq_getElem hi, List.getElem?_eq_getElem hj]

theorem length_connectPair (sqrt : K → K) (cd : K) (i j : Nat) (st : List (Node K)) :
    (connectPair sqrt cd i j st).length = st.length := by
  unfold connectPair
  split
  · dsimp only
    split <;> simp [length_pushConnection]
  · rfl

theorem positions_connectPair (sqrt : K → K) (cd : K) (i j : Nat) (st : List (Node K)) :
    positions (connectPair sqrt cd i j st) = positions st := by
  unfold connectPair
  split
  · dsimp only
    split <;> simp [positions_pushConnection]
  · rfl

theorem connectionsOf_connectPair (sqrt : K → K) (cd : K) (i j k : Nat) (st : List (Node K))
    (hi : i < st.length) (hj : j < st.length) (hij : i ≠ j) :
    connectionsOf (connectPair sqrt cd i j st) k =
      connectionsOf st k ++
        (if dist sqrt st i j < cd then
          (if k = i then
            [{ node := j, distance := dist sqrt st i j, strength := 1 - dist sqrt st i j / cd }]
           else if k = j then
            [{ node := i, distance := dist sqrt st i j, strength := 1 - dist sqrt st i j / cd }]
           else [])
         else []) := by
  rw [connectPair_eq sqrt cd i j st hi hj]
  by_cases hc : dist sqrt st i j < cd
  · simp only [hc, if_true]
    rw [connectionsOf_pushConnection, connectionsOf_pushConnection, length_pushConnection]
    by_cases hki : k = i
    · subst hki
      have hjk : ¬ j = k := fun h => hij h.symm
      simp [hjk, hi]
    · by_cases hkj : k = j
      · subst hkj
        simp [hki, hj, hij]
      · have h1 : ¬ j = k := fun h => hkj h.symm
        have h2 : ¬ i = k := fun h => hki h.symm
        simp [hki, hkj, h1, h2]
  · simp [hc]

theorem length_scanPairs (sqrt : K → K) (cd : K) (L : List (Nat × Nat)) (st : List (Node K)) :
    (scanPairs sqrt cd L st).length = st.length := by
  induction L generalizing st with
  | nil => rfl
  | cons p L ih =>
    show (scanPairs sqrt cd L (connectPair sqrt cd p.1 p.2 st)).length = _
    rw [ih, length_connectPair]

theorem positions_scanPairs (sqrt : K → K) (cd : K) (L : List (Nat × Nat))
    (st : List (Node K)) : positions (scanPairs sqrt cd L st) = positions st := by
  induction L generalizing st with
  | nil => rfl
  | cons p L ih =>
    show positions (scanPairs sqrt cd L (connectPair sqrt cd p.1 p.2 st)) = _
    rw [ih, positions_connectPair]

theorem occurrences_scanPairs (sqrt : K → K) (cd : K) (L : List (Nat × Nat))
    (st : List (Node K)) (k m : Nat)
    (hL : ∀ p ∈ L, p.1 ≠ p.2 ∧ p.1 < st.length ∧ p.2 < st.length) :
    occurrences (scanPairs sqrt cd L st) k m =
      occurrences st k m +
        (if dist sqrt st k m < cd then
          L.countP (fun p => decide (p = (k, m))) + L.countP (fun p => decide (p = (m, k)))
         else 0) := by
  induction L generalizing st with
  | nil => simp [scanPairs]
  | cons p L ih =>
    obtain ⟨hne, h1, h2⟩ := hL p (List.mem_cons_self _ _)
    have hL' : ∀ q ∈ L, q.1 ≠ q.2 ∧ q.1 < (connectPair sqrt cd p.1 p.2 st).length ∧
        q.2 < (connectPair sqrt cd p.1 p.2 st).length := by
      intro q hq
      rw [length_connectPair]
      exact hL q (List.mem_cons_of_mem _ hq)
    show occurrences (scanPairs sqrt cd L (connectPair sqrt cd p.1 p.2 st)) k m = _
    rw [ih _ hL', dist_eq_of_positions sqrt (positions_connectPair sqrt cd p.1 p.2 st) k m]
    have hocc : occurrences (connectPair sqrt cd p.1 p.2 st) k m =
        occurrences st k m +
          (if dist sqrt st k m < cd then
            (if p = (k, m) then 1 else 0) + (if p = (m, k) then 1 else 0) else 0) := by
      unfold occurrences
      rw [connectionsOf_connectPair sqrt cd p.1 p.2 k st h1 h2 hne, List.countP_append]
      congr 1
      obtain ⟨a, b⟩ := p
      simp only [Prod.mk.injEq] at *
      by_cases hka : k = a
      · subst hka
        by_cases hmb : m = b
        · subst hmb
          have : ¬ (k = m ∧ m = k) := fun h => hne h.1
          by_cases hc : dist sqrt st k m < cd <;> simp [hc, this]
        · have e1 : ¬ (k = k ∧ b = m) := fun h => hmb h.2.symm
          have e2 : ¬ (k = m ∧ b = k) := fun h => hne h.2.symm
          have e3 : ¬ b = m := fun h => hmb h.symm
          by_cases hc : dist sqrt st k b < cd <;> simp [hc, e1, e2, e3]
      · by_cases hkb : k = b
        · subst hkb
          by_cases hma : m = a
          · subst hma
            have e1 : ¬ (m = k ∧ k = m) := fun h => hne h.1
            rw [dist_symm sqrt st k m]
            by_cases hc : dist sqrt st m k < cd <;> simp [hc, e1, hka]
          · have e1 : ¬ (a = k ∧ k = m) := fun h => hka h.1.symm
            have e2 : ¬ (a = m ∧ k = k) := fun h => hma h.1.symm
            have e3 : ¬ a = m := fun h => hma h.symm
            by_cases hc : dist sqrt st a k < cd <;> simp [hc, e1, e2, e3, hka]
        · have e1 : ¬ (a = k ∧ b = m) := fun h => hka h.1.symm
          have e2 : ¬ (a = m ∧ b = k) := fun h => hkb h.2.symm
          by_cases hc : dist sqrt st a b < cd <;> simp [hc, e1, e2, hka, hkb]
    rw [hocc, List.countP_cons, List.countP_cons]
    by_cases hc : dist sqrt st k m < cd
    · simp only [hc, if_true, decide_eq_true_eq]
      omega
    · simp [hc]

theorem entries_scanPairs (sqrt : K → K) (cd : K) (L : List (Nat × Nat))
    (st : List (Node K)) (k : Nat) (c : Connection K)
    (hL : ∀ p ∈ L, p.1 ≠ p.2 ∧ p.1 < st.length ∧ p.2 < st.length)
    (hc : c ∈ connectionsOf (scanPairs sqrt cd L st) k) :
    c ∈ connectionsOf st k ∨
      (c.node < st.length ∧ c.distance = dist sqrt st k c.node ∧
        c.strength = 1 - dist sqrt st k c.node / cd ∧ dist sqrt st k c.node < cd) := by
  induction L generalizing st with
  | nil => exact Or.inl hc
  | cons p L ih =>
    obtain ⟨hne, h1, h2⟩ := hL p (List.mem_cons_self _ _)
    have hL' : ∀ q ∈ L, q.1 ≠ q.2 ∧ q.1 < (connectPair sqrt cd p.1 p.2 st).length ∧
        q.2 < (connectPair sqrt cd p.1 p.2 st).length := by
      intro q hq
      rw [length_connectPair]
      exact hL q (List.mem_cons_of_mem _ hq)
    have hpos := positions_connectPair sqrt cd p.1 p.2 st
    rcases ih (connectPair sqrt cd p.1 p.2 st) hL' hc with h | h
    · rw [connectionsOf_connectPair sqrt cd p.1 p.2 k st h1 h2 hne, List.mem_append] at h
      rcases h with h | h
      · exact Or.inl h
      · right
        by_cases hd : dist sqrt st p.1 p.2 < cd
        · simp only [hd, if_true] at h
          by_cases hk1 : k = p.1
          · simp only [hk1, if_true, List.mem_singleton] at h
            subst h
            subst hk1
            exact ⟨h2, rfl, rfl, hd⟩
          · by_cases hk2 : k = p.2
            · subst hk2
              simp only [hk1, if_true, if_false, List.mem_singleton] at h
              subst h
              exact ⟨h1, dist_symm sqrt st _ _, by rw [dist_symm sqrt st p.1 p.2],
                by rw [dist_symm sqrt st p.2 p.1]; exact hd⟩
            · simp [hk1, hk2] at h
        · simp [hd] at h
    · right
      rw [length_connectPair, dist_eq_of_positions sqrt hpos] at h
      exact h

theorem mem_allPairs (n a b : Nat) : (a, b) ∈ allPairs n ↔ a < b ∧ b < n := by
  simp only [allPairs, List.mem_flatMap, List.mem_range, List.mem_map, List.mem_range', Prod.mk.injEq]
  constructor
  · rintro ⟨i, hi, j, ⟨t, ht, rfl⟩, rfl, rfl⟩
    omega
  · rintro ⟨h1, h2⟩
    exact ⟨a, by omega, b, ⟨b - (a + 1), by omega, by omega⟩, rfl, rfl⟩

theorem nodup_allPairs (n : Nat) : (allPairs n).Nodup := by
  unfold allPairs
  rw [List.nodup_flatMap]
  constructor
  · intro i _
    refine (List.nodup_range' _ _).map ?_
    intro a b h
    exact (Prod.mk.inj h).2
  · refine (List.nodup_range n).imp ?_
    intro a b hab
    intro x hxa hxb
    simp only [List.mem_map] at hxa hxb
    obtain ⟨j, _, rfl⟩ := hxa
    obtain ⟨j', _, h⟩ := hxb
    exact hab (Prod.mk.inj h).1.symm

theorem findConnections_eq_scanPairs (sqrt : K → K) (nodes : List (Node K)) (cd : K) :
    findConnections sqrt nodes cd =
      scanPairs sqrt cd (allPairs nodes.length)
        (nodes.map (fun n => { n with connections := [] })) := by
  unfold findConnections allPairs scanPairs innerLoop
  generalize nodes.map (fun n => { n with connections := [] }) = st
  generalize nodes.length = n
  generalize List.range n = l
  induction l generalizing st with
  | nil => rfl
  | cons i l ih =>
    rw [List.foldl_cons, List.flatMap_cons, List.foldl_append, ih, List.foldl_map]

theorem occurrences_cleared (nodes : List (Node K)) (i j : Nat) :
    occurrences (nodes.map (fun n => { n with connections := [] })) i j = 0 := by
  unfold occurrences connectionsOf
  rw [List.getElem?_map]
  cases nodes[i]? <;> simp

theorem connectionsOf_cleared (nodes : List (Node K)) (i : Nat) :
    connectionsOf (nodes.map (fun n => { n with connections := [] })) i = [] := by
  unfold connectionsOf
  rw [List.getElem?_map]
  cases nodes[i]? <;> simp

theorem positions_cleared (nodes : List (Node K)) :
    positions (nodes.map (fun n => { n with connections := [] })) = positions nodes := by
  simp [positions]

theorem allPairs_ok (nodes : List (Node K)) :
    ∀ p ∈ allPairs nodes.length, p.1 ≠ p.2 ∧
      p.1 < (nodes.map (fun n => { n with connections := [] })).length ∧
      p.2 < (nodes.map (fun n => { n with connections := [] })).length := by
  rintro ⟨a, b⟩ hp
  rw [mem_allPairs] at hp
  simp only [List.length_map]
  omega

theorem countP_eq_of_nodup (L : List (Nat × Nat)) (a : Nat × Nat) (h : L.Nodup) :
    L.countP (fun p => decide (p = a)) = if a ∈ L then 1 else 0 := by
  induction L with
  | nil => simp
  | cons q L ih =>
    rw [List.nodup_cons] at h
    rw [List.countP_cons, ih h.2]
    by_cases hq : q = a
    · subst hq
      simp [h.1]
    · have hq' : ¬ a = q := fun e => hq e.symm
      simp [hq, hq']

theorem count_allPairs (n i j : Nat) (hi : i < n) (hj : j < n) :
    (allPairs n).countP (fun p => decide (p = (i, j))) +
      (allPairs n).countP (fun p => decide (p = (j, i))) = if i ≠ j then 1 else 0 := by
  rw [countP_eq_of_nodup _ _ (nodup_allPairs n), countP_eq_of_nodup _ _ (nodup_allPairs n)]
  simp only [mem_allPairs]
  rcases Nat.lt_trichotomy i j with h | h | h
  · have h1 : i < j ∧ j < n := ⟨h, hj⟩
    have h2 : ¬ (j < i ∧ i < n) := by omega
    have h3 : i ≠ j := by omega
    simp [h1, h2, h3]
  · subst h
    simp
  · have h1 : ¬ (i < j ∧ j < n) := by omega
    have h2 : j < i ∧ i < n := ⟨h, hi⟩
    have h3 : i ≠ j := by omega
    simp [h1, h2, h3]

theorem occurrences_findConnections (sqrt : K → K) (nodes : List (Node K)) (cd : K)
    (i j : Nat) (hi : i < nodes.length) (hj : j < nodes.length) :
    occurrences (findConnections sqrt nodes cd) i j =
      if i ≠ j ∧ dist sqrt nodes i j < cd then 1 else 0 := by
  rw [findConnections_eq_scanPairs, occurrences_scanPairs sqrt cd _ _ i j (allPairs_ok nodes),
    occurrences_cleared, dist_eq_of_positions sqrt (positions_cleared nodes),
    count_allPairs _ i j hi hj]
  by_cases hij : i = j <;> by_cases hc : dist sqrt nodes i j < cd <;> simp [hij, hc]

theorem entries_findConnections (sqrt : K → K) (nodes : List (Node K)) (cd : K)
    (i : Nat) (c : Connection K) (hc : c ∈ connectionsOf (findConnections sqrt nodes cd) i) :
    c.node < nodes.length ∧ c.distance = dist sqrt nodes i c.node ∧
      c.strength = 1 - dist sqrt nodes i c.node / cd ∧ dist sqrt nodes i c.node < cd := by
  rw [findConnections_eq_scanPairs] at hc
  rcases entries_scanPairs sqrt cd _ _ i c (allPairs_ok nodes) hc with h | h
  · rw [connectionsOf_cleared] at h
    exact absurd h (List.not_mem_nil _)
  · rw [List.length_map, dist_eq_of_positions sqrt (positions_cleared nodes)] at h
    exact h

/-- Claim C1: after `findConnections`, for nodes `i` and `j` of the list, node `j`
occurs in the connections of node `i` exactly once if `i ≠ j` and the Euclidean
distance `d(i,j)` is below `connectionDistance`, and not at all otherwise; every
entry for `j` carries the distance `d(i,j)` and the strength
`1 - d(i,j) / connectionDistance`; every entry refers to a node of the list. -/
theorem findConnections_pairs (nodes : List (Node ℝ)) (cd : ℝ) (i j : Nat)
    (hi : i < nodes.length) (hj : j < nodes.length) :
    occurrences (findConnections Real.sqrt nodes cd) i j =
        (if i ≠ j ∧ dist Real.sqrt nodes i j < cd then 1 else 0) ∧
    (∀ c ∈ connectionsOf (findConnections Real.sqrt nodes cd) i, c.node = j →
        c.distance = dist Real.sqrt nodes i j ∧
        c.strength = 1 - dist Real.sqrt nodes i j / cd) ∧
    (∀ c ∈ connectionsOf (findConnections Real.sqrt nodes cd) i, c.node < nodes.length) := by
  refine ⟨occurrences_findConnections _ nodes cd i j hi hj, ?_, ?_⟩
  · intro c hc hcj
    have h := entries_findConnections _ nodes cd i c hc
    rw [hcj] at h
    exact ⟨h.2.1, h.2.2.1⟩
  · intro c hc
    exact (entries_findConnections _ nodes cd i c hc).1

theorem dist_scenario (i j : Nat) (hi : i < 10) (hj : j < 10) :
    dist Real.sqrt scenarioNodes i j < 50 ↔ (i = j ∨ (i = 0 ∧ j = 1) ∨ (i = 1 ∧ j = 0)) := by
  interval_cases i <;> interval_cases j <;>
    simp [dist, nodeDistance, scenarioNodes, Real.sqrt_mul_self_eq_abs] <;> norm_num

/-- Claim C1, the scenario of the specification: ten nodes, the first two at
(0,0) and (30,0), the others far away, `connectionDistance = 50`.  The only
pair recorded is that of nodes 0 and 1, with distance 30 and strength 2/5. -/
theorem findConnections_scenario :
    scenarioNodes.length = 10 ∧
    (∀ i j, i < 10 → j < 10 →
      occurrences (findConnections Real.sqrt scenarioNodes 50) i j =
        if (i = 0 ∧ j = 1) ∨ (i = 1 ∧ j = 0) then 1 else 0) ∧
    (∀ c ∈ connectionsOf (findConnections Real.sqrt scenarioNodes 50) 0, c.node = 1 →
      c.distance = 30 ∧ c.strength = 2 / 5) ∧
    (∀ c ∈ connectionsOf (findConnections Real.sqrt scenarioNodes 50) 1, c.node = 0 →
      c.distance = 30 ∧ c.strength = 2 / 5) := by
  have hd01 : dist Real.sqrt scenarioNodes 0 1 = 30 := by
    simp [dist, nodeDistance, scenarioNodes, Real.sqrt_mul_self_eq_abs]
  have hd10 : dist Real.sqrt scenarioNodes 1 0 = 30 := by
    simp [dist, nodeDistance, scenarioNodes, Real.sqrt_mul_self_eq_abs]
  refine ⟨rfl, ?_, ?_, ?_⟩
  · intro i j hi hj
    rw [(findConnections_pairs scenarioNodes 50 i j hi hj).1]
    have hd := dist_scenario i j hi hj
    by_cases hij : i = j
    · subst hij
      have : ¬ (i = 0 ∧ i = 1 ∨ i = 1 ∧ i = 0) := by omega
      simp [this]
    · by_cases h : (i = 0 ∧ j = 1) ∨ (i = 1 ∧ j = 0)
      · have h' : dist Real.sqrt scenarioNodes i j < 50 := hd.2 (Or.inr h)
        simp [hij, h, h']
      · have h' : ¬ dist Real.sqrt scenarioNodes i j < 50 := fun hlt =>
          (hd.1 hlt).elim hij h
        simp [hij, h, h']
  · intro c hc hn
    have h := (findConnections_pairs scenarioNodes 50 0 1 (by decide) (by decide)).2.1 c hc hn
    rw [hd01] at h
    exact ⟨h.1, by rw [h.2]; norm_num⟩
  · intro c hc hn
    have h := (findConnections_pairs scenarioNodes 50 1 0 (by decide) (by decide)).2.1 c hc hn
    rw [hd10] at h
    exact ⟨h.1, by rw [h.2]; norm_num⟩

theorem dist_nonneg (nodes : List (Node ℝ)) (i j : Nat) : 0 ≤ dist Real.sqrt nodes i j := by
  unfold dist nodeDistance
  cases nodes[i]? <;> cases nodes[j]? <;> simp [Real.sqrt_nonneg]

/-- Claim C2: for `connectionDistance > 0` every connection entry produced by
`findConnections` has `0 ≤ distance < connectionDistance` and
`0 < strength ≤ 1`; for `connectionDistance ≤ 0` no connection is produced. -/
theorem findConnections_strength_bounds (nodes : List (Node ℝ)) (cd : ℝ) :
    (0 < cd → ∀ i, ∀ c ∈ connectionsOf (findConnections Real.sqrt nodes cd) i,
      0 ≤ c.distance ∧ c.distance < cd ∧ 0 < c.strength ∧ c.strength ≤ 1) ∧
    (cd ≤ 0 → ∀ i, connectionsOf (findConnections Real.sqrt nodes cd) i = []) := by
  constructor
  · intro hcd i c hc
    obtain ⟨_, hdist, hstr, hlt⟩ := entries_findConnections _ nodes cd i c hc
    have h0 := dist_nonneg nodes i c.node
    rw [hdist, hstr]
    refine ⟨h0, hlt, ?_, ?_⟩
    · have : dist Real.sqrt nodes i c.node / cd < 1 := (div_lt_one hcd).2 hlt
      linarith
    · have : 0 ≤ dist Real.sqrt nodes i c.node / cd := div_nonneg h0 hcd.le
      linarith
  · intro hcd i
    rw [List.eq_nil_iff_forall_not_mem]
    intro c hc
    obtain ⟨_, _, _, hlt⟩ := entries_findConnections _ nodes cd i c hc
    have h0 := dist_nonneg nodes i c.node
    linarith

/-- Claim C2 on the scenario nodes: a connection is produced there, and every
entry satisfies the bounds. -/
theorem findConnections_strength_bounds_scenario :
    (0 : ℝ) < 50 ∧
    occurrences (findConnections Real.sqrt scenarioNodes 50) 0 1 = 1 ∧
    ∀ i, ∀ c ∈ connectionsOf (findConnections Real.sqrt scenarioNodes 50) i,
      0 ≤ c.distance ∧ c.distance < 50 ∧ 0 < c.strength ∧ c.strength ≤ 1 :=
  ⟨by norm_num, by
    rw [occurrences_findConnections _ _ _ 0 1 (by decide) (by decide)]
    simp [dist, nodeDistance, scenarioNodes, Real.sqrt_mul_self_eq_abs]
    norm_num,
   (findConnections_strength_bounds scenarioNodes 50).1 (by norm_num)⟩

end NeuralNetwork
/-! ## Theorems : speed limit and pointer term -/

section SpeedLimit

theorem sqrt_of_sq (a b : ℝ) (hb : 0 ≤ b) (h : a = b * b) : Real.sqrt a = b := by
  rw [h, Real.sqrt_mul_self hb]

end SpeedLimit

namespace CommunityTiers

/-- Claim C5 at its failing input: the pointer was recorded at (50, 50), the
`mouseleave` handler runs and leaves `mouseX`, `mouseY` as they were, and the
next `updateParticle` still pushes a resting particle at (60, 50): its `speedX`
enters the speed limit as 0.54 instead of 0. -/
theorem pointerTerm_after_mouseleave :
    (onMouseLeave Real.sqrt (fun _ => 0) hoveredTiers).hoveredTier = none ∧
    (onMouseLeave Real.sqrt (fun _ => 0) hoveredTiers).mouseX = 50 ∧
    (onMouseLeave Real.sqrt (fun _ => 0) hoveredTiers).mouseY = 50 ∧
    (onMouseLeave Real.sqrt (fun _ => 0) hoveredTiers).particles = [restingParticle] ∧
    restingParticle.speedX = 0 ∧
    (pointerTerm Real.sqrt (onMouseLeave Real.sqrt (fun _ => 0) hoveredTiers)
      restingParticle).speedX = 0.54 := by
  have h10 : Real.sqrt 100 = 10 := sqrt_of_sq _ 10 (by norm_num) (by norm_num)
  refine ⟨rfl, rfl, rfl, ?_, rfl, ?_⟩
  · simp [onMouseLeave, updateParticleColors, hoveredTiers, restingParticle, List.mapIdx_cons]
  · simp [onMouseLeave, updateParticleColors, hoveredTiers, restingParticle, pointerTerm]
    have h : Real.sqrt ((60 - 50) * (60 - 50)) = 10 := by
      rw [show ((60 : ℝ) - 50) * (60 - 50) = 100 by norm_num]
      exact h10
    rw [h]
    norm_num

end CommunityTiers

namespace Particles

open Float64 (Number)

theorem speedX_moveAndWrap (m : Motion Number) (p : Particle Number) :
    (moveAndWrap m p).speedX = p.speedX ∧ (moveAndWrap m p).speedY = p.speedY ∧
      (moveAndWrap m p).inPattern = p.inPattern := ⟨rfl, rfl, rfl⟩

theorem inPattern_patternVelocity (m : Motion Number) (p : Particle Number) :
    (patternVelocity m p).inPattern = p.inPattern := by
  unfold patternVelocity
  simp only []
  split_ifs <;> rfl

theorem inPattern_mouseAttraction (m : Motion Number) (p : Particle Number) :
    (mouseAttraction m p).inPattern = p.inPattern := by
  unfold mouseAttraction
  split
  · simp only []
    split_ifs <;> rfl
  · rfl

theorem inPattern_freeForces (m : Motion Number) (r : Draws Number) (p : Particle Number) :
    (freeForces m r p).inPattern = p.inPattern := by
  unfold freeForces
  simp only []
  split_ifs
  · exact inPattern_mouseAttraction m p
  · exact inPattern_mouseAttraction m p

theorem inPattern_clampSpeed (L : Number) (p : Particle Number) :
    (clampSpeed L p).inPattern = p.inPattern := by
  unfold clampSpeed
  simp only []
  split_ifs <;> rfl

theorem inPattern_updateParticle (m : Motion Number) (r : Draws Number) (p : Particle Number) :
    (updateParticle m r p).inPattern = p.inPattern := by
  unfold updateParticle
  rw [(speedX_moveAndWrap m _).2.2]
  split_ifs
  · exact inPattern_patternVelocity m p
  · rw [inPattern_clampSpeed, inPattern_freeForces]

theorem updateParticle_free (m : Motion Number) (r : Draws Number) (p : Particle Number)
    (hfree : ¬ (m.patternActive = true ∧ p.inPattern = true)) :
    (updateParticle m r p).speedX = (clampSpeed m.maxSpeed (freeForces m r p)).speedX ∧
    (updateParticle m r p).speedY = (clampSpeed m.maxSpeed (freeForces m r p)).speedY := by
  have h : (m.patternActive && p.inPattern) = false := by
    cases hm : m.patternActive <;> cases hp : p.inPattern <;> simp_all
  unfold updateParticle
  rw [h]
  exact ⟨rfl, rfl⟩

theorem clampSpeed_of_lt (L : Number) (p : Particle Number) (h : L < speed p) :
    (clampSpeed L p).speedX = p.speedX * (L / speed p) ∧
    (clampSpeed L p).speedY = p.speedY * (L / speed p) := by
  unfold speed at h
  unfold clampSpeed speed
  simp only [gt_iff_lt, h, if_true, and_self]

theorem clampSpeed_of_not_lt (L : Number) (p : Particle Number) (h : ¬ L < speed p) :
    clampSpeed L p = p := by
  unfold speed at h
  unfold clampSpeed
  simp only [gt_iff_lt, h, if_false]

theorem updateParticles_getElem (m : Motion Number) (draws : Nat → Draws Number)
    (particles : List (Particle Number)) (i : Nat) (p : Particle Number)
    (hp : particles[i]? = some p) :
    (updateParticles m draws particles)[i]? = some (updateParticle m (draws i) p) := by
  unfold updateParticles
  rw [List.getElem?_mapIdx, hp]
  rfl

/-- The speed limit for one particle: a particle of the free-motion branch
whose velocity after the force contributions is finite leaves the update with
a finite velocity of magnitude at most `maxSpeed * (1 + 2 ^ -50)`, for every
finite `maxSpeed ≥ 2 ^ -500`. -/
theorem updateParticle_free_speed_le (m : Motion Number) (r : Draws Number)
    (p : Particle Number) (L vx vy : ℚ) (hL : m.maxSpeed = Number.fin L)
    (hmin : 1 / 2 ^ 500 ≤ L) (hfree : ¬ (m.patternActive = true ∧ p.inPattern = true))
    (hvx : (freeForces m r p).speedX = Number.fin vx)
    (hvy : (freeForces m r p).speedY = Number.fin vy) :
    ∃ wx wy : ℚ, (updateParticle m r p).speedX = Number.fin wx ∧
      (updateParticle m r p).speedY = Number.fin wy ∧
      wx ^ 2 + wy ^ 2 ≤ (L * (1 + 1 / 2 ^ 50)) ^ 2 := by
  obtain ⟨hx, hy⟩ := updateParticle_free m r p hfree
  rw [hx, hy, hL]
  obtain ⟨hclamp, hpass⟩ := Float64.clamp_le L vx vy hmin
  by_cases hlt : Number.fin L < speed (freeForces m r p)
  · obtain ⟨h1, h2⟩ := clampSpeed_of_lt _ _ hlt
    rw [h1, h2]
    unfold speed at hlt ⊢
    rw [hvx, hvy] at hlt ⊢
    exact hclamp hlt
  · rw [clampSpeed_of_not_lt _ _ hlt]
    unfold speed at hlt
    rw [hvx, hvy] at hlt
    exact ⟨vx, vy, hvx, hvy, hpass hlt⟩

end Particles

namespace Float64

theorem hypot_eq (X Y a b t y s : ℚ) (ha : ofRat (X * X) = Number.fin a)
    (hb : ofRat (Y * Y) = Number.fin b) (ht : ofRat (a + b) = Number.fin t) (ht0 : 0 < t)
    (hy : sqrtApprox t = y) (hs : ofRat y = Number.fin s) :
    sqrt (Number.fin X * Number.fin X + Number.fin Y * Number.fin Y) = Number.fin s := by
  rw [fin_mul_fin, fin_mul_fin, ha, hb, fin_add_fin, ht, sqrt_fin_pos t ht0, hy, hs]

/-- The speed limit where it scales, with the signs of the components: the
statement of `clamp_scaled` and, for each component, that the rounded product
has the sign of the component or is zero. -/
theorem clamp_scaled_signs (L X Y σ : ℚ) (hL : 1 / 2 ^ 500 ≤ L)
    (hs : sqrt (Number.fin X * Number.fin X + Number.fin Y * Number.fin Y) = Number.fin σ)
    (hσ : L < σ) :
    ∃ ρ wx wy : ℚ, Number.fin L / Number.fin σ = Number.fin ρ ∧ 0 < ρ ∧ ρ ≤ 1 ∧
      Number.fin X * Number.fin ρ = Number.fin wx ∧
      Number.fin Y * Number.fin ρ = Number.fin wy ∧
      (0 ≤ X → 0 ≤ wx) ∧ (X ≤ 0 → wx ≤ 0) ∧ (0 ≤ Y → 0 ≤ wy) ∧ (Y ≤ 0 → wy ≤ 0) ∧
      (L * (1 - 1 / 2 ^ 50)) ^ 2 ≤ wx ^ 2 + wy ^ 2 ∧
      wx ^ 2 + wy ^ 2 ≤ (L * (1 + 1 / 2 ^ 50)) ^ 2 := by
  obtain ⟨ρ, hρ, hρ0, hρ1, hx, hy, hlo, hup⟩ := clamp_scaled L X Y σ hL hs hσ
  exact ⟨ρ, roundTo (X * ρ), roundTo (Y * ρ), hρ, hρ0, hρ1, hx, hy,
    fun h => roundTo_nonneg _ (mul_nonneg h hρ0.le),
    fun h => roundTo_nonpos _ (mul_nonpos_of_nonpos_of_nonneg h hρ0.le),
    fun h => roundTo_nonneg _ (mul_nonneg h hρ0.le),
    fun h => roundTo_nonpos _ (mul_nonpos_of_nonpos_of_nonneg h hρ0.le), hlo, hup⟩

end Float64

namespace Particles

open Float64 (Number)

theorem freeForces_plain (m : Motion Number) (r : Draws Number) (p : Particle Number)
    (hx : m.mouseX = none) (hg : ¬ r.gate < 0.05) :
    freeForces m r p =
      { p with speedX := p.speedX * m.friction, speedY := p.speedY * m.friction } := by
  unfold freeForces mouseAttraction
  rw [hx]
  simp only [hg, if_false]

theorem clampSpeed_eval (L X Y s r wx wy : ℚ) (p : Particle Number)
    (hX : p.speedX = Number.fin X) (hY : p.speedY = Number.fin Y)
    (hs : speed p = Number.fin s) (hlt : L < s) (hs0 : s ≠ 0)
    (hr : Float64.ofRat (L / s) = Number.fin r)
    (hwx : Float64.ofRat (X * r) = Number.fin wx)
    (hwy : Float64.ofRat (Y * r) = Number.fin wy) :
    Number.fin L / speed p = Number.fin r ∧
    (clampSpeed (Number.fin L) p).speedX = Number.fin wx ∧
    (clampSpeed (Number.fin L) p).speedY = Number.fin wy := by
  have hlt' : Number.fin L < speed p := by rw [hs]; exact (Float64.fin_lt_fin L s).mpr hlt
  obtain ⟨h1, h2⟩ := clampSpeed_of_lt _ _ hlt'
  have hq : Number.fin L / speed p = Number.fin r := by
    rw [hs, Float64.fin_div_fin L s hs0, hr]
  rw [h1, h2, hq, hX, hY, Float64.fin_mul_fin, Float64.fin_mul_fin, hwx, hwy]
  exact ⟨rfl, rfl, rfl⟩

/-- The speed limit of `updateParticles` on a particle with finite velocity
`(X, Y)` and finite computed speed `σ`. -/
theorem clampSpeed_scales (L X Y σ : ℚ) (p : Particle Number)
    (hX : p.speedX = Number.fin X) (hY : p.speedY = Number.fin Y)
    (hs : speed p = Number.fin σ) :
    (L < σ → 1 / 2 ^ 500 ≤ L →
      ∃ ρ wx wy : ℚ, Number.fin L / speed p = Number.fin ρ ∧ 0 < ρ ∧ ρ ≤ 1 ∧
        (clampSpeed (Number.fin L) p).speedX = Number.fin X * Number.fin ρ ∧
        (clampSpeed (Number.fin L) p).speedY = Number.fin Y * Number.fin ρ ∧
        (clampSpeed (Number.fin L) p).speedX = Number.fin wx ∧
        (clampSpeed (Number.fin L) p).speedY = Number.fin wy ∧
        (0 ≤ X → 0 ≤ wx) ∧ (X ≤ 0 → wx ≤ 0) ∧ (0 ≤ Y → 0 ≤ wy) ∧ (Y ≤ 0 → wy ≤ 0) ∧
        (L * (1 - 1 / 2 ^ 50)) ^ 2 ≤ wx ^ 2 + wy ^ 2 ∧
        wx ^ 2 + wy ^ 2 ≤ (L * (1 + 1 / 2 ^ 50)) ^ 2) ∧
    (σ ≤ L → clampSpeed (Number.fin L) p = p) := by
  constructor
  · intro hlt hmin
    have hs' := hs
    unfold speed at hs'
    rw [hX, hY] at hs'
    obtain ⟨ρ, wx, wy, hρ, hρ0, hρ1, hx, hy, s1, s2, s3, s4, hlo, hup⟩ :=
      Float64.clamp_scaled_signs L X Y σ hmin hs' hlt
    have hlt' : Number.fin L < speed p := by rw [hs]; exact (Float64.fin_lt_fin L σ).mpr hlt
    obtain ⟨h1, h2⟩ := clampSpeed_of_lt _ _ hlt'
    have hq : Number.fin L / speed p = Number.fin ρ := by rw [hs, hρ]
    refine ⟨ρ, wx, wy, hq, hρ0, hρ1, ?_, ?_, ?_, ?_, s1, s2, s3, s4, hlo, hup⟩
    · rw [h1, hq, hX]
    · rw [h2, hq, hY]
    · rw [h1, hq, hX, hx]
    · rw [h2, hq, hY, hy]
  · intro hle
    apply clampSpeed_of_not_lt
    rw [hs]
    exact fun h => absurd ((Float64.fin_lt_fin L σ).mp h) (not_lt.mpr hle)

end Particles

namespace CommunityTiers

open Float64 (Number)

theorem limitSpeed_of_lt (L : Number) (p : Particle Number) (h : L < speed p) :
    (limitSpeed L p).speedX = p.speedX * (L / speed p) ∧
    (limitSpeed L p).speedY = p.speedY * (L / speed p) := by
  unfold speed at h
  unfold limitSpeed speed
  simp only [gt_iff_lt, h, if_true, and_self]

theorem limitSpeed_of_not_lt (L : Number) (p : Particle Number) (h : ¬ L < speed p) :
    limitSpeed L p = p := by
  unfold speed at h
  unfold limitSpeed
  simp only [gt_iff_lt, h, if_false]

theorem updateParticle_speeds (t : Tiers Number) (c : Particle Number) :
    (updateParticle t c).speedX = (limitSpeed t.hoverFlowSpeed (pointerForce t c)).speedX ∧
    (updateParticle t c).speedY = (limitSpeed t.hoverFlowSpeed (pointerForce t c)).speedY :=
  ⟨rfl, rfl⟩

theorem pointerForce_idle (t : Tiers Number) (c : Particle Number) (h : t.mouseX = 0) :
    pointerForce t c = c := by
  unfold pointerForce
  have : Float64.truthy t.mouseX = false := by
    rw [h, Float64.zero_eq]
    simp [Float64.truthy]
  rw [this]
  simp

theorem limitSpeed_eval (L X Y s r wx wy : ℚ) (p : Particle Number)
    (hX : p.speedX = Number.fin X) (hY : p.speedY = Number.fin Y)
    (hs : speed p = Number.fin s) (hlt : L < s) (hs0 : s ≠ 0)
    (hr : Float64.ofRat (L / s) = Number.fin r)
    (hwx : Float64.ofRat (X * r) = Number.fin wx)
    (hwy : Float64.ofRat (Y * r) = Number.fin wy) :
    Number.fin L / speed p = Number.fin r ∧
    (limitSpeed (Number.fin L) p).speedX = Number.fin wx ∧
    (limitSpeed (Number.fin L) p).speedY = Number.fin wy := by
  have hlt' : Number.fin L < speed p := by rw [hs]; exact (Float64.fin_lt_fin L s).mpr hlt
  obtain ⟨h1, h2⟩ := limitSpeed_of_lt _ _ hlt'
  have hq : Number.fin L / speed p = Number.fin r := by
    rw [hs, Float64.fin_div_fin L s hs0, hr]
  rw [h1, h2, hq, hX, hY, Float64.fin_mul_fin, Float64.fin_mul_fin, hwx, hwy]
  exact ⟨rfl, rfl, rfl⟩

/-- The speed limit of `updateParticle` on a particle with finite velocity
`(X, Y)` and finite computed speed `σ`. -/
theorem limitSpeed_scales (L X Y σ : ℚ) (p : Particle Number)
    (hX : p.speedX = Number.fin X) (hY : p.speedY = Number.fin Y)
    (hs : speed p = Number.fin σ) :
    (L < σ → 1 / 2 ^ 500 ≤ L →
      ∃ ρ wx wy : ℚ, Number.fin L / speed p = Number.fin ρ ∧ 0 < ρ ∧ ρ ≤ 1 ∧
        (limitSpeed (Number.fin L) p).speedX = Number.fin X * Number.fin ρ ∧
        (limitSpeed (Number.fin L) p).speedY = Number.fin Y * Number.fin ρ ∧
        (limitSpeed (Number.fin L) p).speedX = Number.fin wx ∧
        (limitSpeed (Number.fin L) p).speedY = Number.fin wy ∧
        (0 ≤ X → 0 ≤ wx) ∧ (X ≤ 0 → wx ≤ 0) ∧ (0 ≤ Y → 0 ≤ wy) ∧ (Y ≤ 0 → wy ≤ 0) ∧
        (L * (1 - 1 / 2 ^ 50)) ^ 2 ≤ wx ^ 2 + wy ^ 2 ∧
        wx ^ 2 + wy ^ 2 ≤ (L * (1 + 1 / 2 ^ 50)) ^ 2) ∧
    (σ ≤ L → limitSpeed (Number.fin L) p = p) := by
  constructor
  · intro hlt hmin
    have hs' := hs
    unfold speed at hs'
    rw [hX, hY] at hs'
    obtain ⟨ρ, wx, wy, hρ, hρ0, hρ1, hx, hy, s1, s2, s3, s4, hlo, hup⟩ :=
      Float64.clamp_scaled_signs L X Y σ hmin hs' hlt
    have hlt' : Number.fin L < speed p := by rw [hs]; exact (Float64.fin_lt_fin L σ).mpr hlt
    obtain ⟨h1, h2⟩ := limitSpeed_of_lt _ _ hlt'
    have hq : Number.fin L / speed p = Number.fin ρ := by rw [hs, hρ]
    refine ⟨ρ, wx, wy, hq, hρ0, hρ1, ?_, ?_, ?_, ?_, s1, s2, s3, s4, hlo, hup⟩
    · rw [h1, hq, hX]
    · rw [h2, hq, hY]
    · rw [h1, hq, hX, hx]
    · rw [h2, hq, hY, hy]
  · intro hle
    apply limitSpeed_of_not_lt
    rw [hs]
    exact fun h => absurd ((Float64.fin_lt_fin L σ).mp h) (not_lt.mpr hle)

end CommunityTiers

namespace Float64

theorem lit_005 :
    (0.05 : Number) = Number.fin (3602879701896397 / 72057594037927936) := by
  show ofRat (0.05 : ℚ) = _
  exact Float64.ofRat_eq _ _ (-5) (7205759403792794) (by norm_num)
      (by rw [abs_of_pos (by norm_num)]; norm_num)
      (by rw [abs_of_pos (by norm_num)]; norm_num) (by norm_num)
      (by rw [abs_lt]; constructor <;> norm_num)
      (by rw [abs_of_pos (by norm_num)]; norm_num)

theorem lit_05 :
    (0.5 : Number) = Number.fin (1 / 2) := by
  show ofRat (0.5 : ℚ) = _
  exact Float64.ofRat_eq _ _ (-1) (4503599627370496) (by norm_num)
      (by rw [abs_of_pos (by norm_num)]; norm_num)
      (by rw [abs_of_pos (by norm_num)]; norm_num) (by norm_num)
      (by rw [abs_lt]; constructor <;> norm_num)
      (by rw [abs_of_pos (by norm_num)]; norm_num)

theorem lit_095 :
    (0.95 : Number) = Number.fin (4278419646001971 / 4503599627370496) := by
  show ofRat (0.95 : ℚ) = _
  exact Float64.ofRat_eq _ _ (-1) (8556839292003942) (by norm_num)
      (by rw [abs_of_pos (by norm_num)]; norm_num)
      (by rw [abs_of_pos (by norm_num)]; norm_num) (by norm_num)
      (by rw [abs_lt]; constructor <;> norm_num)
      (by rw [abs_of_pos (by norm_num)]; norm_num)

theorem lit_04 :
    (0.4 : Number) = Number.fin (3602879701896397 / 9007199254740992) := by
  show ofRat (0.4 : ℚ) = _
  exact Float64.ofRat_eq _ _ (-2) (7205759403792794) (by norm_num)
      (by rw [abs_of_pos (by norm_num)]; norm_num)
      (by rw [abs_of_pos (by norm_num)]; norm_num) (by norm_num)
      (by rw [abs_lt]; constructor <;> norm_num)
      (by rw [abs_of_pos (by norm_num)]; norm_num)

theorem lit_01 :
    (0.1 : Number) = Number.fin (3602879701896397 / 36028797018963968) := by
  show ofRat (0.1 : ℚ) = _
  exact Float64.ofRat_eq _ _ (-4) (7205759403792794) (by norm_num)
      (by rw [abs_of_pos (by norm_num)]; norm_num)
      (by rw [abs_of_pos (by norm_num)]; norm_num) (by norm_num)
      (by rw [abs_lt]; constructor <;> norm_num)
      (by rw [abs_of_pos (by norm_num)]; norm_num)

theorem lit_12 :
    (1.2 : Number) = Number.fin (5404319552844595 / 4503599627370496) := by
  show ofRat (1.2 : ℚ) = _
  exact Float64.ofRat_eq _ _ (0) (5404319552844595) (by norm_num)
      (by rw [abs_of_pos (by norm_num)]; norm_num)
      (by rw [abs_of_pos (by norm_num)]; norm_num) (by norm_num)
      (by rw [abs_lt]; constructor <;> norm_num)
      (by rw [abs_of_pos (by norm_num)]; norm_num)

theorem one_eq : (1 : Number) = Number.fin 1 := by
  rw [ofNat_fin 1 (by norm_num)]; norm_num

theorem neg_one_eq : (-1 : Number) = Number.fin (-1) := by
  show neg (1 : Number) = _
  rw [one_eq]
  rfl

theorem fin_sub_fin (x y : ℚ) : Number.fin x - Number.fin y = ofRat (x + -y) := rfl

theorem inf_lt_iff (x : ℚ) : Number.fin x < Number.inf false := fin_lt_inf x

end Float64

namespace Particles

open Float64 (Number)

theorem noJitter_gate : ¬ noJitter.gate < 0.05 := by
  show ¬ ((0.5 : Number) < 0.05)
  rw [Float64.lit_05, Float64.lit_005, Float64.fin_lt_fin]
  norm_num

theorem updateParticles_singleton (m : Motion Number) (draws : Nat → Draws Number)
    (p : Particle Number) :
    updateParticles m draws [p] = [updateParticle m (draws 0) p] := by
  simp [updateParticles, List.mapIdx_cons]

theorem freeForces_freeParticle :
    (freeForces defaultMotion noJitter freeParticle).speedX = Number.fin (1604407367250739 / 562949953421312) ∧
    (freeForces defaultMotion noJitter freeParticle).speedY = Number.fin (4278419646001971 / 1125899906842624) := by
  rw [freeForces_plain _ _ _ rfl noJitter_gate]
  have hf : defaultMotion.friction = Number.fin (4278419646001971 / 4503599627370496) := Float64.lit_095
  have hx : freeParticle.speedX = Number.fin (3) := by
    show (3 : Number) = _
    exact (by rw [Float64.ofNat_fin 3 (by norm_num)]; norm_num)
  have hy : freeParticle.speedY = Number.fin (4) := by
    show (4 : Number) = _
    exact (by rw [Float64.ofNat_fin 4 (by norm_num)]; norm_num)
  show freeParticle.speedX * defaultMotion.friction = _ ∧ freeParticle.speedY * defaultMotion.friction = _
  rw [hf, hx, hy, Float64.fin_mul_fin, Float64.fin_mul_fin]
  exact ⟨Float64.ofRat_eq_tie _ _ (1) (6417629469002956) (by norm_num)
      (by rw [abs_of_pos (by norm_num)]; norm_num)
      (by rw [abs_of_pos (by norm_num)]; norm_num) (by norm_num) (by decide)
      (by rw [abs_of_pos (by norm_num)]; norm_num)
      (by rw [abs_of_pos (by norm_num)]; norm_num),
    Float64.ofRat_eq _ _ (1) (8556839292003942) (by norm_num)
      (by rw [abs_of_pos (by norm_num)]; norm_num)
      (by rw [abs_of_pos (by norm_num)]; norm_num) (by norm_num)
      (by rw [abs_lt]; constructor <;> norm_num)
      (by rw [abs_of_pos (by norm_num)]; norm_num)⟩

theorem speed_freeParticle :
    speed (freeForces defaultMotion noJitter freeParticle) = Number.fin (19 / 4) := by
  unfold speed
  rw [freeForces_freeParticle.1, freeForces_freeParticle.2]
  exact Float64.hypot_eq (1604407367250739 / 562949953421312) (4278419646001971 / 1125899906842624)
    (2286280498332303 / 281474976710656)
    (8128997327403745 / 562949953421312)
    (361 / 16)
    (19 / 4)
    (19 / 4)
    (Float64.ofRat_eq _ _ (3) (4572560996664606) (by norm_num)
      (by rw [abs_of_pos (by norm_num)]; norm_num)
      (by rw [abs_of_pos (by norm_num)]; norm_num) (by norm_num)
      (by rw [abs_lt]; constructor <;> norm_num)
      (by rw [abs_of_pos (by norm_num)]; norm_num))
    (Float64.ofRat_eq _ _ (3) (8128997327403745) (by norm_num)
      (by rw [abs_of_pos (by norm_num)]; norm_num)
      (by rw [abs_of_pos (by norm_num)]; norm_num) (by norm_num)
      (by rw [abs_lt]; constructor <;> norm_num)
      (by rw [abs_of_pos (by norm_num)]; norm_num))
    (Float64.ofRat_eq_tie _ _ (4) (6350779162034176) (by norm_num)
      (by rw [abs_of_pos (by norm_num)]; norm_num)
      (by rw [abs_of_pos (by norm_num)]; norm_num) (by norm_num) (by decide)
      (by rw [abs_of_neg (by norm_num)]; norm_num)
      (by rw [abs_of_pos (by norm_num)]; norm_num))
    (by norm_num)
    (Float64.sqrtApprox_eq _ _ (4) (54) 85568392920039424 (by norm_num) (by norm_num)
      (by norm_num) (by norm_num) (by norm_num) (by norm_num) (by norm_num))
    (Float64.ofRat_eq _ _ (2) (5348024557502464) (by norm_num)
      (by rw [abs_of_pos (by norm_num)]; norm_num)
      (by rw [abs_of_pos (by norm_num)]; norm_num) (by norm_num)
      (by rw [abs_lt]; constructor <;> norm_num)
      (by rw [abs_of_pos (by norm_num)]; norm_num))

theorem updateParticle_freeParticle :
    defaultMotion.maxSpeed / speed (freeForces defaultMotion noJitter freeParticle) = Number.fin (948126237341157 / 2251799813685248) ∧
    (updateParticle defaultMotion noJitter freeParticle).speedX = Number.fin (2702159776422297 / 2251799813685248) ∧
    (updateParticle defaultMotion noJitter freeParticle).speedY = Number.fin (7205759403792793 / 4503599627370496) := by
  obtain ⟨hx, hy⟩ := updateParticle_free defaultMotion noJitter freeParticle (by simp [defaultMotion])
  have hL : defaultMotion.maxSpeed = Number.fin (2) := (by show (2 : Number) = _; exact (by rw [Float64.ofNat_fin 2 (by norm_num)]; norm_num))
  rw [hx, hy, hL]
  exact clampSpeed_eval (2) (1604407367250739 / 562949953421312) (4278419646001971 / 1125899906842624)
    (19 / 4) (948126237341157 / 2251799813685248)
    (2702159776422297 / 2251799813685248) (7205759403792793 / 4503599627370496) _
    freeForces_freeParticle.1 freeForces_freeParticle.2 speed_freeParticle (by norm_num) (by norm_num)
    (Float64.ofRat_eq _ _ (-2) (7585009898729256) (by norm_num)
      (by rw [abs_of_pos (by norm_num)]; norm_num)
      (by rw [abs_of_pos (by norm_num)]; norm_num) (by norm_num)
      (by rw [abs_lt]; constructor <;> norm_num)
      (by rw [abs_of_pos (by norm_num)]; norm_num))
    (Float64.ofRat_eq _ _ (0) (5404319552844594) (by norm_num)
      (by rw [abs_of_pos (by norm_num)]; norm_num)
      (by rw [abs_of_pos (by norm_num)]; norm_num) (by norm_num)
      (by rw [abs_lt]; constructor <;> norm_num)
      (by rw [abs_of_pos (by norm_num)]; norm_num))
    (Float64.ofRat_eq _ _ (0) (7205759403792793) (by norm_num)
      (by rw [abs_of_pos (by norm_num)]; norm_num)
      (by rw [abs_of_pos (by norm_num)]; norm_num) (by norm_num)
      (by rw [abs_lt]; constructor <;> norm_num)
      (by rw [abs_of_pos (by norm_num)]; norm_num))

theorem freeForces_steepParticle :
    (freeForces defaultMotion noJitter steepParticle).speedX = Number.fin (1604407367250739 / 562949953421312) ∧
    (freeForces defaultMotion noJitter steepParticle).speedY = Number.fin (7487234380503449 / 281474976710656) := by
  rw [freeForces_plain _ _ _ rfl noJitter_gate]
  have hf : defaultMotion.friction = Number.fin (4278419646001971 / 4503599627370496) := Float64.lit_095
  have hx : steepParticle.speedX = Number.fin (3) := by
    show (3 : Number) = _
    exact (by rw [Float64.ofNat_fin 3 (by norm_num)]; norm_num)
  have hy : steepParticle.speedY = Number.fin (28) := by
    show (28 : Number) = _
    exact (by rw [Float64.ofNat_fin 28 (by norm_num)]; norm_num)
  show steepParticle.speedX * defaultMotion.friction = _ ∧ steepParticle.speedY * defaultMotion.friction = _
  rw [hf, hx, hy, Float64.fin_mul_fin, Float64.fin_mul_fin]
  exact ⟨Float64.ofRat_eq_tie _ _ (1) (6417629469002956) (by norm_num)
      (by rw [abs_of_pos (by norm_num)]; norm_num)
      (by rw [abs_of_pos (by norm_num)]; norm_num) (by norm_num) (by decide)
      (by rw [abs_of_pos (by norm_num)]; norm_num)
      (by rw [abs_of_pos (by norm_num)]; norm_num),
    Float64.ofRat_eq _ _ (4) (7487234380503449) (by norm_num)
      (by rw [abs_of_pos (by norm_num)]; norm_num)
      (by rw [abs_of_pos (by norm_num)]; norm_num) (by norm_num)
      (by rw [abs_lt]; constructor <;> norm_num)
      (by rw [abs_of_pos (by norm_num)]; norm_num)⟩

theorem speed_steepParticle :
    speed (freeForces defaultMotion noJitter steepParticle) = Number.fin (7530086946285213 / 281474976710656) := by
  unfold speed
  rw [freeForces_steepParticle.1, freeForces_steepParticle.2]
  exact Float64.hypot_eq (1604407367250739 / 562949953421312) (7487234380503449 / 281474976710656)
    (2286280498332303 / 281474976710656)
    (6223763578793491 / 8796093022208)
    (6295209844366375 / 8796093022208)
    (240962782281126827 / 9007199254740992)
    (7530086946285213 / 281474976710656)
    (Float64.ofRat_eq _ _ (3) (4572560996664606) (by norm_num)
      (by rw [abs_of_pos (by norm_num)]; norm_num)
      (by rw [abs_of_pos (by norm_num)]; norm_num) (by norm_num)
      (by rw [abs_lt]; constructor <;> norm_num)
      (by rw [abs_of_pos (by norm_num)]; norm_num))
    (Float64.ofRat_eq _ _ (9) (6223763578793491) (by norm_num)
      (by rw [abs_of_pos (by norm_num)]; norm_num)
      (by rw [abs_of_pos (by norm_num)]; norm_num) (by norm_num)
      (by rw [abs_lt]; constructor <;> norm_num)
      (by rw [abs_of_pos (by norm_num)]; norm_num))
    (Float64.ofRat_eq _ _ (9) (6295209844366375) (by norm_num)
      (by rw [abs_of_pos (by norm_num)]; norm_num)
      (by rw [abs_of_pos (by norm_num)]; norm_num) (by norm_num)
      (by rw [abs_lt]; constructor <;> norm_num)
      (by rw [abs_of_pos (by norm_num)]; norm_num))
    (by norm_num)
    (Float64.sqrtApprox_eq _ _ (9) (52) 120481391140563413 (by norm_num) (by norm_num)
      (by norm_num) (by norm_num) (by norm_num) (by norm_num) (by norm_num))
    (Float64.ofRat_eq _ _ (4) (7530086946285213) (by norm_num)
      (by rw [abs_of_pos (by norm_num)]; norm_num)
      (by rw [abs_of_pos (by norm_num)]; norm_num) (by norm_num)
      (by rw [abs_lt]; constructor <;> norm_num)
      (by rw [abs_of_pos (by norm_num)]; norm_num))

theorem updateParticle_steepParticle :
    defaultMotion.maxSpeed / speed (freeForces defaultMotion noJitter steepParticle) = Number.fin (1346757995514083 / 18014398509481984) ∧
    (updateParticle defaultMotion noJitter steepParticle).speedX = Number.fin (119945633975473 / 562949953421312) ∧
    (updateParticle defaultMotion noJitter steepParticle).speedY = Number.fin (8955940670168651 / 4503599627370496) := by
  obtain ⟨hx, hy⟩ := updateParticle_free defaultMotion noJitter steepParticle (by simp [defaultMotion])
  have hL : defaultMotion.maxSpeed = Number.fin (2) := (by show (2 : Number) = _; exact (by rw [Float64.ofNat_fin 2 (by norm_num)]; norm_num))
  rw [hx, hy, hL]
  exact clampSpeed_eval (2) (1604407367250739 / 562949953421312) (7487234380503449 / 281474976710656)
    (7530086946285213 / 281474976710656) (1346757995514083 / 18014398509481984)
    (119945633975473 / 562949953421312) (8955940670168651 / 4503599627370496) _
    freeForces_steepParticle.1 freeForces_steepParticle.2 speed_steepParticle (by norm_num) (by norm_num)
    (Float64.ofRat_eq _ _ (-4) (5387031982056332) (by norm_num)
      (by rw [abs_of_pos (by norm_num)]; norm_num)
      (by rw [abs_of_pos (by norm_num)]; norm_num) (by norm_num)
      (by rw [abs_lt]; constructor <;> norm_num)
      (by rw [abs_of_pos (by norm_num)]; norm_num))
    (Float64.ofRat_eq _ _ (-3) (7676520574430272) (by norm_num)
      (by rw [abs_of_pos (by norm_num)]; norm_num)
      (by rw [abs_of_pos (by norm_num)]; norm_num) (by norm_num)
      (by rw [abs_lt]; constructor <;> norm_num)
      (by rw [abs_of_pos (by norm_num)]; norm_num))
    (Float64.ofRat_eq _ _ (0) (8955940670168651) (by norm_num)
      (by rw [abs_of_pos (by norm_num)]; norm_num)
      (by rw [abs_of_pos (by norm_num)]; norm_num) (by norm_num)
      (by rw [abs_lt]; constructor <;> norm_num)
      (by rw [abs_of_pos (by norm_num)]; norm_num))

theorem freeForces_negativeLimit :
    (freeForces negativeLimit noJitter freeParticle).speedX = Number.fin (3) ∧
    (freeForces negativeLimit noJitter freeParticle).speedY = Number.fin (4) := by
  rw [freeForces_plain _ _ _ rfl noJitter_gate]
  have hf : negativeLimit.friction = Number.fin (1) := Float64.one_eq
  have hx : freeParticle.speedX = Number.fin (3) := by
    show (3 : Number) = _
    exact (by rw [Float64.ofNat_fin 3 (by norm_num)]; norm_num)
  have hy : freeParticle.speedY = Number.fin (4) := by
    show (4 : Number) = _
    exact (by rw [Float64.ofNat_fin 4 (by norm_num)]; norm_num)
  show freeParticle.speedX * negativeLimit.friction = _ ∧ freeParticle.speedY * negativeLimit.friction = _
  rw [hf, hx, hy, Float64.fin_mul_fin, Float64.fin_mul_fin]
  exact ⟨Float64.ofRat_eq _ _ (1) (6755399441055744) (by norm_num)
      (by rw [abs_of_pos (by norm_num)]; norm_num)
      (by rw [abs_of_pos (by norm_num)]; norm_num) (by norm_num)
      (by rw [abs_lt]; constructor <;> norm_num)
      (by rw [abs_of_pos (by norm_num)]; norm_num),
    Float64.ofRat_eq _ _ (2) (4503599627370496) (by norm_num)
      (by rw [abs_of_pos (by norm_num)]; norm_num)
      (by rw [abs_of_pos (by norm_num)]; norm_num) (by norm_num)
      (by rw [abs_lt]; constructor <;> norm_num)
      (by rw [abs_of_pos (by norm_num)]; norm_num)⟩

theorem speed_negativeLimit :
    speed (freeForces negativeLimit noJitter freeParticle) = Number.fin (5) := by
  unfold speed
  rw [freeForces_negativeLimit.1, freeForces_negativeLimit.2]
  exact Float64.hypot_eq (3) (4)
    (9)
    (16)
    (25)
    (5)
    (5)
    (Float64.ofRat_eq _ _ (3) (5066549580791808) (by norm_num)
      (by rw [abs_of_pos (by norm_num)]; norm_num)
      (by rw [abs_of_pos (by norm_num)]; norm_num) (by norm_num)
      (by rw [abs_lt]; constructor <;> norm_num)
      (by rw [abs_of_pos (by norm_num)]; norm_num))
    (Float64.ofRat_eq _ _ (4) (4503599627370496) (by norm_num)
      (by rw [abs_of_pos (by norm_num)]; norm_num)
      (by rw [abs_of_pos (by norm_num)]; norm_num) (by norm_num)
      (by rw [abs_lt]; constructor <;> norm_num)
      (by rw [abs_of_pos (by norm_num)]; norm_num))
    (Float64.ofRat_eq _ _ (4) (7036874417766400) (by norm_num)
      (by rw [abs_of_pos (by norm_num)]; norm_num)
      (by rw [abs_of_pos (by norm_num)]; norm_num) (by norm_num)
      (by rw [abs_lt]; constructor <;> norm_num)
      (by rw [abs_of_pos (by norm_num)]; norm_num))
    (by norm_num)
    (Float64.sqrtApprox_eq _ _ (4) (54) 90071992547409920 (by norm_num) (by norm_num)
      (by norm_num) (by norm_num) (by norm_num) (by norm_num) (by norm_num))
    (Float64.ofRat_eq _ _ (2) (5629499534213120) (by norm_num)
      (by rw [abs_of_pos (by norm_num)]; norm_num)
      (by rw [abs_of_pos (by norm_num)]; norm_num) (by norm_num)
      (by rw [abs_lt]; constructor <;> norm_num)
      (by rw [abs_of_pos (by norm_num)]; norm_num))

theorem updateParticle_negativeLimit :
    negativeLimit.maxSpeed / speed (freeForces negativeLimit noJitter freeParticle) = Number.fin (-(3602879701896397 / 18014398509481984)) ∧
    (updateParticle negativeLimit noJitter freeParticle).speedX = Number.fin (-(1351079888211149 / 2251799813685248)) ∧
    (updateParticle negativeLimit noJitter freeParticle).speedY = Number.fin (-(3602879701896397 / 4503599627370496)) := by
  obtain ⟨hx, hy⟩ := updateParticle_free negativeLimit noJitter freeParticle (by simp [negativeLimit])
  have hL : negativeLimit.maxSpeed = Number.fin (-1) := Float64.neg_one_eq
  rw [hx, hy, hL]
  exact clampSpeed_eval (-1) (3) (4)
    (5) (-(3602879701896397 / 18014398509481984))
    (-(1351079888211149 / 2251799813685248)) (-(3602879701896397 / 4503599627370496)) _
    freeForces_negativeLimit.1 freeForces_negativeLimit.2 speed_negativeLimit (by norm_num) (by norm_num)
    (Float64.ofRat_eq _ _ (-3) (-7205759403792794) (by norm_num)
      (by rw [abs_of_neg (by norm_num)]; norm_num)
      (by rw [abs_of_neg (by norm_num)]; norm_num) (by norm_num)
      (by rw [abs_lt]; constructor <;> norm_num)
      (by rw [abs_of_neg (by norm_num)]; norm_num))
    (Float64.ofRat_eq_tie _ _ (-1) (-5404319552844596) (by norm_num)
      (by rw [abs_of_neg (by norm_num)]; norm_num)
      (by rw [abs_of_neg (by norm_num)]; norm_num) (by norm_num) (by decide)
      (by rw [abs_of_pos (by norm_num)]; norm_num)
      (by rw [abs_of_neg (by norm_num)]; norm_num))
    (Float64.ofRat_eq _ _ (-1) (-7205759403792794) (by norm_num)
      (by rw [abs_of_neg (by norm_num)]; norm_num)
      (by rw [abs_of_neg (by norm_num)]; norm_num) (by norm_num)
      (by rw [abs_lt]; constructor <;> norm_num)
      (by rw [abs_of_neg (by norm_num)]; norm_num))

theorem patternVelocity_of_gt (m : Motion Number) (p : Particle Number)
    (h : (0.1 : Number) < Float64.sqrt ((p.targetX - p.x) * (p.targetX - p.x) +
      (p.targetY - p.y) * (p.targetY - p.y))) :
    (patternVelocity m p).speedX = (p.targetX - p.x) *
      (if m.currentPattern = some PatternKey.platonicSolid then 0.5 else 0.4) ∧
    (patternVelocity m p).speedY = (p.targetY - p.y) *
      (if m.currentPattern = some PatternKey.platonicSolid then 0.5 else 0.4) := by
  unfold patternVelocity
  simp only [gt_iff_lt, h, if_true, and_self]

theorem updateParticle_pattern (m : Motion Number) (r : Draws Number) (p : Particle Number)
    (hm : m.patternActive = true) (hp : p.inPattern = true) :
    (updateParticle m r p).speedX = (patternVelocity m p).speedX ∧
    (updateParticle m r p).speedY = (patternVelocity m p).speedY := by
  unfold updateParticle
  rw [hm, hp]
  exact ⟨rfl, rfl⟩

theorem patternVelocity_farParticle :
    (patternVelocity patternMotion farParticle).speedX = Number.fin (400) ∧
    (patternVelocity patternMotion farParticle).speedY = Number.fin 0 := by
  have h1000 : (1000 : Number) = Number.fin 1000 := (by rw [Float64.ofNat_fin 1000 (by norm_num)]; norm_num)
  have hdx : farParticle.targetX - farParticle.x = Number.fin 1000 := by
    show (1000 : Number) - 0 = _
    rw [h1000, Float64.zero_eq, Float64.fin_sub_fin]
    have : (1000 : ℚ) + -0 = 1000 := by norm_num
    rw [this]
    exact Float64.ofRat_eq _ _ (9) (8796093022208000) (by norm_num)
      (by rw [abs_of_pos (by norm_num)]; norm_num)
      (by rw [abs_of_pos (by norm_num)]; norm_num) (by norm_num)
      (by rw [abs_lt]; constructor <;> norm_num)
      (by rw [abs_of_pos (by norm_num)]; norm_num)
  have hdy : farParticle.targetY - farParticle.y = Number.fin 0 := by
    show (0 : Number) - 0 = _
    rw [Float64.zero_eq, Float64.fin_sub_fin]
    have : (0 : ℚ) + -0 = 0 := by norm_num
    rw [this]
    exact Float64.ofRat_zero
  have hdist : Float64.sqrt (Number.fin 1000 * Number.fin 1000 + Number.fin 0 * Number.fin 0) =
      Number.fin 1000 := by
    rw [Float64.fin_mul_fin, Float64.fin_mul_fin]
    have e1 : (1000 : ℚ) * 1000 = 1000000 := by norm_num
    have e2 : (0 : ℚ) * 0 = 0 := by norm_num
    have h6 : Float64.ofRat 1000000 = Number.fin 1000000 := Float64.ofRat_eq _ _ (19) (8589934592000000) (by norm_num)
      (by rw [abs_of_pos (by norm_num)]; norm_num)
      (by rw [abs_of_pos (by norm_num)]; norm_num) (by norm_num)
      (by rw [abs_lt]; constructor <;> norm_num)
      (by rw [abs_of_pos (by norm_num)]; norm_num)
    rw [e1, e2, h6, Float64.ofRat_zero, Float64.fin_add_fin]
    have e3 : (1000000 : ℚ) + 0 = 1000000 := by norm_num
    rw [e3, h6, Float64.sqrt_fin_pos _ (by norm_num)]
    have hy : Float64.sqrtApprox 1000000 = 1000 := Float64.sqrtApprox_eq _ _ (19) (47) 140737488355328000 (by norm_num) (by norm_num)
      (by norm_num) (by norm_num) (by norm_num) (by norm_num) (by norm_num)
    rw [hy]
    exact Float64.ofRat_eq _ _ (9) (8796093022208000) (by norm_num)
      (by rw [abs_of_pos (by norm_num)]; norm_num)
      (by rw [abs_of_pos (by norm_num)]; norm_num) (by norm_num)
      (by rw [abs_lt]; constructor <;> norm_num)
      (by rw [abs_of_pos (by norm_num)]; norm_num)
  have hgt : (0.1 : Number) < Float64.sqrt
      ((farParticle.targetX - farParticle.x) * (farParticle.targetX - farParticle.x) +
        (farParticle.targetY - farParticle.y) * (farParticle.targetY - farParticle.y)) := by
    rw [hdx, hdy, hdist, Float64.lit_01, Float64.fin_lt_fin]
    norm_num
  obtain ⟨h1, h2⟩ := patternVelocity_of_gt patternMotion farParticle hgt
  have hfac : (if patternMotion.currentPattern = some PatternKey.platonicSolid
      then (0.5 : Number) else 0.4) = Number.fin (3602879701896397 / 9007199254740992) := by
    rw [if_neg (by simp [patternMotion]), Float64.lit_04]
  rw [h1, h2, hdx, hdy, hfac, Float64.fin_mul_fin, Float64.fin_mul_fin]
  constructor
  · exact Float64.ofRat_eq _ _ (8) (7036874417766400) (by norm_num)
      (by rw [abs_of_pos (by norm_num)]; norm_num)
      (by rw [abs_of_pos (by norm_num)]; norm_num) (by norm_num)
      (by rw [abs_lt]; constructor <;> norm_num)
      (by rw [abs_of_pos (by norm_num)]; norm_num)
  · rw [zero_mul]
    exact Float64.ofRat_zero

theorem updateParticle_farParticle :
    (updateParticle patternMotion noJitter farParticle).speedX = Number.fin (400) ∧
    (updateParticle patternMotion noJitter farParticle).speedY = Number.fin 0 := by
  obtain ⟨h1, h2⟩ := updateParticle_pattern patternMotion noJitter farParticle rfl rfl
  rw [h1, h2]
  exact patternVelocity_farParticle

theorem freeForces_slowParticle :
    (freeForces tinyLimit noJitter slowParticle).speedX = Number.fin (1 / 2 ^ 550) ∧
    (freeForces tinyLimit noJitter slowParticle).speedY = Number.fin 0 := by
  rw [freeForces_plain _ _ _ rfl noJitter_gate]
  show Number.fin (1 / 2 ^ 550) * (1 : Number) = _ ∧ (0 : Number) * (1 : Number) = _
  rw [Float64.one_eq, Float64.zero_eq, Float64.fin_mul_fin, Float64.fin_mul_fin, mul_one,
    zero_mul]
  exact ⟨Float64.ofRat_eq _ _ (-550) (4503599627370496) (by norm_num)
      (by rw [abs_of_pos (by norm_num)]; norm_num)
      (by rw [abs_of_pos (by norm_num)]; norm_num) (by norm_num)
      (by rw [abs_lt]; constructor <;> norm_num)
      (by rw [abs_of_pos (by norm_num)]; norm_num),
    Float64.ofRat_zero⟩

theorem speed_slowParticle :
    speed (freeForces tinyLimit noJitter slowParticle) = Number.fin 0 := by
  unfold speed
  rw [freeForces_slowParticle.1, freeForces_slowParticle.2, Float64.fin_mul_fin,
    Float64.fin_mul_fin, zero_mul, Float64.ofRat_zero,
    Float64.ofRat_underflow (1 / 2 ^ 550 * (1 / 2 ^ 550))
      (by rw [abs_of_pos (by positivity)]; norm_num),
    Float64.fin_add_fin, add_zero, Float64.ofRat_zero, Float64.sqrt_fin_zero]

theorem updateParticle_slowParticle :
    (updateParticle tinyLimit noJitter slowParticle).speedX = Number.fin (1 / 2 ^ 550) ∧
    (updateParticle tinyLimit noJitter slowParticle).speedY = Number.fin 0 := by
  obtain ⟨hx, hy⟩ := updateParticle_free tinyLimit noJitter slowParticle (by simp [tinyLimit])
  have hnot : ¬ tinyLimit.maxSpeed < speed (freeForces tinyLimit noJitter slowParticle) := by
    rw [speed_slowParticle]
    show ¬ Number.fin (1 / 2 ^ 600) < Number.fin 0
    rw [Float64.fin_lt_fin]
    norm_num
  rw [hx, hy, clampSpeed_of_not_lt _ _ hnot]
  exact freeForces_slowParticle

theorem freeForces_hugeParticle :
    (freeForces defaultMotion noJitter hugeParticle).speedX =
      Number.fin (2 ^ 600 * (4278419646001971 / 4503599627370496)) ∧
    (freeForces defaultMotion noJitter hugeParticle).speedY = Number.fin 0 := by
  rw [freeForces_plain _ _ _ rfl noJitter_gate]
  show Number.fin (2 ^ 600) * (0.95 : Number) = _ ∧ (0 : Number) * (0.95 : Number) = _
  rw [Float64.lit_095, Float64.zero_eq, Float64.fin_mul_fin, Float64.fin_mul_fin, zero_mul]
  exact ⟨Float64.ofRat_eq _ _ (599) (8556839292003942) (by norm_num)
      (by rw [abs_of_pos (by norm_num)]; norm_num)
      (by rw [abs_of_pos (by norm_num)]; norm_num) (by norm_num)
      (by rw [abs_lt]; constructor <;> norm_num)
      (by rw [abs_of_pos (by norm_num)]; norm_num),
    Float64.ofRat_zero⟩

theorem speed_hugeParticle :
    speed (freeForces defaultMotion noJitter hugeParticle) = Number.inf false := by
  unfold speed
  rw [freeForces_hugeParticle.1, freeForces_hugeParticle.2, Float64.fin_mul_fin,
    Float64.fin_mul_fin, zero_mul, Float64.ofRat_zero,
    Float64.ofRat_overflow _ (by norm_num), Float64.inf_add_fin, Float64.sqrt_inf]

theorem updateParticle_hugeParticle :
    (updateParticle defaultMotion noJitter hugeParticle).speedX = Number.fin 0 ∧
    (updateParticle defaultMotion noJitter hugeParticle).speedY = Number.fin 0 := by
  obtain ⟨hx, hy⟩ := updateParticle_free defaultMotion noJitter hugeParticle
    (by simp [defaultMotion])
  have hL : defaultMotion.maxSpeed = Number.fin 2 := (by show (2 : Number) = _; exact (by rw [Float64.ofNat_fin 2 (by norm_num)]; norm_num))
  have hlt : defaultMotion.maxSpeed < speed (freeForces defaultMotion noJitter hugeParticle) := by
    rw [speed_hugeParticle, hL]
    exact Float64.fin_lt_inf 2
  obtain ⟨h1, h2⟩ := clampSpeed_of_lt _ _ hlt
  rw [hx, hy, h1, h2, speed_hugeParticle, hL, Float64.fin_div_inf, freeForces_hugeParticle.1,
    freeForces_hugeParticle.2, Float64.fin_mul_fin, Float64.fin_mul_fin, mul_zero, mul_zero,
    Float64.ofRat_zero]
  exact ⟨rfl, rfl⟩

theorem freeForces_lostParticle :
    (freeForces defaultMotion noJitter lostParticle).speedX = Number.nan := by
  rw [freeForces_plain _ _ _ rfl noJitter_gate]
  show Number.nan * (0.95 : Number) = _
  exact Float64.nan_mul _

theorem speed_lostParticle :
    speed (freeForces defaultMotion noJitter lostParticle) = Number.nan := by
  unfold speed
  rw [freeForces_lostParticle, Float64.nan_mul, Float64.nan_add, Float64.sqrt_nan]

theorem updateParticle_lostParticle :
    (updateParticle defaultMotion noJitter lostParticle).speedX = Number.nan := by
  obtain ⟨hx, -⟩ := updateParticle_free defaultMotion noJitter lostParticle
    (by simp [defaultMotion])
  have hnot : ¬ defaultMotion.maxSpeed <
      speed (freeForces defaultMotion noJitter lostParticle) := by
    rw [speed_lostParticle]
    exact Float64.not_lt_nan _
  rw [hx, clampSpeed_of_not_lt _ _ hnot]
  exact freeForces_lostParticle

theorem speed_updateParticle_lostParticle :
    speed (updateParticle defaultMotion noJitter lostParticle) = Number.nan := by
  unfold speed
  rw [updateParticle_lostParticle, Float64.nan_mul, Float64.nan_add, Float64.sqrt_nan]

end Particles

namespace CommunityTiers

open Float64 (Number)

theorem pointerForce_fastParticle : pointerForce idleTiers fastParticle = fastParticle :=
  pointerForce_idle idleTiers fastParticle rfl

theorem velocity_fastParticle :
    fastParticle.speedX = Number.fin 1 ∧ fastParticle.speedY = Number.fin 5 := by
  constructor
  · show (1 : Number) = _
    exact Float64.one_eq
  · show (5 : Number) = _
    exact (by rw [Float64.ofNat_fin 5 (by norm_num)]; norm_num)

theorem speed_fastParticle :
    speed (pointerForce idleTiers fastParticle) = Number.fin (2870492797671419 / 562949953421312) := by
  rw [pointerForce_fastParticle]
  unfold speed
  rw [velocity_fastParticle.1, velocity_fastParticle.2]
  exact Float64.hypot_eq (1) (5)
    (1)
    (25)
    (26)
    (183711539050970829 / 36028797018963968)
    (2870492797671419 / 562949953421312)
    (Float64.ofRat_eq _ _ (0) (4503599627370496) (by norm_num)
      (by rw [abs_of_pos (by norm_num)]; norm_num)
      (by rw [abs_of_pos (by norm_num)]; norm_num) (by norm_num)
      (by rw [abs_lt]; constructor <;> norm_num)
      (by rw [abs_of_pos (by norm_num)]; norm_num))
    (Float64.ofRat_eq _ _ (4) (7036874417766400) (by norm_num)
      (by rw [abs_of_pos (by norm_num)]; norm_num)
      (by rw [abs_of_pos (by norm_num)]; norm_num) (by norm_num)
      (by rw [abs_lt]; constructor <;> norm_num)
      (by rw [abs_of_pos (by norm_num)]; norm_num))
    (Float64.ofRat_eq _ _ (4) (7318349394477056) (by norm_num)
      (by rw [abs_of_pos (by norm_num)]; norm_num)
      (by rw [abs_of_pos (by norm_num)]; norm_num) (by norm_num)
      (by rw [abs_lt]; constructor <;> norm_num)
      (by rw [abs_of_pos (by norm_num)]; norm_num))
    (by norm_num)
    (Float64.sqrtApprox_eq _ _ (4) (54) 91855769525485414 (by norm_num) (by norm_num)
      (by norm_num) (by norm_num) (by norm_num) (by norm_num) (by norm_num))
    (Float64.ofRat_eq _ _ (2) (5740985595342838) (by norm_num)
      (by rw [abs_of_pos (by norm_num)]; norm_num)
      (by rw [abs_of_pos (by norm_num)]; norm_num) (by norm_num)
      (by rw [abs_lt]; constructor <;> norm_num)
      (by rw [abs_of_pos (by norm_num)]; norm_num))

theorem updateParticle_fastParticle :
    idleTiers.hoverFlowSpeed / speed (pointerForce idleTiers fastParticle) =
      Number.fin (1059874263755601 / 4503599627370496) ∧
    (updateParticle idleTiers fastParticle).speedX = Number.fin (1059874263755601 / 4503599627370496) ∧
    (updateParticle idleTiers fastParticle).speedY = Number.fin (5299371318778005 / 4503599627370496) := by
  obtain ⟨hx, hy⟩ := updateParticle_speeds idleTiers fastParticle
  have hL : idleTiers.hoverFlowSpeed = Number.fin (5404319552844595 / 4503599627370496) := Float64.lit_12
  have h1 : (pointerForce idleTiers fastParticle).speedX = Number.fin 1 := by
    rw [pointerForce_fastParticle]; exact velocity_fastParticle.1
  have h5 : (pointerForce idleTiers fastParticle).speedY = Number.fin 5 := by
    rw [pointerForce_fastParticle]; exact velocity_fastParticle.2
  rw [hx, hy, hL]
  exact limitSpeed_eval (5404319552844595 / 4503599627370496) 1 5
    (2870492797671419 / 562949953421312) (1059874263755601 / 4503599627370496)
    (1059874263755601 / 4503599627370496) (5299371318778005 / 4503599627370496) _
    h1 h5 speed_fastParticle (by norm_num) (by norm_num)
    (Float64.ofRat_eq _ _ (-3) (8478994110044808) (by norm_num)
      (by rw [abs_of_pos (by norm_num)]; norm_num)
      (by rw [abs_of_pos (by norm_num)]; norm_num) (by norm_num)
      (by rw [abs_lt]; constructor <;> norm_num)
      (by rw [abs_of_pos (by norm_num)]; norm_num))
    (Float64.ofRat_eq _ _ (-3) (8478994110044808) (by norm_num)
      (by rw [abs_of_pos (by norm_num)]; norm_num)
      (by rw [abs_of_pos (by norm_num)]; norm_num) (by norm_num)
      (by rw [abs_lt]; constructor <;> norm_num)
      (by rw [abs_of_pos (by norm_num)]; norm_num))
    (Float64.ofRat_eq _ _ (0) (5299371318778005) (by norm_num)
      (by rw [abs_of_pos (by norm_num)]; norm_num)
      (by rw [abs_of_pos (by norm_num)]; norm_num) (by norm_num)
      (by rw [abs_lt]; constructor <;> norm_num)
      (by rw [abs_of_pos (by norm_num)]; norm_num))

end CommunityTiers

namespace Particles

open Float64 (Number)

/-- Claim C3 fails as stated.  With the default `maxSpeed = 2`: a particle
flagged `inPattern` while a pattern is active, 1000 pixels from its target,
leaves `updateParticles` with velocity (400, 0); a freely moving particle of
velocity (3, 28) leaves it, after friction and the speed limit, with a velocity
whose magnitude exceeds 2 by rounding.  With `maxSpeed = 2 ^ -600` a freely
moving particle of velocity (`2 ^ -550`, 0) keeps its velocity, the square
having underflowed to 0.  A freely moving particle whose `speedX` is `NaN`
leaves it with a speed for which `speed <= maxSpeed` is false. -/
theorem updateParticles_speed_exceeds :
    patternMotion.maxSpeed = Number.fin 2 ∧ defaultMotion.maxSpeed = Number.fin 2 ∧
    tinyLimit.maxSpeed = Number.fin (1 / 2 ^ 600) ∧
    ((updateParticles patternMotion (fun _ => noJitter) [farParticle]).map
        (fun q => (q.speedX, q.speedY)) = [(Number.fin 400, Number.fin 0)] ∧
      (2 : ℚ) ^ 2 < 400 ^ 2 + 0 ^ 2) ∧
    ((updateParticles defaultMotion (fun _ => noJitter) [steepParticle]).map
        (fun q => (q.speedX, q.speedY)) =
          [(Number.fin (119945633975473 / 562949953421312), Number.fin (8955940670168651 / 4503599627370496))] ∧
      (2 : ℚ) ^ 2 < (119945633975473 / 562949953421312) ^ 2 + (8955940670168651 / 4503599627370496) ^ 2) ∧
    ((updateParticles tinyLimit (fun _ => noJitter) [slowParticle]).map
        (fun q => (q.speedX, q.speedY)) = [(Number.fin (1 / 2 ^ 550), Number.fin 0)] ∧
      (1 / 2 ^ 600 : ℚ) ^ 2 < (1 / 2 ^ 550) ^ 2 + 0 ^ 2) ∧
    (updateParticles defaultMotion (fun _ => noJitter) [lostParticle]).map
        (fun q => Float64.le (speed q) defaultMotion.maxSpeed) = [false] := by
  have h2 : (2 : Number) = Number.fin 2 := (by rw [Float64.ofNat_fin 2 (by norm_num)]; norm_num)
  refine ⟨h2, h2, rfl, ⟨?_, by norm_num⟩, ⟨?_, by norm_num⟩, ⟨?_, by norm_num⟩, ?_⟩
  · rw [updateParticles_singleton, List.map_singleton, updateParticle_farParticle.1,
      updateParticle_farParticle.2]
  · rw [updateParticles_singleton, List.map_singleton, updateParticle_steepParticle.2.1,
      updateParticle_steepParticle.2.2]
  · rw [updateParticles_singleton, List.map_singleton, updateParticle_slowParticle.1,
      updateParticle_slowParticle.2]
  · rw [updateParticles_singleton, List.map_singleton, speed_updateParticle_lostParticle,
      Float64.nan_le]

/-- Claim C3 as amended: for a finite `maxSpeed ≥ 2 ^ -500`, every particle
that takes the free-motion branch of `updateParticles` (no pattern active, or
the particle not flagged `inPattern`) and whose velocity after the force
contributions is finite leaves the call with a finite velocity `(wx, wy)` of
magnitude at most `maxSpeed * (1 + 2 ^ -50)`; its `inPattern` flag is
unchanged. -/
theorem updateParticles_free_speed_le (m : Motion Number) (draws : Nat → Draws Number)
    (particles : List (Particle Number)) (i : Nat) (p : Particle Number) (L vx vy : ℚ)
    (hL : m.maxSpeed = Number.fin L) (hmin : 1 / 2 ^ 500 ≤ L)
    (hp : particles[i]? = some p)
    (hfree : ¬ (m.patternActive = true ∧ p.inPattern = true))
    (hvx : (freeForces m (draws i) p).speedX = Number.fin vx)
    (hvy : (freeForces m (draws i) p).speedY = Number.fin vy) :
    ∃ q, ∃ wx wy : ℚ, (updateParticles m draws particles)[i]? = some q ∧
      q.inPattern = p.inPattern ∧ q.speedX = Number.fin wx ∧ q.speedY = Number.fin wy ∧
      wx ^ 2 + wy ^ 2 ≤ (L * (1 + 1 / 2 ^ 50)) ^ 2 := by
  obtain ⟨wx, wy, h1, h2, h3⟩ :=
    updateParticle_free_speed_le m (draws i) p L vx vy hL hmin hfree hvx hvy
  exact ⟨updateParticle m (draws i) p, wx, wy, updateParticles_getElem m draws particles i p hp,
    inPattern_updateParticle m (draws i) p, h1, h2, h3⟩

/-- Claim C3 as amended, at the default options and a free particle of
velocity (3, 28). -/
theorem updateParticles_free_speed_le_default :
    ∃ q, ∃ wx wy : ℚ,
      (updateParticles defaultMotion (fun _ => noJitter) [steepParticle])[0]? = some q ∧
      q.inPattern = steepParticle.inPattern ∧ q.speedX = Number.fin wx ∧
      q.speedY = Number.fin wy ∧ wx ^ 2 + wy ^ 2 ≤ (2 * (1 + 1 / 2 ^ 50)) ^ 2 :=
  updateParticles_free_speed_le defaultMotion (fun _ => noJitter) [steepParticle] 0
    steepParticle 2 (1604407367250739 / 562949953421312) (7487234380503449 / 281474976710656)
    (by show (2 : Number) = _; rw [Float64.ofNat_fin 2 (by norm_num)]; norm_num) (by norm_num) rfl
    (by simp [defaultMotion])
    freeForces_steepParticle.1 freeForces_steepParticle.2

end Particles

/-- Claim C4 as amended.  In the free-motion branch of
`ParticleSystem.updateParticles` (limit `L = maxSpeed`, velocity `(vx, vy)`
after the force contributions `freeForces`) and in
`CommunityTiersAnimation.updateParticle` (limit `L = hoverFlowSpeed`, velocity
after the pointer term), for a finite velocity whose computed magnitude `s` is
finite: when `s > L` and `L ≥ 2 ^ -500`, the quotient `L / s` is a finite
factor `ρ` with `0 < ρ ≤ 1`, both components are multiplied by `ρ`, each
product rounded, no component changes its sign, and the magnitude of the
resulting velocity `(wx, wy)` lies between `L * (1 - 2 ^ -50)` and
`L * (1 + 2 ^ -50)`; when `s ≤ L` the velocity is unchanged. -/
theorem speed_limit_scales_uniformly (m : Particles.Motion Float64.Number)
    (r : Particles.Draws Float64.Number) (p : Particles.Particle Float64.Number)
    (t : CommunityTiers.Tiers Float64.Number) (c : CommunityTiers.Particle Float64.Number)
    (L vx vy s H ux uy z : ℚ)
    (hfree : ¬ (m.patternActive = true ∧ p.inPattern = true))
    (hL : m.maxSpeed = Float64.Number.fin L)
    (hvx : (Particles.freeForces m r p).speedX = Float64.Number.fin vx)
    (hvy : (Particles.freeForces m r p).speedY = Float64.Number.fin vy)
    (hs : Particles.speed (Particles.freeForces m r p) = Float64.Number.fin s)
    (hH : t.hoverFlowSpeed = Float64.Number.fin H)
    (hux : (CommunityTiers.pointerForce t c).speedX = Float64.Number.fin ux)
    (huy : (CommunityTiers.pointerForce t c).speedY = Float64.Number.fin uy)
    (hz : CommunityTiers.speed (CommunityTiers.pointerForce t c) = Float64.Number.fin z) :
    ((L < s → 1 / 2 ^ 500 ≤ L →
        ∃ ρ wx wy : ℚ,
          m.maxSpeed / Particles.speed (Particles.freeForces m r p) = Float64.Number.fin ρ ∧
          0 < ρ ∧ ρ ≤ 1 ∧
          (Particles.updateParticle m r p).speedX =
            Float64.Number.fin vx * Float64.Number.fin ρ ∧
          (Particles.updateParticle m r p).speedY =
            Float64.Number.fin vy * Float64.Number.fin ρ ∧
          (Particles.updateParticle m r p).speedX = Float64.Number.fin wx ∧
          (Particles.updateParticle m r p).speedY = Float64.Number.fin wy ∧
          (0 ≤ vx → 0 ≤ wx) ∧ (vx ≤ 0 → wx ≤ 0) ∧ (0 ≤ vy → 0 ≤ wy) ∧ (vy ≤ 0 → wy ≤ 0) ∧
          (L * (1 - 1 / 2 ^ 50)) ^ 2 ≤ wx ^ 2 + wy ^ 2 ∧
          wx ^ 2 + wy ^ 2 ≤ (L * (1 + 1 / 2 ^ 50)) ^ 2) ∧
      (s ≤ L →
        (Particles.updateParticle m r p).speedX = Float64.Number.fin vx ∧
        (Particles.updateParticle m r p).speedY = Float64.Number.fin vy)) ∧
    ((H < z → 1 / 2 ^ 500 ≤ H →
        ∃ ρ wx wy : ℚ,
          t.hoverFlowSpeed / CommunityTiers.speed (CommunityTiers.pointerForce t c) =
            Float64.Number.fin ρ ∧
          0 < ρ ∧ ρ ≤ 1 ∧
          (CommunityTiers.updateParticle t c).speedX =
            Float64.Number.fin ux * Float64.Number.fin ρ ∧
          (CommunityTiers.updateParticle t c).speedY =
            Float64.Number.fin uy * Float64.Number.fin ρ ∧
          (CommunityTiers.updateParticle t c).speedX = Float64.Number.fin wx ∧
          (CommunityTiers.updateParticle t c).speedY = Float64.Number.fin wy ∧
          (0 ≤ ux → 0 ≤ wx) ∧ (ux ≤ 0 → wx ≤ 0) ∧ (0 ≤ uy → 0 ≤ wy) ∧ (uy ≤ 0 → wy ≤ 0) ∧
          (H * (1 - 1 / 2 ^ 50)) ^ 2 ≤ wx ^ 2 + wy ^ 2 ∧
          wx ^ 2 + wy ^ 2 ≤ (H * (1 + 1 / 2 ^ 50)) ^ 2) ∧
      (z ≤ H →
        (CommunityTiers.updateParticle t c).speedX = Float64.Number.fin ux ∧
        (CommunityTiers.updateParticle t c).speedY = Float64.Number.fin uy)) := by
  obtain ⟨hx, hy⟩ := Particles.updateParticle_free m r p hfree
  obtain ⟨cx, cy⟩ := CommunityTiers.updateParticle_speeds t c
  rw [hx, hy, cx, cy, hL, hH]
  obtain ⟨a1, a2⟩ := Particles.clampSpeed_scales L vx vy s _ hvx hvy hs
  obtain ⟨b1, b2⟩ := CommunityTiers.limitSpeed_scales H ux uy z _ hux huy hz
  refine ⟨⟨a1, fun h => ?_⟩, ⟨b1, fun h => ?_⟩⟩
  · rw [a2 h]
    exact ⟨hvx, hvy⟩
  · rw [b2 h]
    exact ⟨hux, huy⟩

/-- Claim C4 fails as stated.  With `maxSpeed = -1` and velocity (3, 4) after
the force contributions the computed magnitude 5 exceeds the limit, the factor
is negative and both components change their sign.  With the default
`maxSpeed = 2` and velocity (3, 4) before friction, and with
`hoverFlowSpeed = 1.2` and velocity (1, 5), the factor is the rounded quotient
and the products are rounded: the resulting velocity is not the exact multiple
and its magnitude is not the limit.  With velocity (`2 ^ 600`, 0) the computed
magnitude is `Infinity`, the factor 0 and the resulting velocity (0, 0). -/
theorem speed_limit_not_exact :
    (Particles.negativeLimit.maxSpeed = Float64.Number.fin (-1) ∧
      Particles.speed (Particles.freeForces Particles.negativeLimit Particles.noJitter
        Particles.freeParticle) = Float64.Number.fin 5 ∧
      Particles.negativeLimit.maxSpeed /
          Particles.speed (Particles.freeForces Particles.negativeLimit Particles.noJitter
            Particles.freeParticle) = Float64.Number.fin (-(3602879701896397 / 18014398509481984)) ∧
      (Particles.updateParticle Particles.negativeLimit Particles.noJitter
        Particles.freeParticle).speedX = Float64.Number.fin (-(1351079888211149 / 2251799813685248)) ∧
      (Particles.updateParticle Particles.negativeLimit Particles.noJitter
        Particles.freeParticle).speedY = Float64.Number.fin (-(3602879701896397 / 4503599627370496))) ∧
    (Particles.defaultMotion.maxSpeed = Float64.Number.fin 2 ∧
      (Particles.freeForces Particles.defaultMotion Particles.noJitter
        Particles.freeParticle).speedX = Float64.Number.fin (1604407367250739 / 562949953421312) ∧
      (Particles.freeForces Particles.defaultMotion Particles.noJitter
        Particles.freeParticle).speedY = Float64.Number.fin (4278419646001971 / 1125899906842624) ∧
      Particles.speed (Particles.freeForces Particles.defaultMotion Particles.noJitter
        Particles.freeParticle) = Float64.Number.fin (19 / 4) ∧
      (Particles.updateParticle Particles.defaultMotion Particles.noJitter
        Particles.freeParticle).speedX = Float64.Number.fin (2702159776422297 / 2251799813685248) ∧
      (Particles.updateParticle Particles.defaultMotion Particles.noJitter
        Particles.freeParticle).speedY = Float64.Number.fin (7205759403792793 / 4503599627370496) ∧
      ((2702159776422297 / 2251799813685248) : ℚ) ≠ 2 / (19 / 4) * (1604407367250739 / 562949953421312) ∧
      ((2702159776422297 / 2251799813685248) : ℚ) ^ 2 + (7205759403792793 / 4503599627370496) ^ 2 < 2 ^ 2) ∧
    (CommunityTiers.idleTiers.hoverFlowSpeed = Float64.Number.fin (5404319552844595 / 4503599627370496) ∧
      (CommunityTiers.pointerForce CommunityTiers.idleTiers
        CommunityTiers.fastParticle).speedX = Float64.Number.fin 1 ∧
      (CommunityTiers.pointerForce CommunityTiers.idleTiers
        CommunityTiers.fastParticle).speedY = Float64.Number.fin 5 ∧
      (CommunityTiers.updateParticle CommunityTiers.idleTiers
        CommunityTiers.fastParticle).speedX = Float64.Number.fin (1059874263755601 / 4503599627370496) ∧
      (CommunityTiers.updateParticle CommunityTiers.idleTiers
        CommunityTiers.fastParticle).speedY = Float64.Number.fin (5299371318778005 / 4503599627370496) ∧
      ((5404319552844595 / 4503599627370496) : ℚ) ^ 2 < (1059874263755601 / 4503599627370496) ^ 2 + (5299371318778005 / 4503599627370496) ^ 2) ∧
    (Particles.speed (Particles.freeForces Particles.defaultMotion Particles.noJitter
        Particles.hugeParticle) = Float64.Number.inf false ∧
      (Particles.updateParticle Particles.defaultMotion Particles.noJitter
        Particles.hugeParticle).speedX = Float64.Number.fin 0 ∧
      (Particles.updateParticle Particles.defaultMotion Particles.noJitter
        Particles.hugeParticle).speedY = Float64.Number.fin 0) := by
  refine ⟨⟨Float64.neg_one_eq, Particles.speed_negativeLimit,
      Particles.updateParticle_negativeLimit.1, Particles.updateParticle_negativeLimit.2.1,
      Particles.updateParticle_negativeLimit.2.2⟩,
    ⟨(by show (2 : Float64.Number) = _; rw [Float64.ofNat_fin 2 (by norm_num)]; norm_num), Particles.freeForces_freeParticle.1,
      Particles.freeForces_freeParticle.2, Particles.speed_freeParticle,
      Particles.updateParticle_freeParticle.2.1, Particles.updateParticle_freeParticle.2.2,
      by norm_num, by norm_num⟩,
    ⟨Float64.lit_12, ?_, ?_, CommunityTiers.updateParticle_fastParticle.2.1,
      CommunityTiers.updateParticle_fastParticle.2.2, by norm_num⟩,
    ⟨Particles.speed_hugeParticle, Particles.updateParticle_hugeParticle.1,
      Particles.updateParticle_hugeParticle.2⟩⟩
  · rw [CommunityTiers.pointerForce_fastParticle]
    exact CommunityTiers.velocity_fastParticle.1
  · rw [CommunityTiers.pointerForce_fastParticle]
    exact CommunityTiers.velocity_fastParticle.2

/-- Claim C4 as amended, at the default options: velocity (3, 4) before
friction is scaled to a magnitude within `2 ^ -50` of `maxSpeed = 2` by
`ParticleSystem`, and velocity (1, 5) to a magnitude within `2 ^ -50` of
`hoverFlowSpeed = 1.2` by `CommunityTiersAnimation`. -/
theorem speed_limit_scales_uniformly_default :
    (∃ wx wy : ℚ,
      (Particles.updateParticle Particles.defaultMotion Particles.noJitter
        Particles.freeParticle).speedX = Float64.Number.fin wx ∧
      (Particles.updateParticle Particles.defaultMotion Particles.noJitter
        Particles.freeParticle).speedY = Float64.Number.fin wy ∧
      (2 * (1 - 1 / 2 ^ 50)) ^ 2 ≤ wx ^ 2 + wy ^ 2 ∧
      wx ^ 2 + wy ^ 2 ≤ (2 * (1 + 1 / 2 ^ 50)) ^ 2) ∧
    (∃ wx wy : ℚ,
      (CommunityTiers.updateParticle CommunityTiers.idleTiers
        CommunityTiers.fastParticle).speedX = Float64.Number.fin wx ∧
      (CommunityTiers.updateParticle CommunityTiers.idleTiers
        CommunityTiers.fastParticle).speedY = Float64.Number.fin wy ∧
      ((5404319552844595 / 4503599627370496) * (1 - 1 / 2 ^ 50)) ^ 2 ≤ wx ^ 2 + wy ^ 2 ∧
      wx ^ 2 + wy ^ 2 ≤ ((5404319552844595 / 4503599627370496) * (1 + 1 / 2 ^ 50)) ^ 2) := by
  have h1 : (CommunityTiers.pointerForce CommunityTiers.idleTiers
      CommunityTiers.fastParticle).speedX = Float64.Number.fin 1 := by
    rw [CommunityTiers.pointerForce_fastParticle]
    exact CommunityTiers.velocity_fastParticle.1
  have h5 : (CommunityTiers.pointerForce CommunityTiers.idleTiers
      CommunityTiers.fastParticle).speedY = Float64.Number.fin 5 := by
    rw [CommunityTiers.pointerForce_fastParticle]
    exact CommunityTiers.velocity_fastParticle.2
  have h := speed_limit_scales_uniformly Particles.defaultMotion Particles.noJitter
    Particles.freeParticle CommunityTiers.idleTiers CommunityTiers.fastParticle
    2 (1604407367250739 / 562949953421312) (4278419646001971 / 1125899906842624) (19 / 4)
    (5404319552844595 / 4503599627370496) 1 5 (2870492797671419 / 562949953421312)
    (by simp [Particles.defaultMotion])
    (by show (2 : Float64.Number) = _; rw [Float64.ofNat_fin 2 (by norm_num)]; norm_num)
    Particles.freeForces_freeParticle.1 Particles.freeForces_freeParticle.2
    Particles.speed_freeParticle Float64.lit_12 h1 h5 CommunityTiers.speed_fastParticle
  constructor
  · obtain ⟨ρ, wx, wy, -, -, -, -, -, hx, hy, -, -, -, -, hlo, hup⟩ :=
      h.1.1 (by norm_num) (by norm_num)
    exact ⟨wx, wy, hx, hy, hlo, hup⟩
  · obtain ⟨ρ, wx, wy, -, -, -, -, -, hx, hy, -, -, -, -, hlo, hup⟩ :=
      h.2.1 (by norm_num) (by norm_num)
    exact ⟨wx, wy, hx, hy, hlo, hup⟩

/-! ## Theorems : life cycle of a `ParticleSystem` -/

namespace Particles

/-- Claim C6 fails as stated.  Once the timer of `init` has fired, a morph
callback of `formPattern` is pending next to the callback of the main loop:
after `start(); start()` two frame callbacks of the instance are pending, and
after one `stop()` the morph callback is still pending. -/
theorem start_twice_two_frames_pending :
    (run fresh [(sampleEnv, Event.timer 1), (sampleEnv, Event.callStart),
        (sampleEnv, Event.callStart)]).frames
      = [(1, FrameCallback.animate), (2, FrameCallback.morph 1000)] ∧
    (run fresh [(sampleEnv, Event.timer 1), (sampleEnv, Event.callStart),
        (sampleEnv, Event.callStart), (sampleEnv, Event.callStop)]).frames
      = [(2, FrameCallback.morph 1000)] := by
  constructor <;> rfl

/-- Claim C7 at its failing input: `destroy()` on a freshly constructed instance
leaves all three listeners registered; a later `resize` event runs
`handleResize`, which sets a timer, and later `mousemove` and `mouseleave`
events write `mousePosition`. -/
theorem listeners_survive_destroy :
    (destroy fresh).listeners = fresh.listeners ∧
    fresh.listeners =
      [Registration.mk Target.container EventType.mousemove Handler.mouseMoveArrow,
       Registration.mk Target.container EventType.mouseleave Handler.mouseLeaveArrow,
       Registration.mk Target.window EventType.resize Handler.resizeArrow] ∧
    (destroy fresh).resizeTimeout = none ∧
    (step sampleEnv Event.resize (destroy fresh)).resizeTimeout = some 2 ∧
    (step sampleEnv Event.resize (destroy fresh)).timers
      = [(1, TimerCallback.startCycle), (2, TimerCallback.resized)] ∧
    (destroy fresh).mouseX = none ∧
    (step sampleEnv Event.mousemove (destroy fresh)).mouseX = some 5 ∧
    (step sampleEnv Event.mouseleave
      (step sampleEnv Event.mousemove (destroy fresh))).mouseX = none := by
  refine ⟨?_, ?_, ?_, ?_, ?_, ?_, ?_, ?_⟩ <;> rfl

/-- Claim C8 at its failing input: `destroy()` before the timer of `init` has
fired removes the canvas and the frame callback of the main loop, but the
timer stays pending; when it fires, `startPatternCycle` forms a pattern,
requests a morph frame and sets the next pattern timer, which fires in turn. -/
theorem startCycle_timer_survives_destroy :
    (destroy fresh).canvasInContainer = false ∧
    (destroy fresh).frames = [] ∧
    (destroy fresh).timers = [(1, TimerCallback.startCycle)] ∧
    (run (destroy fresh) [(sampleEnv, Event.timer 1)]).formed = [PatternKey.flowerOfLife] ∧
    (run (destroy fresh) [(sampleEnv, Event.timer 1)]).frames
      = [(2, FrameCallback.morph 1000)] ∧
    (run (destroy fresh) [(sampleEnv, Event.timer 1)]).timers
      = [(2, TimerCallback.nextPattern)] ∧
    (run (destroy fresh) [(sampleEnv, Event.timer 1), (sampleEnv, Event.timer 2)]).formed
      = [PatternKey.flowerOfLife, PatternKey.metatronCube] ∧
    (run (destroy fresh) [(sampleEnv, Event.timer 1), (sampleEnv, Event.timer 2)]).timers
      = [(3, TimerCallback.nextPattern)] := by
  refine ⟨?_, ?_, ?_, ?_, ?_, ?_, ?_, ?_⟩ <;> rfl

theorem frameBase_congr {s t : System} (hf : t.frames = s.frames)
    (hn : t.nextFrame = s.nextFrame) (hp : t.patternAnimationFrame = s.patternAnimationFrame)
    (h : FrameBase s) : FrameBase t := by
  unfold FrameBase at *
  rw [hf, hn, hp]
  exact h

theorem frameInv_congr {s t : System} (hf : t.frames = s.frames)
    (hn : t.nextFrame = s.nextFrame) (hp : t.patternAnimationFrame = s.patternAnimationFrame)
    (hr : t.isRunning = s.isRunning) (ha : t.animationFrame = s.animationFrame)
    (h : FrameInv s) : FrameInv t := by
  obtain ⟨hb, h5, h6, h8⟩ := h
  refine ⟨frameBase_congr hf hn hp hb, ?_, ?_, ?_⟩
  · unfold animateFrames
    rw [hr, ha, hf]
    exact h5
  · unfold animateFrames
    rw [hr, hf]
    exact h6
  · rw [ha]
    exact h8

theorem frameBase_filter {s t : System} (p : Nat × FrameCallback → Bool)
    (hf : t.frames = s.frames.filter p)
    (hn : t.nextFrame = s.nextFrame)
    (hp : t.patternAnimationFrame = s.patternAnimationFrame ∨ t.patternAnimationFrame = none)
    (h : FrameBase s) : FrameBase t := by
  obtain ⟨h1, h2, h3, h4, h7⟩ := h
  have hsub : ∀ f ∈ t.frames, f ∈ s.frames := by
    intro f hf'
    rw [hf] at hf'
    exact (List.mem_filter.1 hf').1
  refine ⟨by omega, ?_, ?_, ?_, ?_⟩
  · intro f hf'
    rw [hn]
    exact h2 f (hsub f hf')
  · intro id hid
    rw [hn]
    rcases hp with hp | hp
    · exact h3 id (hp ▸ hid)
    · rw [hp] at hid
      cases hid
  · intro id hid f hf' ha
    rcases hp with hp | hp
    · exact h4 id (hp ▸ hid) f (hsub f hf') ha
    · rw [hp] at hid
      cases hid
  · intro f hf' g hg
    exact h7 f (hsub f hf') g (hsub g hg)

theorem animateFrames_filter_ne {s : System} (id : Nat)
    (h : ∀ f ∈ s.frames, f.2 = FrameCallback.animate → f.1 ≠ id) :
    (s.frames.filter (fun f => f.1 != id)).filter (fun f => f.2 = FrameCallback.animate)
      = animateFrames s := by
  unfold animateFrames
  rw [List.filter_filter]
  apply List.filter_congr
  intro f hf
  by_cases ha : f.2 = FrameCallback.animate
  · have := h f hf ha
    simp [ha, this]
  · simp [ha]

theorem frameInv_animate {s : System} (hb : FrameBase s) (he : animateFrames s = [])
    (h8 : ∀ id, s.animationFrame = some id → id ≠ 0) : FrameInv (animate s) := by
  unfold animate
  by_cases hr : s.isRunning = true
  · simp only [hr, if_true]
    obtain ⟨h1, h2, h3, h4, h7⟩ := hb
    have hnone : ∀ f ∈ s.frames, f.2 ≠ FrameCallback.animate := by
      intro f hf ha
      have : f ∈ animateFrames s := by
        unfold animateFrames
        exact List.mem_filter.2 ⟨hf, by simp [ha]⟩
      rw [he] at this
      exact absurd this (List.not_mem_nil _)
    refine ⟨⟨?_, ?_, ?_, ?_, ?_⟩, ?_, ?_, ?_⟩
    · simp [requestAnimationFrame]
    · intro f hf
      simp only [requestAnimationFrame, List.mem_append, List.mem_singleton] at hf ⊢
      rcases hf with hf | hf
      · have := h2 f hf
        omega
      · subst hf
        simp
    · intro id hid
      simp only [requestAnimationFrame] at hid ⊢
      have := h3 id hid
      omega
    · intro id hid f hf ha
      simp only [requestAnimationFrame, List.mem_append, List.mem_singleton] at hid hf
      rcases hf with hf | hf
      · exact h4 id hid f hf ha
      · subst hf
        have := h3 id hid
        simp
        omega
    · intro f hf g hg ha hg'
      simp only [requestAnimationFrame, List.mem_append, List.mem_singleton] at hf hg
      rcases hf with hf | hf
      · exact absurd ha (hnone f hf)
      · rcases hg with hg | hg
        · subst hf
          have := h2 g hg
          simp
          omega
        · subst hf
          subst hg
          exact absurd rfl hg'
    · intro _
      refine ⟨s.nextFrame, rfl, by omega, ?_⟩
      unfold animateFrames at he ⊢
      simp only [requestAnimationFrame, List.filter_append, he]
      simp
    · intro h
      simp [requestAnimationFrame, hr] at h
    · intro id hid
      simp only [Option.some.injEq] at hid
      omega
  · simp only [hr, if_false]
    exact ⟨hb, fun h => absurd h hr, fun _ => he, h8⟩

theorem start_of_running {s : System} (h : s.isRunning = true) : start s = s := by
  unfold start
  rw [if_pos h]

theorem start_of_stopped {s : System} (h : s.isRunning = false) :
    start s = animate { s with isRunning := true } := by
  unfold start
  rw [if_neg (by simp [h])]

theorem stop_of_none {s : System} (h : s.animationFrame = none) :
    stop s = { s with isRunning := false } := by
  unfold stop
  simp only [h]

theorem stop_of_some {s : System} {id : Nat} (h : s.animationFrame = some id) (hid : id ≠ 0) :
    stop s =
      { cancelAnimationFrame id { s with isRunning := false } with animationFrame := none } := by
  unfold stop
  simp only [h]
  rw [if_pos (by simp [truthy, hid])]

theorem frameInv_start {s : System} (h : FrameInv s) : FrameInv (start s) := by
  cases hr : s.isRunning
  · rw [start_of_stopped hr]
    apply frameInv_animate
    · exact frameBase_congr rfl rfl rfl h.1
    · exact h.2.2.1 hr
    · exact h.2.2.2
  · rw [start_of_running hr]
    exact h

theorem not_running_of_falsy {s : System} (h : FrameInv s)
    (ha : s.animationFrame = none ∨ s.animationFrame = some 0) : s.isRunning = false := by
  cases hr : s.isRunning
  · rfl
  · obtain ⟨id, hid, hne, _⟩ := h.2.1 hr
    rcases ha with ha | ha
    · rw [ha] at hid
      cases hid
    · rw [ha] at hid
      cases hid
      exact absurd rfl hne

theorem frameInv_stop_idle {s : System} (h : FrameInv s) (hr : s.isRunning = false) :
    FrameInv { s with isRunning := false } ∧
      animateFrames { s with isRunning := false } = [] := by
  have he : animateFrames { s with isRunning := false } = [] := h.2.2.1 hr
  exact ⟨⟨frameBase_congr rfl rfl rfl h.1, fun h' => by simp at h', fun _ => he, h.2.2.2⟩, he⟩

theorem animateFrames_cancel {s : System} (h : FrameInv s) {id : Nat}
    (ha : s.animationFrame = some id) :
    (s.frames.filter (fun f => f.1 != id)).filter (fun f => f.2 = FrameCallback.animate)
      = [] := by
  obtain ⟨hb, h5, h6, _⟩ := h
  rw [List.filter_filter, List.filter_eq_nil_iff]
  intro f hf
  cases hr : s.isRunning
  · have := h6 hr
    unfold animateFrames at this
    have hn := (List.filter_eq_nil_iff.1 this) f hf
    simp only [decide_eq_true_eq] at hn
    simp [hn]
  · obtain ⟨id', hid', _, hfr⟩ := h5 hr
    rw [ha] at hid'
    cases hid'
    unfold animateFrames at hfr
    by_cases hfa : f.2 = FrameCallback.animate
    · have hmem : f ∈ s.frames.filter (fun f => f.2 = FrameCallback.animate) :=
        List.mem_filter.2 ⟨hf, by simp [hfa]⟩
      rw [hfr] at hmem
      simp only [List.mem_singleton] at hmem
      subst hmem
      simp
    · simp [hfa]

theorem frameInv_stop {s : System} (h : FrameInv s) :
    FrameInv (stop s) ∧ (stop s).isRunning = false ∧ (stop s).animationFrame = none ∧
      animateFrames (stop s) = [] := by
  cases ha : s.animationFrame with
  | none =>
    rw [stop_of_none ha]
    obtain ⟨h1, h2⟩ := frameInv_stop_idle h (not_running_of_falsy h (Or.inl ha))
    exact ⟨h1, rfl, ha, h2⟩
  | some id =>
    by_cases hid : id = 0
    · exact absurd hid (h.2.2.2 id ha)
    · rw [stop_of_some ha hid]
      have he := animateFrames_cancel h ha
      refine ⟨⟨?_, fun h' => by simp [cancelAnimationFrame] at h', fun _ => he,
        fun _ h' => by simp at h'⟩, rfl, rfl, he⟩
      exact frameBase_filter (s := s) (fun f => f.1 != id) rfl rfl (Or.inl rfl) h.1

theorem frameInv_requestMorph {s t : System} (startTime : ℚ) (h : FrameInv s)
    (hf : t.frames = s.frames ++ [(s.nextFrame, FrameCallback.morph startTime)])
    (hn : t.nextFrame = s.nextFrame + 1) (hp : t.patternAnimationFrame = some s.nextFrame)
    (hr : t.isRunning = s.isRunning) (ha : t.animationFrame = s.animationFrame) :
    FrameInv t := by
  obtain ⟨⟨h1, h2, h3, h4, h7⟩, h5, h6, h8⟩ := h
  have hanim : animateFrames t = animateFrames s := by
    unfold animateFrames
    rw [hf, List.filter_append]
    simp
  refine ⟨⟨by omega, ?_, ?_, ?_, ?_⟩, ?_, ?_, ?_⟩
  · intro f hf'
    rw [hf, List.mem_append, List.mem_singleton] at hf'
    rw [hn]
    rcases hf' with hf' | hf'
    · have := h2 f hf'
      omega
    · subst hf'
      simp
  · intro id hid
    rw [hp] at hid
    cases hid
    omega
  · intro id hid f hf' hfa
    rw [hp] at hid
    cases hid
    rw [hf, List.mem_append, List.mem_singleton] at hf'
    rcases hf' with hf' | hf'
    · have := h2 f hf'
      omega
    · subst hf'
      cases hfa
  · intro f hf' g hg hfa hga
    rw [hf, List.mem_append, List.mem_singleton] at hf' hg
    rcases hf' with hf' | hf'
    · rcases hg with hg | hg
      · exact h7 f hf' g hg hfa hga
      · subst hg
        have := h2 f hf'
        simp
        omega
    · subst hf'
      cases hfa
  · rw [hr, ha, hanim]
    exact h5
  · rw [hr, hanim]
    exact h6
  · rw [ha]
    exact h8

theorem frameInv_cancelPattern {s t : System} {id : Nat} (h : FrameInv s)
    (hid : s.patternAnimationFrame = some id)
    (hf : t.frames = s.frames.filter (fun f => f.1 != id))
    (hn : t.nextFrame = s.nextFrame)
    (hp : t.patternAnimationFrame = s.patternAnimationFrame ∨ t.patternAnimationFrame = none)
    (hr : t.isRunning = s.isRunning) (ha : t.animationFrame = s.animationFrame) :
    FrameInv t := by
  obtain ⟨hb, h5, h6, h8⟩ := h
  have hanim : animateFrames t = animateFrames s := by
    have := animateFrames_filter_ne (s := s) id (hb.2.2.2.1 id hid)
    unfold animateFrames at this ⊢
    rw [hf]
    exact this
  refine ⟨frameBase_filter _ hf hn hp hb, ?_, ?_, ?_⟩
  · rw [hr, ha, hanim]
    exact h5
  · rw [hr, hanim]
    exact h6
  · rw [ha]
    exact h8

theorem frameInv_assign (now : ℚ) {s : System} (h : FrameInv s) :
    FrameInv (assignParticlesToPositions now s) :=
  frameInv_requestMorph now h rfl rfl rfl rfl rfl

theorem frameInv_morphFrame (startTime currentTime : ℚ) {s : System} (h : FrameInv s) :
    FrameInv (morphFrame startTime currentTime s) := by
  unfold morphFrame
  dsimp only
  split
  · exact frameInv_requestMorph startTime h rfl rfl rfl rfl rfl
  · exact h

theorem frameInv_formPattern (key : Option PatternKey) (now : ℚ) {s : System}
    (h : FrameInv s) : FrameInv (formPattern key now s).1 := by
  have h1 : FrameInv
      (match s.patternAnimationFrame with
        | some id =>
          if truthy (some id) then
            { cancelAnimationFrame id s with patternAnimationFrame := none }
          else s
        | none => s) := by
    cases hp : s.patternAnimationFrame with
    | none => exact h
    | some id =>
      dsimp only
      split
      · exact frameInv_cancelPattern h hp rfl rfl (Or.inr rfl) rfl rfl
      · exact h
  unfold formPattern
  dsimp only
  cases key with
  | none => exact frameInv_congr rfl rfl rfl rfl rfl h1
  | some k =>
    dsimp only
    apply frameInv_assign
    exact frameInv_congr rfl rfl rfl rfl rfl h1

theorem frameInv_setTimeout (cb : TimerCallback) {s : System} (h : FrameInv s) :
    FrameInv (setTimeout cb s) :=
  frameInv_congr rfl rfl rfl rfl rfl h

theorem frameInv_clearTimeout (id : Nat) {s : System} (h : FrameInv s) :
    FrameInv (clearTimeout id s) :=
  frameInv_congr rfl rfl rfl rfl rfl h

theorem frameInv_clearIfTruthy (field : Option Nat) {s : System} (h : FrameInv s) :
    FrameInv
      (match field with
        | some id => if truthy (some id) then clearTimeout id s else s
        | none => s) := by
  cases field with
  | none => exact h
  | some id =>
    dsimp only
    split
    · exact frameInv_clearTimeout id h
    · exact h

theorem frameInv_setNextPatternTimeout {s : System} (h : FrameInv s) :
    FrameInv (setNextPatternTimeout s) :=
  frameInv_congr rfl rfl rfl rfl rfl h

theorem frameInv_startPatternCycle (now : ℚ) {s : System} (h : FrameInv s) :
    FrameInv (startPatternCycle now s) := by
  unfold startPatternCycle
  dsimp only
  have h1 : FrameInv { s with patternActive := true } := frameInv_congr rfl rfl rfl rfl rfl h
  have h2 := frameInv_formPattern s.patternSequence[s.currentPatternIndex]? now h1
  generalize formPattern s.patternSequence[s.currentPatternIndex]? now
    { s with patternActive := true } = r at h2
  obtain ⟨s2, b⟩ := r
  cases b with
  | false => exact h2
  | true =>
    dsimp only
    apply frameInv_setNextPatternTimeout
    apply frameInv_clearIfTruthy
    exact frameInv_congr rfl rfl rfl rfl rfl h2

theorem frameInv_nextPatternTimer (now : ℚ) {s : System} (h : FrameInv s) :
    FrameInv (nextPatternTimer now s) := by
  unfold nextPatternTimer
  have h2 := frameInv_formPattern s.patternSequence[s.currentPatternIndex]? now h
  generalize formPattern s.patternSequence[s.currentPatternIndex]? now s = r at h2
  obtain ⟨s2, b⟩ := r
  cases b with
  | false => exact h2
  | true =>
    dsimp only
    apply frameInv_setNextPatternTimeout
    exact frameInv_congr rfl rfl rfl rfl rfl h2

theorem frameInv_handleResize {s : System} (h : FrameInv s) : FrameInv (handleResize s) := by
  unfold handleResize
  dsimp only
  have h1 := frameInv_clearIfTruthy s.resizeTimeout h
  exact frameInv_congr rfl rfl rfl rfl rfl h1

theorem frameInv_runHandler (env : Env) (hd : Handler) {s : System} (h : FrameInv s) :
    FrameInv (runHandler env hd s) := by
  cases hd with
  | mouseMoveArrow => exact frameInv_congr rfl rfl rfl rfl rfl h
  | mouseLeaveArrow => exact frameInv_congr rfl rfl rfl rfl rfl h
  | resizeArrow => exact frameInv_handleResize h
  | handleResizeMethod => exact frameInv_handleResize h

theorem frameInv_dispatch (env : Env) (target : Target) (type : EventType) {s : System}
    (h : FrameInv s) : FrameInv (dispatch env target type s) := by
  unfold dispatch
  generalize s.listeners.filter (fun r => r.target = target ∧ r.type = type) = l
  induction l generalizing s with
  | nil => exact h
  | cons r l ih => exact ih (frameInv_runHandler env r.handler h)

theorem frameInv_destroy {s : System} (h : FrameInv s) : FrameInv (destroy s) := by
  unfold destroy
  dsimp only
  have h1 := (frameInv_stop h).1
  have h2 : FrameInv
      (if (stop s).canvasInContainer then { stop s with canvasInContainer := false }
       else stop s) := by
    split
    · exact frameInv_congr rfl rfl rfl rfl rfl h1
    · exact h1
  generalize (if (stop s).canvasInContainer then { stop s with canvasInContainer := false }
       else stop s) = s2 at h2
  have h3 := frameInv_clearIfTruthy s2.patternInterval h2
  generalize (match s2.patternInterval with
        | some id => if truthy (some id) then clearTimeout id s2 else s2
        | none => s2) = s3 at h3
  have h4 := frameInv_clearIfTruthy s3.patternTimeout h3
  generalize (match s3.patternTimeout with
        | some id => if truthy (some id) then clearTimeout id s3 else s3
        | none => s3) = s4 at h4
  have h5 : FrameInv
      (match s4.patternAnimationFrame with
        | some id => if truthy (some id) then cancelAnimationFrame id s4 else s4
        | none => s4) := by
    cases hp : s4.patternAnimationFrame with
    | none => exact h4
    | some id =>
      dsimp only
      split
      · exact frameInv_cancelPattern h4 hp rfl rfl (Or.inl rfl) rfl rfl
      · exact h4
  generalize (match s4.patternAnimationFrame with
        | some id => if truthy (some id) then cancelAnimationFrame id s4 else s4
        | none => s4) = s5 at h5
  have h6 := frameInv_clearIfTruthy s5.resizeTimeout h5
  exact frameInv_congr rfl rfl rfl rfl rfl h6

theorem find_frame {s : System} {id : Nat} {f : Nat × FrameCallback}
    (h : s.frames.find? (fun f => f.1 == id) = some f) : f ∈ s.frames ∧ f.1 = id := by
  have h1 := List.find?_some h
  have h2 := List.mem_of_find?_eq_some h
  exact ⟨h2, by simpa using h1⟩

theorem frameInv_runFrame (env : Env) (id : Nat) {s : System} (h : FrameInv s) :
    FrameInv (runFrame env id s) := by
  unfold runFrame
  cases hfind : s.frames.find? (fun f => f.1 == id) with
  | none => exact h
  | some f =>
    obtain ⟨i, cb⟩ := f
    obtain ⟨hmem, hi⟩ := find_frame hfind
    simp only at hi
    subst hi
    dsimp only
    obtain ⟨hb, h5, h6, h8⟩ := h
    cases cb with
    | animate =>
      dsimp only
      have hrun : s.isRunning = true := by
        cases hr : s.isRunning
        · have := h6 hr
          have hm : (i, FrameCallback.animate) ∈ animateFrames s := by
            unfold animateFrames
            exact List.mem_filter.2 ⟨hmem, by simp⟩
          rw [this] at hm
          exact absurd hm (List.not_mem_nil _)
        · rfl
      obtain ⟨id', hid', _, hfr⟩ := h5 hrun
      have hm : (i, FrameCallback.animate) ∈ animateFrames s := by
        unfold animateFrames
        exact List.mem_filter.2 ⟨hmem, by simp⟩
      rw [hfr, List.mem_singleton] at hm
      have hii : i = id' := (Prod.mk.inj hm).1
      subst hii
      apply frameInv_animate
      · exact frameBase_filter (s := s) (fun f => f.1 != i) rfl rfl (Or.inl rfl) hb
      · exact animateFrames_cancel ⟨hb, h5, h6, h8⟩ hid'
      · exact h8
    | morph startTime =>
      dsimp only
      apply frameInv_morphFrame
      have hne : ∀ f ∈ s.frames, f.2 = FrameCallback.animate → f.1 ≠ i := by
        intro f hf hfa
        exact hb.2.2.2.2 f hf (i, FrameCallback.morph startTime) hmem hfa (by simp)
      have hanim := animateFrames_filter_ne (s := s) i hne
      refine ⟨frameBase_filter (s := s) (fun f => f.1 != i) rfl rfl (Or.inl rfl) hb, ?_, ?_, h8⟩
      · intro hr
        obtain ⟨id', hid', hne', hfr⟩ := h5 hr
        refine ⟨id', hid', hne', ?_⟩
        unfold animateFrames at hanim hfr ⊢
        rw [hanim]
        exact hfr
      · intro hr
        unfold animateFrames at hanim ⊢
        rw [hanim]
        exact h6 hr

theorem frameInv_fireTimer (env : Env) (id : Nat) {s : System} (h : FrameInv s) :
    FrameInv (fireTimer env id s) := by
  unfold fireTimer
  cases hfind : s.timers.find? (fun t => t.1 == id) with
  | none => exact h
  | some t =>
    obtain ⟨i, cb⟩ := t
    dsimp only
    have h1 : FrameInv { s with timers := s.timers.filter (fun t => t.1 != id) } :=
      frameInv_congr rfl rfl rfl rfl rfl h
    cases cb with
    | startCycle => exact frameInv_startPatternCycle _ h1
    | nextPattern => exact frameInv_nextPatternTimer _ h1
    | resized => exact frameInv_congr rfl rfl rfl rfl rfl h1

theorem frameInv_step (env : Env) (e : Event) {s : System} (h : FrameInv s) :
    FrameInv (step env e s) := by
  cases e with
  | callStart => exact frameInv_start h
  | callStop => exact (frameInv_stop h).1
  | callDestroy => exact frameInv_destroy h
  | frame id => exact frameInv_runFrame env id h
  | timer id => exact frameInv_fireTimer env id h
  | mousemove => exact frameInv_dispatch env _ _ h
  | mouseleave => exact frameInv_dispatch env _ _ h
  | resize => exact frameInv_dispatch env _ _ h

theorem frameInv_setupEventListeners {s : System} (h : FrameInv s) :
    FrameInv (setupEventListeners s) := by
  unfold setupEventListeners
  dsimp only
  split
  · exact frameInv_congr rfl rfl rfl rfl rfl h
  · exact frameInv_congr rfl rfl rfl rfl rfl h

theorem frameInv_created (options : Options) (w h : ℚ) : FrameInv (created options w h) := by
  refine ⟨⟨le_refl _, ?_, ?_, ?_, ?_⟩, ?_, ?_, ?_⟩
  · intro f hf
    exact absurd hf (List.not_mem_nil _)
  · intro id hid
    cases hid
  · intro id hid
    cases hid
  · intro f hf
    exact absurd hf (List.not_mem_nil _)
  · intro hr
    cases hr
  · intro _
    rfl
  · intro id hid
    cases hid

theorem frameInv_construct (options : Options) (w h : ℚ) :
    FrameInv (construct options w h) := by
  unfold construct
  dsimp only
  have h1 := frameInv_start (frameInv_setupEventListeners (frameInv_created options w h))
  split
  · exact frameInv_setTimeout _ h1
  · exact h1

theorem frameInv_of_reachable {s : System} (h : Reachable s) : FrameInv s := by
  induction h with
  | construct options w h => exact frameInv_construct options w h
  | step env e s _ ih => exact frameInv_step env e ih

/-- Claim C6 as amended: from every reachable state, `start(); start()` yields
the same state as `start()`, with exactly one pending callback of the main
loop `animate`; one `stop()` afterwards leaves no callback of the main loop
pending, `isRunning` false and `animationFrame` null. -/
theorem start_twice_one_animate_frame (s : System) (h : Reachable s) :
    start (start s) = start s ∧
    (animateFrames (start s)).length = 1 ∧
    (stop (start s)).isRunning = false ∧
    (stop (start s)).animationFrame = none ∧
    animateFrames (stop (start s)) = [] := by
  have hinv := frameInv_start (frameInv_of_reachable h)
  have hrun : (start s).isRunning = true := by
    cases hr : s.isRunning
    · rw [start_of_stopped hr]
      simp [animate, requestAnimationFrame]
    · rw [start_of_running hr]
      exact hr
  obtain ⟨id, _, _, hfr⟩ := hinv.2.1 hrun
  obtain ⟨_, h1, h2, h3⟩ := frameInv_stop hinv
  exact ⟨start_of_running hrun, by rw [hfr]; rfl, h1, h2, h3⟩

/-- Claim C6 as amended, at a freshly constructed instance. -/
theorem start_twice_one_animate_frame_fresh :
    start (start fresh) = start fresh ∧
    (animateFrames (start fresh)).length = 1 ∧
    (stop (start fresh)).isRunning = false ∧
    (stop (start fresh)).animationFrame = none ∧
    animateFrames (stop (start fresh)) = [] :=
  start_twice_one_animate_frame fresh (Reachable.construct defaultOptions 800 600)

theorem cycleInv_congr {s t : System} (ht : t.timers = s.timers)
    (hn : t.nextTimer = s.nextTimer) (hf : t.formed = s.formed)
    (hq : t.patternSequence = s.patternSequence)
    (hi : t.currentPatternIndex = s.currentPatternIndex) (h : CycleInv s) : CycleInv t := by
  unfold CycleInv at *
  rw [ht, hn, hf, hq, hi]
  exact h

theorem cycleInv_filter {s t : System} (p : Nat × TimerCallback → Bool)
    (ht : t.timers = s.timers.filter p)
    (hn : t.nextTimer = s.nextTimer) (hf : t.formed = s.formed)
    (hq : t.patternSequence = s.patternSequence)
    (hi : t.currentPatternIndex = s.currentPatternIndex) (h : CycleInv s) : CycleInv t := by
  obtain ⟨h1, h2, h3, h4, h5, h6⟩ := h
  have hsub : ∀ x ∈ t.timers, x ∈ s.timers := by
    intro x hx
    rw [ht] at hx
    exact (List.mem_filter.1 hx).1
  refine ⟨?_, ?_, by omega, ?_, ?_, ?_⟩
  · rw [ht]
    exact h1.sublist ((List.filter_sublist _).map _)
  · intro x hx
    rw [hn]
    exact h2 x (hsub x hx)
  · intro x hx hc
    obtain ⟨a, b, c⟩ := h4 x (hsub x hx) hc
    exact ⟨a, by rw [hf]; exact b, fun u hu => c u (hsub u hu)⟩
  · rw [hf, hq]
    exact h5
  · rw [hf, hq, hi]
    exact h6

theorem cycleInv_addTimer {s t : System} (cb : TimerCallback)
    (hcb : cb ≠ TimerCallback.startCycle)
    (hnp : cb = TimerCallback.nextPattern → ∀ x ∈ s.timers, x.2 ≠ TimerCallback.startCycle)
    (ht : t.timers = s.timers ++ [(s.nextTimer, cb)])
    (hn : t.nextTimer = s.nextTimer + 1) (hf : t.formed = s.formed)
    (hq : t.patternSequence = s.patternSequence)
    (hi : t.currentPatternIndex = s.currentPatternIndex) (h : CycleInv s) : CycleInv t := by
  obtain ⟨h1, h2, h3, h4, h5, h6⟩ := h
  refine ⟨?_, ?_, by omega, ?_, ?_, ?_⟩
  · rw [ht, List.map_append, List.nodup_append]
    refine ⟨h1, by simp, ?_⟩
    intro a ha hb
    simp only [List.map_cons, List.map_nil, List.mem_singleton] at hb
    obtain ⟨x, hx, rfl⟩ := List.mem_map.1 ha
    have := h2 x hx
    omega
  · intro x hx
    rw [ht, List.mem_append, List.mem_singleton] at hx
    rw [hn]
    rcases hx with hx | hx
    · have := h2 x hx
      omega
    · subst hx
      simp
  · intro x hx hc
    rw [ht, List.mem_append, List.mem_singleton] at hx
    rcases hx with hx | hx
    · obtain ⟨a, b, c⟩ := h4 x hx hc
      refine ⟨a, by rw [hf]; exact b, ?_⟩
      intro u hu
      rw [ht, List.mem_append, List.mem_singleton] at hu
      rcases hu with hu | hu
      · exact c u hu
      · subst hu
        intro hcb'
        exact hnp hcb' x hx hc
    · subst hx
      exact absurd hc hcb
  · rw [hf, hq]
    exact h5
  · rw [hf, hq, hi]
    exact h6

theorem formPattern_fields (key : Option PatternKey) (now : ℚ) (s : System) :
    (formPattern key now s).1.timers = s.timers ∧
    (formPattern key now s).1.nextTimer = s.nextTimer ∧
    (formPattern key now s).1.patternSequence = s.patternSequence ∧
    (formPattern key now s).1.currentPatternIndex = s.currentPatternIndex ∧
    (formPattern key now s).1.formed =
      (match key with
        | some k => s.formed ++ [k]
        | none => s.formed) ∧
    (formPattern key now s).2 = key.isSome := by
  unfold formPattern
  cases hp : s.patternAnimationFrame with
  | none =>
    cases key <;>
      simp [assignParticlesToPositions, requestAnimationFrame]
  | some id =>
    by_cases ht : truthy (some id) = true
    · cases key <;>
        simp [ht, assignParticlesToPositions, requestAnimationFrame, cancelAnimationFrame]
    · cases key <;>
        simp [ht, assignParticlesToPositions, requestAnimationFrame, cancelAnimationFrame]

theorem index_lt {s : System} (h : CycleInv s) (hn : 1 ≤ s.patternSequence.length) :
    s.currentPatternIndex < s.patternSequence.length := by
  rw [h.2.2.2.2.2]
  exact Nat.mod_lt _ (by omega)

theorem cycleInv_advance {s t : System} {key : PatternKey} (h : CycleInv s)
    (hns : ∀ x ∈ s.timers, x.2 ≠ TimerCallback.startCycle)
    (hkey : s.patternSequence[s.currentPatternIndex]? = some key)
    (hf : t.formed = s.formed ++ [key])
    (hi : t.currentPatternIndex = (s.currentPatternIndex + 1) % s.patternSequence.length)
    (ht : t.timers = s.timers) (hn : t.nextTimer = s.nextTimer)
    (hq : t.patternSequence = s.patternSequence) : CycleInv t := by
  obtain ⟨h1, h2, h3, h4, h5, h6⟩ := h
  refine ⟨by rw [ht]; exact h1, by rw [ht, hn]; exact h2, by omega, ?_, ?_, ?_⟩
  · intro x hx hc
    rw [ht] at hx
    exact absurd hc (hns x hx)
  · intro k hk
    rw [hf, hq]
    rw [hf, List.length_append, List.length_singleton] at hk
    by_cases hk' : k < s.formed.length
    · rw [List.getElem?_append_left hk']
      exact h5 k hk'
    · have hke : k = s.formed.length := by omega
      subst hke
      rw [List.getElem?_append_right (le_refl _)]
      simp only [Nat.sub_self, List.getElem?_cons_zero]
      rw [← h6, hkey]
  · rw [hi, hf, hq, h6, List.length_append, List.length_singleton]
    rw [Nat.add_mod, Nat.mod_mod, ← Nat.add_mod]

theorem cycleInv_clearIfTruthy (field : Option Nat) {s : System} (h : CycleInv s) :
    CycleInv
      (match field with
        | some id => if truthy (some id) then clearTimeout id s else s
        | none => s) := by
  cases field with
  | none => exact h
  | some id =>
    dsimp only
    split
    · exact cycleInv_filter (s := s) (fun t => t.1 != id) rfl rfl rfl rfl rfl h
    · exact h

theorem noStartCycle_clearIfTruthy (field : Option Nat) {s : System}
    (h : ∀ x ∈ s.timers, x.2 ≠ TimerCallback.startCycle) :
    ∀ x ∈ (match field with
        | some id => if truthy (some id) then clearTimeout id s else s
        | none => s : System).timers, x.2 ≠ TimerCallback.startCycle := by
  cases field with
  | none => exact h
  | some id =>
    dsimp only
    split
    · intro x hx
      exact h x (List.mem_filter.1 hx).1
    · exact h

theorem cycleInv_setNextPatternTimeout {s : System} (h : CycleInv s)
    (hns : ∀ x ∈ s.timers, x.2 ≠ TimerCallback.startCycle) :
    CycleInv (setNextPatternTimeout s) :=
  cycleInv_addTimer TimerCallback.nextPattern (by simp) (fun _ => hns) rfl rfl rfl rfl rfl h

theorem cycleInv_startPatternCycle (now : ℚ) {s : System} (h : CycleInv s)
    (hns : ∀ x ∈ s.timers, x.2 ≠ TimerCallback.startCycle) :
    CycleInv (startPatternCycle now s) := by
  unfold startPatternCycle
  dsimp only
  have hfields := formPattern_fields s.patternSequence[s.currentPatternIndex]? now
    { s with patternActive := true }
  generalize formPattern s.patternSequence[s.currentPatternIndex]? now
    { s with patternActive := true } = r at hfields
  obtain ⟨s2, b⟩ := r
  obtain ⟨f1, f2, f3, f4, f5, f6⟩ := hfields
  simp only at f1 f2 f3 f4 f5 f6
  cases hkey : s.patternSequence[s.currentPatternIndex]? with
  | none =>
    rw [hkey] at f5 f6
    simp only [Option.isSome_none] at f6
    subst f6
    exact cycleInv_congr f1 f2 f5 f3 f4 h
  | some key =>
    rw [hkey] at f5 f6
    simp only [Option.isSome_some] at f6
    subst f6
    dsimp only
    have h3 : CycleInv { s2 with
        currentPatternIndex := (s2.currentPatternIndex + 1) % s2.patternSequence.length } :=
      cycleInv_advance h hns hkey f5 (by simp only [f4, f3]) f1 f2 f3
    have hns3 : ∀ x ∈ ({ s2 with
        currentPatternIndex := (s2.currentPatternIndex + 1) % s2.patternSequence.length }
          : System).timers, x.2 ≠ TimerCallback.startCycle := by
      intro x hx
      exact hns x (f1 ▸ hx)
    exact cycleInv_setNextPatternTimeout (cycleInv_clearIfTruthy _ h3)
      (noStartCycle_clearIfTruthy _ hns3)

theorem cycleInv_nextPatternTimer (now : ℚ) {s : System} (h : CycleInv s)
    (hns : ∀ x ∈ s.timers, x.2 ≠ TimerCallback.startCycle) :
    CycleInv (nextPatternTimer now s) := by
  unfold nextPatternTimer
  have hfields := formPattern_fields s.patternSequence[s.currentPatternIndex]? now s
  generalize formPattern s.patternSequence[s.currentPatternIndex]? now s = r at hfields
  obtain ⟨s2, b⟩ := r
  obtain ⟨f1, f2, f3, f4, f5, f6⟩ := hfields
  simp only at f1 f2 f3 f4 f5 f6
  cases hkey : s.patternSequence[s.currentPatternIndex]? with
  | none =>
    rw [hkey] at f5 f6
    simp only [Option.isSome_none] at f6
    subst f6
    exact cycleInv_congr f1 f2 f5 f3 f4 h
  | some key =>
    rw [hkey] at f5 f6
    simp only [Option.isSome_some] at f6
    subst f6
    dsimp only
    have h3 : CycleInv { s2 with
        currentPatternIndex := (s2.currentPatternIndex + 1) % s2.patternSequence.length } :=
      cycleInv_advance h hns hkey f5 (by simp only [f4, f3]) f1 f2 f3
    exact cycleInv_setNextPatternTimeout h3 (fun x hx => hns x (f1 ▸ hx))

theorem find_timer {s : System} {id : Nat} {t : Nat × TimerCallback}
    (h : s.timers.find? (fun t => t.1 == id) = some t) : t ∈ s.timers ∧ t.1 = id := by
  have h1 := List.find?_some h
  have h2 := List.mem_of_find?_eq_some h
  exact ⟨h2, by simpa using h1⟩

theorem noStartCycle_after_fire {s : System} (h : CycleInv s) {id : Nat} {cb : TimerCallback}
    (hmem : (id, cb) ∈ s.timers) (hcb : cb ≠ TimerCallback.resized) :
    ∀ x ∈ s.timers.filter (fun t => t.1 != id), x.2 ≠ TimerCallback.startCycle := by
  intro x hx hc
  obtain ⟨hx1, hx2⟩ := List.mem_filter.1 hx
  obtain ⟨hx3, _, hx4⟩ := h.2.2.2.1 x hx1 hc
  cases cb with
  | startCycle =>
    have := (h.2.2.2.1 (id, TimerCallback.startCycle) hmem rfl).1
    simp only at this
    simp [hx3, this] at hx2
  | nextPattern => exact hx4 _ hmem rfl
  | resized => exact hcb rfl

theorem cycleInv_fireTimer (env : Env) (id : Nat) {s : System} (h : CycleInv s) :
    CycleInv (fireTimer env id s) := by
  unfold fireTimer
  cases hfind : s.timers.find? (fun t => t.1 == id) with
  | none => exact h
  | some t =>
    obtain ⟨i, cb⟩ := t
    obtain ⟨hmem, hi⟩ := find_timer hfind
    simp only at hi
    subst hi
    dsimp only
    have h1 : CycleInv { s with timers := s.timers.filter (fun t => t.1 != i) } :=
      cycleInv_filter (s := s) (fun t => t.1 != i) rfl rfl rfl rfl rfl h
    cases cb with
    | startCycle =>
      exact cycleInv_startPatternCycle _ h1 (noStartCycle_after_fire h hmem (by simp))
    | nextPattern =>
      exact cycleInv_nextPatternTimer _ h1 (noStartCycle_after_fire h hmem (by simp))
    | resized => exact cycleInv_congr rfl rfl rfl rfl rfl h1

theorem cycleInv_handleResize {s : System} (h : CycleInv s) : CycleInv (handleResize s) := by
  unfold handleResize
  dsimp only
  exact cycleInv_addTimer TimerCallback.resized (by simp) (fun hc => by cases hc)
    rfl rfl rfl rfl rfl (cycleInv_clearIfTruthy s.resizeTimeout h)

theorem cycleInv_runHandler (env : Env) (hd : Handler) {s : System} (h : CycleInv s) :
    CycleInv (runHandler env hd s) := by
  cases hd with
  | mouseMoveArrow => exact cycleInv_congr rfl rfl rfl rfl rfl h
  | mouseLeaveArrow => exact cycleInv_congr rfl rfl rfl rfl rfl h
  | resizeArrow => exact cycleInv_handleResize h
  | handleResizeMethod => exact cycleInv_handleResize h

theorem cycleInv_dispatch (env : Env) (target : Target) (type : EventType) {s : System}
    (h : CycleInv s) : CycleInv (dispatch env target type s) := by
  unfold dispatch
  generalize s.listeners.filter (fun r => r.target = target ∧ r.type = type) = l
  induction l generalizing s with
  | nil => exact h
  | cons r l ih => exact ih (cycleInv_runHandler env r.handler h)

theorem cycleInv_animate {s : System} (h : CycleInv s) : CycleInv (animate s) := by
  unfold animate
  split
  · exact cycleInv_congr rfl rfl rfl rfl rfl h
  · exact h

theorem cycleInv_start {s : System} (h : CycleInv s) : CycleInv (start s) := by
  unfold start
  split
  · exact h
  · exact cycleInv_animate (cycleInv_congr rfl rfl rfl rfl rfl h)

theorem cycleInv_stop {s : System} (h : CycleInv s) : CycleInv (stop s) := by
  unfold stop
  dsimp only
  cases s.animationFrame with
  | none => exact cycleInv_congr rfl rfl rfl rfl rfl h
  | some id =>
    dsimp only
    split
    · exact cycleInv_congr rfl rfl rfl rfl rfl h
    · exact cycleInv_congr rfl rfl rfl rfl rfl h

theorem cycleInv_morphFrame (startTime currentTime : ℚ) {s : System} (h : CycleInv s) :
    CycleInv (morphFrame startTime currentTime s) := by
  unfold morphFrame
  dsimp only
  split
  · exact cycleInv_congr rfl rfl rfl rfl rfl h
  · exact h

theorem cycleInv_runFrame (env : Env) (id : Nat) {s : System} (h : CycleInv s) :
    CycleInv (runFrame env id s) := by
  unfold runFrame
  cases s.frames.find? (fun f => f.1 == id) with
  | none => exact h
  | some f =>
    obtain ⟨i, cb⟩ := f
    dsimp only
    have h1 : CycleInv { s with frames := s.frames.filter (fun f => f.1 != id) } :=
      cycleInv_congr rfl rfl rfl rfl rfl h
    cases cb with
    | animate => exact cycleInv_animate h1
    | morph startTime => exact cycleInv_morphFrame _ _ h1

theorem cycleInv_destroy {s : System} (h : CycleInv s) : CycleInv (destroy s) := by
  unfold destroy
  dsimp only
  have h1 := cycleInv_stop h
  have h2 : CycleInv
      (if (stop s).canvasInContainer then { stop s with canvasInContainer := false }
       else stop s) := by
    split
    · exact cycleInv_congr rfl rfl rfl rfl rfl h1
    · exact h1
  generalize (if (stop s).canvasInContainer then { stop s with canvasInContainer := false }
       else stop s) = s2 at h2
  have h3 := cycleInv_clearIfTruthy s2.patternInterval h2
  generalize (match s2.patternInterval with
        | some id => if truthy (some id) then clearTimeout id s2 else s2
        | none => s2) = s3 at h3
  have h4 := cycleInv_clearIfTruthy s3.patternTimeout h3
  generalize (match s3.patternTimeout with
        | some id => if truthy (some id) then clearTimeout id s3 else s3
        | none => s3) = s4 at h4
  have h5 : CycleInv
      (match s4.patternAnimationFrame with
        | some id => if truthy (some id) then cancelAnimationFrame id s4 else s4
        | none => s4) := by
    cases s4.patternAnimationFrame with
    | none => exact h4
    | some id =>
      dsimp only
      split
      · exact cycleInv_congr rfl rfl rfl rfl rfl h4
      · exact h4
  generalize (match s4.patternAnimationFrame with
        | some id => if truthy (some id) then cancelAnimationFrame id s4 else s4
        | none => s4) = s5 at h5
  have h6 := cycleInv_clearIfTruthy s5.resizeTimeout h5
  exact cycleInv_congr rfl rfl rfl rfl rfl h6

theorem cycleInv_step (env : Env) (e : Event) {s : System} (h : CycleInv s) :
    CycleInv (step env e s) := by
  cases e with
  | callStart => exact cycleInv_start h
  | callStop => exact cycleInv_stop h
  | callDestroy => exact cycleInv_destroy h
  | frame id => exact cycleInv_runFrame env id h
  | timer id => exact cycleInv_fireTimer env id h
  | mousemove => exact cycleInv_dispatch env _ _ h
  | mouseleave => exact cycleInv_dispatch env _ _ h
  | resize => exact cycleInv_dispatch env _ _ h

theorem cycleInv_setupEventListeners {s : System} (h : CycleInv s) :
    CycleInv (setupEventListeners s) := by
  unfold setupEventListeners
  dsimp only
  split
  · exact cycleInv_congr rfl rfl rfl rfl rfl h
  · exact cycleInv_congr rfl rfl rfl rfl rfl h

theorem cycleInv_created (options : Options) (w h : ℚ) : CycleInv (created options w h) := by
  refine ⟨List.nodup_nil, ?_, le_refl _, ?_, ?_, ?_⟩
  · intro t ht
    exact absurd ht (List.not_mem_nil _)
  · intro t ht
    exact absurd ht (List.not_mem_nil _)
  · intro k hk
    exact absurd hk (Nat.not_lt_zero _)
  · simp [created]

theorem timers_started (options : Options) (w h : ℚ) :
    (start (setupEventListeners (created options w h))).timers = [] ∧
    (start (setupEventListeners (created options w h))).nextTimer = 1 ∧
    (start (setupEventListeners (created options w h))).formed = [] := by
  unfold start setupEventListeners animate requestAnimationFrame created
  dsimp only
  split <;> simp

theorem cycleInv_construct (options : Options) (w h : ℚ) :
    CycleInv (construct options w h) := by
  unfold construct
  dsimp only
  have h1 := cycleInv_start (cycleInv_setupEventListeners (cycleInv_created options w h))
  have ht := timers_started options w h
  generalize start (setupEventListeners (created options w h)) = s2 at h1 ht
  split
  · obtain ⟨h11, h12, h13, h14, h15, h16⟩ := h1
    obtain ⟨t1, t2, t3⟩ := ht
    refine ⟨?_, ?_, ?_, ?_, h15, h16⟩
    · simp [setTimeout, t1]
    · simp [setTimeout, t1, t2]
    · simp [setTimeout]
    · intro t htm hc
      simp only [setTimeout, t1, t2, List.nil_append, List.mem_singleton] at htm
      subst htm
      refine ⟨rfl, t3, ?_⟩
      intro u hu
      simp only [setTimeout, t1, t2, List.nil_append, List.mem_singleton] at hu
      subst hu
      simp
  · exact h1

theorem cycleInv_of_reachable {s : System} (h : Reachable s) : CycleInv s := by
  induction h with
  | construct options w h => exact cycleInv_construct options w h
  | step env e s _ ih => exact cycleInv_step env e ih

theorem formed_clearIfTruthy (field : Option Nat) (s : System) :
    (match field with
      | some id => if truthy (some id) then clearTimeout id s else s
      | none => s : System).formed = s.formed := by
  cases field with
  | none => rfl
  | some id =>
    dsimp only
    split <;> rfl

theorem startPatternCycle_progress (now : ℚ) {s : System} {key : PatternKey}
    (hkey : s.patternSequence[s.currentPatternIndex]? = some key) :
    (startPatternCycle now s).formed = s.formed ++ [key] ∧
    ∃ id, (id, TimerCallback.nextPattern) ∈ (startPatternCycle now s).timers := by
  unfold startPatternCycle
  dsimp only
  have hfields := formPattern_fields s.patternSequence[s.currentPatternIndex]? now
    { s with patternActive := true }
  generalize formPattern s.patternSequence[s.currentPatternIndex]? now
    { s with patternActive := true } = r at hfields
  obtain ⟨s2, b⟩ := r
  obtain ⟨_, _, _, _, f5, f6⟩ := hfields
  simp only at f5 f6
  rw [hkey] at f5 f6
  simp only [Option.isSome_some] at f6
  subst f6
  dsimp only
  constructor
  · show (setNextPatternTimeout _).formed = _
    unfold setNextPatternTimeout setTimeout
    dsimp only
    rw [formed_clearIfTruthy]
    exact f5
  · unfold setNextPatternTimeout setTimeout
    dsimp only
    exact ⟨_, List.mem_append_right _ (List.mem_singleton.2 rfl)⟩

theorem nextPatternTimer_progress (now : ℚ) {s : System} {key : PatternKey}
    (hkey : s.patternSequence[s.currentPatternIndex]? = some key) :
    (nextPatternTimer now s).formed = s.formed ++ [key] ∧
    ∃ id, (id, TimerCallback.nextPattern) ∈ (nextPatternTimer now s).timers := by
  unfold nextPatternTimer
  have hfields := formPattern_fields s.patternSequence[s.currentPatternIndex]? now s
  generalize formPattern s.patternSequence[s.currentPatternIndex]? now s = r at hfields
  obtain ⟨s2, b⟩ := r
  obtain ⟨_, _, _, _, f5, f6⟩ := hfields
  simp only at f5 f6
  rw [hkey] at f5 f6
  simp only [Option.isSome_some] at f6
  subst f6
  dsimp only
  constructor
  · exact f5
  · unfold setNextPatternTimeout setTimeout
    dsimp only
    exact ⟨_, List.mem_append_right _ (List.mem_singleton.2 rfl)⟩

theorem find_of_nodup (l : List (Nat × TimerCallback)) (id : Nat) (cb : TimerCallback)
    (hnd : (l.map Prod.fst).Nodup) (hmem : (id, cb) ∈ l) :
    l.find? (fun t => t.1 == id) = some (id, cb) := by
  induction l with
  | nil => exact absurd hmem (List.not_mem_nil _)
  | cons x l ih =>
    rw [List.map_cons, List.nodup_cons] at hnd
    rw [List.mem_cons] at hmem
    rcases hmem with hx | hx
    · subst hx
      simp
    · have hne : x.1 ≠ id := by
        intro he
        apply hnd.1
        rw [he]
        exact List.mem_map.2 ⟨(id, cb), hx, rfl⟩
      rw [List.find?_cons_of_neg _ (by simpa using hne)]
      exact ih hnd.2 hx

theorem fireTimer_startCycle (env : Env) {s : System} (h : CycleInv s) {id : Nat}
    (hmem : (id, TimerCallback.startCycle) ∈ s.timers) :
    fireTimer env id s =
      startPatternCycle env.now { s with timers := s.timers.filter (fun t => t.1 != id) } := by
  unfold fireTimer
  rw [find_of_nodup s.timers id _ h.1 hmem]

theorem fireTimer_nextPattern (env : Env) {s : System} (h : CycleInv s) {id : Nat}
    (hmem : (id, TimerCallback.nextPattern) ∈ s.timers) :
    fireTimer env id s =
      nextPatternTimer env.now { s with timers := s.timers.filter (fun t => t.1 != id) } := by
  unfold fireTimer
  rw [find_of_nodup s.timers id _ h.1 hmem]

/-- Claim C10: in every reachable state of an instance whose `patternSequence`
has length `n ≥ 1`, the `k`-th `formPattern` call made so far was for
`patternSequence[k mod n]`.  The call `k = 0` is made when the timer of `init`
fires and calls `startPatternCycle`; every firing of a pattern timer makes
the next call and leaves a pattern timer pending, so the walk never ends. -/
theorem patternCycle_walks_sequence (s : System) (h : Reachable s)
    (hn : 1 ≤ s.patternSequence.length) :
    (∀ k, k < s.formed.length →
      s.formed[k]? = s.patternSequence[k % s.patternSequence.length]?) ∧
    (∀ env id, (id, TimerCallback.startCycle) ∈ s.timers →
      s.formed = [] ∧
      (fireTimer env id s).formed = s.patternSequence.take 1 ∧
      ∃ id', (id', TimerCallback.nextPattern) ∈ (fireTimer env id s).timers) ∧
    (∀ env id, (id, TimerCallback.nextPattern) ∈ s.timers →
      (fireTimer env id s).formed.length = s.formed.length + 1 ∧
      (fireTimer env id s).formed.take s.formed.length = s.formed ∧
      ∃ id', (id', TimerCallback.nextPattern) ∈ (fireTimer env id s).timers) := by
  have hinv := cycleInv_of_reachable h
  have hidx := index_lt hinv hn
  obtain ⟨key, hkey⟩ : ∃ key, s.patternSequence[s.currentPatternIndex]? = some key :=
    ⟨_, List.getElem?_eq_getElem hidx⟩
  refine ⟨hinv.2.2.2.2.1, ?_, ?_⟩
  · intro env id hmem
    have hempty := (hinv.2.2.2.1 _ hmem rfl).2.1
    have hp := startPatternCycle_progress env.now
      (s := { s with timers := s.timers.filter (fun t => t.1 != id) }) hkey
    rw [fireTimer_startCycle env hinv hmem]
    refine ⟨hempty, ?_, hp.2⟩
    dsimp only at hp ⊢
    rw [hp.1, hempty]
    have h0 : s.currentPatternIndex = 0 := by
      rw [hinv.2.2.2.2.2, hempty]
      simp
    rw [h0] at hkey
    cases hq : s.patternSequence with
    | nil => rw [hq] at hkey; cases hkey
    | cons a l =>
      rw [hq] at hkey
      simp only [List.getElem?_cons_zero, Option.some.injEq] at hkey
      subst hkey
      simp
  · intro env id hmem
    have hp := nextPatternTimer_progress env.now
      (s := { s with timers := s.timers.filter (fun t => t.1 != id) }) hkey
    rw [fireTimer_nextPattern env hinv hmem]
    dsimp only at hp ⊢
    refine ⟨?_, ?_, hp.2⟩
    · rw [hp.1]
      simp
    · rw [hp.1]
      simp

theorem reachable_run (s : System) (events : List (Env × Event)) (h : Reachable s) :
    Reachable (run s events) := by
  induction events generalizing s with
  | nil => exact h
  | cons e events ih => exact ih _ (Reachable.step e.1 e.2 s h)

/-- Claim C10 after seven timer firings with the default sequence of five
patterns: the sequence has wrapped around and the next timer is pending. -/
theorem patternCycle_walks_sequence_sevenTimers :
    (run fresh sevenTimers).formed =
      [PatternKey.flowerOfLife, PatternKey.metatronCube, PatternKey.fibonacciSpiral,
       PatternKey.platonicSolid, PatternKey.vesicaPiscis, PatternKey.flowerOfLife,
       PatternKey.metatronCube] ∧
    (run fresh sevenTimers).timers = [(8, TimerCallback.nextPattern)] ∧
    (∀ k, k < (run fresh sevenTimers).formed.length →
      (run fresh sevenTimers).formed[k]? =
        (run fresh sevenTimers).patternSequence[
          k % (run fresh sevenTimers).patternSequence.length]?) ∧
    (∀ env id, (id, TimerCallback.nextPattern) ∈ (run fresh sevenTimers).timers →
      (fireTimer env id (run fresh sevenTimers)).formed.length
        = (run fresh sevenTimers).formed.length + 1 ∧
      (fireTimer env id (run fresh sevenTimers)).formed.take
        (run fresh sevenTimers).formed.length = (run fresh sevenTimers).formed ∧
      ∃ id', (id', TimerCallback.nextPattern) ∈
        (fireTimer env id (run fresh sevenTimers)).timers) :=
  ⟨rfl, rfl,
    (patternCycle_walks_sequence (run fresh sevenTimers)
      (reachable_run fresh sevenTimers (Reachable.construct defaultOptions 800 600))
      (by decide)).1,
    (patternCycle_walks_sequence (run fresh sevenTimers)
      (reachable_run fresh sevenTimers (Reachable.construct defaultOptions 800 600))
      (by decide)).2.2⟩

end Particles

/-! ## Theorems : the registry of `NeuralOrganicNetwork` -/

namespace OrganicNetwork

theorem same_refl (w : World) : Same w w := ⟨rfl, rfl⟩

theorem same_trans {a b c : World} (h1 : Same a b) (h2 : Same b c) : Same a c :=
  ⟨h2.1.trans h1.1, h2.2.trans h1.2⟩

theorem same_update (i : Nat) (f : Instance → Instance) (w : World) : Same w (update i f w) :=
  ⟨by simp [update], rfl⟩

theorem same_animate (i : Nat) (w : World) : Same w (animate i w) := by
  unfold animate
  cases w.heap[i]? with
  | none => exact same_refl w
  | some inst =>
    dsimp only
    split
    · exact same_refl w
    · exact ⟨by simp [update], rfl⟩

theorem same_init (i : Nat) (w : World) : Same w (init i w) :=
  same_trans (same_update i _ w) (same_animate i _)

theorem same_cancelOwnFrame (i : Nat) (w : World) : Same w (cancelOwnFrame i w) := by
  unfold cancelOwnFrame
  cases w.heap[i]? with
  | none => exact same_refl w
  | some inst =>
    dsimp only
    cases inst.animationFrame with
    | none => exact same_refl w
    | some id =>
      dsimp only
      split
      · exact ⟨by simp [update, cancelAnimationFrame], rfl⟩
      · exact same_refl w

theorem same_foldl (g : World → Nat → World) (hg : ∀ st i, Same st (g st i))
    (l : List Nat) (w : World) : Same w (l.foldl g w) := by
  induction l generalizing w with
  | nil => exact same_refl w
  | cons i l ih => exact same_trans (hg w i) (ih (g w i))

theorem same_stopAllAnimations (w : World) : Same w (stopAllAnimations w) := by
  unfold stopAllAnimations
  apply same_foldl
  intro st i
  exact same_trans (same_cancelOwnFrame i st) (same_update i _ _)

theorem same_startAllAnimations (w : World) : Same w (startAllAnimations w) := by
  unfold startAllAnimations
  apply same_foldl
  intro st i
  dsimp only
  have h1 := same_update i (fun o => { o with isActive := true }) st
  cases (update i (fun o => { o with isActive := true }) st).heap[i]? with
  | none => exact h1
  | some inst =>
    dsimp only
    split
    · exact h1
    · exact same_trans h1 (same_animate i _)

theorem same_runFrame (id : Nat) (w : World) : Same w (runFrame id w) := by
  unfold runFrame
  cases w.frames.find? (fun f => f.1 == id) with
  | none => exact same_refl w
  | some f =>
    obtain ⟨a, i⟩ := f
    dsimp only
    exact same_trans (a := w) (b := { w with frames := w.frames.filter (fun f => f.1 != id) })
      ⟨rfl, rfl⟩ (same_animate i _)

theorem destroy_registry (i : Nat) (w : World) :
    (destroy i w).heap.length = w.heap.length ∧
    (destroy i w).instances = w.instances.erase i := by
  unfold destroy
  dsimp only
  have h1 := same_cancelOwnFrame i w
  have h2 : Same (cancelOwnFrame i w)
      (match (cancelOwnFrame i w).heap[i]? with
        | some inst =>
          if inst.canvas && inst.canvasInParent then
            update i (fun o => { o with canvasInParent := false }) (cancelOwnFrame i w)
          else cancelOwnFrame i w
        | none => cancelOwnFrame i w) := by
    cases (cancelOwnFrame i w).heap[i]? with
    | none => exact same_refl _
    | some inst =>
      dsimp only
      split
      · exact same_update i _ _
      · exact same_refl _
  have h3 := same_trans h1 h2
  generalize (match (cancelOwnFrame i w).heap[i]? with
        | some inst =>
          if inst.canvas && inst.canvasInParent then
            update i (fun o => { o with canvasInParent := false }) (cancelOwnFrame i w)
          else cancelOwnFrame i w
        | none => cancelOwnFrame i w) = w2 at h3
  obtain ⟨hl, hi⟩ := h3
  split
  · exact ⟨hl, by simp [hi]⟩
  · rename_i hlt
    refine ⟨hl, ?_⟩
    rw [hi] at hlt ⊢
    have hnm : i ∉ w.instances := fun hm => hlt (List.indexOf_lt_length.2 hm)
    exact (List.erase_of_not_mem hnm).symm

theorem alive_snoc (events : List Event) (e : Event) :
    alive (events ++ [e]) =
      (match e with
        | Event.construct => alive events ++ [constructed events]
        | Event.destroy i => (alive events).filter (fun j => j != i)
        | _ => alive events) ∧
    constructed (events ++ [e]) =
      constructed events + (if e = Event.construct then 1 else 0) := by
  have hc : ∀ evs : List Event,
      (evs.foldl
        (fun (acc : Nat × List Nat) e =>
          match e with
          | Event.construct => (acc.1 + 1, acc.2 ++ [acc.1])
          | Event.destroy i => (acc.1, acc.2.filter (fun j => j != i))
          | _ => acc)
        (0, [])).1 = constructed evs := by
    intro evs
    induction evs using List.reverseRecOn with
    | nil => rfl
    | append_singleton evs e ih =>
      rw [List.foldl_append]
      unfold constructed at ih ⊢
      rw [List.countP_append]
      cases e <;> simp [ih]
  constructor
  · unfold alive
    rw [List.foldl_append]
    cases e <;> simp [hc]
  · unfold constructed
    rw [List.countP_append]
    by_cases he : e = Event.construct <;> simp [he]

theorem run_snoc (events : List Event) (e : Event) :
    run (events ++ [e]) = step (run events) e := by
  unfold run
  rw [List.foldl_append]
  rfl

theorem registry_invariant (events : List Event) :
    (run events).heap.length = constructed events ∧
    (run events).instances = alive events ∧
    (run events).instances.Pairwise (· < ·) ∧
    ∀ i ∈ (run events).instances, i < (run events).heap.length := by
  induction events using List.reverseRecOn with
  | nil =>
    refine ⟨rfl, rfl, List.Pairwise.nil, ?_⟩
    intro i hi
    exact absurd hi (List.not_mem_nil _)
  | append_singleton events e ih =>
    obtain ⟨h1, h2, h3, h4⟩ := ih
    obtain ⟨ha, hc⟩ := alive_snoc events e
    rw [run_snoc, ha, hc]
    have keep : ∀ v : World, Same (run events) v → e ≠ Event.construct →
        (match e with
          | Event.construct => alive events ++ [constructed events]
          | Event.destroy i => (alive events).filter (fun j => j != i)
          | _ => alive events) = alive events →
        v.heap.length = constructed events + (if e = Event.construct then 1 else 0) ∧
        v.instances = alive events ∧ v.instances.Pairwise (· < ·) ∧
        ∀ i ∈ v.instances, i < v.heap.length := by
      intro v hv hne _
      obtain ⟨hv1, hv2⟩ := hv
      rw [hv1, hv2, if_neg hne]
      exact ⟨h1, h2, h3, h4⟩
    cases e with
    | construct =>
      simp only [step, construct, if_true]
      refine ⟨by simp [h1], by rw [h2, h1], ?_, ?_⟩
      · rw [List.pairwise_append]
        refine ⟨h3, List.pairwise_singleton _ _, ?_⟩
        intro a ha' b hb
        rw [List.mem_singleton] at hb
        subst hb
        exact h4 a ha'
      · intro i hi
        rw [List.mem_append, List.mem_singleton] at hi
        rw [List.length_append, List.length_singleton]
        rcases hi with hi | hi
        · have := h4 i hi
          omega
        · omega
    | destroy i =>
      obtain ⟨d1, d2⟩ := destroy_registry i (run events)
      have hnd : (run events).instances.Nodup := h3.imp (fun h => Nat.ne_of_lt h)
      simp only [step, d1, d2]
      rw [hnd.erase_eq_filter, h2]
      refine ⟨by simp [h1], rfl, ?_, ?_⟩
      · rw [← h2]
        exact h3.filter _
      · intro j hj
        rw [← h2] at hj
        exact h4 j (List.mem_filter.1 hj).1
    | init i =>
      have := keep _ (same_init i (run events)) (by simp) rfl
      simpa [step] using this
    | stopAll =>
      have := keep _ (same_stopAllAnimations (run events)) (by simp) rfl
      simpa [step] using this
    | startAll =>
      have := keep _ (same_startAllAnimations (run events)) (by simp) rfl
      simpa [step] using this
    | frame id =>
      have := keep _ (same_runFrame id (run events)) (by simp) rfl
      simpa [step] using this

theorem destroy_of_settled (i : Nat) (w : World) (h : Settled i w) : destroy i w = w := by
  obtain ⟨hh, hi⟩ := h
  have hc : cancelOwnFrame i w = w := by
    unfold cancelOwnFrame
    cases hg : w.heap[i]? with
    | none => rfl
    | some inst =>
      dsimp only
      cases ha : inst.animationFrame with
      | none => rfl
      | some id =>
        dsimp only
        have := (hh inst hg).1
        rw [ha] at this
        rw [if_neg (by simp [this])]
  unfold destroy
  dsimp only
  rw [hc]
  have hc2 : (match w.heap[i]? with
      | some inst =>
        if inst.canvas && inst.canvasInParent then
          update i (fun o => { o with canvasInParent := false }) w
        else w
      | none => w) = w := by
    cases hg : w.heap[i]? with
    | none => rfl
    | some inst =>
      dsimp only
      rw [if_neg (by simp [(hh inst hg).2])]
  rw [hc2]
  rw [if_neg]
  rw [List.indexOf_lt_length]
  exact hi

theorem heap_cancelOwnFrame (i : Nat) (w : World) (inst : Instance)
    (h : (cancelOwnFrame i w).heap[i]? = some inst) :
    truthy inst.animationFrame = false ∧
      ∃ o, w.heap[i]? = some o ∧ inst.canvas = o.canvas ∧
        inst.canvasInParent = o.canvasInParent := by
  unfold cancelOwnFrame at h
  cases hg : w.heap[i]? with
  | none =>
    rw [hg] at h
    dsimp only at h
    rw [hg] at h
    cases h
  | some o =>
    rw [hg] at h
    dsimp only at h
    cases ha : o.animationFrame with
    | none =>
      rw [ha] at h
      dsimp only at h
      rw [hg] at h
      have e : o = inst := Option.some.inj h
      subst e
      exact ⟨by simp [truthy, ha], o, rfl, rfl, rfl⟩
    | some id =>
      rw [ha] at h
      dsimp only at h
      by_cases ht : truthy (some id) = true
      · rw [if_pos ht] at h
        simp only [update, cancelAnimationFrame, List.getElem?_modify, hg, Option.map_eq_map,
          Option.map_some', if_true, Option.some.injEq] at h
        subst h
        exact ⟨rfl, o, rfl, rfl, rfl⟩
      · rw [if_neg ht, hg] at h
        have e : o = inst := Option.some.inj h
        subst e
        exact ⟨by rw [ha]; simpa using ht, o, rfl, rfl, rfl⟩

theorem settled_destroy (i : Nat) (w : World) (hnd : w.instances.Nodup) :
    Settled i (destroy i w) := by
  constructor
  · intro inst hinst
    unfold destroy at hinst
    dsimp only at hinst
    have hheap : ∀ (w2 : World),
        (if w2.instances.indexOf i < w2.instances.length then
          { w2 with instances := w2.instances.eraseIdx (w2.instances.indexOf i) }
         else w2).heap = w2.heap := by
      intro w2
      split <;> rfl
    rw [hheap] at hinst
    cases hg : (cancelOwnFrame i w).heap[i]? with
    | none =>
      rw [hg] at hinst
      dsimp only at hinst
      rw [hg] at hinst
      cases hinst
    | some o =>
      rw [hg] at hinst
      dsimp only at hinst
      obtain ⟨ht, _⟩ := heap_cancelOwnFrame i w o hg
      by_cases hc : (o.canvas && o.canvasInParent) = true
      · rw [if_pos hc] at hinst
        simp only [update, List.getElem?_modify, hg, Option.map_eq_map, Option.map_some',
          if_true, Option.some.injEq] at hinst
        subst hinst
        exact ⟨ht, by simp⟩
      · rw [if_neg hc, hg] at hinst
        have e : o = inst := Option.some.inj hinst
        subst e
        exact ⟨ht, by simpa using hc⟩
  · rw [(destroy_registry i w).2]
    exact hnd.not_mem_erase

/-- Claim C9: after every history of events the registry
`NeuralOrganicNetwork.instances` is the list of instances constructed and not
yet destroyed, in construction order and without duplicates; the constructor
appends the new instance, which was not in the list; `destroy` removes that
instance and keeps the others in order; a second `destroy` changes nothing. -/
theorem registry_tracks_live_instances (events : List Event) :
    (run events).instances = alive events ∧
    (run events).instances.Pairwise (· < ·) ∧
    (construct (run events)).instances =
      (run events).instances ++ [(run events).heap.length] ∧
    (run events).heap.length ∉ (run events).instances ∧
    (∀ i, (destroy i (run events)).instances
      = (run events).instances.filter (fun j => j != i)) ∧
    (∀ i, destroy i (destroy i (run events)) = destroy i (run events)) := by
  obtain ⟨_, h2, h3, h4⟩ := registry_invariant events
  have hnd : (run events).instances.Nodup := h3.imp (fun h => Nat.ne_of_lt h)
  refine ⟨h2, h3, rfl, ?_, ?_, ?_⟩
  · intro hm
    exact absurd (h4 _ hm) (Nat.lt_irrefl _)
  · intro i
    rw [(destroy_registry i (run events)).2, hnd.erase_eq_filter]
  · intro i
    exact destroy_of_settled i _ (settled_destroy i _ hnd)

end OrganicNetwork

/-! ## Theorems : wrapping at the edges -/

namespace Particles

open Float64 (Number)

theorem position_patternVelocity (m : Motion Number) (p : Particle Number) :
    (patternVelocity m p).x = p.x ∧ (patternVelocity m p).y = p.y := by
  unfold patternVelocity
  simp only []
  split_ifs <;> exact ⟨rfl, rfl⟩

theorem position_mouseAttraction (m : Motion Number) (p : Particle Number) :
    (mouseAttraction m p).x = p.x ∧ (mouseAttraction m p).y = p.y := by
  unfold mouseAttraction
  split
  · simp only []
    split_ifs <;> exact ⟨rfl, rfl⟩
  · exact ⟨rfl, rfl⟩

theorem position_freeForces (m : Motion Number) (r : Draws Number) (p : Particle Number) :
    (freeForces m r p).x = p.x ∧ (freeForces m r p).y = p.y := by
  unfold freeForces
  simp only []
  split_ifs
  · exact position_mouseAttraction m p
  · exact position_mouseAttraction m p

theorem position_clampSpeed (L : Number) (p : Particle Number) :
    (clampSpeed L p).x = p.x ∧ (clampSpeed L p).y = p.y := by
  unfold clampSpeed
  simp only []
  split_ifs <;> exact ⟨rfl, rfl⟩

/-- The particle that `updateParticle` moves and wraps: the input with a new
velocity, at the same position. -/
theorem updateParticle_eq (m : Motion Number) (r : Draws Number) (p : Particle Number) :
    ∃ v : Particle Number, updateParticle m r p = moveAndWrap m v ∧ v.x = p.x ∧ v.y = p.y := by
  unfold updateParticle
  split_ifs
  · exact ⟨_, rfl, position_patternVelocity m p⟩
  · refine ⟨_, rfl, ?_, ?_⟩
    · exact (position_clampSpeed _ _).1.trans (position_freeForces m r p).1
    · exact (position_clampSpeed _ _).2.trans (position_freeForces m r p).2

/-- The two boundary checks of one coordinate on a position `a` that is
`NaN`: both comparisons are false and the coordinate stays `NaN`. -/
theorem wrap_nan (w : Number) :
    (if (if Number.nan < 0 then w else Number.nan) > w then (0 : Number)
      else (if Number.nan < 0 then w else Number.nan)) = Number.nan := by
  rw [if_neg (Float64.not_nan_lt _)]
  exact if_neg (Float64.not_lt_nan _)

theorem moveAndWrap_nan (m : Motion Number) (p : Particle Number) :
    (p.x = Number.nan → (moveAndWrap m p).x = Number.nan) ∧
    (p.y = Number.nan → (moveAndWrap m p).y = Number.nan) := by
  constructor
  · intro h
    show (if (if p.x + p.speedX < 0 then m.width else p.x + p.speedX) > m.width then (0 : Number)
      else (if p.x + p.speedX < 0 then m.width else p.x + p.speedX)) = Number.nan
    rw [h, Float64.nan_add]
    exact wrap_nan _
  · intro h
    show (if (if p.y + p.speedY < 0 then m.height else p.y + p.speedY) > m.height
      then (0 : Number) else (if p.y + p.speedY < 0 then m.height else p.y + p.speedY)) =
        Number.nan
    rw [h, Float64.nan_add]
    exact wrap_nan _

/-- A position that is `NaN` stays `NaN` through `updateParticles`, whatever
the options, the random draws and the velocity. -/
theorem updateParticle_nan (m : Motion Number) (r : Draws Number) (p : Particle Number) :
    (p.x = Number.nan → (updateParticle m r p).x = Number.nan) ∧
    (p.y = Number.nan → (updateParticle m r p).y = Number.nan) := by
  obtain ⟨v, hv, hx, hy⟩ := updateParticle_eq m r p
  rw [hv]
  exact ⟨fun h => (moveAndWrap_nan m v).1 (hx.trans h),
    fun h => (moveAndWrap_nan m v).2 (hy.trans h)⟩

/-- The two boundary checks of one coordinate on a position `a` that is not
`NaN`, for a finite extent `w ≥ 0`: the result is a finite value in
`[0, w]`; it is `w` when `a < 0`, 0 when `a > w`, and `a` otherwise. -/
theorem wrap_number (w : ℚ) (hw : 0 ≤ w) (a : Number) (ha : a ≠ Number.nan) :
    ∃ b : ℚ,
      (if (if a < 0 then Number.fin w else a) > Number.fin w then (0 : Number)
        else (if a < 0 then Number.fin w else a)) = Number.fin b ∧
      0 ≤ b ∧ b ≤ w ∧ (a < 0 → b = w) ∧ (Number.fin w < a → b = 0) ∧
      (¬ a < 0 → ¬ Number.fin w < a → a = Number.fin b) := by
  rw [Float64.zero_eq]
  cases a with
  | nan => exact absurd rfl ha
  | inf negative =>
    cases negative with
    | true =>
      have h1 : Number.inf true < Number.fin 0 := rfl
      have h2 : ¬ Number.fin w < Number.fin w := by rw [Float64.fin_lt_fin]; exact lt_irrefl w
      have h3 : ¬ Number.fin w < Number.inf true := by
        show ¬ Float64.lt _ _ = true
        simp [Float64.lt]
      refine ⟨w, ?_, hw, le_rfl, fun _ => rfl, fun h => absurd h h3, fun h => absurd h1 h⟩
      rw [if_pos h1]
      exact if_neg h2
    | false =>
      have h1 : ¬ Number.inf false < Number.fin 0 := by
        show ¬ Float64.lt _ _ = true
        simp [Float64.lt]
      have h2 : Number.fin w < Number.inf false := Float64.fin_lt_inf w
      refine ⟨0, ?_, le_rfl, hw, fun h => absurd h h1, fun _ => rfl, fun _ h => absurd h2 h⟩
      rw [if_neg h1]
      exact if_pos h2
  | fin q =>
    by_cases hq : q < 0
    · have h1 : Number.fin q < Number.fin 0 := (Float64.fin_lt_fin q 0).mpr hq
      have h2 : ¬ Number.fin w < Number.fin w := by rw [Float64.fin_lt_fin]; exact lt_irrefl w
      have h3 : ¬ Number.fin w < Number.fin q := by
        rw [Float64.fin_lt_fin]
        exact not_lt.mpr (le_trans hq.le hw)
      refine ⟨w, ?_, hw, le_rfl, fun _ => rfl, fun h => absurd h h3, fun h => absurd h1 h⟩
      rw [if_pos h1]
      exact if_neg h2
    · have h1 : ¬ Number.fin q < Number.fin 0 := by rw [Float64.fin_lt_fin]; exact hq
      rw [if_neg h1]
      by_cases hqw : w < q
      · have h2 : Number.fin w < Number.fin q := (Float64.fin_lt_fin w q).mpr hqw
        exact ⟨0, if_pos h2, le_rfl, hw, fun h => absurd h h1, fun _ => rfl,
          fun _ h => absurd h2 h⟩
      · have h2 : ¬ Number.fin w < Number.fin q := by rw [Float64.fin_lt_fin]; exact hqw
        exact ⟨q, if_neg h2, not_lt.mp hq, not_lt.mp hqw, fun h => absurd h h1,
          fun h => absurd h h2, fun _ _ => rfl⟩

/-- Wrapping for positions that are numbers: when `width` and `height` are
finite and not negative and the moved position `x + speedX`, `y + speedY` of a
particle is not `NaN`, the particle leaves `updateParticles` at a finite
position with `0 ≤ x ≤ width` and `0 ≤ y ≤ height`, at `x = width` when it
moved past the left edge, at `x = 0` when it moved past the right edge, and
where it moved to otherwise; likewise for `y`. -/
theorem updateParticles_wraps_numbers (m : Motion Number) (draws : Nat → Draws Number)
    (particles : List (Particle Number)) (w h : ℚ) (hw : m.width = Number.fin w)
    (hh : m.height = Number.fin h) (hw0 : 0 ≤ w) (hh0 : 0 ≤ h)
    (i : Nat) (p : Particle Number) (hp : particles[i]? = some p) :
    ∃ q, (updateParticles m draws particles)[i]? = some q ∧
      (p.x + q.speedX ≠ Number.nan → ∃ a : ℚ, q.x = Number.fin a ∧ 0 ≤ a ∧ a ≤ w ∧
        (p.x + q.speedX < 0 → a = w) ∧ (m.width < p.x + q.speedX → a = 0) ∧
        (¬ p.x + q.speedX < 0 → ¬ m.width < p.x + q.speedX →
          p.x + q.speedX = Number.fin a)) ∧
      (p.y + q.speedY ≠ Number.nan → ∃ b : ℚ, q.y = Number.fin b ∧ 0 ≤ b ∧ b ≤ h ∧
        (p.y + q.speedY < 0 → b = h) ∧ (m.height < p.y + q.speedY → b = 0) ∧
        (¬ p.y + q.speedY < 0 → ¬ m.height < p.y + q.speedY →
          p.y + q.speedY = Number.fin b)) := by
  refine ⟨updateParticle m (draws i) p, updateParticles_getElem m draws particles i p hp, ?_⟩
  obtain ⟨v, hv, hx, hy⟩ := updateParticle_eq m (draws i) p
  rw [hv, (speedX_moveAndWrap m v).1, (speedX_moveAndWrap m v).2.1, ← hx, ← hy, hw, hh]
  constructor
  · intro hnan
    have := wrap_number w hw0 (v.x + v.speedX) hnan
    unfold moveAndWrap
    rw [hw]
    exact this
  · intro hnan
    have := wrap_number h hh0 (v.y + v.speedY) hnan
    unfold moveAndWrap
    rw [hh]
    exact this

/-- Claim C19 at its failing input.  Under the default options the morph
callback leaves a flagged particle at `NaN` for x and y (`morphPositions`);
`updateParticles` on such a particle, on a canvas of 800 by 600, leaves x and
y `NaN`, for which `0 <= x` and `x <= width` are both false. -/
theorem updateParticles_keeps_nan_position :
    morphPositions defaultOptions.patternDuration 1000 5000 [travelling] = [(none, none)] ∧
    strayParticle.x = Number.nan ∧ strayParticle.y = Number.nan ∧
    (updateParticles patternMotion (fun _ => noJitter) [strayParticle]).map
      (fun q => (q.x, q.y)) = [(Number.nan, Number.nan)] ∧
    (updateParticles patternMotion (fun _ => noJitter) [strayParticle]).map
      (fun q => (Float64.le 0 q.x, Float64.le q.x patternMotion.width,
        Float64.le 0 q.y, Float64.le q.y patternMotion.height)) =
      [(false, false, false, false)] := by
  have hx := (updateParticle_nan patternMotion noJitter strayParticle).1 rfl
  have hy := (updateParticle_nan patternMotion noJitter strayParticle).2 rfl
  refine ⟨rfl, rfl, rfl, ?_, ?_⟩
  · rw [updateParticles_singleton, List.map_singleton, hx, hy]
  · rw [updateParticles_singleton, List.map_singleton, hx, hy, Float64.le_nan, Float64.nan_le,
      Float64.nan_le]

theorem easeProgress_of_lt (p : ℝ) (h : p < 0.5) : easeProgress p = 4 * p ^ 3 := by
  unfold easeProgress
  rw [if_pos h]
  ring

theorem easeProgress_of_ge (p : ℝ) (h : ¬ p < 0.5) : easeProgress p = 1 + 4 * (p - 1) ^ 3 := by
  unfold easeProgress
  rw [if_neg h]
  ring

theorem cube_le_cube (a b : ℝ) (h : a ≤ b) : a ^ 3 ≤ b ^ 3 := by
  nlinarith [sq_nonneg (a - b), sq_nonneg (a + b), sq_nonneg a, sq_nonneg b,
    mul_nonneg (sub_nonneg.2 h) (sq_nonneg (a + b)),
    mul_nonneg (sub_nonneg.2 h) (sq_nonneg a), mul_nonneg (sub_nonneg.2 h) (sq_nonneg b)]

theorem easeProgress_mono (p q : ℝ) (h : p ≤ q) : easeProgress p ≤ easeProgress q := by
  by_cases hp : p < 0.5
  · by_cases hq : q < 0.5
    · rw [easeProgress_of_lt p hp, easeProgress_of_lt q hq]
      have := cube_le_cube p q h
      linarith
    · rw [easeProgress_of_lt p hp, easeProgress_of_ge q hq]
      have h1 := cube_le_cube p 0.5 hp.le
      have h2 := cube_le_cube (0.5 - 1) (q - 1) (by linarith [not_lt.1 hq])
      norm_num at h1 h2
      linarith
  · have hq : ¬ q < 0.5 := fun hq => hp (lt_of_le_of_lt h hq)
    rw [easeProgress_of_ge p hp, easeProgress_of_ge q hq]
    have := cube_le_cube (p - 1) (q - 1) (by linarith)
    linarith

/-- Claim C20: the easing of the pattern morph is an ease-in-out cubic:
`e(0) = 0`, `e(1/2) = 1/2`, `e(1) = 1`, `e` is monotonically non-decreasing (on
`[0,1]` and beyond), and `e(p)` equals `easing.easeInOutCubic(p)` of
math-utils.js for every `p`. -/
theorem easeProgress_easeInOutCubic :
    easeProgress (0 : ℝ) = 0 ∧ easeProgress (1 / 2 : ℝ) = 1 / 2 ∧ easeProgress (1 : ℝ) = 1 ∧
    (∀ p q : ℝ, 0 ≤ p → p ≤ q → q ≤ 1 → easeProgress p ≤ easeProgress q) ∧
    (∀ p : ℝ, easeProgress p = MathUtils.easeInOutCubic p) := by
  refine ⟨?_, ?_, ?_, fun p q _ h _ => easeProgress_mono p q h, ?_⟩
  · rw [easeProgress_of_lt 0 (by norm_num)]
    norm_num
  · rw [easeProgress_of_ge (1 / 2) (by norm_num)]
    norm_num
  · rw [easeProgress_of_ge 1 (by norm_num)]
    norm_num
  · intro p
    unfold easeProgress MathUtils.easeInOutCubic
    split
    · rfl
    · ring

/-- Claim C20 at a quarter and three quarters of the way: the easing gives
1/16 and 15/16. -/
theorem easeProgress_quarters :
    easeProgress (0.25 : ℝ) = 0.0625 ∧ easeProgress (0.75 : ℝ) = 0.9375 ∧
    easeProgress (0.25 : ℝ) ≤ easeProgress (0.75 : ℝ) := by
  refine ⟨?_, ?_, easeProgress_easeInOutCubic.2.2.2.1 0.25 0.75 (by norm_num) (by norm_num)
    (by norm_num)⟩
  · rw [easeProgress_of_lt _ (by norm_num)]
    norm_num
  · rw [easeProgress_of_ge _ (by norm_num)]
    norm_num

end Particles

namespace SplitScreen

/-- Claim C15 at its failing input: both sides shrink from 800 by 600 to 400 by
300.  The callback first stores the new sizes, so `redistributeNodes` divides
by the new width and height: the nodes at (400, 300) stay at (400, 300)
instead of moving to (200, 150). -/
theorem resizeCallback_keeps_positions :
    (resizeCallback halved beforeResize).humanNodes = [{ x := 400, y := 300 }] ∧
    (resizeCallback halved beforeResize).aiNodes = [{ x := 400, y := 300 }] ∧
    (resizeCallback halved beforeResize).humanWidth = 400 ∧
    (resizeCallback halved beforeResize).humanHeight = 300 ∧
    (400 : ℚ) * 400 / 800 = 200 ∧ (300 : ℚ) * 300 / 600 = 150 := by
  refine ⟨?_, ?_, rfl, rfl, by norm_num, by norm_num⟩
  · simp only [resizeCallback, redistributeNodes, halved, beforeResize, List.map_cons,
      List.map_nil]
    norm_num
  · simp only [resizeCallback, redistributeNodes, halved, beforeResize, List.map_cons,
      List.map_nil]
    norm_num

end SplitScreen

/-! ## Theorems : `createParticleSystem` -/

namespace CanvasUtils

variable {K : Type} [LinearOrderedField K]

theorem survivors_append_singleton (now : K) (rnd : Nat → K) (pre : List (Particle K))
    (p : Particle K) :
    survivors now rnd (pre ++ [p]) =
      survivors now rnd pre ++
        (if now - p.created < p.lifetime then [updateOne now (rnd pre.length) p] else []) := by
  unfold survivors
  rw [List.enum_append, List.filter_append, List.map_append]
  congr 1
  by_cases h : now - p.created < p.lifetime <;> simp [List.enumFrom, h]

theorem updateAt_last (now : K) (rnd : Nat → K) (pre done : List (Particle K))
    (p : Particle K) :
    updateAt now rnd (pre ++ p :: done) pre.length =
      pre ++ ((if now - p.created < p.lifetime then [updateOne now (rnd pre.length) p]
        else []) ++ done) := by
  unfold updateAt
  have hget : (pre ++ p :: done)[pre.length]? = some p := by
    rw [List.getElem?_append_right (le_refl _)]
    simp
  rw [hget]
  dsimp only
  by_cases h : now - p.created < p.lifetime
  · rw [if_neg (not_le.2 h), if_pos h]
    rw [List.set_append_right _ _ (le_refl _)]
    simp
  · rw [if_pos (not_lt.1 h), if_neg h]
    rw [List.eraseIdx_append_of_length_le (le_refl _)]
    simp

theorem loop_prefix (now : K) (rnd : Nat → K) (pre done : List (Particle K)) :
    (List.range pre.length).reverse.foldl (updateAt now rnd) (pre ++ done) =
      survivors now rnd pre ++ done := by
  induction pre using List.reverseRecOn generalizing done with
  | nil => simp [survivors]
  | append_singleton pre p ih =>
    rw [List.length_append, List.length_singleton, List.range_succ, List.reverse_append,
      List.reverse_singleton, List.singleton_append, List.foldl_cons, List.append_assoc,
      List.singleton_append, updateAt_last, ih, survivors_append_singleton,
      List.append_assoc]

/-- Claim C16: `update`, evaluated at clock time `now`, leaves in the array
exactly the particles with `now - created < lifetime`, in their original
order, each updated once; the backward loop with `splice` skips none. -/
theorem update_eq_survivors (now : K) (rnd : Nat → K) (particles : List (Particle K)) :
    update now rnd particles = survivors now rnd particles ∧
    (update now rnd particles).length
      = (particles.filter (fun p => now - p.created < p.lifetime)).length := by
  have h : update now rnd particles = survivors now rnd particles := by
    have := loop_prefix now rnd particles []
    simpa [update] using this
  refine ⟨h, ?_⟩
  rw [h]
  unfold survivors
  rw [List.length_map]
  have : ∀ (l : List (Particle K)) (k : Nat),
      ((List.enumFrom k l).filter (fun ip => now - ip.2.created < ip.2.lifetime)).length
        = (l.filter (fun p => now - p.created < p.lifetime)).length := by
    intro l
    induction l with
    | nil => intro k; rfl
    | cons a l ih =>
      intro k
      rw [List.enumFrom_cons, List.filter_cons, List.filter_cons]
      by_cases ha : now - a.created < a.lifetime
      · simp only [ha, decide_True, if_true, List.length_cons, ih]
      · simp only [ha, decide_False, if_false, ih]
        exact ih (k + 1)
  exact this particles 0

/-- Claim C16 on four particles at clock time 2500: the two created at 0 and at
400 have reached their lifetime of 2000 and are gone, the two created at 1000
and at 600 remain, in this order. -/
theorem update_four_particles :
    update 2500 (fun _ => 0) [sample 0, sample 1000, sample 400, sample 600]
      = survivors 2500 (fun _ => 0) [sample 0, sample 1000, sample 400, sample 600] ∧
    (update 2500 (fun _ => 0) [sample 0, sample 1000, sample 400, sample 600]).map
      (fun p => p.created) = [1000, 600] := by
  have h := update_eq_survivors (2500 : ℚ) (fun _ => 0)
    [sample 0, sample 1000, sample 400, sample 600]
  refine ⟨h.1, ?_⟩
  rw [h.1]
  simp [survivors, List.enum, List.enumFrom, sample, updateOne]
  norm_num

end CanvasUtils

/-! ## Theorems : the fit of a pattern to the canvas -/

namespace Particles

variable {K : Type} [LinearOrderedField K]

theorem foldl_min_map (f : K → K) (hf : Monotone f) (vs : List K) (v : K) :
    (vs.map f).foldl min (f v) = f (vs.foldl min v) := by
  induction vs generalizing v with
  | nil => rfl
  | cons a vs ih =>
    rw [List.map_cons, List.foldl_cons, List.foldl_cons, ← hf.map_min, ih]

theorem foldl_max_map (f : K → K) (hf : Monotone f) (vs : List K) (v : K) :
    (vs.map f).foldl max (f v) = f (vs.foldl max v) := by
  induction vs generalizing v with
  | nil => rfl
  | cons a vs ih =>
    rw [List.map_cons, List.foldl_cons, List.foldl_cons, ← hf.map_max, ih]

theorem least_map (f : K → K) (hf : Monotone f) (vs : List K) (hne : vs ≠ []) :
    least (vs.map f) = f (least vs) := by
  cases vs with
  | nil => exact absurd rfl hne
  | cons v vs => exact foldl_min_map f hf vs v

theorem greatest_map (f : K → K) (hf : Monotone f) (vs : List K) (hne : vs ≠ []) :
    greatest (vs.map f) = f (greatest vs) := by
  cases vs with
  | nil => exact absurd rfl hne
  | cons v vs => exact foldl_max_map f hf vs v

theorem monotone_affine (a c s : K) (hs : 0 ≤ s) : Monotone (fun x => a + (x - c) * s) := by
  intro x y hxy
  have : (x - c) * s ≤ (y - c) * s := mul_le_mul_of_nonneg_right (by linarith) hs
  simpa using this

theorem xs_scaledPositions (width height : K) (positions : List (Point K)) :
    (scaledPositions width height positions).map (fun pos => pos.x) =
      (positions.map (fun pos => pos.x)).map (fun x =>
        width / 2 + (x - (least (positions.map (fun pos => pos.x)) +
          (greatest (positions.map (fun pos => pos.x)) -
            least (positions.map (fun pos => pos.x))) / 2)) *
          fitScale width height positions) := by
  unfold scaledPositions fitScale
  simp only [List.map_map]
  rfl

theorem ys_scaledPositions (width height : K) (positions : List (Point K)) :
    (scaledPositions width height positions).map (fun pos => pos.y) =
      (positions.map (fun pos => pos.y)).map (fun y =>
        height / 2 + (y - (least (positions.map (fun pos => pos.y)) +
          (greatest (positions.map (fun pos => pos.y)) -
            least (positions.map (fun pos => pos.y))) / 2)) *
          fitScale width height positions) := by
  unfold scaledPositions fitScale
  simp only [List.map_map]
  rfl

theorem fitScale_nonneg (width height : K) (positions : List (Point K)) (hw : 0 ≤ width)
    (hh : 0 ≤ height)
    (hpw : 0 < greatest (positions.map (fun pos => pos.x)) -
      least (positions.map (fun pos => pos.x)))
    (hph : 0 < greatest (positions.map (fun pos => pos.y)) -
      least (positions.map (fun pos => pos.y))) :
    0 ≤ fitScale width height positions := by
  unfold fitScale
  dsimp only
  apply le_min
  · exact div_nonneg (mul_nonneg hw (by norm_num)) hpw.le
  · exact div_nonneg (mul_nonneg hh (by norm_num)) hph.le

theorem box_of_affine (vs : List K) (a s : K) (hs : 0 ≤ s) (hne : vs ≠ []) :
    (least (vs.map (fun x => a + (x - (least vs + (greatest vs - least vs) / 2)) * s)) +
      greatest (vs.map (fun x => a + (x - (least vs + (greatest vs - least vs) / 2)) * s)))
        / 2 = a ∧
    greatest (vs.map (fun x => a + (x - (least vs + (greatest vs - least vs) / 2)) * s)) -
      least (vs.map (fun x => a + (x - (least vs + (greatest vs - least vs) / 2)) * s))
        = s * (greatest vs - least vs) := by
  rw [least_map _ (monotone_affine a _ s hs) vs hne,
    greatest_map _ (monotone_affine a _ s hs) vs hne]
  constructor <;> ring

/-- Claim C12: for anchors whose bounding box has positive width `pw` and height
`ph` and a canvas of `W` by `H`, `formPattern` maps an anchor `(x, y)` to
`(W/2 + (x - cx) * s, H/2 + (y - cy) * s)` with `(cx, cy)` the centre of the
bounding box and `s = min(0.8 * W / pw, 0.8 * H / ph)`.  The bounding box of
the transformed anchors is centred at `(W/2, H/2)`, has width `s * pw ≤ 0.8 * W`
and height `s * ph ≤ 0.8 * H`, with equality in at least one of the two. -/
theorem scaledPositions_fit (width height : K) (positions : List (Point K))
    (hw : 0 ≤ width) (hh : 0 ≤ height)
    (hpw : 0 < greatest (positions.map (fun pos => pos.x)) -
      least (positions.map (fun pos => pos.x)))
    (hph : 0 < greatest (positions.map (fun pos => pos.y)) -
      least (positions.map (fun pos => pos.y))) :
    scaledPositions width height positions =
      positions.map (fun pos =>
        { x := width / 2 +
            (pos.x - (least (positions.map (fun pos => pos.x)) +
              greatest (positions.map (fun pos => pos.x))) / 2) *
              fitScale width height positions,
          y := height / 2 +
            (pos.y - (least (positions.map (fun pos => pos.y)) +
              greatest (positions.map (fun pos => pos.y))) / 2) *
              fitScale width height positions }) ∧
    fitScale width height positions =
      min (0.8 * width / (greatest (positions.map (fun pos => pos.x)) -
          least (positions.map (fun pos => pos.x))))
        (0.8 * height / (greatest (positions.map (fun pos => pos.y)) -
          least (positions.map (fun pos => pos.y)))) ∧
    (least ((scaledPositions width height positions).map (fun pos => pos.x)) +
      greatest ((scaledPositions width height positions).map (fun pos => pos.x))) / 2
        = width / 2 ∧
    (least ((scaledPositions width height positions).map (fun pos => pos.y)) +
      greatest ((scaledPositions width height positions).map (fun pos => pos.y))) / 2
        = height / 2 ∧
    greatest ((scaledPositions width height positions).map (fun pos => pos.x)) -
      least ((scaledPositions width height positions).map (fun pos => pos.x))
        ≤ 0.8 * width ∧
    greatest ((scaledPositions width height positions).map (fun pos => pos.y)) -
      least ((scaledPositions width height positions).map (fun pos => pos.y))
        ≤ 0.8 * height ∧
    (greatest ((scaledPositions width height positions).map (fun pos => pos.x)) -
        least ((scaledPositions width height positions).map (fun pos => pos.x))
          = 0.8 * width ∨
      greatest ((scaledPositions width height positions).map (fun pos => pos.y)) -
        least ((scaledPositions width height positions).map (fun pos => pos.y))
          = 0.8 * height) := by
  have hne : positions ≠ [] := by
    intro h
    rw [h] at hpw
    simp [greatest, least] at hpw
  have hnx : positions.map (fun pos => pos.x) ≠ [] := by simpa using hne
  have hny : positions.map (fun pos => pos.y) ≠ [] := by simpa using hne
  have hs := fitScale_nonneg width height positions hw hh hpw hph
  obtain ⟨cx, wx⟩ := box_of_affine (positions.map (fun pos => pos.x)) (width / 2)
    (fitScale width height positions) hs hnx
  obtain ⟨cy, wy⟩ := box_of_affine (positions.map (fun pos => pos.y)) (height / 2)
    (fitScale width height positions) hs hny
  rw [← xs_scaledPositions] at cx wx
  rw [← ys_scaledPositions] at cy wy
  have hscale : fitScale width height positions =
      min (0.8 * width / (greatest (positions.map (fun pos => pos.x)) -
          least (positions.map (fun pos => pos.x))))
        (0.8 * height / (greatest (positions.map (fun pos => pos.y)) -
          least (positions.map (fun pos => pos.y)))) := by
    unfold fitScale
    dsimp only
    rw [mul_comm width, mul_comm height]
  have hx : fitScale width height positions *
      (greatest (positions.map (fun pos => pos.x)) - least (positions.map (fun pos => pos.x)))
        ≤ 0.8 * width := by
    rw [hscale]
    calc _ ≤ 0.8 * width / (greatest (positions.map (fun pos => pos.x)) -
          least (positions.map (fun pos => pos.x))) *
          (greatest (positions.map (fun pos => pos.x)) -
            least (positions.map (fun pos => pos.x))) :=
          mul_le_mul_of_nonneg_right (min_le_left _ _) hpw.le
      _ = 0.8 * width := div_mul_cancel₀ _ hpw.ne'
  have hy : fitScale width height positions *
      (greatest (positions.map (fun pos => pos.y)) - least (positions.map (fun pos => pos.y)))
        ≤ 0.8 * height := by
    rw [hscale]
    calc _ ≤ 0.8 * height / (greatest (positions.map (fun pos => pos.y)) -
          least (positions.map (fun pos => pos.y))) *
          (greatest (positions.map (fun pos => pos.y)) -
            least (positions.map (fun pos => pos.y))) :=
          mul_le_mul_of_nonneg_right (min_le_right _ _) hph.le
      _ = 0.8 * height := div_mul_cancel₀ _ hph.ne'
  refine ⟨?_, hscale, cx, cy, by rw [wx]; exact hx, by rw [wy]; exact hy, ?_⟩
  · unfold scaledPositions fitScale
    dsimp only
    apply List.map_congr_left
    intro pos _
    congr 1 <;> ring
  · rw [wx, wy, hscale]
    rcases min_choice
      (0.8 * width / (greatest (positions.map (fun pos => pos.x)) -
          least (positions.map (fun pos => pos.x))))
      (0.8 * height / (greatest (positions.map (fun pos => pos.y)) -
          least (positions.map (fun pos => pos.y)))) with h | h
    · left
      rw [h]
      exact div_mul_cancel₀ _ hpw.ne'
    · right
      rw [h]
      exact div_mul_cancel₀ _ hph.ne'

/-- Claim C12 on two anchors spanning 10 by 5, on a canvas of 800 by 600: the
scale is 64, the transformed box is 640 by 320 around (400, 300). -/
theorem scaledPositions_twoAnchors :
    scaledPositions 800 600 twoAnchors = [{ x := 80, y := 140 }, { x := 720, y := 460 }] ∧
    fitScale 800 600 twoAnchors = 64 ∧
    greatest ((scaledPositions 800 600 twoAnchors).map (fun pos => pos.x)) -
      least ((scaledPositions 800 600 twoAnchors).map (fun pos => pos.x)) ≤ 0.8 * 800 ∧
    greatest ((scaledPositions 800 600 twoAnchors).map (fun pos => pos.y)) -
      least ((scaledPositions 800 600 twoAnchors).map (fun pos => pos.y)) ≤ 0.8 * 600 := by
  have hx : (0 : ℚ) < greatest (twoAnchors.map (fun pos => pos.x)) -
      least (twoAnchors.map (fun pos => pos.x)) := by
    norm_num [twoAnchors, greatest, least]
  have hy : (0 : ℚ) < greatest (twoAnchors.map (fun pos => pos.y)) -
      least (twoAnchors.map (fun pos => pos.y)) := by
    norm_num [twoAnchors, greatest, least]
  have h := scaledPositions_fit (800 : ℚ) 600 twoAnchors (by norm_num) (by norm_num) hx hy
  have hs : fitScale 800 600 twoAnchors = 64 := by
    norm_num [fitScale, twoAnchors, greatest, least]
  refine ⟨?_, hs, h.2.2.2.2.1, h.2.2.2.2.2.1⟩
  rw [h.1, hs]
  norm_num [twoAnchors, greatest, least]

end Particles

/-! ## Theorems : assignment of particles to anchors, and the morph -/

namespace Particles

theorem jitter_abs_le (r a : ℝ) (h0 : 0 ≤ r) (h1 : r < 1) (ha : 0 ≤ a) (b : ℝ) :
    |b + (r - 0.5) * a - b| ≤ a / 2 := by
  have e : b + (r - 0.5) * a - b = (r - 0.5) * a := by ring
  rw [e, abs_le]
  constructor <;> nlinarith

theorem jitterAmount_nonneg (currentPattern : Option PatternKey) :
    (0 : ℝ) ≤ jitterAmount currentPattern := by
  unfold jitterAmount
  split
  · norm_num
  · split <;> norm_num

theorem structurePoints_four : structurePoints (K := ℚ) 2 4 = 2 := by
  have h : ⌊((4 : Nat) : ℚ) * 0.8⌋₊ = 3 := by
    rw [Nat.floor_eq_iff (by norm_num)]
    norm_num
  unfold structurePoints
  rw [h]
  rfl

/-- Claim C11, counterexample: under `platonic-solid`, with two anchors
(0, 0) and (100, 0) and four particles, particle 3 is beyond the 2 structure
points and, with the random draw 0 for its anchor, gets the target (0, 0),
which is 100 away from the anchor `positions[3 mod 2]` = (100, 0). -/
theorem assignTargets_platonic_random_anchor :
    ((assignTargets defaultPalette (some PatternKey.platonicSolid) (1000 : ℚ)
        (fun _ => centredDraws) farAnchors
        [idleParticle, idleParticle, idleParticle, idleParticle])[3]?).map
      (fun q => (q.targetX, q.targetY, q.inPattern)) = some (0, 0, true) ∧
    farAnchors[3 % farAnchors.length]? = some { x := 100, y := 0 } ∧
    ¬ |(0 : ℚ) - 100| ≤ 10 / 2 := by
  refine ⟨?_, rfl, ?_⟩
  · simp [assignTargets, structurePoints_four, farAnchors, centredDraws, idleParticle,
      List.mapIdx_cons]
  · norm_num [abs_le]

theorem getElem?_mod_of_ne_nil {α : Type} (xs : List α) (h : xs ≠ []) (i : Nat) :
    ∃ a, xs[i % xs.length]? = some a := by
  have hl : 0 < xs.length := List.length_pos.2 h
  have hi : i % xs.length < xs.length := Nat.mod_lt _ hl
  exact ⟨xs[i % xs.length], List.getElem?_eq_getElem hi⟩

theorem floor_draw_lt (r : ℝ) (n : Nat) (h0 : 0 ≤ r) (h1 : r < 1) (hn : 0 < n) :
    ⌊r * (n : ℝ)⌋₊ < n := by
  rw [Nat.floor_lt (mul_nonneg h0 (Nat.cast_nonneg n))]
  have hn1 : (0 : ℝ) < n := Nat.cast_pos.2 hn
  nlinarith

/-- Claim C11, amended: for every pattern key, every non-empty anchor list of
length n and every particle index i, with random draws in [0, 1),
`assignParticlesToPositions` flags particle i `inPattern` and records its
position as the start.  For a key other than `platonic-solid` the target is
`positions[i mod n]` plus a per-axis jitter of absolute value at most half the
`jitterAmount` of the pattern.  Under `platonic-solid` the first
`structurePoints = min(n, floor(0.8 * particles))` particles get
`positions[i mod n]` with a jitter of at most 1, and every later particle gets
the randomly drawn anchor `positions[floor(random * n)]` with a jitter of at
most 5. -/
theorem assignTargets_anchor (palette : Palette) (key : PatternKey) (startTime : ℝ)
    (draws : Nat → AssignDraws ℝ) (positions : List (Point ℝ))
    (particles : List (MorphParticle ℝ)) (i : Nat) (p : MorphParticle ℝ)
    (hn : positions ≠ []) (hp : particles[i]? = some p)
    (ha : 0 ≤ (draws i).anchor ∧ (draws i).anchor < 1)
    (hx : 0 ≤ (draws i).jx ∧ (draws i).jx < 1)
    (hy : 0 ≤ (draws i).jy ∧ (draws i).jy < 1) :
    ∃ q, (assignTargets palette (some key) startTime draws positions particles)[i]? = some q ∧
      q.inPattern = true ∧ q.startX = p.x ∧ q.startY = p.y ∧
      (key ≠ PatternKey.platonicSolid →
        ∃ base, positions[i % positions.length]? = some base ∧
          |q.targetX - base.x| ≤ jitterAmount (some key) / 2 ∧
          |q.targetY - base.y| ≤ jitterAmount (some key) / 2) ∧
      (key = PatternKey.platonicSolid →
        i < structurePoints (K := ℝ) positions.length particles.length →
        ∃ base, positions[i % positions.length]? = some base ∧
          |q.targetX - base.x| ≤ 1 ∧ |q.targetY - base.y| ≤ 1) ∧
      (key = PatternKey.platonicSolid →
        structurePoints (K := ℝ) positions.length particles.length ≤ i →
        ⌊(draws i).anchor * (positions.length : ℝ)⌋₊ < positions.length ∧
        ∃ base, positions[⌊(draws i).anchor * (positions.length : ℝ)⌋₊]? = some base ∧
          |q.targetX - base.x| ≤ 5 ∧ |q.targetY - base.y| ≤ 5) := by
  have hl : 0 < positions.length := List.length_pos.2 hn
  obtain ⟨b, hb⟩ := getElem?_mod_of_ne_nil positions hn i
  have hf := floor_draw_lt (draws i).anchor positions.length ha.1 ha.2 hl
  have hc : positions[⌊(draws i).anchor * (positions.length : ℝ)⌋₊]? =
      some (positions[⌊(draws i).anchor * (positions.length : ℝ)⌋₊]) :=
    List.getElem?_eq_getElem hf
  by_cases hk : key = PatternKey.platonicSolid
  · by_cases hs : i < structurePoints (K := ℝ) positions.length particles.length
    · refine ⟨?_, ?_, ?_⟩
      rotate_left
      · simp only [assignTargets, hk, if_true, List.getElem?_mapIdx, List.getElem?_map, hp,
          Option.map_some', hs, hb]
        exact rfl
      · refine ⟨rfl, rfl, rfl, fun h => absurd hk h, fun _ _ => ⟨b, hb, ?_, ?_⟩,
          fun _ h => absurd hs (not_lt.2 h)⟩
        · have := jitter_abs_le (draws i).jx 2 hx.1 hx.2 (by norm_num) b.x
          norm_num at this ⊢
          exact this
        · have := jitter_abs_le (draws i).jy 2 hy.1 hy.2 (by norm_num) b.y
          norm_num at this ⊢
          exact this
    · refine ⟨?_, ?_, ?_⟩
      rotate_left
      · simp only [assignTargets, hk, if_true, List.getElem?_mapIdx, List.getElem?_map, hp,
          Option.map_some', hs, if_false, hc]
        exact rfl
      · refine ⟨rfl, rfl, rfl, fun h => absurd hk h, fun _ h => absurd h hs,
          fun _ _ => ⟨hf, _, hc, ?_, ?_⟩⟩
        · have := jitter_abs_le (draws i).jx 10 hx.1 hx.2 (by norm_num)
            (positions[⌊(draws i).anchor * (positions.length : ℝ)⌋₊]).x
          norm_num at this ⊢
          exact this
        · have := jitter_abs_le (draws i).jy 10 hy.1 hy.2 (by norm_num)
            (positions[⌊(draws i).anchor * (positions.length : ℝ)⌋₊]).y
          norm_num at this ⊢
          exact this
  · have hk2 : ¬ (some key = some PatternKey.platonicSolid) := fun h => hk (Option.some.inj h)
    refine ⟨?_, ?_, ?_⟩
    rotate_left
    · simp only [assignTargets, hk2, if_false, List.getElem?_mapIdx, List.getElem?_map, hp,
        Option.map_some', gt_iff_lt, hl, if_true, hb]
      exact rfl
    · refine ⟨rfl, rfl, rfl, fun _ => ⟨b, hb, ?_, ?_⟩, fun h => absurd h hk,
        fun h => absurd h hk⟩
      · exact jitter_abs_le (draws i).jx _ hx.1 hx.2 (jitterAmount_nonneg _) b.x
      · exact jitter_abs_le (draws i).jy _ hy.1 hy.2 (jitterAmount_nonneg _) b.y

/-- Claim C11, amended, at three particles on two anchors under
`fibonacci-spiral`: particle 2 is flagged and aimed at anchor 0 with a jitter
of at most 1. -/
theorem assignTargets_anchor_spiral :
    ∃ q, (assignTargets defaultPalette (some PatternKey.fibonacciSpiral) 1000
        (fun _ => unevenDraws) spiralAnchors
        [restingParticle, restingParticle, restingParticle])[2]? = some q ∧
      q.inPattern = true ∧ q.startX = restingParticle.x ∧ q.startY = restingParticle.y ∧
      (PatternKey.fibonacciSpiral ≠ PatternKey.platonicSolid →
        ∃ base, spiralAnchors[2 % spiralAnchors.length]? = some base ∧
          |q.targetX - base.x| ≤ jitterAmount (some PatternKey.fibonacciSpiral) / 2 ∧
          |q.targetY - base.y| ≤ jitterAmount (some PatternKey.fibonacciSpiral) / 2) ∧
      (PatternKey.fibonacciSpiral = PatternKey.platonicSolid →
        2 < structurePoints (K := ℝ) spiralAnchors.length
          [restingParticle, restingParticle, restingParticle].length →
        ∃ base, spiralAnchors[2 % spiralAnchors.length]? = some base ∧
          |q.targetX - base.x| ≤ 1 ∧ |q.targetY - base.y| ≤ 1) ∧
      (PatternKey.fibonacciSpiral = PatternKey.platonicSolid →
        structurePoints (K := ℝ) spiralAnchors.length
          [restingParticle, restingParticle, restingParticle].length ≤ 2 →
        ⌊((fun _ => unevenDraws) 2 : AssignDraws ℝ).anchor * (spiralAnchors.length : ℝ)⌋₊ <
          spiralAnchors.length ∧
        ∃ base, spiralAnchors[⌊((fun _ => unevenDraws) 2 : AssignDraws ℝ).anchor *
            (spiralAnchors.length : ℝ)⌋₊]? = some base ∧
          |q.targetX - base.x| ≤ 5 ∧ |q.targetY - base.y| ≤ 5) :=
  assignTargets_anchor defaultPalette PatternKey.fibonacciSpiral 1000 (fun _ => unevenDraws)
    spiralAnchors [restingParticle, restingParticle, restingParticle] 2 restingParticle
    (by simp [spiralAnchors]) rfl (by norm_num [unevenDraws]) (by norm_num [unevenDraws])
    (by norm_num [unevenDraws])

theorem progressOf_complete (ms elapsed : ℚ) (h0 : 0 < ms) (h : ms ≤ elapsed) :
    progressOf (Duration.number ms) elapsed = some 1 := by
  have h1 : (1 : ℚ) ≤ elapsed / ms := by
    rw [le_div_iff₀ h0]
    linarith
  simp only [progressOf, if_neg (ne_of_gt h0), min_eq_right h1]

theorem easeProgress_one : easeProgress (1 : ℚ) = 1 := by
  unfold easeProgress
  norm_num

/-- With a positive numeric `patternDuration`, the morph callback run at
least that long after the start puts every flagged particle at its target and
requests no further frame. -/
theorem morphPositions_complete (ms startTime currentTime : ℚ)
    (particles : List (MorphParticle ℚ)) (h0 : 0 < ms) (h : startTime + ms ≤ currentTime) :
    morphPositions (Duration.number ms) startTime currentTime particles =
      particles.map (fun particle =>
        if particle.inPattern then (some particle.targetX, some particle.targetY)
        else (some particle.x, some particle.y)) ∧
    morphContinues (Duration.number ms) startTime currentTime = false := by
  have hp := progressOf_complete ms (currentTime - startTime) h0 (by linarith)
  constructor
  · unfold morphPositions
    rw [hp]
    apply List.map_congr_left
    intro particle _
    simp only [Option.map_some', easeProgress_one]
    split
    · simp
    · rfl
  · unfold morphContinues
    rw [hp]
    simp

/-- Claim C13: the defaults of the constructor hold the array `[3000, 4000]`
as `patternDuration`.  With them, whenever the morph callback runs, and so at
every time at least 4000 ms after the start, the progress is `NaN`: a flagged
particle sent from (0, 0) towards (100, 50) has `NaN` for x and y instead of
its target, and no further frame is requested.  With the numeric duration
3000 the same particle is at (100, 50) at that time. -/
theorem morph_default_duration_misses_target :
    defaultOptions.patternDuration = Duration.range 3000 4000 ∧
    (∀ currentTime : ℚ,
      morphPositions defaultOptions.patternDuration 1000 currentTime [travelling] =
        [(none, none)] ∧
      morphContinues defaultOptions.patternDuration 1000 currentTime = false ∧
      ∀ s : System, s.options = defaultOptions → morphFrame 1000 currentTime s = s) ∧
    morphPositions (Duration.number 3000) 1000 5000 [travelling] = [(some 100, some 50)] := by
  refine ⟨rfl, fun currentTime => ⟨rfl, rfl, fun s hs => ?_⟩, ?_⟩
  · unfold morphFrame
    rw [hs]
    rfl
  · exact (morphPositions_complete 3000 1000 5000 [travelling] (by norm_num) (by norm_num)).1

end Particles

/-! ## Theorems : the pattern generators -/

namespace Particles

/-- The three fractional loops of the generators end well within the fuel
given to them. -/
theorem stepsFrom_values {K : Type} [LinearOrderedField K] :
    stepsFrom 8 (0.2 : K) 1.0 0.2 = [0.2, 0.4, 0.6, 0.8, 1.0] ∧
    stepsFrom 8 (0.2 : K) 0.8 0.2 = [0.2, 0.4, 0.6, 0.8] ∧
    stepsFrom 8 (0.3 : K) 0.8 0.25 = [0.3, 0.55, 0.8] := by
  refine ⟨?_, ?_, ?_⟩ <;> norm_num [stepsFrom]

theorem spiralIndices_four : spiralIndices (min ((10 : ℝ) * 0.4) 120) = [1, 2, 3] := by
  have h : List.range' 1 119 = 1 :: 2 :: 3 :: 4 :: List.range' 5 115 := rfl
  unfold spiralIndices
  rw [h]
  norm_num [List.takeWhile_cons]

theorem spiralIndices_two : spiralIndices (min ((5 : ℝ) * 0.4) 120) = [1] := by
  have h : List.range' 1 119 = 1 :: 2 :: List.range' 3 117 := rfl
  unfold spiralIndices
  rw [h]
  norm_num [List.takeWhile_cons]

theorem length_createFibonacciSpiralPattern (M : JsMath ℝ) (s : PatternInstance ℝ) :
    (createFibonacciSpiralPattern M s).length =
      153 + ((spiralIndices (min (s.particleCount * 0.4) 120)).filter
        (fun i => i % 3 = 0)).length := by
  have h5 : List.range' 1 5 = [1, 2, 3, 4, 5] := rfl
  have h8 : List.range 8 = [0, 1, 2, 3, 4, 5, 6, 7] := rfl
  simp only [createFibonacciSpiralPattern, stepsFrom_values.1, h5, h8, List.length_append,
    List.length_map, List.length_cons, List.length_nil, List.flatMap_cons, List.flatMap_nil,
    List.length_range]

  omega

/-- Claim C18, counterexample: two instances of 800 by 600 that differ in
`particleCount` (10 and 5) obtain different anchor sequences from
`createFibonacciSpiralPattern`, of 154 and 153 anchors. -/
theorem createFibonacciSpiralPattern_reads_particleCount :
    tenParticles.width = fiveParticles.width ∧ tenParticles.height = fiveParticles.height ∧
    (createFibonacciSpiralPattern ⟨Real.pi, Real.cos, Real.sin, Real.sqrt, fun a b => a ^ b⟩
      tenParticles).length = 154 ∧
    (createFibonacciSpiralPattern ⟨Real.pi, Real.cos, Real.sin, Real.sqrt, fun a b => a ^ b⟩
      fiveParticles).length = 153 ∧
    createFibonacciSpiralPattern ⟨Real.pi, Real.cos, Real.sin, Real.sqrt, fun a b => a ^ b⟩
      tenParticles ≠
    createFibonacciSpiralPattern ⟨Real.pi, Real.cos, Real.sin, Real.sqrt, fun a b => a ^ b⟩
      fiveParticles := by
  have h10 : (createFibonacciSpiralPattern
      ⟨Real.pi, Real.cos, Real.sin, Real.sqrt, fun a b => a ^ b⟩ tenParticles).length = 154 := by
    rw [length_createFibonacciSpiralPattern]
    have e : tenParticles.particleCount = 10 := rfl
    rw [e, spiralIndices_four]
    rfl
  have h5 : (createFibonacciSpiralPattern
      ⟨Real.pi, Real.cos, Real.sin, Real.sqrt, fun a b => a ^ b⟩ fiveParticles).length = 153 := by
    rw [length_createFibonacciSpiralPattern]
    have e : fiveParticles.particleCount = 5 := rfl
    rw [e, spiralIndices_two]
    rfl
  refine ⟨rfl, rfl, h10, h5, fun h => ?_⟩
  rw [h, h5] at h10
  exact absurd h10 (by decide)

/-- Claim C18, amended: two instances with equal canvas width and height
obtain the identical ordered anchor sequence from `createFlowerOfLifePattern`,
`createMetatronCubePattern`, `createPlatonicSolidPattern` and
`createVesicaPiscisPattern`, whatever their other options; from
`createFibonacciSpiralPattern` they obtain the identical sequence when their
option `particleCount` is equal too. -/
theorem generators_depend_on_size (M : JsMath ℝ) (a b : PatternInstance ℝ)
    (hw : a.width = b.width) (hh : a.height = b.height) :
    createFlowerOfLifePattern M a = createFlowerOfLifePattern M b ∧
    createMetatronCubePattern M a = createMetatronCubePattern M b ∧
    createPlatonicSolidPattern M a = createPlatonicSolidPattern M b ∧
    createVesicaPiscisPattern M a = createVesicaPiscisPattern M b ∧
    (a.particleCount = b.particleCount →
      createFibonacciSpiralPattern M a = createFibonacciSpiralPattern M b) := by
  refine ⟨?_, ?_, ?_, ?_, fun hc => ?_⟩
  · unfold createFlowerOfLifePattern
    rw [hw, hh]
  · unfold createMetatronCubePattern
    rw [hw, hh]
  · unfold createPlatonicSolidPattern
    rw [hw, hh]
  · unfold createVesicaPiscisPattern
    rw [hw, hh]
  · unfold createFibonacciSpiralPattern
    rw [hw, hh, hc]

/-- Claim C18, amended, at two instances of 800 by 600 that differ in
`particleCount`, `maxSpeed` and `connectionDistance`, and two that differ in
the last two only. -/
theorem generators_depend_on_size_sample :
    (createFlowerOfLifePattern ⟨Real.pi, Real.cos, Real.sin, Real.sqrt, fun a b => a ^ b⟩
        tenParticles =
      createFlowerOfLifePattern ⟨Real.pi, Real.cos, Real.sin, Real.sqrt, fun a b => a ^ b⟩
        fiveParticles) ∧
    (createFibonacciSpiralPattern ⟨Real.pi, Real.cos, Real.sin, Real.sqrt, fun a b => a ^ b⟩
        tenParticles =
      createFibonacciSpiralPattern ⟨Real.pi, Real.cos, Real.sin, Real.sqrt, fun a b => a ^ b⟩
        tenFaster) :=
  ⟨(generators_depend_on_size ⟨Real.pi, Real.cos, Real.sin, Real.sqrt, fun a b => a ^ b⟩
      tenParticles fiveParticles rfl rfl).1,
   (generators_depend_on_size ⟨Real.pi, Real.cos, Real.sin, Real.sqrt, fun a b => a ^ b⟩
      tenParticles tenFaster rfl rfl).2.2.2.2 rfl⟩

end Particles

/-! ## Theorems : options and drawing of `NeuralOrganicNetwork` -/

namespace NeuralNetwork

theorem set_same (o : Object) (k : String) (v : Value) :
    (∃ kv ∈ set o k v, kv.1 = k) ∧ ∀ kv ∈ set o k v, kv.1 = k → kv.2 = v := by
  unfold set
  by_cases h : o.any (fun kv => decide (kv.1 = k)) = true
  · rw [if_pos h]
    obtain ⟨kv, hkv, hk⟩ := List.any_eq_true.1 h
    have hk2 : kv.1 = k := of_decide_eq_true hk
    constructor
    · exact ⟨(k, v), List.mem_map.2 ⟨kv, hkv, by rw [if_pos hk2]⟩, rfl⟩
    · intro e he hek
      obtain ⟨a, _, rfl⟩ := List.mem_map.1 he
      by_cases ha : a.1 = k
      · rw [if_pos ha]
      · rw [if_neg ha] at hek
        exact absurd hek ha
  · rw [if_neg h]
    constructor
    · exact ⟨(k, v), List.mem_append_right _ (List.mem_singleton.2 rfl), rfl⟩
    · intro e he hek
      rcases List.mem_append.1 he with h1 | h1
      · exact absurd (List.any_eq_true.2 ⟨e, h1, decide_eq_true hek⟩) h
      · rw [List.mem_singleton.1 h1]

theorem set_other (o : Object) (k j : String) (v w : Value) (hjk : j ≠ k)
    (h : (∃ kv ∈ o, kv.1 = k) ∧ ∀ kv ∈ o, kv.1 = k → kv.2 = v) :
    (∃ kv ∈ set o j w, kv.1 = k) ∧ ∀ kv ∈ set o j w, kv.1 = k → kv.2 = v := by
  obtain ⟨⟨e, he, hek⟩, hall⟩ := h
  unfold set
  split
  · constructor
    · refine ⟨e, List.mem_map.2 ⟨e, he, ?_⟩, hek⟩
      rw [if_neg (fun h1 => hjk (h1.symm.trans hek))]
    · intro a ha hak
      obtain ⟨b, hb, rfl⟩ := List.mem_map.1 ha
      by_cases hbj : b.1 = j
      · rw [if_pos hbj] at hak
        exact absurd hak hjk
      · rw [if_neg hbj] at hak ⊢
        exact hall b hb hak
  · constructor
    · exact ⟨e, List.mem_append_left _ he, hek⟩
    · intro a ha hak
      rcases List.mem_append.1 ha with h1 | h1
      · exact hall a h1 hak
      · rw [List.mem_singleton.1 h1] at hak
        exact absurd hak hjk

theorem get_of_entries (o : Object) (k : String) (v : Value)
    (h : (∃ kv ∈ o, kv.1 = k) ∧ ∀ kv ∈ o, kv.1 = k → kv.2 = v) : get o k = v := by
  obtain ⟨⟨e, he, hek⟩, hall⟩ := h
  unfold get
  cases hf : o.find? (fun kv => decide (kv.1 = k)) with
  | none =>
    have := List.find?_eq_none.1 hf e he
    exact absurd (decide_eq_true hek) this
  | some a =>
    exact hall a (List.mem_of_find?_eq_some hf) (of_decide_eq_true
      (List.find?_some (p := fun kv : String × Value => decide (kv.1 = k)) hf))

theorem get_of_no_key (o : Object) (k : String) (h : ∀ kv ∈ o, kv.1 ≠ k) :
    get o k = Value.undefined := by
  unfold get
  cases hf : o.find? (fun kv => decide (kv.1 = k)) with
  | none => rfl
  | some a =>
    exact absurd (of_decide_eq_true
      (List.find?_some (p := fun kv : String × Value => decide (kv.1 = k)) hf)) (h a (List.mem_of_find?_eq_some hf))

theorem spread_snoc (a b : Object) (kv : String × Value) :
    spread a (b ++ [kv]) = set (spread a b) kv.1 kv.2 := by
  unfold spread
  rw [List.foldl_append]
  rfl

theorem get_spread (a b : Object) (k : String) (v : Value)
    (h : (∃ kv ∈ b, kv.1 = k) ∧ ∀ kv ∈ b, kv.1 = k → kv.2 = v) : get (spread a b) k = v := by
  apply get_of_entries
  induction b using List.reverseRecOn with
  | nil =>
    obtain ⟨⟨e, he, _⟩, _⟩ := h
    exact absurd he (List.not_mem_nil e)
  | append_singleton b kv ih =>
    rw [spread_snoc]
    obtain ⟨⟨e, he, hek⟩, hall⟩ := h
    by_cases hk : kv.1 = k
    · have hv : kv.2 = v := hall kv (List.mem_append_right _ (List.mem_singleton.2 rfl)) hk
      rw [hk, hv]
      exact set_same _ k v
    · apply set_other _ k kv.1 v kv.2 hk
      apply ih
      constructor
      · rcases List.mem_append.1 he with h1 | h1
        · exact ⟨e, h1, hek⟩
        · rw [List.mem_singleton.1 h1] at hek
          exact absurd hek hk
      · intro c hc hck
        exact hall c (List.mem_append_left _ hc) hck

/-- Whatever the caller's options and the data attributes, the three keys
that `containerOptions` always holds reach the instance with the values of
`containerOptions`, never with the defaults of the constructor. -/
theorem get_initNeuralNetworks (parseInt : String → Value) (dataset : Dataset)
    (options : Object) :
    get (initNeuralNetworks parseInt dataset options) "nodeCount" =
      get (containerOptions parseInt dataset options) "nodeCount" ∧
    get (initNeuralNetworks parseInt dataset options) "nodeColor" =
      get (containerOptions parseInt dataset options) "nodeColor" ∧
    get (initNeuralNetworks parseInt dataset options) "lineColor" =
      get (containerOptions parseInt dataset options) "lineColor" := by
  refine ⟨?_, ?_, ?_⟩
  · apply get_spread
    apply set_other _ "nodeCount" "lineColor" _ _ (by decide)
    apply set_other _ "nodeCount" "nodeColor" _ _ (by decide)
    exact set_same _ _ _
  · apply get_spread
    apply set_other _ "nodeColor" "lineColor" _ _ (by decide)
    exact set_same _ _ _
  · apply get_spread
    exact set_same _ _ _

/-- Claim C14: `initNeuralNetworks` called with an options object without
the keys `nodeCount`, `nodeColor`, `lineColor` (so with the default `{}` too),
for a container without the data attributes, creates an instance whose
options hold `undefined` for the three keys, and `createNodes` creates no
node; the constructor called with `{}` directly has `nodeCount` 100 and
creates 100 nodes. -/
theorem initNeuralNetworks_overrides_defaults (parseInt : String → Value)
    (numberOf : String → Option ℚ) :
    (∀ options : Object,
      (∀ kv ∈ options, kv.1 ≠ "nodeCount") → (∀ kv ∈ options, kv.1 ≠ "nodeColor") →
      (∀ kv ∈ options, kv.1 ≠ "lineColor") →
      get (initNeuralNetworks parseInt plainContainer options) "nodeCount" = Value.undefined ∧
      get (initNeuralNetworks parseInt plainContainer options) "nodeColor" = Value.undefined ∧
      get (initNeuralNetworks parseInt plainContainer options) "lineColor" = Value.undefined ∧
      createNodes numberOf (initNeuralNetworks parseInt plainContainer options) = 0) ∧
    createNodes numberOf (initNeuralNetworks parseInt plainContainer []) = 0 ∧
    get (constructorOptions []) "nodeCount" = Value.number 100 ∧
    get (constructorOptions []) "nodeColor" = Value.string "#f9c74f" ∧
    get (constructorOptions []) "lineColor" = Value.string "rgba(249, 199, 79, 0.3)" ∧
    createNodes numberOf (constructorOptions []) = 100 := by
  have key : ∀ options : Object,
      (∀ kv ∈ options, kv.1 ≠ "nodeCount") → (∀ kv ∈ options, kv.1 ≠ "nodeColor") →
      (∀ kv ∈ options, kv.1 ≠ "lineColor") →
      get (initNeuralNetworks parseInt plainContainer options) "nodeCount" = Value.undefined ∧
      get (initNeuralNetworks parseInt plainContainer options) "nodeColor" = Value.undefined ∧
      get (initNeuralNetworks parseInt plainContainer options) "lineColor" = Value.undefined ∧
      createNodes numberOf (initNeuralNetworks parseInt plainContainer options) = 0 := by
    intro options h1 h2 h3
    obtain ⟨e1, e2, e3⟩ := get_initNeuralNetworks parseInt plainContainer options
    have c1 : get (containerOptions parseInt plainContainer options) "nodeCount" =
        get options "nodeCount" := rfl
    have c2 : get (containerOptions parseInt plainContainer options) "nodeColor" =
        get options "nodeColor" := rfl
    have c3 : get (containerOptions parseInt plainContainer options) "lineColor" =
        get options "lineColor" := rfl
    rw [c1, get_of_no_key options _ h1] at e1
    rw [c2, get_of_no_key options _ h2] at e2
    rw [c3, get_of_no_key options _ h3] at e3
    refine ⟨e1, e2, e3, ?_⟩
    unfold createNodes
    rw [e1]
    rfl
  refine ⟨key, ?_, rfl, rfl, rfl, ?_⟩
  · exact (key [] (fun _ h => absurd h (List.not_mem_nil _))
      (fun _ h => absurd h (List.not_mem_nil _)) (fun _ h => absurd h (List.not_mem_nil _))).2.2.2
  · have h : get (constructorOptions []) "nodeCount" = Value.number 100 := rfl
    unfold createNodes
    rw [h]
    simp [toNumber]

theorem drawConnections_nil {K : Type} [LinearOrderedField K] (lineWidth : K)
    (nodes : List (Node K)) : drawConnections index lineWidth nodes = [] := by
  unfold drawConnections
  rw [List.flatMap_eq_nil_iff]
  intro entry _
  rw [List.filterMap_eq_nil_iff]
  intro connection _
  split <;> rfl

/-- Claim C17: for two nodes 30 apart with `connectionDistance` 150,
`findConnections` records each node in the list of the other, yet
`drawConnections` issues no `drawGlowingLine` call, and the drawing calls of
the frame are those of `drawNodes` alone: the test
`node.index < connection.node.index` reads a property that no node has.  The
same holds for every node list.  Had every node carried its position in
`state.nodes` as `index`, the one line of the pair would have been issued. -/
theorem drawConnections_draws_nothing :
    (connectionsOf (findConnections Real.sqrt closePair 150) 0).map (fun c => c.node) = [1] ∧
    (connectionsOf (findConnections Real.sqrt closePair 150) 1).map (fun c => c.node) = [0] ∧
    drawConnections index (0.5 : ℝ) (findConnections Real.sqrt closePair 150) = [] ∧
    frameCalls Real.sqrt 150 0.5 closePair = [DrawCall.node 0, DrawCall.node 1] ∧
    (∀ (lineWidth connectionDistance : ℝ) (nodes : List (Node ℝ)),
      drawConnections index lineWidth (findConnections Real.sqrt nodes connectionDistance)
        = []) ∧
    drawConnections (fun i => some i) (0.5 : ℝ) (findConnections Real.sqrt closePair 150) =
      [{ x1 := 0, y1 := 0, x2 := 30, y2 := 0, lineWidth := 0.5 * (1 - 30 / 150),
         glow := 5 * (1 - 30 / 150) }] := by
  have hd : Real.sqrt ((30 - 0) * (30 - 0) + (0 - 0) * (0 - 0)) = 30 := by
    rw [show ((30 : ℝ) - 0) * (30 - 0) + (0 - 0) * (0 - 0) = 30 ^ 2 by norm_num]
    exact Real.sqrt_sq (by norm_num)
  have hf : findConnections Real.sqrt closePair 150 =
      [⟨0, 0, [⟨1, 30, 1 - 30 / 150⟩]⟩, ⟨30, 0, [⟨0, 30, 1 - 30 / 150⟩]⟩] := by
    have hlt : (30 : ℝ) < 150 := by norm_num
    simp [findConnections, closePair, innerLoop, connectPair, nodeDistance, pushConnection, hd,
      hlt, List.range_succ]
  refine ⟨?_, ?_, drawConnections_nil _ _, ?_, fun _ _ _ => drawConnections_nil _ _, ?_⟩
  · rw [hf]
    rfl
  · rw [hf]
    rfl
  · dsimp only [frameCalls]
    rw [drawConnections_nil, hf]
    rfl
  · rw [hf]
    simp [drawConnections, lessThan, List.enum_cons, List.enumFrom_cons]

end NeuralNetwork

/-! ## Theorems : tag collision, pointer divisor, `updateColors` -/

namespace PromptSage

theorem unit_normal (dx dy : ℝ) (h : 0 < Real.sqrt (dx * dx + dy * dy)) :
    (dx / Real.sqrt (dx * dx + dy * dy)) ^ 2 + (dy / Real.sqrt (dx * dx + dy * dy)) ^ 2 = 1 := by
  have hs : Real.sqrt (dx * dx + dy * dy) ^ 2 = dx * dx + dy * dy :=
    Real.sq_sqrt (by nlinarith [mul_self_nonneg dx, mul_self_nonneg dy])
  have hne : Real.sqrt (dx * dx + dy * dy) ≠ 0 := ne_of_gt h
  field_simp
  nlinarith [hs]

theorem exchange_energy (a b c d nx ny : ℝ) (hn : nx ^ 2 + ny ^ 2 = 1) :
    (a - (a * nx + b * ny) * nx + (c * nx + d * ny) * nx) ^ 2 +
      (b - (a * nx + b * ny) * ny + (c * nx + d * ny) * ny) ^ 2 +
      (c - (c * nx + d * ny) * nx + (a * nx + b * ny) * nx) ^ 2 +
      (d - (c * nx + d * ny) * ny + (a * nx + b * ny) * ny) ^ 2 =
    a ^ 2 + b ^ 2 + c ^ 2 + d ^ 2 := by
  linear_combination (2 * ((c * nx + d * ny) - (a * nx + b * ny)) ^ 2) * hn

/-- Claim C29: in the collision response of two tags, the velocities change
only when `0 < distance < minDist` (and `other` is not paused), so the
division by `distance` happens only for `distance > 0`; the normal
`(nx, ny)` then has length 1 and the components along it are exchanged.  In
every case `tag.vx + other.vx`, `tag.vy + other.vy` and
`tag.vx² + tag.vy² + other.vx² + other.vy²` are the same before and after. -/
theorem collide_conserves (tag other : Tag ℝ) :
    ((collide Real.sqrt tag other).1.vx + (collide Real.sqrt tag other).2.vx =
        tag.vx + other.vx ∧
      (collide Real.sqrt tag other).1.vy + (collide Real.sqrt tag other).2.vy =
        tag.vy + other.vy ∧
      (collide Real.sqrt tag other).1.vx ^ 2 + (collide Real.sqrt tag other).1.vy ^ 2 +
          (collide Real.sqrt tag other).2.vx ^ 2 + (collide Real.sqrt tag other).2.vy ^ 2 =
        tag.vx ^ 2 + tag.vy ^ 2 + other.vx ^ 2 + other.vy ^ 2) ∧
    (other.isPaused = false → 0 < distance Real.sqrt tag other →
      distance Real.sqrt tag other < minDist tag other →
      ((other.x - tag.x) / distance Real.sqrt tag other) ^ 2 +
          ((other.y - tag.y) / distance Real.sqrt tag other) ^ 2 = 1 ∧
      (collide Real.sqrt tag other).1.vx =
        tag.vx +
          ((other.vx - tag.vx) * ((other.x - tag.x) / distance Real.sqrt tag other) +
            (other.vy - tag.vy) * ((other.y - tag.y) / distance Real.sqrt tag other)) *
          ((other.x - tag.x) / distance Real.sqrt tag other) ∧
      (collide Real.sqrt tag other).1.vy =
        tag.vy +
          ((other.vx - tag.vx) * ((other.x - tag.x) / distance Real.sqrt tag other) +
            (other.vy - tag.vy) * ((other.y - tag.y) / distance Real.sqrt tag other)) *
          ((other.y - tag.y) / distance Real.sqrt tag other)) ∧
    (¬ (0 < distance Real.sqrt tag other ∧
        distance Real.sqrt tag other < minDist tag other) →
      collide Real.sqrt tag other = (tag, other)) := by
  refine ⟨?_, ?_, ?_⟩
  · unfold collide
    split
    · exact ⟨rfl, rfl, rfl⟩
    · dsimp only
      split
      · rename_i hp hd
        have hn := unit_normal (other.x - tag.x) (other.y - tag.y) hd.2
        split
        · refine ⟨by ring, by ring, ?_⟩
          exact exchange_energy tag.vx tag.vy other.vx other.vy _ _ hn
        · refine ⟨by ring, by ring, ?_⟩
          exact exchange_energy tag.vx tag.vy other.vx other.vy _ _ hn
      · exact ⟨rfl, rfl, rfl⟩
  · intro hp h0 h1
    have hn := unit_normal (other.x - tag.x) (other.y - tag.y) h0
    refine ⟨hn, ?_, ?_⟩
    · unfold collide
      rw [if_neg (by simp [hp])]
      dsimp only
      rw [if_pos ⟨h1, h0⟩]
      unfold distance
      split <;> ring
    · unfold collide
      rw [if_neg (by simp [hp])]
      dsimp only
      rw [if_pos ⟨h1, h0⟩]
      unfold distance
      split <;> ring
  · intro h
    unfold collide
    split
    · rfl
    · dsimp only
      rw [if_neg (fun hd => h ⟨hd.2, hd.1⟩)]

/-- Claim C29 for two tags 5 apart with `minDist` 30: the velocities (2, 0)
and (-1, 0) become (0.92, -1.44) and (0.08, 1.44). -/
theorem collide_leftTag_rightTag :
    (collide Real.sqrt leftTag rightTag).1.vx = 0.92 ∧
    (collide Real.sqrt leftTag rightTag).1.vy = -1.44 ∧
    (collide Real.sqrt leftTag rightTag).1.vx + (collide Real.sqrt leftTag rightTag).2.vx = 1 ∧
    (collide Real.sqrt leftTag rightTag).1.vy + (collide Real.sqrt leftTag rightTag).2.vy = 0 ∧
    (collide Real.sqrt leftTag rightTag).1.vx ^ 2 + (collide Real.sqrt leftTag rightTag).1.vy ^ 2 +
        (collide Real.sqrt leftTag rightTag).2.vx ^ 2 +
        (collide Real.sqrt leftTag rightTag).2.vy ^ 2 = 5 := by
  have hd : distance Real.sqrt leftTag rightTag = 5 := by
    unfold distance leftTag rightTag
    rw [show ((3 : ℝ) - 0) * (3 - 0) + (4 - 0) * (4 - 0) = 5 ^ 2 by norm_num]
    exact Real.sqrt_sq (by norm_num)
  have hm : minDist leftTag rightTag = 30 := by
    unfold minDist leftTag rightTag
    norm_num
  have h := collide_conserves leftTag rightTag
  obtain ⟨⟨h1, h2, h3⟩, h4, _⟩ := h
  obtain ⟨_, h5, h6⟩ := h4 rfl (by rw [hd]; norm_num) (by rw [hd, hm]; norm_num)
  rw [hd] at h5 h6
  refine ⟨?_, ?_, ?_, ?_, ?_⟩
  · rw [h5]
    norm_num [leftTag, rightTag]
  · rw [h6]
    norm_num [leftTag, rightTag]
  · rw [h1]
    norm_num [leftTag, rightTag]
  · rw [h2]
    norm_num [leftTag, rightTag]
  · rw [h3]
    norm_num [leftTag, rightTag]

end PromptSage

namespace CommunityTiers

theorem pointerSpeeds_of_ne_zero (t : Tiers ℝ) (c : Particle ℝ)
    (h : Real.sqrt ((c.x - t.mouseX) * (c.x - t.mouseX) + (c.y - t.mouseY) * (c.y - t.mouseY))
      ≠ 0) :
    pointerSpeeds Real.sqrt t c =
      some ((pointerTerm Real.sqrt t c).speedX, (pointerTerm Real.sqrt t c).speedY) := by
  unfold pointerSpeeds pointerTerm quotient
  dsimp only
  simp only [if_neg h]
  split
  · split <;> rfl
  · rfl

/-- Claim C30: with the pointer at (50, 50), `mouseRadius` 100 and a particle
exactly at (50, 50), both guards of the pointer term pass and the divisor
`distance` is 0: the quotients `dx / distance` and `dy / distance` are `0 / 0`
and the new `speedX`, `speedY` are not finite numbers.  Whenever the divisor
is not 0 the velocity is the finite one of `pointerTerm`. -/
theorem pointerTerm_divides_by_zero :
    hoveredTiers.mouseX = 50 ∧ hoveredTiers.mouseY = 50 ∧ hoveredTiers.mouseRadius = 100 ∧
    pointerDivisor Real.sqrt hoveredTiers atPointer = some 0 ∧
    pointerSpeeds Real.sqrt hoveredTiers atPointer = none ∧
    ∀ (t : Tiers ℝ) (c : Particle ℝ),
      pointerDivisor Real.sqrt t c ≠ some 0 →
      pointerDivisor Real.sqrt t c ≠ none →
      pointerSpeeds Real.sqrt t c =
        some ((pointerTerm Real.sqrt t c).speedX, (pointerTerm Real.sqrt t c).speedY) := by
  have hz : Real.sqrt ((50 - 50) * (50 - 50) + (50 - 50) * (50 - 50)) = (0 : ℝ) := by
    norm_num
  refine ⟨rfl, rfl, rfl, ?_, ?_, ?_⟩
  · simp only [pointerDivisor, hoveredTiers, atPointer, hz]
    norm_num
  · simp only [pointerSpeeds, hoveredTiers, atPointer, hz, quotient]
    norm_num
  · intro t c h0 h1
    apply pointerSpeeds_of_ne_zero
    intro hd
    unfold pointerDivisor at h0 h1
    dsimp only at h0 h1
    split at h0
    · split at h0
      · rw [hd] at h0
        exact h0 rfl
      · rename_i hm hr
        rw [if_pos hm, if_neg hr] at h1
        exact h1 rfl
    · rename_i hm
      rw [if_neg hm] at h1
      exact h1 rfl

end CommunityTiers

namespace Particles

/-- Claim C25: `updateColors(p, s)` sets `options.primaryColor` to `p` and
`options.secondaryColor` to `s` and gives every particle the colour `p` or
`s`; the number of particles, every other field of every particle,
`secondaryRatio`, and the whole life-cycle state (`isRunning`,
`animationFrame`, the pattern-cycle fields, pending frames and timers) are
unchanged. -/
theorem updateColors_frame {K : Type} [LinearOrderedField K] (rnd : Nat → K)
    (p s : String) (inst : Painted K) :
    (updateColors rnd p s inst).palette.primaryColor = p ∧
    (updateColors rnd p s inst).palette.secondaryColor = s ∧
    (updateColors rnd p s inst).system = inst.system ∧
    (updateColors rnd p s inst).secondaryRatio = inst.secondaryRatio ∧
    (updateColors rnd p s inst).particles.length = inst.particles.length ∧
    ∀ (i : Nat) (before : ParticleObject K), inst.particles[i]? = some before →
      ∃ after, (updateColors rnd p s inst).particles[i]? = some after ∧
        (after.color = p ∨ after.color = s) ∧
        after = { before with color := after.color } := by
  refine ⟨rfl, rfl, rfl, rfl, ?_, ?_⟩
  · simp [updateColors]
  · intro i before hb
    refine ⟨{ before with color := if rnd i > 1 - inst.secondaryRatio then s else p }, ?_, ?_,
      rfl⟩
    · simp [updateColors, List.getElem?_mapIdx, hb]
    · dsimp only
      split
      · exact Or.inr rfl
      · exact Or.inl rfl

end Particles

/-! ## Theorems : hexadecimal colours -/

namespace ColorUtils

set_option maxRecDepth 100000 in
theorem component_byte : ∀ x, x < 256 →
    (component x).length = 2 ∧ (component x).all isLowerHex = true ∧
      parseHex (component x) = x := by
  decide

theorem isHexDigit_of_isLowerHex (c : Char) (h : isLowerHex c = true) : isHexDigit c = true := by
  unfold isLowerHex at h
  unfold isHexDigit
  rw [decide_eq_true_iff] at h ⊢
  rcases h with h | h
  · exact Or.inl h
  · exact Or.inr (Or.inl h)

theorem component_pair (x : Nat) (hx : x < 256) :
    ∃ a b, component x = [a, b] ∧ isLowerHex a = true ∧ isLowerHex b = true ∧
      parseHex [a, b] = x := by
  obtain ⟨h1, h2, h3⟩ := component_byte x hx
  match hc : component x, h1 with
  | [a, b], _ =>
    rw [hc] at h2 h3
    simp only [List.all_cons, List.all_nil, Bool.and_true, Bool.and_eq_true] at h2
    exact ⟨a, b, rfl, h2.1, h2.2, h3⟩

theorem hexToRgb_six (r1 r2 g1 g2 b1 b2 : Char) (h1 : isHexDigit r1 = true)
    (h2 : isHexDigit r2 = true) (h3 : isHexDigit g1 = true) (h4 : isHexDigit g2 = true)
    (h5 : isHexDigit b1 = true) (h6 : isHexDigit b2 = true) :
    hexToRgb ['#', r1, r2, g1, g2, b1, b2] =
      some { r := parseHex [r1, r2], g := parseHex [g1, g2], b := parseHex [b1, b2] } := by
  simp [hexToRgb, expandShorthand, dropHash, h1, h2, h3, h4, h5, h6]

theorem hash_not_hex : isHexDigit '#' = false := by decide

theorem dropHash_length_le (s : List Char) : (dropHash s).length ≤ s.length := by
  unfold dropHash
  split
  · simp
  · exact le_refl _

theorem expandShorthand_of_not_three (s : List Char) (h : (dropHash s).length ≠ 3) :
    expandShorthand s = s := by
  unfold expandShorthand
  split
  · rename_i r g b hd
    rw [hd] at h
    exact absurd rfl h
  · rfl

theorem hexToRgb_shorthand (x y z : Char) :
    hexToRgb ['#', x, y, z] = hexToRgb ['#', x, x, y, y, z, z] ∧
    hexToRgb [x, y, z] = hexToRgb [x, x, y, y, z, z] := by
  have key : ∀ s : List Char, dropHash s = [x, y, z] →
      hexToRgb s = hexToRgb ['#', x, x, y, y, z, z] := by
    intro s hs
    by_cases h : (isHexDigit x && isHexDigit y && isHexDigit z) = true
    · have he : expandShorthand s = [x, x, y, y, z, z] := by
        unfold expandShorthand
        rw [hs]
        simp only [h, if_true]
      have hx : x ≠ '#' := by
        intro hx
        rw [hx, hash_not_hex] at h
        simp at h
      have hd : dropHash [x, x, y, y, z, z] = [x, x, y, y, z, z] := by
        unfold dropHash
        split
        · rename_i rest heq
          exact absurd (List.cons.inj heq).1 hx
        · rfl
      have e1 : hexToRgb s = (match [x, x, y, y, z, z] with
          | [r1, r2, g1, g2, b1, b2] =>
            if isHexDigit r1 && isHexDigit r2 && isHexDigit g1 && isHexDigit g2 &&
                isHexDigit b1 && isHexDigit b2 then
              some { r := parseHex [r1, r2], g := parseHex [g1, g2], b := parseHex [b1, b2] }
            else none
          | _ => none) := by
        unfold hexToRgb
        rw [he, hd]
      rw [e1]
      simp [hexToRgb, expandShorthand, dropHash]
    · have he : expandShorthand s = s := by
        unfold expandShorthand
        rw [hs]
        simp only [h]
        rfl
      have e1 : hexToRgb s = none := by
        unfold hexToRgb
        rw [he, hs]
      rw [e1]
      simp only [Bool.and_eq_true, not_and_or, Bool.not_eq_true] at h
      simp only [hexToRgb, expandShorthand, dropHash]
      rcases h with (h | h) | h <;> simp [h]
  refine ⟨key _ rfl, ?_⟩
  by_cases hx : x = '#'
  · subst hx
    simp [hexToRgb, expandShorthand, dropHash, hash_not_hex]
  · have hd : dropHash [x, y, z] = [x, y, z] := by
      unfold dropHash
      split
      · rename_i rest heq
        exact absurd (List.cons.inj heq).1 hx
      · rfl
    rw [key _ hd]
    have hd2 : dropHash [x, x, y, y, z, z] = [x, x, y, y, z, z] := by
      unfold dropHash
      split
      · rename_i rest heq
        exact absurd (List.cons.inj heq).1 hx
      · rfl
    have e3 : expandShorthand [x, x, y, y, z, z] = [x, x, y, y, z, z] :=
      expandShorthand_of_not_three _ (by rw [hd2]; simp)
    have e4 : expandShorthand ['#', x, x, y, y, z, z] = ['#', x, x, y, y, z, z] :=
      expandShorthand_of_not_three _ (by simp [dropHash])
    unfold hexToRgb
    rw [e3, e4, hd2]
    rfl

theorem hexToRgb_isSome (s : List Char) : (hexToRgb s).isSome = isHexColour s := by
  by_cases h3 : (dropHash s).length = 3
  · match hd : dropHash s, h3 with
    | [x, y, z], _ =>
      by_cases h : (isHexDigit x && isHexDigit y && isHexDigit z) = true
      · have he : expandShorthand s = [x, x, y, y, z, z] := by
          unfold expandShorthand
          rw [hd]
          simp only [h, if_true]
        have hx : x ≠ '#' := by
          intro hx
          rw [hx, hash_not_hex] at h
          simp at h
        have hd2 : dropHash [x, x, y, y, z, z] = [x, x, y, y, z, z] := by
          unfold dropHash
          split
          · rename_i rest heq
            exact absurd (List.cons.inj heq).1 hx
          · rfl
        simp only [Bool.and_eq_true] at h
        unfold hexToRgb isHexColour
        rw [he, hd2, hd]
        simp [h.1.1, h.1.2, h.2]
      · have he : expandShorthand s = s := by
          unfold expandShorthand
          rw [hd]
          simp only [h]
          rfl
        unfold hexToRgb isHexColour
        rw [he, hd]
        simp only [Bool.and_eq_true, not_and_or, Bool.not_eq_true] at h
        rcases h with (h | h) | h <;> simp [h]
  · have he := expandShorthand_of_not_three s h3
    unfold hexToRgb isHexColour
    rw [he]
    match hd : dropHash s with
    | [r1, r2, g1, g2, b1, b2] =>
      simp only [List.length_cons, List.length_nil, List.all_cons, List.all_nil]
      by_cases h : (isHexDigit r1 && isHexDigit r2 && isHexDigit g1 && isHexDigit g2 &&
          isHexDigit b1 && isHexDigit b2) = true
      · rw [if_pos h]
        simp only [Bool.and_eq_true] at h
        simp [h.1.1.1.1.1, h.1.1.1.1.2, h.1.1.1.2, h.1.1.2, h.1.2, h.2]
      · rw [if_neg h]
        simp only [Bool.and_eq_true, not_and_or, Bool.not_eq_true] at h
        rcases h with ((((h | h) | h) | h) | h) | h <;> simp [h]
    | [] => simp
    | [_] => simp
    | [_, _] => simp
    | [_, _, _] => rw [hd] at h3; exact absurd rfl h3
    | [_, _, _, _] => simp
    | [_, _, _, _, _] => simp
    | _ :: _ :: _ :: _ :: _ :: _ :: _ :: _ => simp

/-- Claim C28: for integers `r`, `g`, `b` in 0..255, `rgbToHex(r, g, b)` is
`#` followed by exactly six lowercase hexadecimal digits and `hexToRgb` maps
it back to `{r, g, b}`; a three-digit shorthand `#xyz` (or `xyz`) gives the
same result as `#xxyyzz` (or `xxyyzz`); and `hexToRgb` returns `null` exactly
for the strings that are not a 3- or 6-digit hex colour with an optional
leading `#`. -/
theorem hexToRgb_rgbToHex (r g b : Nat) (hr : r < 256) (hg : g < 256) (hb : b < 256) :
    hexToRgb (rgbToHex r g b) = some { r := r, g := g, b := b } ∧
    (∃ digits, rgbToHex r g b = '#' :: digits ∧ digits.length = 6 ∧
      digits.all isLowerHex = true) ∧
    (∀ x y z : Char, hexToRgb ['#', x, y, z] = hexToRgb ['#', x, x, y, y, z, z] ∧
      hexToRgb [x, y, z] = hexToRgb [x, x, y, y, z, z]) ∧
    (∀ s : List Char, isHexColour s = false → hexToRgb s = none) ∧
    (∀ s : List Char, isHexColour s = true → ∃ rgb, hexToRgb s = some rgb) := by
  obtain ⟨r1, r2, hrc, hr1, hr2, hrv⟩ := component_pair r hr
  obtain ⟨g1, g2, hgc, hg1, hg2, hgv⟩ := component_pair g hg
  obtain ⟨b1, b2, hbc, hb1, hb2, hbv⟩ := component_pair b hb
  have hx : rgbToHex r g b = ['#', r1, r2, g1, g2, b1, b2] := by
    simp [rgbToHex, hrc, hgc, hbc]
  refine ⟨?_, ⟨[r1, r2, g1, g2, b1, b2], hx, rfl, ?_⟩, hexToRgb_shorthand, ?_, ?_⟩
  · rw [hx, hexToRgb_six _ _ _ _ _ _ (isHexDigit_of_isLowerHex _ hr1)
      (isHexDigit_of_isLowerHex _ hr2) (isHexDigit_of_isLowerHex _ hg1)
      (isHexDigit_of_isLowerHex _ hg2) (isHexDigit_of_isLowerHex _ hb1)
      (isHexDigit_of_isLowerHex _ hb2), hrv, hgv, hbv]
  · simp [hr1, hr2, hg1, hg2, hb1, hb2]
  · intro s hs
    have h := hexToRgb_isSome s
    rw [hs] at h
    cases hh : hexToRgb s with
    | none => rfl
    | some v =>
      rw [hh] at h
      exact absurd h (by simp)
  · intro s hs
    have h := hexToRgb_isSome s
    rw [hs] at h
    cases hh : hexToRgb s with
    | none =>
      rw [hh] at h
      exact absurd h (by simp)
    | some v => exact ⟨v, rfl⟩

/-- Claim C28 at the colour (249, 199, 79): `rgbToHex` gives `#f9c74f` and
`hexToRgb` maps it back. -/
theorem hexToRgb_rgbToHex_amber :
    hexToRgb (rgbToHex 249 199 79) = some { r := 249, g := 199, b := 79 } ∧
    rgbToHex 249 199 79 = ['#', 'f', '9', 'c', '7', '4', 'f'] :=
  ⟨(hexToRgb_rgbToHex 249 199 79 (by decide) (by decide) (by decide)).1, by decide⟩

end ColorUtils

/-! ## Theorems : the error logger -/

namespace ErrorLogging

theorem errors_storeError (storageFails : Bool) (e : ErrorObject) (logger : Logger) :
    (storeError storageFails e logger).errors = logger.errors ∧
    (storeError storageFails e logger).options = logger.options := by
  unfold storeError
  split <;> exact ⟨rfl, rfl⟩

theorem options_pushAndTrim (e : ErrorObject) (logger : Logger) :
    (pushAndTrim e logger).options = logger.options := by
  unfold pushAndTrim
  dsimp only
  split <;> rfl

/-- The in-memory list after `logError`, whether or not the call throws. -/
theorem errors_logError (id timestamp : String) (storageFails : Bool) (errorData : ErrorData)
    (logger : Logger) :
    (logError id timestamp storageFails errorData logger).1.errors =
      (pushAndTrim (errorObject id timestamp logger.options.applicationVersion errorData)
        logger).errors := by
  unfold logError
  dsimp only
  have h : ∀ l : Logger, (if l.options.localStorage = true then
      storeError storageFails
        (errorObject id timestamp logger.options.applicationVersion errorData) l
      else l).errors = l.errors := by
    intro l
    split
    · exact (errors_storeError _ _ _).1
    · rfl
  generalize hl :
    (if (pushAndTrim (errorObject id timestamp logger.options.applicationVersion errorData)
          logger).options.localStorage = true then
        storeError storageFails
          (errorObject id timestamp logger.options.applicationVersion errorData)
          (pushAndTrim (errorObject id timestamp logger.options.applicationVersion errorData)
            logger)
      else pushAndTrim (errorObject id timestamp logger.options.applicationVersion errorData)
        logger) = l2
  have h2 : l2.errors =
      (pushAndTrim (errorObject id timestamp logger.options.applicationVersion errorData)
        logger).errors := by
    rw [← hl]
    exact h _
  split
  · split <;> exact h2
  · exact h2

/-- What `logError` returns or throws. -/
theorem result_logError (id timestamp : String) (storageFails : Bool) (errorData : ErrorData)
    (logger : Logger) :
    (logError id timestamp storageFails errorData logger).2 =
      if logger.options.consoleOutput = true then
        match consoleOutput
            (errorObject id timestamp logger.options.applicationVersion errorData) with
        | Except.ok _ =>
          Except.ok (errorObject id timestamp logger.options.applicationVersion errorData)
        | Except.error e => Except.error e
      else Except.ok (errorObject id timestamp logger.options.applicationVersion errorData) := by
  have h : ∀ l : Logger, (if l.options.localStorage = true then
      storeError storageFails
        (errorObject id timestamp logger.options.applicationVersion errorData) l
      else l).options = l.options := by
    intro l
    split
    · exact (errors_storeError _ _ _).2
    · rfl
  unfold logError
  dsimp only
  generalize hl :
    (if (pushAndTrim (errorObject id timestamp logger.options.applicationVersion errorData)
          logger).options.localStorage = true then
        storeError storageFails
          (errorObject id timestamp logger.options.applicationVersion errorData)
          (pushAndTrim (errorObject id timestamp logger.options.applicationVersion errorData)
            logger)
      else pushAndTrim (errorObject id timestamp logger.options.applicationVersion errorData)
        logger) = l2
  have h2 : l2.options = logger.options := by
    rw [← hl, h, options_pushAndTrim]
  rw [h2]
  split
  · split <;> rfl
  · rfl

theorem slice_neg_zero {α : Type} (xs : List α) : slice (-(0 : Int)) xs = xs := by
  simp [slice]

theorem slice_neg_pos {α : Type} (m : Nat) (hm : 1 ≤ m) (xs : List α) :
    slice (-(m : Int)) xs = xs.drop (xs.length - m) := by
  unfold slice
  have h : -(m : Int) < 0 := by omega
  rw [if_pos h]
  congr 1
  omega

/-- For a limit of at least 1 the list is trimmed to the newest entries. -/
theorem errors_logError_pos (id timestamp : String) (storageFails : Bool)
    (errorData : ErrorData) (logger : Logger) (m : Nat) (hm : 1 ≤ m)
    (ho : logger.options.maxStoredErrors = (m : Int)) :
    (logError id timestamp storageFails errorData logger).1.errors =
      (logger.errors ++
          [errorObject id timestamp logger.options.applicationVersion errorData]).drop
        ((logger.errors ++
          [errorObject id timestamp logger.options.applicationVersion errorData]).length - m) ∧
    (logError id timestamp storageFails errorData logger).1.errors.length ≤ m := by
  have key : (logError id timestamp storageFails errorData logger).1.errors =
      (logger.errors ++
          [errorObject id timestamp logger.options.applicationVersion errorData]).drop
        ((logger.errors ++
          [errorObject id timestamp logger.options.applicationVersion errorData]).length - m) := by
    rw [errors_logError]
    unfold pushAndTrim
    dsimp only
    rw [ho]
    split
    · exact slice_neg_pos m hm _
    · rename_i hle
      have : (logger.errors ++
          [errorObject id timestamp logger.options.applicationVersion errorData]).length - m
            = 0 := by omega
      rw [this, List.drop_zero]
  refine ⟨key, ?_⟩
  rw [key, List.length_drop]
  omega

/-- Claim C22: with `maxStoredErrors = 0` the list is never trimmed, as
`slice(-0)` keeps the whole array: after one `logError` on an empty list it
holds 1 entry, and from any list it holds the previous entries and the new
one.  For every limit `m ≥ 1` the list after `logError` is the last `m`
entries of the previous list followed by the new error, and has at most `m`
entries. -/
theorem logError_keeps_all_at_zero :
    keepNone.options.maxStoredErrors = 0 ∧
    (logError "err_3" "t3" false plainData keepNone).1.errors.length = 1 ∧
    (∀ (id timestamp : String) (storageFails : Bool) (errorData : ErrorData) (logger : Logger),
      logger.options.maxStoredErrors = 0 →
      (logError id timestamp storageFails errorData logger).1.errors =
        logger.errors ++
          [errorObject id timestamp logger.options.applicationVersion errorData]) ∧
    (logError "err_3" "t3" false plainData keepTwo).1.errors.map (fun e => e.id) =
      ["err_2", "err_3"] ∧
    (∀ (id timestamp : String) (storageFails : Bool) (errorData : ErrorData) (logger : Logger)
        (m : Nat), 1 ≤ m → logger.options.maxStoredErrors = (m : Int) →
      (logError id timestamp storageFails errorData logger).1.errors =
        (logger.errors ++
            [errorObject id timestamp logger.options.applicationVersion errorData]).drop
          ((logger.errors ++
            [errorObject id timestamp logger.options.applicationVersion errorData]).length
              - m) ∧
      (logError id timestamp storageFails errorData logger).1.errors.length ≤ m) := by
  refine ⟨rfl, by decide, ?_, by decide, ?_⟩
  · intro id timestamp storageFails errorData logger h0
    rw [errors_logError]
    unfold pushAndTrim
    dsimp only
    rw [h0]
    split
    · exact slice_neg_zero _
    · rfl
  · intro id timestamp storageFails errorData logger m hm ho
    exact errors_logError_pos id timestamp storageFails errorData logger m hm ho

/-- With a severity that is a string or omitted, `error` returns the logged
error object, also when the access to `localStorage` fails. -/
theorem error_returns (id timestamp : String) (storageFails : Bool)
    (message type context : Value) (logger : Logger) (severity : Value)
    (hs : severity = Value.undefined ∨ ∃ s, severity = Value.string s) :
    ∃ e : ErrorObject,
      (error id timestamp storageFails message type severity context logger).2 = Except.ok e ∧
      e.id = id ∧ e.message = message := by
  have hsev : ∃ s, orDefault severity (Value.string "medium") = Value.string s := by
    rcases hs with h | ⟨s, h⟩
    · exact ⟨"medium", by rw [h]; rfl⟩
    · exact ⟨s, by rw [h]; rfl⟩
  obtain ⟨s, hs2⟩ := hsev
  unfold error
  rw [result_logError, hs2]
  split
  · exact ⟨_, rfl, rfl, rfl⟩
  · exact ⟨_, rfl, rfl, rfl⟩

/-- Claim C21: with the default options, `error('boom', 'manual', null)`
throws a `TypeError`: the spread `...errorData` writes the `null` over the
fallback `'medium'`, and `consoleOutput` calls `error.severity.toUpperCase()`.
The same happens for every severity that is neither omitted nor a string,
whenever `consoleOutput` is on.  With a string or an omitted severity the call
returns the error object, also when `localStorage` fails. -/
theorem error_throws_on_null_severity :
    (error "err_1" "t" false (Value.string "boom") (Value.string "manual") Value.null
        Value.undefined emptyLogger).2 =
      Except.error "TypeError: Cannot read properties of null" ∧
    (∀ (id timestamp : String) (storageFails : Bool) (message type context severity : Value)
        (logger : Logger), logger.options.consoleOutput = true →
      severity ≠ Value.undefined → (∀ s, severity ≠ Value.string s) →
      ∃ e, (error id timestamp storageFails message type severity context logger).2 =
        Except.error e) ∧
    (∀ (id timestamp : String) (storageFails : Bool) (message type context : Value)
        (logger : Logger) (severity : Value),
      (severity = Value.undefined ∨ ∃ s, severity = Value.string s) →
      ∃ e : ErrorObject,
        (error id timestamp storageFails message type severity context logger).2 =
          Except.ok e ∧ e.id = id ∧ e.message = message) := by
  refine ⟨rfl, ?_, ?_⟩
  · intro id timestamp storageFails message type context severity logger hc hu hstr
    have hsev : orDefault severity (Value.string "medium") = severity := by
      unfold orDefault
      rw [if_neg hu]
    have hthrow : ∃ e, toUpperCase severity = Except.error e := by
      cases severity with
      | undefined => exact absurd rfl hu
      | null => exact ⟨_, rfl⟩
      | bool b => exact ⟨_, rfl⟩
      | number n => exact ⟨_, rfl⟩
      | string s => exact absurd rfl (hstr s)
      | object => exact ⟨_, rfl⟩
    obtain ⟨e, he⟩ := hthrow
    refine ⟨e, ?_⟩
    unfold error
    rw [result_logError, if_pos hc, hsev]
    have hcons : consoleOutput (errorObject id timestamp logger.options.applicationVersion
        { type := some (orDefault type (Value.string "manual")), message := some message,
          severity := some severity, stack := none,
          context := some (orDefault context Value.object) }) = Except.error e := by
      unfold consoleOutput
      have hse : (errorObject id timestamp logger.options.applicationVersion
        { type := some (orDefault type (Value.string "manual")), message := some message,
          severity := some severity, stack := none,
          context := some (orDefault context Value.object) }).severity = severity := rfl
      rw [hse, he]
    rw [hcons]
  · intro id timestamp storageFails message type context logger severity hs
    exact error_returns id timestamp storageFails message type context logger severity hs

end ErrorLogging

/-! ## Theorems : the sacred geometry backdrop -/

namespace SacredGeometry

theorem rotation_rotate_none (pattern : Pattern) : (rotate none pattern).rotation = none := by
  unfold rotate
  cases pattern.rotation <;> rfl

/-- The first frame, which `start` runs without a timestamp, leaves every
rotation `NaN`. -/
theorem start_rotations (rnd now : ℚ) (b : Backdrop) (h : b.isRunning = false) :
    ∀ p ∈ (start false rnd now b).patterns, p.rotation = none := by
  intro p hp
  have e : (start false rnd now b).patterns = b.patterns.map (rotate none) := by
    unfold start
    rw [h]
    rfl
  rw [e] at hp
  obtain ⟨q, _, rfl⟩ := List.mem_map.1 hp
  exact rotation_rotate_none q

theorem remainder_small (t : ℚ) (h0 : 0 ≤ t) (h1 : t < 10000) : remainder t 10000 = t := by
  have hq : 0 ≤ t / 10000 := div_nonneg h0 (by norm_num)
  have hf : ⌊t / 10000⌋ = 0 := by
    rw [Int.floor_eq_zero_iff]
    constructor
    · exact hq
    · rw [div_lt_one (by norm_num)]
      exact h1
  unfold remainder
  rw [if_pos hq, hf]
  norm_num

/-- Claim C26: a backdrop built with the default options has five patterns,
and after the first frame, which `start` runs by calling `animate()` without a
timestamp, `deltaTime` is `NaN` and the rotation of every pattern is `NaN`;
it is still `NaN` after the next frame at 1016 ms.  This holds for every
backdrop that `start` sets running.  Patterns created anew afterwards rotate
by `rotationSpeed` times the elapsed time. -/
theorem first_frame_rotation_not_finite :
    deltaTime none (some 1000) = none ∧
    (construct 1000).patterns.map (fun p => p.type) =
      ["platonic", "flower-of-life", "metatron", "fibonacci", "vesica-piscis"] ∧
    (construct 1000).patterns.map (fun p => p.rotation) = [none, none, none, none, none] ∧
    (animate false 0 (some 1016) (construct 1000)).patterns.map (fun p => p.rotation) =
      [none, none, none, none, none] ∧
    (∀ (rnd now : ℚ) (b : Backdrop), b.isRunning = false →
      ∀ p ∈ (start false rnd now b).patterns, p.rotation = none) ∧
    (animate false 0 (some 1032)
        (animate false 0 (some 1016) (createPatterns false 0 (construct 1000)))).patterns.map
      (fun p => p.rotation) =
      [some (0.00035 * 16), some (0.00025 * 16), some (0.0004 * 16), some (0.00015 * 16),
       some (0.0002 * 16)] := by
  refine ⟨rfl, by decide, by decide, ?_, start_rotations, ?_⟩
  · have h := remainder_small 1016 (by norm_num) (by norm_num)
    simp [animate, construct, start, createPatterns, created, patternFor, deltaTime, rotate,
      requestFrame, lessThan, h]
    norm_num
  · have h1 := remainder_small 1016 (by norm_num) (by norm_num)
    have h2 := remainder_small 1032 (by norm_num) (by norm_num)
    simp [animate, construct, start, createPatterns, created, patternFor, deltaTime, rotate,
      requestFrame, lessThan, h1, h2]
    norm_num [rotate]

/-- The index after `cyclePattern` for the default sequence. -/
theorem index_cyclePattern (rnd : ℚ) (b : Backdrop)
    (h : b.patternSequence = created.patternSequence) :
    (cyclePattern false rnd b).currentPatternIndex = (b.currentPatternIndex + 1) % 5 := by
  unfold cyclePattern createPatterns
  rw [h]
  rfl

/-- Claim C23: from a backdrop built with the default options, the first
`cyclePattern()` sets the index to 1 and `options.pattern` to
`'metatron-cube'`, a name `createPatterns` does not know, and leaves
`state.patterns` empty; so do the second and third call (`'fibonacci-spiral'`,
`'platonic-solid'`).  The fourth and fifth call leave the one pattern
`'vesica-piscis'` and `'flower-of-life'`.  The index advances by one modulo 5
with every call. -/
theorem cyclePattern_empties_patterns :
    (construct 1000).currentPatternIndex = 0 ∧
    (cyclePattern false 0 (construct 1000)).currentPatternIndex = 1 ∧
    (cyclePattern false 0 (construct 1000)).pattern = some "metatron-cube" ∧
    (cyclePattern false 0 (construct 1000)).patterns = [] ∧
    ((cyclePattern false 0)^[2] (construct 1000)).patterns = [] ∧
    ((cyclePattern false 0)^[3] (construct 1000)).patterns = [] ∧
    ((cyclePattern false 0)^[4] (construct 1000)).patterns.map (fun p => p.type) =
      ["vesica-piscis"] ∧
    ((cyclePattern false 0)^[5] (construct 1000)).patterns.map (fun p => p.type) =
      ["flower-of-life"] ∧
    ((cyclePattern false 0)^[5] (construct 1000)).currentPatternIndex = 0 ∧
    ∀ (rnd : ℚ) (b : Backdrop), b.patternSequence = created.patternSequence →
      (cyclePattern false rnd b).currentPatternIndex = (b.currentPatternIndex + 1) % 5 := by
  refine ⟨by decide, by decide, by decide, by decide, by decide, by decide, by decide,
    by decide, by decide, index_cyclePattern⟩

end SacredGeometry

/-! ## Theorems : the typewriter -/

namespace Typewriter

theorem typeOut_of_nil (fuel : Nat) (e : Effect) (h : typingTimers e = []) :
    typeOut fuel e = e := by
  cases fuel with
  | zero => rfl
  | succ n =>
    unfold typeOut
    rw [h]

theorem typingTimers_after_fire (e : Effect) (t : Timer) (h : typingTimers e = [t]) :
    (e.timers.filter (fun u => u.id ≠ t.id)).filter
      (fun u => u.callback = Callback.typeNextChar) = [] := by
  unfold typingTimers at h
  rw [List.filter_filter]
  have e1 : List.filter (fun a => decide (a.callback = Callback.typeNextChar) &&
      decide (a.id ≠ t.id)) e.timers =
      (e.timers.filter (fun u => u.callback = Callback.typeNextChar)).filter
        (fun u => u.id ≠ t.id) := by
    rw [List.filter_filter]
    congr 1
    funext a
    exact Bool.and_comm _ _
  rw [e1, h]
  simp

theorem positioned_take_succ (text : List Char) (i : Nat) (char : Char)
    (h : text[i]? = some char) :
    positioned (text.take (i + 1)) = positioned (text.take i) ++ [(char, i + 1)] := by
  have hi : i < text.length := by
    by_contra hc
    rw [List.getElem?_eq_none (not_lt.1 hc)] at h
    exact absurd h (by simp)
  unfold positioned
  rw [List.take_succ, h, List.enum_append, List.map_append]
  simp [List.length_take, Nat.min_eq_left (le_of_lt hi), List.enumFrom]

/-- From a state in which `i` characters have been typed and one
`typeNextChar` timer is pending, firing the timers completes the text. -/
theorem typeOut_typing (d : Nat) : ∀ (e : Effect) (i : Nat) (t : Timer),
    e.text.length - i = d → 1 ≤ i → i ≤ e.text.length →
    e.isTyping = true → e.isPaused = false → e.charIndex = i →
    e.textContent = e.text.take i → typingTimers e = [t] →
    e.charCalls = (if e.hasOnChar then positioned (e.text.take i) else []) →
    e.completed = 0 → e.delays = (e.text.take i).map (delayFor e.charDelay) →
    ∀ fuel, d + 1 ≤ fuel →
      (typeOut fuel e).text = e.text ∧
      (typeOut fuel e).textContent = e.text ∧
      (typeOut fuel e).charIndex = e.text.length ∧
      (typeOut fuel e).isTyping = false ∧
      (typeOut fuel e).charCalls = (if e.hasOnChar then positioned e.text else []) ∧
      (typeOut fuel e).completed = (if e.hasOnComplete then 1 else 0) ∧
      typingTimers (typeOut fuel e) = [] ∧
      (typeOut fuel e).delays = e.text.map (delayFor e.charDelay) := by
  induction d with
  | zero =>
    intro e i t hd _ hi hT hP hidx htc htim hcc hcomp hdel fuel hfuel
    have hin : i = e.text.length := by omega
    obtain ⟨f, rfl⟩ : ∃ f, fuel = f + 1 := ⟨fuel - 1, by omega⟩
    have htm : t ∈ e.timers := by
      have : t ∈ typingTimers e := by rw [htim]; exact List.mem_singleton.2 rfl
      exact (List.mem_filter.1 this).1
    have htc2 : t.callback = Callback.typeNextChar := by
      have : t ∈ typingTimers e := by rw [htim]; exact List.mem_singleton.2 rfl
      exact of_decide_eq_true (List.mem_filter.1 this).2
    have hlook : e.text[e.charIndex]? = none := by
      rw [hidx, hin]
      exact List.getElem?_eq_none (le_refl _)
    have hstep : fire t e =
        (if e.hasOnComplete then
          { e with timers := e.timers.filter (fun u => u.id ≠ t.id), isTyping := false,
                   completed := e.completed + 1 }
         else { e with timers := e.timers.filter (fun u => u.id ≠ t.id), isTyping := false }) := by
      unfold fire
      rw [if_pos htm]
      dsimp only
      rw [htc2]
      dsimp only
      unfold typeNextChar
      dsimp only
      rw [hT, hP, hlook]
      rfl
    have hnil : typingTimers (fire t e) = [] := by
      rw [hstep]
      split <;> exact typingTimers_after_fire e t htim
    have hrun : typeOut (f + 1) e = fire t e := by
      conv_lhs => unfold typeOut
      rw [htim]
      exact typeOut_of_nil f _ hnil
    rw [hrun]
    have htake : e.text.take i = e.text := by
      rw [hin]
      exact List.take_length _
    rw [htake] at htc hcc hdel
    rw [hstep]
    split
    · rename_i hoc
      refine ⟨rfl, htc, ?_, rfl, hcc, ?_, ?_, hdel⟩
      · exact hidx.trans hin
      · show e.completed + 1 = 1
        rw [hcomp]
      · exact typingTimers_after_fire e t htim
    · rename_i hoc
      refine ⟨rfl, htc, ?_, rfl, hcc, ?_, ?_, hdel⟩
      · exact hidx.trans hin
      · exact hcomp
      · exact typingTimers_after_fire e t htim
  | succ d ih =>
    intro e i t hd hi1 hi hT hP hidx htc htim hcc hcomp hdel fuel hfuel
    have hlt : i < e.text.length := by omega
    obtain ⟨f, rfl⟩ : ∃ f, fuel = f + 1 := ⟨fuel - 1, by omega⟩
    have htm : t ∈ e.timers := by
      have : t ∈ typingTimers e := by rw [htim]; exact List.mem_singleton.2 rfl
      exact (List.mem_filter.1 this).1
    have htc2 : t.callback = Callback.typeNextChar := by
      have : t ∈ typingTimers e := by rw [htim]; exact List.mem_singleton.2 rfl
      exact of_decide_eq_true (List.mem_filter.1 this).2
    have hlook : e.text[e.charIndex]? = some (e.text[i]) := by
      rw [hidx]
      exact List.getElem?_eq_getElem hlt
    have hlook2 : e.text[i]? = some (e.text[i]) := List.getElem?_eq_getElem hlt
    have hstep : fire t e =
        setTimeout Callback.typeNextChar (delayFor e.charDelay (e.text[i]))
          { e with
            timers := e.timers.filter (fun u => u.id ≠ t.id),
            textContent := e.textContent ++ [e.text[i]],
            charIndex := e.charIndex + 1,
            charCalls := (if e.hasOnChar then e.charCalls ++ [(e.text[i], e.charIndex + 1)]
                          else e.charCalls),
            delays := e.delays ++ [delayFor e.charDelay (e.text[i])] } := by
      unfold fire
      rw [if_pos htm]
      dsimp only
      rw [htc2]
      dsimp only
      unfold typeNextChar
      dsimp only
      rw [hT, hP, hlook]
      dsimp only
      cases e.hasOnChar <;> rfl
    have hrun : typeOut (f + 1) e = typeOut f (fire t e) := by
      conv_lhs => unfold typeOut
      rw [htim]
    rw [hrun]
    have hnext := ih (fire t e) (i + 1)
      { id := e.nextTimer, callback := Callback.typeNextChar,
        delay := delayFor e.charDelay (e.text[i]) }
    have htext : (fire t e).text = e.text := by rw [hstep]; rfl
    have hcd : (fire t e).charDelay = e.charDelay := by rw [hstep]; rfl
    have hoc : (fire t e).hasOnChar = e.hasOnChar := by rw [hstep]; rfl
    have hocp : (fire t e).hasOnComplete = e.hasOnComplete := by rw [hstep]; rfl
    rw [htext, hcd, hoc, hocp] at hnext
    apply hnext
    · omega
    · omega
    · omega
    · rw [hstep]
      exact hT
    · rw [hstep]
      exact hP
    · rw [hstep]
      show e.charIndex + 1 = i + 1
      rw [hidx]
    · rw [hstep]
      show e.textContent ++ [e.text[i]] = e.text.take (i + 1)
      rw [htc, List.take_succ, hlook2]
      rfl
    · rw [hstep]
      unfold typingTimers setTimeout
      dsimp only
      rw [List.filter_append, typingTimers_after_fire e t htim]
      rfl
    · rw [hstep]
      show (if e.hasOnChar then e.charCalls ++ [(e.text[i], e.charIndex + 1)]
          else e.charCalls) = _
      rw [hcc, hidx, positioned_take_succ e.text i _ hlook2]
      cases e.hasOnChar <;> rfl
    · rw [hstep]
      exact hcomp
    · rw [hstep]
      show e.delays ++ [delayFor e.charDelay (e.text[i])] = _
      rw [hdel, List.take_succ, hlook2, List.map_append]
      rfl
    · omega

/-- Claim C24: for every text and every instance on which nothing has been
typed yet, after `start()` and the firing of every `typeNextChar` timer (the
text length bounds their number) the text container holds exactly the text,
`charIndex` is the length of the text, `isTyping` is false, `onChar` has been
called once per character in order with the character and its position
counted from 1, `onComplete` has been called exactly once, no `typeNextChar`
timer is pending, and the delay scheduled after each character is
`charDelay[1]` for one of `aeiouAEIOU` and `charDelay[0]` otherwise, or
`charDelay` itself when it is a number. -/
theorem start_types_whole_text (e : Effect) (fuel : Nat) (hfresh : Fresh e)
    (hfuel : e.text.length ≤ fuel) :
    (typeOut fuel (start e)).text = e.text ∧
    (typeOut fuel (start e)).textContent = e.text ∧
    (typeOut fuel (start e)).charIndex = e.text.length ∧
    (typeOut fuel (start e)).isTyping = false ∧
    (typeOut fuel (start e)).charCalls = (if e.hasOnChar then positioned e.text else []) ∧
    (typeOut fuel (start e)).completed = (if e.hasOnComplete then 1 else 0) ∧
    typingTimers (typeOut fuel (start e)) = [] ∧
    (typeOut fuel (start e)).delays = e.text.map (delayFor e.charDelay) ∧
    (∀ consonant vowel char, delayFor (CharDelay.pair consonant vowel) char =
      if isVowel char then vowel else consonant) ∧
    (∀ char delay, delayFor (CharDelay.number delay) char = delay) := by
  obtain ⟨hT, hP, hidx, htc, htim, hcc, hcomp, hdel⟩ := hfresh
  have main : (typeOut fuel (start e)).text = e.text ∧
      (typeOut fuel (start e)).textContent = e.text ∧
      (typeOut fuel (start e)).charIndex = e.text.length ∧
      (typeOut fuel (start e)).isTyping = false ∧
      (typeOut fuel (start e)).charCalls = (if e.hasOnChar then positioned e.text else []) ∧
      (typeOut fuel (start e)).completed = (if e.hasOnComplete then 1 else 0) ∧
      typingTimers (typeOut fuel (start e)) = [] ∧
      (typeOut fuel (start e)).delays = e.text.map (delayFor e.charDelay) := by
    cases htext : e.text with
    | nil =>
      have hlook : e.text[0]? = none := by rw [htext]; rfl
      have hs : start e =
          (if e.hasOnComplete then
            { e with isTyping := false, isPaused := false,
                     started := (if e.hasOnStart then e.started + 1 else e.started),
                     completed := e.completed + 1 }
           else { e with isTyping := false, isPaused := false,
                         started := (if e.hasOnStart then e.started + 1 else e.started) }) := by
        unfold start
        rw [hT]
        cases hos : e.hasOnStart <;> cases hoc : e.hasOnComplete <;>
          simp [typeNextChar, hos, hoc, hidx, hlook]
      have hnil : typingTimers (start e) = [] := by
        rw [hs]
        split <;> exact htim
      rw [typeOut_of_nil fuel _ hnil, hs]
      have hpos : positioned ([] : List Char) = [] := rfl
      cases hoc : e.hasOnComplete
      · refine ⟨htext, htc, hidx, rfl, ?_, hcomp, htim, hdel⟩
        rw [hcc, hpos]
        cases e.hasOnChar <;> rfl
      · refine ⟨htext, htc, hidx, rfl, ?_, ?_, htim, hdel⟩
        · rw [hcc, hpos]
          cases e.hasOnChar <;> rfl
        · show e.completed + 1 = 1
          rw [hcomp]
    | cons c rest =>
      have hlook : e.text[0]? = some c := by rw [htext]; simp
      have hs : start e =
          setTimeout Callback.typeNextChar (delayFor e.charDelay c)
            { e with
              isTyping := true, isPaused := false,
              started := (if e.hasOnStart then e.started + 1 else e.started),
              textContent := e.textContent ++ [c],
              charIndex := e.charIndex + 1,
              charCalls := (if e.hasOnChar then e.charCalls ++ [(c, e.charIndex + 1)]
                            else e.charCalls),
              delays := e.delays ++ [delayFor e.charDelay c] } := by
        unfold start
        rw [hT]
        cases hos : e.hasOnStart <;> cases hoc : e.hasOnChar <;>
          simp [typeNextChar, hos, hoc, hidx, hlook]
      have hlen : 1 ≤ e.text.length := by rw [htext]; simp
      have h := typeOut_typing (e.text.length - 1) (start e) 1
        { id := e.nextTimer, callback := Callback.typeNextChar, delay := delayFor e.charDelay c }
      have htx : (start e).text = e.text := by rw [hs]; rfl
      have hcd : (start e).charDelay = e.charDelay := by rw [hs]; rfl
      have hoc : (start e).hasOnChar = e.hasOnChar := by rw [hs]; rfl
      have hocp : (start e).hasOnComplete = e.hasOnComplete := by rw [hs]; rfl
      rw [htx, hcd, hoc, hocp] at h
      have hres := h rfl (le_refl 1) hlen (by rw [hs]; rfl) (by rw [hs]; rfl)
        (by rw [hs]; show e.charIndex + 1 = 1; rw [hidx])
        (by rw [hs]; show e.textContent ++ [c] = e.text.take 1; rw [htc, htext]; rfl)
        (by
          rw [hs]
          unfold typingTimers setTimeout
          dsimp only
          rw [List.filter_append]
          unfold typingTimers at htim
          rw [htim]
          rfl)
        (by
          rw [hs]
          show (if e.hasOnChar then e.charCalls ++ [(c, e.charIndex + 1)] else e.charCalls) = _
          rw [hcc, hidx, htext]
          cases e.hasOnChar <;> rfl)
        (by rw [hs]; exact hcomp)
        (by
          rw [hs]
          show e.delays ++ [delayFor e.charDelay c] = _
          rw [hdel, htext]
          rfl)
        fuel (by omega)
      rw [htext] at hres
      exact hres
  obtain ⟨h1, h2, h3, h4, h5, h6, h7, h8⟩ := main
  exact ⟨h1, h2, h3, h4, h5, h6, h7, h8, fun _ _ _ => rfl, fun _ _ => rfl⟩

/-- Claim C24 for the text `Hi!` with the default delays: after `start()` and
three timer firings the container holds `Hi!`, `onChar` was called with
(`H`, 1), (`i`, 2), (`!`, 3), `onComplete` once, and the delays were 30, 70,
30. -/
theorem start_types_greeting :
    Fresh greeting ∧
    (typeOut 3 (start greeting)).textContent = ['H', 'i', '!'] ∧
    (typeOut 3 (start greeting)).charIndex = 3 ∧
    (typeOut 3 (start greeting)).isTyping = false ∧
    (typeOut 3 (start greeting)).charCalls = [('H', 1), ('i', 2), ('!', 3)] ∧
    (typeOut 3 (start greeting)).completed = 1 ∧
    typingTimers (typeOut 3 (start greeting)) = [] ∧
    (typeOut 3 (start greeting)).delays = [30, 70, 30] :=
  have hf : Fresh greeting := ⟨rfl, rfl, rfl, rfl, rfl, rfl, rfl, rfl⟩
  have h := start_types_whole_text greeting 3 hf (by decide)
  ⟨hf, h.2.1, h.2.2.1, h.2.2.2.1, h.2.2.2.2.1, h.2.2.2.2.2.1, h.2.2.2.2.2.2.1,
    h.2.2.2.2.2.2.2.1⟩

/-- Claim C27: no method clears a timer.  After `start()` one `typeNextChar`
timer is pending; `pause()` and `resume()` before it fires leave two pending
(`resume` has typed the second character and scheduled its own timer), and
when the first of them fires it types the third character while the second is
still pending.  `stop()` followed by `start()`, and `type(text)` during
typing, leave two pending timers as well. -/
theorem resume_leaves_two_timers :
    typingTimers (start greeting) = [{ id := 2, callback := Callback.typeNextChar, delay := 30 }] ∧
    typingTimers (resume (pause (start greeting))) =
      [{ id := 2, callback := Callback.typeNextChar, delay := 30 },
       { id := 3, callback := Callback.typeNextChar, delay := 70 }] ∧
    (resume (pause (start greeting))).textContent = ['H', 'i'] ∧
    (fire { id := 2, callback := Callback.typeNextChar, delay := 30 }
      (resume (pause (start greeting)))).textContent = ['H', 'i', '!'] ∧
    typingTimers (fire { id := 2, callback := Callback.typeNextChar, delay := 30 }
      (resume (pause (start greeting)))) =
      [{ id := 3, callback := Callback.typeNextChar, delay := 70 },
       { id := 4, callback := Callback.typeNextChar, delay := 30 }] ∧
    (typingTimers (start (stop false (start greeting)))).length = 2 ∧
    (typingTimers (type ['H', 'o'] (start greeting))).length = 2 := by
  refine ⟨?_, ?_, ?_, ?_, ?_, ?_, ?_⟩ <;> decide

/-- The timer of `init` is not one that `start` schedules: when it fires only
after the text is complete, `start` runs again and `onComplete` is called a
second time. -/
theorem late_init_timer_completes_again :
    (typeOut 3 (start greeting)).timers = [{ id := 1, callback := Callback.start, delay := 0 }] ∧
    (fire { id := 1, callback := Callback.start, delay := 0 }
      (typeOut 3 (start greeting))).completed = 2 := by
  constructor <;> decide

end Typewriter
